import Mathlib

/-!
Texture palettizer: placement engine and atlas packing.

A shallow embedding of `TexturePlacement` (egg-palettize/texturePlacement.cxx) and
`PaletteImage` (palettizer/paletteImage.cxx).

Modelling conventions.

* C++ `int` is `Int`. In the packing code (`PaletteImage`, the placed rectangles) the
  values are pixel sizes and positions, far below 2^31, and are used without wrap-around.
  Where an `int` is computed from a double or can grow without such a bound (the sizes of
  `compute_size_from_uvs`, the origin and size of `fill_image` and `compute_tex_matrix`,
  the orders of `set_dependency_order_int`), the result is wrapped to 32 bits (`wrap32`)
  and a conversion from double is `Double.to_int`.
* C++ `double` is a `ℚ` that holds the value of a finite double. Every `+`, `-`, `*`, `/`
  on doubles is the exact operation followed by `fl`, the rounding to the nearest binary64
  number (ties to even, subnormal numbers included); `floor`, `ceil`, comparisons and the
  conversion of an `int` to double are exact. Infinities and NaN are not part of the model:
  statements that depend on the value of a double keep the inputs in the range where
  every result is finite.
* Pointers to placements and to palette images are indices (`Nat`) into a `Heap`; the
  null pointer is `none`.
* `nassertr(c, v)` / `nassertv(c)` are active: when `c` is false the function returns
  at once (with `v`), leaving the state as it is at that point.
* The `pal` singleton is passed explicitly as a `Palettizer` record.
-/

/-! ## Machine arithmetic: doubles and 32-bit integers -/

/-- Rounding to the nearest integer, ties to the even one. -/
def round_even (y : ℚ) : Int :=
  if y - ⌊y⌋ < 1 / 2 then ⌊y⌋
  else if 1 / 2 < y - ⌊y⌋ then ⌊y⌋ + 1
  else if ⌊y⌋ % 2 = 0 then ⌊y⌋ else ⌊y⌋ + 1

/-- The exponent of the last place of the binary64 numbers around `x`: 52 below the
exponent of `x`, and -1074 for the subnormal numbers and zero. -/
def ulp_exponent (x : ℚ) : Int :=
  if x = 0 then -1074 else max (Int.log 2 |x|) (-1022) - 52

/-- The binary64 number nearest to `x` (ties to even): what an IEEE 754 operation
returns when its exact result is `x`. Overflow to infinity is not part of the model. -/
def fl (x : ℚ) : ℚ :=
  (round_even (x / 2 ^ ulp_exponent x) : ℚ) * 2 ^ ulp_exponent x

namespace Double

/-- The sum `a + b` of two doubles. -/
def add (a b : ℚ) : ℚ := fl (a + b)

/-- The difference `a - b` of two doubles. -/
def sub (a b : ℚ) : ℚ := fl (a - b)

/-- The product `a * b` of two doubles. -/
def mul (a b : ℚ) : ℚ := fl (a * b)

/-- The quotient `a / b` of two doubles (`b` not zero). -/
def div (a b : ℚ) : ℚ := fl (a / b)

/-- The conversion `(int)x` of a double `x` that is a whole number, as the conversions of
`floor` results in the code are: the number itself when it fits an `int`. Out of range
the conversion is undefined in C++; the conversion instruction of x86-64 then gives
`INT_MIN`, and so does the model. -/
def to_int (x : Int) : Int :=
  if -2147483648 ≤ x ∧ x ≤ 2147483647 then x else -2147483648

/-- The largest finite double, `(2^53 - 1) * 2^971`. -/
def max_value : ℚ := (2 ^ 53 - 1) * 2 ^ 971

/-- The value lies in the range of the finite doubles: an operation with this rounded
result has not overflowed to an infinity. -/
def finite (x : ℚ) : Prop := |x| ≤ max_value

/-- The value of `(int)floor(a / b + 0.5)` for doubles `a` and `b`. A zero `b` makes the
quotient an infinity or a NaN, which the conversion turns into `INT_MIN` like every
other value out of range. -/
def round_quotient (a b : ℚ) : Int :=
  if b = 0 then -2147483648 else to_int ⌊add (div a b) (1 / 2)⌋

end Double

/-- The value of an `int` expression whose exact value is `n`: two's complement
wrap-around to 32 bits (signed overflow is undefined in C++; the compiled code wraps). -/
def wrap32 (n : Int) : Int :=
  (n + 2147483648) % 4294967296 - 2147483648

/-- The reason a texture is not in a palette (omitReason.h is not part of the sources; the
constructors are the ones the code and the data model name). -/
inductive OmitReason
  | OR_none
  | OR_working
  | OR_omitted
  | OR_size
  | OR_solitary
  | OR_repeats
  | OR_unknown
  | OR_coverage
  deriving DecidableEq, Repr

/-- The wrap modes of `EggTexture`. -/
inductive WrapMode
  | WM_unspecified
  | WM_repeat
  | WM_clamp
  deriving DecidableEq, Repr

/-- A pair of texture coordinates (`TexCoordd`): `u` is component 0, `v` is component 1. -/
structure TexCoordd where
  u : ℚ
  v : ℚ
  deriving DecidableEq

/-- The record `TexturePosition`: where and how large a texture sits in a palette. -/
structure TexturePosition where
  _margin : Int
  _x : Int
  _y : Int
  _x_size : Int
  _y_size : Int
  _min_uv : TexCoordd
  _max_uv : TexCoordd
  _wrap_u : WrapMode
  _wrap_v : WrapMode
  deriving DecidableEq

/-- What `determine_size` reads from one `TextureReference`. -/
structure TextureReference where
  has_uvs : Bool
  get_min_uv : TexCoordd
  get_max_uv : TexCoordd
  get_wrap_u : WrapMode
  get_wrap_v : WrapMode
  deriving DecidableEq

/-- What the placement code reads from its `TextureImage`, one field per getter. -/
structure TextureImage where
  is_size_known : Bool
  get_x_size : Int
  get_y_size : Int
  get_margin : Int
  get_omit : Bool
  get_repeat_threshold : ℚ
  is_texture_named : Bool := false
  deriving DecidableEq

/-- The object `TexturePlacement`; `_image` is the palette image holding it, if any. -/
structure TexturePlacement where
  _texture : TextureImage
  _image : Option Nat
  _has_uvs : Bool
  _size_known : Bool
  _is_filled : Bool
  _omit_reason : OmitReason
  _position : TexturePosition
  _placed : TexturePosition
  _references : List TextureReference
  deriving DecidableEq

/-- The record `PaletteImage::ClearedRegion`. -/
structure ClearedRegion where
  _x : Int
  _y : Int
  _x_size : Int
  _y_size : Int
  deriving DecidableEq, Repr

/-- The object `PaletteImage`: `_placements` lists placement pointers in push order;
`file_exists` stands for the image file on disk. -/
structure PaletteImage where
  _x_size : Int
  _y_size : Int
  _placements : List Nat
  _cleared_regions : List ClearedRegion
  _new_image : Bool
  _got_image : Bool
  file_exists : Bool
  deriving DecidableEq, Repr

/-- The fields of the global `pal` object that the modelled code reads;
`_shadow_color_type` is true when the pointer of that name is not NULL. -/
structure Palettizer where
  _pal_x_size : Int
  _pal_y_size : Int
  _round_uvs : Bool
  _round_unit : ℚ
  _round_fuzz : ℚ
  _omit_solitary : Bool
  _aggressively_clean_mapdir : Bool := false
  _shadow_color_type : Bool := false

/-- The object graph: every placement and every palette image, by pointer. -/
structure Heap where
  placements : Nat → TexturePlacement
  images : Nat → PaletteImage

/-- Store a new value for placement `p`. -/
def Heap.set_placement (w : Heap) (p : Nat) (v : TexturePlacement) : Heap :=
  { w with placements := Function.update w.placements p v }

/-- Store a new value for palette image `a`. -/
def Heap.set_image (w : Heap) (a : Nat) (v : PaletteImage) : Heap :=
  { w with images := Function.update w.images a v }

namespace TexturePlacement

/-- The method `TexturePlacement::is_placed`. -/
def is_placed (p : TexturePlacement) : Bool :=
  p._image.isSome

/-- The method `TexturePlacement::get_x_size` (0 when the size is not known). -/
def get_x_size (p : TexturePlacement) : Int :=
  if p._size_known then p._position._x_size else 0

/-- The method `TexturePlacement::get_y_size` (0 when the size is not known). -/
def get_y_size (p : TexturePlacement) : Int :=
  if p._size_known then p._position._y_size else 0

/-- The method `TexturePlacement::get_placed_x` (0 when not placed). -/
def get_placed_x (p : TexturePlacement) : Int :=
  if p.is_placed then p._placed._x else 0

/-- The method `TexturePlacement::get_placed_y` (0 when not placed). -/
def get_placed_y (p : TexturePlacement) : Int :=
  if p.is_placed then p._placed._y else 0

/-- The method `TexturePlacement::get_placed_x_size` (0 when not placed). -/
def get_placed_x_size (p : TexturePlacement) : Int :=
  if p.is_placed then p._placed._x_size else 0

/-- The method `TexturePlacement::get_placed_y_size` (0 when not placed). -/
def get_placed_y_size (p : TexturePlacement) : Int :=
  if p.is_placed then p._placed._y_size else 0

/-- The method `TexturePlacement::intersects`: does the placed rectangle overlap the
rectangle with top left corner `(x, y)` and the given size. -/
def intersects (p : TexturePlacement) (x y x_size y_size : Int) : Bool :=
  if !p.is_placed then false
  else
    let hright := x + x_size
    let hbot := y + y_size
    let mright := p._placed._x + p._placed._x_size
    let mbot := p._placed._y + p._placed._y_size
    !(decide (x ≥ mright) || decide (hright ≤ p._placed._x) ||
      decide (y ≥ mbot) || decide (hbot ≤ p._placed._y))

/-- The method `TexturePlacement::place_at`, on the placement alone. -/
def place_at (p : TexturePlacement) (image : Nat) (x y : Int) : TexturePlacement :=
  if p.is_placed then p
  else if !p._size_known then p
  else
    let position := { p._position with _x := x, _y := y }
    { p with
      _image := some image
      _is_filled := false
      _position := position
      _placed := position
      _omit_reason := OmitReason.OR_none }

end TexturePlacement

/-- The constructor `ClearedRegion(TexturePlacement *)`: the placed rectangle, read
through the getters. -/
def ClearedRegion.of_placement (p : TexturePlacement) : ClearedRegion :=
  { _x := p.get_placed_x
    _y := p.get_placed_y
    _x_size := p.get_placed_x_size
    _y_size := p.get_placed_y_size }

/-- Outcome of scanning one row in `find_hole`. -/
inductive RowScan
  | found (x : Int)
  | row_end (next_y : Int)
  | assert_failed
  | out_of_fuel
  deriving DecidableEq, Repr

/-- Outcome of the whole search in `find_hole`. -/
inductive HoleScan
  | found (x y : Int)
  | full
  | assert_failed
  | out_of_fuel
  deriving DecidableEq, Repr

namespace PaletteImage

/-- The method `PaletteImage::find_overlap`: the first listed placement that is placed and
intersects the rectangle, or `none`. -/
def find_overlap (ps : Nat → TexturePlacement) (img : PaletteImage)
    (x y x_size y_size : Int) : Option Nat :=
  img._placements.find? fun pi =>
    (ps pi).is_placed && (ps pi).intersects x y x_size y_size

/-- The inner `while (x + x_size <= _x_size)` loop of `find_hole`, at row `y`; `fuel`
bounds the number of loop tests. -/
def find_hole_row (ps : Nat → TexturePlacement) (img : PaletteImage)
    (y x_size y_size : Int) : Nat → Int → Int → RowScan
  | 0, _, _ => RowScan.out_of_fuel
  | fuel + 1, x, next_y =>
    if x + x_size ≤ img._x_size then
      match find_overlap ps img x y x_size y_size with
      | none => RowScan.found x
      | some overlap =>
        let next_x := (ps overlap).get_placed_x + (ps overlap).get_placed_x_size
        let next_y := min next_y ((ps overlap).get_placed_y + (ps overlap).get_placed_y_size)
        if next_x > x then find_hole_row ps img y x_size y_size fuel next_x next_y
        else RowScan.assert_failed
    else RowScan.row_end next_y

/-- Loop tests the inner loop can need: `x` starts at 0, grows by at least one per round
and the body only runs while `x <= _x_size - x_size`. -/
def row_fuel (img : PaletteImage) (x_size : Int) : Nat :=
  (img._x_size - x_size).toNat + 2

/-- The outer `while (y + y_size <= _y_size)` loop of `find_hole`. -/
def find_hole_rows (ps : Nat → TexturePlacement) (img : PaletteImage)
    (x_size y_size : Int) : Nat → Int → HoleScan
  | 0, _ => HoleScan.out_of_fuel
  | fuel + 1, y =>
    if y + y_size ≤ img._y_size then
      match find_hole_row ps img y x_size y_size (row_fuel img x_size) 0 img._y_size with
      | RowScan.found x => HoleScan.found x y
      | RowScan.row_end next_y =>
        if next_y > y then find_hole_rows ps img x_size y_size fuel next_y
        else HoleScan.assert_failed
      | RowScan.assert_failed => HoleScan.assert_failed
      | RowScan.out_of_fuel => HoleScan.out_of_fuel
    else HoleScan.full

/-- Loop tests the outer loop can need. -/
def rows_fuel (img : PaletteImage) (y_size : Int) : Nat :=
  (img._y_size - y_size).toNat + 2

/-- The search of `find_hole` from `y = 0`, with its outcome. -/
def find_hole_scan (ps : Nat → TexturePlacement) (img : PaletteImage)
    (x_size y_size : Int) : HoleScan :=
  find_hole_rows ps img x_size y_size (rows_fuel img y_size) 0

/-- The method `PaletteImage::find_hole`: `some (x, y)` is `true` with the top left corner
of the hole, `none` is `false`. -/
def find_hole (ps : Nat → TexturePlacement) (img : PaletteImage)
    (x_size y_size : Int) : Option (Int × Int) :=
  match find_hole_scan ps img x_size y_size with
  | HoleScan.found x y => some (x, y)
  | _ => none

/-- The method `PaletteImage::unplace` of image `a`: every occurrence of `p` leaves the
list (the `find`/`erase` loop) and the placed rectangle becomes a cleared region. -/
def unplace (w : Heap) (a p : Nat) : Heap :=
  if (w.placements p).is_placed && decide ((w.placements p)._image = some a) then
    let img := w.images a
    w.set_image a
      { img with
        _placements := img._placements.filter fun q => decide (q ≠ p)
        _cleared_regions := img._cleared_regions ++ [ClearedRegion.of_placement (w.placements p)] }
  else w

end PaletteImage

namespace TexturePlacement

/-- The method `TexturePlacement::force_replace` of placement `p`. -/
def force_replace (w : Heap) (p : Nat) : Heap :=
  match (w.placements p)._image with
  | none => w
  | some a =>
    let w1 := PaletteImage.unplace w a p
    w1.set_placement p
      { w1.placements p with _image := none, _omit_reason := OmitReason.OR_working }

/-- The method `TexturePlacement::omit_solitary`. -/
def omit_solitary (p : TexturePlacement) : TexturePlacement :=
  if p.is_placed then { p with _omit_reason := OmitReason.OR_solitary } else p

/-- The method `TexturePlacement::not_solitary`. -/
def not_solitary (p : TexturePlacement) : TexturePlacement :=
  if p.is_placed then { p with _omit_reason := OmitReason.OR_none } else p

end TexturePlacement

namespace PaletteImage

/-- The method `PaletteImage::place` of image `a` on placement `p`, with its result. -/
def place (w : Heap) (a p : Nat) : Heap × Bool :=
  if !(w.placements p)._size_known then (w, true)
  else if (w.placements p).is_placed then (w, true)
  else
    match find_hole w.placements (w.images a)
        (w.placements p).get_x_size (w.placements p).get_y_size with
    | some (x, y) =>
      let w1 := w.set_placement p ((w.placements p).place_at a x y)
      let img := w1.images a
      (w1.set_image a { img with _placements := img._placements ++ [p] }, true)
    | none => (w, false)

/-- The method `PaletteImage::remove_image`: the file is unlinked and the image is new. -/
def remove_image (img : PaletteImage) : PaletteImage :=
  { img with file_exists := false, _new_image := true }

/-- The loop `for (pi ...; pi != end && packed; ++pi) if (!place(*pi)) packed = false`. -/
def place_while_packed (a : Nat) : Heap → List Nat → Heap × Bool
  | w, [] => (w, true)
  | w, p :: rest =>
    match place w a p with
    | (w1, true) => place_while_packed a w1 rest
    | (w1, false) => (w1, false)

/-- The loop `for (pi ...) if (!place(*pi)) all_packed = false`. -/
def place_each (a : Nat) : Heap → List Nat → Heap × Bool
  | w, [] => (w, true)
  | w, p :: rest =>
    let r := place w a p
    let r2 := place_each a r.1 rest
    (r2.1, r.2 && r2.2)

/-- The method `PaletteImage::resize_image` of image `a`. The `sort` argument is
`std::sort` with `SortPlacementBySize`, whose definition is not part of the sources. -/
def resize_image (sort : (Nat → TexturePlacement) → List Nat → List Nat)
    (w : Heap) (a : Nat) (x_size y_size : Int) : Heap × Bool :=
  let img := w.images a
  let saved_x_size := img._x_size
  let saved_y_size := img._y_size
  let saved := sort w.placements img._placements
  let w1 := w.set_image a { remove_image img with _cleared_regions := [], _placements := [] }
  let w2 := saved.foldl TexturePlacement.force_replace w1
  let w3 := w2.set_image a { w2.images a with _x_size := x_size, _y_size := y_size }
  let r := place_while_packed a w3 saved
  if r.2 then (r.1, true)
  else
    let w4 := r.1
    let remove := (w4.images a)._placements
    let w5 := w4.set_image a
      { w4.images a with _x_size := saved_x_size, _y_size := saved_y_size, _placements := [] }
    let w6 := remove.foldl TexturePlacement.force_replace w5
    ((place_each a w6 saved).1, false)

/-- The method `PaletteImage::reset_image` of image `a`. -/
def reset_image (w : Heap) (a : Nat) : Heap :=
  let copy_placements := (w.images a)._placements
  let w1 := copy_placements.foldl TexturePlacement.force_replace w
  w1.set_image a
    (remove_image { w1.images a with _placements := [], _cleared_regions := [] })

end PaletteImage

/-! ## Atlas invariants -/

/-- Two rectangles share a pixel: the test of `TexturePlacement::intersects`, on two
positions. -/
def TexturePosition.overlaps (r s : TexturePosition) : Prop :=
  r._x < s._x + s._x_size ∧ s._x < r._x + r._x_size ∧
  r._y < s._y + s._y_size ∧ s._y < r._y + r._y_size

/-- The rectangle lies within a palette image of the given size. -/
def TexturePosition.within (r : TexturePosition) (x_size y_size : Int) : Prop :=
  0 ≤ r._x ∧ 0 ≤ r._y ∧ r._x + r._x_size ≤ x_size ∧ r._y + r._y_size ≤ y_size

/-- No two entries of image `a`'s placement list have intersecting placed rectangles. -/
def Heap.no_overlap (w : Heap) (a : Nat) : Prop :=
  (w.images a)._placements.Pairwise fun p q =>
    ¬ (w.placements p)._placed.overlaps (w.placements q)._placed

/-- Every placed rectangle on image `a` lies within the image. -/
def Heap.in_bounds (w : Heap) (a : Nat) : Prop :=
  ∀ p ∈ (w.images a)._placements,
    (w.placements p)._placed.within (w.images a)._x_size (w.images a)._y_size

/-- All palette images are empty and no placement is on an image. -/
def Heap.empty_atlases (w : Heap) : Prop :=
  (∀ a, (w.images a)._placements = []) ∧ ∀ p, (w.placements p)._image = none

/-- The operations on palette images that move placements on and off them. -/
inductive AtlasOp
  | place (a p : Nat)
  | force_replace (p : Nat)
  | resize_image (a : Nat) (x_size y_size : Int)
  | reset_image (a : Nat)

/-- Run one operation. -/
def AtlasOp.run (sort : (Nat → TexturePlacement) → List Nat → List Nat)
    (w : Heap) : AtlasOp → Heap
  | AtlasOp.place a p => (PaletteImage.place w a p).1
  | AtlasOp.force_replace p => TexturePlacement.force_replace w p
  | AtlasOp.resize_image a x_size y_size => (PaletteImage.resize_image sort w a x_size y_size).1
  | AtlasOp.reset_image a => PaletteImage.reset_image w a

/-- Run a sequence of operations, first to last. -/
def Heap.run_ops (sort : (Nat → TexturePlacement) → List Nat → List Nat)
    (w : Heap) (ops : List AtlasOp) : Heap :=
  ops.foldl (AtlasOp.run sort) w

/-- The invariant carried through the atlas operations. `ex` marks images whose list
has been swapped out while their placements still point at them; `P` is any property of
single placements that `place_at` and `force_replace` keep. -/
structure AtlasInv (P : TexturePlacement → Prop) (ex : Nat → Prop) (w : Heap) : Prop where
  listed_image : ∀ a p, p ∈ (w.images a)._placements → (w.placements p)._image = some a
  image_listed : ∀ a p, ¬ ex a → (w.placements p)._image = some a →
    p ∈ (w.images a)._placements
  nodup : ∀ a, (w.images a)._placements.Nodup
  disjoint : ∀ a, w.no_overlap a
  bounds : ∀ a, w.in_bounds a
  pred : ∀ p, P (w.placements p)

/-- What a placement property must satisfy to be carried by `AtlasInv`. -/
structure PlacementStable (P : TexturePlacement → Prop) : Prop where
  placed : ∀ (t : TexturePlacement) (pos : TexturePosition) (a : Nat), P t →
    P { t with _image := some a, _is_filled := false, _position := pos, _placed := pos,
               _omit_reason := OmitReason.OR_none }
  replaced : ∀ t : TexturePlacement, P t →
    P { t with _image := none, _omit_reason := OmitReason.OR_working }

/-! ## Sizing a placement: `determine_size` -/

/-- What the loop over `_references` in `determine_size` accumulates. -/
structure UVScan where
  has_uvs : Bool
  min_uv : TexCoordd
  max_uv : TexCoordd
  wrap_u : WrapMode
  wrap_v : WrapMode
  deriving DecidableEq

namespace TexturePlacement

/-- The public constructor `TexturePlacement(texture, group)`; `pos` is the
default-constructed `TexturePosition` (texturePosition.cxx is not part of the sources). -/
def create (texture : TextureImage) (pos : TexturePosition) : TexturePlacement :=
  { _texture := texture
    _image := none
    _has_uvs := false
    _size_known := false
    _is_filled := false
    _omit_reason := if !texture.is_size_known then OmitReason.OR_unknown
      else OmitReason.OR_working
    _position := pos
    _placed := pos
    _references := [] }

/-- The method `TexturePlacement::add_egg`. -/
def add_egg (p : TexturePlacement) (reference : TextureReference) : TexturePlacement :=
  { p with _has_uvs := false, _size_known := false,
           _references := p._references ++ [reference] }

/-- The method `TexturePlacement::get_uv_area`. -/
def get_uv_area (p : TexturePlacement) : ℚ :=
  if !p._has_uvs then 0
  else Double.mul (Double.sub p._position._max_uv.u p._position._min_uv.u)
    (Double.sub p._position._max_uv.v p._position._min_uv.v)

/-- The size `compute_size_from_uvs` gives one axis, for the source size `size`, the
texture's margin and the UV range `[min_uv, max_uv]` of that axis: the product rounded to
the nearest whole number, at least 4, plus twice the margin when the margin is more than
a tenth of it (`0.10` is the double nearest to one tenth). -/
def axis_size (size margin : Int) (min_uv max_uv : ℚ) : Int :=
  let range := Double.sub max_uv min_uv
  let pixels : Int := Double.to_int ⌊Double.add (Double.mul (size : ℚ) range) (1 / 2)⌋
  let pixels := max pixels 4
  if Double.div (margin : ℚ) (pixels : ℚ) > fl (1 / 10) then wrap32 (pixels + margin * 2)
  else pixels

/-- The method `TexturePlacement::compute_size_from_uvs`. -/
def compute_size_from_uvs (p : TexturePlacement) (min_uv max_uv : TexCoordd) :
    TexturePlacement :=
  { p with
    _position :=
      { p._position with
        _min_uv := min_uv
        _max_uv := max_uv
        _x_size := axis_size p._texture.get_x_size p._texture.get_margin min_uv.u max_uv.u
        _y_size := axis_size p._texture.get_y_size p._texture.get_margin min_uv.v max_uv.v
        _margin := p._texture.get_margin }
    _size_known := true }

/-- One round of the loop over `_references` in `determine_size`. -/
def scan_reference (s : UVScan) (reference : TextureReference) : UVScan :=
  let s1 : UVScan :=
    if reference.has_uvs then
      if s.has_uvs then
        { s with
          min_uv := ⟨min s.min_uv.u reference.get_min_uv.u, min s.min_uv.v reference.get_min_uv.v⟩
          max_uv := ⟨max s.max_uv.u reference.get_max_uv.u, max s.max_uv.v reference.get_max_uv.v⟩ }
      else
        { s with min_uv := reference.get_min_uv, max_uv := reference.get_max_uv, has_uvs := true }
    else s
  let s2 : UVScan :=
    if reference.get_wrap_u = WrapMode.WM_repeat then { s1 with wrap_u := WrapMode.WM_repeat }
    else s1
  if reference.get_wrap_v = WrapMode.WM_repeat then { s2 with wrap_v := WrapMode.WM_repeat }
  else s2

/-- The loop over `_references` in `determine_size`, from `_has_uvs = false` and both
wrap modes `WM_clamp` (the UV corners are not read before the first reference with UVs
sets them). -/
def scan_references (p : TexturePlacement) : UVScan :=
  p._references.foldl scan_reference
    { has_uvs := false, min_uv := ⟨0, 0⟩, max_uv := ⟨0, 0⟩,
      wrap_u := WrapMode.WM_clamp, wrap_v := WrapMode.WM_clamp }

/-- The placement after the loop over the references: a `solitary` mark is reset to
`none`, `_has_uvs` and the wrap modes of `_position` are the scanned ones. -/
def scanned (p : TexturePlacement) : TexturePlacement :=
  { p with
    _omit_reason := if p._omit_reason = OmitReason.OR_solitary then OmitReason.OR_none
      else p._omit_reason
    _has_uvs := (scan_references p).has_uvs
    _position := { p._position with
      _wrap_u := (scan_references p).wrap_u, _wrap_v := (scan_references p).wrap_v } }

/-- Lower corner of the UV box rounded to the `_round_unit` grid (`pal->_round_uvs`):
`floor((min + fuzz) / unit) * unit` in doubles. -/
def rounded_min_uv (pal : Palettizer) (min_uv : TexCoordd) : TexCoordd :=
  if pal._round_uvs then
    ⟨Double.mul (⌊Double.div (Double.add min_uv.u pal._round_fuzz) pal._round_unit⌋ : ℚ)
        pal._round_unit,
     Double.mul (⌊Double.div (Double.add min_uv.v pal._round_fuzz) pal._round_unit⌋ : ℚ)
        pal._round_unit⟩
  else min_uv

/-- Upper corner of the UV box rounded to the `_round_unit` grid (`pal->_round_uvs`):
`ceil((max - fuzz) / unit) * unit` in doubles. -/
def rounded_max_uv (pal : Palettizer) (max_uv : TexCoordd) : TexCoordd :=
  if pal._round_uvs then
    ⟨Double.mul (⌈Double.div (Double.sub max_uv.u pal._round_fuzz) pal._round_unit⌉ : ℚ)
        pal._round_unit,
     Double.mul (⌈Double.div (Double.sub max_uv.v pal._round_fuzz) pal._round_unit⌉ : ℚ)
        pal._round_unit⟩
  else max_uv

/-- The placement at the point where `determine_size` asks "can it be placed?": after
`compute_size_from_uvs(rounded_min_uv, rounded_max_uv)`. -/
def desired (pal : Palettizer) (p : TexturePlacement) : TexturePlacement :=
  compute_size_from_uvs (scanned p)
    (rounded_min_uv pal (scan_references p).min_uv)
    (rounded_max_uv pal (scan_references p).max_uv)

/-- The test `_position` against `_placed` that makes `determine_size` consider a
re-place: a size differs or the UV box sticks out of the placed one. -/
def needs_replace (p : TexturePlacement) : Bool :=
  decide (p._position._x_size ≠ p._placed._x_size) ||
  decide (p._position._y_size ≠ p._placed._y_size) ||
  decide (p._position._min_uv.u < p._placed._min_uv.u) ||
  decide (p._position._min_uv.v < p._placed._min_uv.v) ||
  decide (p._position._max_uv.u > p._placed._max_uv.u) ||
  decide (p._position._max_uv.v > p._placed._max_uv.v)

/-- The test of the special exception in `determine_size`: `_position` fits in
`_placed`. -/
def fits_placed (p : TexturePlacement) : Bool :=
  decide (p._position._x_size ≤ p._placed._x_size) &&
  decide (p._position._y_size ≤ p._placed._y_size) &&
  decide (p._position._min_uv.u ≥ p._placed._min_uv.u) &&
  decide (p._position._min_uv.v ≥ p._placed._min_uv.v) &&
  decide (p._position._max_uv.u ≤ p._placed._max_uv.u) &&
  decide (p._position._max_uv.v ≤ p._placed._max_uv.v)

/-- The assignment `_omit_reason = r` on placement `p`. -/
def set_omit_reason (w : Heap) (p : Nat) (r : OmitReason) : Heap :=
  w.set_placement p { w.placements p with _omit_reason := r }

/-- The last branch of `determine_size` (`else if (is_placed())`), entered with the
desired placement stored in the heap; `min_uv` and `max_uv` are the scanned corners before
rounding. -/
def keep_or_replace (pal : Palettizer) (w : Heap) (p : Nat) (min_uv max_uv : TexCoordd) :
    Heap :=
  let t := w.placements p
  let w1 :=
    if needs_replace t then
      if pal._round_uvs then
        let t1 := compute_size_from_uvs t min_uv max_uv
        if fits_placed t1 then w.set_placement p t1
        else
          force_replace
            (w.set_placement p
              (compute_size_from_uvs t1 (rounded_min_uv pal min_uv) (rounded_max_uv pal max_uv)))
            p
      else force_replace w p
    else w
  let t2 := w1.placements p
  if t2._position._wrap_u ≠ t2._placed._wrap_u ∨ t2._position._wrap_v ≠ t2._placed._wrap_v then
    w1.set_placement p
      { t2 with
        _is_filled := false
        _placed := { t2._placed with
          _wrap_u := t2._position._wrap_u, _wrap_v := t2._position._wrap_v } }
  else w1

/-- The method `TexturePlacement::determine_size` of placement `p`, with its result. -/
def determine_size (pal : Palettizer) (w : Heap) (p : Nat) : Heap × Bool :=
  let t := w.placements p
  if !t._texture.is_size_known then
    (set_omit_reason (force_replace w p) p OmitReason.OR_unknown, false)
  else if !(scan_references t).has_uvs then
    (w.set_placement p (scanned t), false)
  else
    let d := desired pal t
    let w1 := w.set_placement p d
    if d._texture.get_omit then
      (set_omit_reason (force_replace w1 p) p OmitReason.OR_omitted, true)
    else if d.get_uv_area > Double.div d._texture.get_repeat_threshold 100 then
      (set_omit_reason (force_replace w1 p) p OmitReason.OR_repeats, true)
    else if (d._position._x_size > pal._pal_x_size ∨ d._position._y_size > pal._pal_y_size) ∨
        (d._position._x_size = pal._pal_x_size ∧ d._position._y_size = pal._pal_y_size) then
      (set_omit_reason (force_replace w1 p) p OmitReason.OR_size, true)
    else if d._omit_reason = OmitReason.OR_omitted ∨ d._omit_reason = OmitReason.OR_size ∨
        d._omit_reason = OmitReason.OR_repeats ∨ d._omit_reason = OmitReason.OR_unknown then
      (set_omit_reason (force_replace w1 p) p OmitReason.OR_working, true)
    else if d.is_placed then
      (keep_or_replace pal w1 p (scan_references t).min_uv (scan_references t).max_uv, true)
    else (w1, true)

end TexturePlacement

/-! ## Statements about the atlas operations -/

/-- Closure of the placement lists: a placement occurs in the list of image `a` once if
its `_image` is `a`, and not at all otherwise. -/
def Heap.closed (w : Heap) : Prop :=
  ∀ a p, (w.images a)._placements.count p =
    if (w.placements p)._image = some a then 1 else 0

/-- Every placement whose omit reason is `OR_none` is on an image that lists it. -/
def Heap.none_are_listed (w : Heap) : Prop :=
  ∀ p, (w.placements p)._omit_reason = OmitReason.OR_none →
    ∃ a, (w.placements p)._image = some a ∧ p ∈ (w.images a)._placements

/-- A `std::sort` outcome that leaves the list as it is (valid whenever the list is
already in order, for instance when all sizes are equal). -/
def keep_order (_ : Nat → TexturePlacement) (l : List Nat) : List Nat := l

/-- An unplaced placement of the given desired size, UV box (0,0)-(1,1). -/
def unplaced_placement (x_size y_size : Int) : TexturePlacement :=
  { _texture :=
      { is_size_known := true, get_x_size := x_size, get_y_size := y_size, get_margin := 0,
        get_omit := false, get_repeat_threshold := 100 }
    _image := none
    _has_uvs := true
    _size_known := true
    _is_filled := false
    _omit_reason := OmitReason.OR_working
    _position :=
      { _margin := 0, _x := 0, _y := 0, _x_size := x_size, _y_size := y_size,
        _min_uv := ⟨0, 0⟩, _max_uv := ⟨1, 1⟩,
        _wrap_u := WrapMode.WM_clamp, _wrap_v := WrapMode.WM_clamp }
    _placed :=
      { _margin := 0, _x := 0, _y := 0, _x_size := 0, _y_size := 0,
        _min_uv := ⟨0, 0⟩, _max_uv := ⟨0, 0⟩,
        _wrap_u := WrapMode.WM_unspecified, _wrap_v := WrapMode.WM_unspecified }
    _references := [] }

/-- A new, empty palette image of the given size. -/
def empty_image (x_size y_size : Int) : PaletteImage :=
  { _x_size := x_size, _y_size := y_size, _placements := [], _cleared_regions := [],
    _new_image := true, _got_image := false, file_exists := false }

/-- Scenario S2: 32x32 placements, none placed, and empty 128x128 palette images. -/
def S2_heap : Heap :=
  { placements := fun _ => unplaced_placement 32 32
    images := fun _ => empty_image 128 128 }

/-- A run on `S2_heap`: three placements go on image 0, one is taken off again, and the
image is shrunk to 64x64. -/
def S2_ops : List AtlasOp :=
  [AtlasOp.place 0 0, AtlasOp.place 0 1, AtlasOp.place 0 2, AtlasOp.force_replace 1,
   AtlasOp.resize_image 0 64 64]

/-- The heap `S2_heap` after placements 0 and 1 went on image 0. -/
def S2_two_placed : Heap :=
  S2_heap.run_ops keep_order [AtlasOp.place 0 0, AtlasOp.place 0 1]

/-! ## Statements about single placements -/

/-- The data-model invariant of a placement: the omit reason is `none` or `solitary`
exactly when the placement is on a palette image. -/
def TexturePlacement.placed_iff_reason (t : TexturePlacement) : Prop :=
  (t._omit_reason = OmitReason.OR_none ∨ t._omit_reason = OmitReason.OR_solitary) ↔
    t._image ≠ none

/-- The operations that change the state of a placement. `texture_changed` stands for
the `TextureImage` the placement points at changing between calls. -/
inductive PlacementOp
  | place_at (image : Nat) (x y : Int)
  | force_replace
  | omit_solitary
  | not_solitary
  | determine_size (pal : Palettizer)
  | add_egg (reference : TextureReference)
  | texture_changed (texture : TextureImage)

/-- Run one operation on placement `p`. -/
def PlacementOp.run (w : Heap) (p : Nat) : PlacementOp → Heap
  | PlacementOp.place_at image x y =>
    w.set_placement p ((w.placements p).place_at image x y)
  | PlacementOp.force_replace => TexturePlacement.force_replace w p
  | PlacementOp.omit_solitary => w.set_placement p (w.placements p).omit_solitary
  | PlacementOp.not_solitary => w.set_placement p (w.placements p).not_solitary
  | PlacementOp.determine_size pal => (TexturePlacement.determine_size pal w p).1
  | PlacementOp.add_egg reference => w.set_placement p ((w.placements p).add_egg reference)
  | PlacementOp.texture_changed texture =>
    w.set_placement p { w.placements p with _texture := texture }

/-- Run a sequence of operations, each on the placement it names, first to last. -/
def Heap.run_placement_ops (w : Heap) (ops : List (Nat × PlacementOp)) : Heap :=
  ops.foldl (fun w op => op.2.run w op.1) w

/-- The decision of the last branch of `determine_size` to force a re-place: the desired
rectangle `d` does not fit the placed one, and the exception for the un-rounded corners
`min_uv`, `max_uv` does not apply. -/
def TexturePlacement.forces_replace (pal : Palettizer) (d : TexturePlacement)
    (min_uv max_uv : TexCoordd) : Bool :=
  d.needs_replace && !(pal._round_uvs && (d.compute_size_from_uvs min_uv max_uv).fits_placed)

/-- The omit-reason assignment in the words of the specification: rules in order, first
hit wins, `working` otherwise. -/
def spec_omit_reason (pal : Palettizer) (t : TexturePlacement) : OmitReason :=
  if t._texture.is_size_known = false then OmitReason.OR_unknown
  else if t._texture.get_omit = true then OmitReason.OR_omitted
  else if (t.desired pal).get_uv_area > Double.div t._texture.get_repeat_threshold 100 then
    OmitReason.OR_repeats
  else if (t.desired pal)._position._x_size > pal._pal_x_size ∨
      (t.desired pal)._position._y_size > pal._pal_y_size ∨
      ((t.desired pal)._position._x_size = pal._pal_x_size ∧
        (t.desired pal)._position._y_size = pal._pal_y_size) then
    OmitReason.OR_size
  else OmitReason.OR_working

/-- No double operation of the grid rounding of `determine_size` overflows or divides by
zero, for the lower coordinate `lo` and the upper coordinate `hi` of one axis. -/
def TexturePlacement.round_finite (pal : Palettizer) (lo hi : ℚ) : Prop :=
  pal._round_unit ≠ 0 ∧
  Double.finite (Double.add lo pal._round_fuzz) ∧
  Double.finite (Double.div (Double.add lo pal._round_fuzz) pal._round_unit) ∧
  Double.finite (Double.mul
    (⌊Double.div (Double.add lo pal._round_fuzz) pal._round_unit⌋ : ℚ) pal._round_unit) ∧
  Double.finite (Double.sub hi pal._round_fuzz) ∧
  Double.finite (Double.div (Double.sub hi pal._round_fuzz) pal._round_unit) ∧
  Double.finite (Double.mul
    (⌈Double.div (Double.sub hi pal._round_fuzz) pal._round_unit⌉ : ℚ) pal._round_unit)

/-- No double operation of `compute_size_from_uvs` overflows on the axis with source size
`size` and UV range `[min_uv, max_uv]`. The quotient of the margin by the size, of two
`int` values with the size at least 4, is always finite. -/
def TexturePlacement.axis_finite (size : Int) (min_uv max_uv : ℚ) : Prop :=
  Double.finite (Double.sub max_uv min_uv) ∧
  Double.finite (Double.mul (size : ℚ) (Double.sub max_uv min_uv)) ∧
  Double.finite (Double.add (Double.mul (size : ℚ) (Double.sub max_uv min_uv)) (1 / 2))

/-- No double operation of `compute_size_from_uvs(min_uv, max_uv)` overflows. -/
def TexturePlacement.size_finite (p : TexturePlacement) (min_uv max_uv : TexCoordd) : Prop :=
  TexturePlacement.axis_finite p._texture.get_x_size min_uv.u max_uv.u ∧
  TexturePlacement.axis_finite p._texture.get_y_size min_uv.v max_uv.v

/-- The run of `determine_size` on placement `p` stays within the finite doubles up to
the tests of the omit rules: the grid rounding (when enabled), `compute_size_from_uvs` on
the rounded corners and the product of `get_uv_area` do not overflow. On such a run the
model computes the values of the program. -/
def TexturePlacement.desired_finite (pal : Palettizer) (p : TexturePlacement) : Prop :=
  (pal._round_uvs = true →
    TexturePlacement.round_finite pal (TexturePlacement.scan_references p).min_uv.u
      (TexturePlacement.scan_references p).max_uv.u ∧
    TexturePlacement.round_finite pal (TexturePlacement.scan_references p).min_uv.v
      (TexturePlacement.scan_references p).max_uv.v) ∧
  TexturePlacement.size_finite p
    (TexturePlacement.rounded_min_uv pal (TexturePlacement.scan_references p).min_uv)
    (TexturePlacement.rounded_max_uv pal (TexturePlacement.scan_references p).max_uv) ∧
  Double.finite (p.desired pal).get_uv_area

/-- The size of one axis in the words of the specification, in exact arithmetic:
`max(floor(source_size * (max_uv - min_uv) + 1/2), 4)`, plus twice the margin exactly
when `margin / size > 1/10`. To be compared with `TexturePlacement.axis_size`. -/
def spec_axis_size (size margin : Int) (min_uv max_uv : ℚ) : Int :=
  let s : Int := max ⌊(size : ℚ) * (max_uv - min_uv) + 1 / 2⌋ 4
  if (margin : ℚ) / (s : ℚ) > 1 / 10 then s + 2 * margin else s

/-- Scenario S6: a 64x64 texture placed alone (flagged solitary) at (0,0) on image 0 with
UV box (0,0)-(1,1); its only reference now covers (0.01,0)-(1,1). -/
def S6_placement : TexturePlacement :=
  { _texture :=
      { is_size_known := true, get_x_size := 64, get_y_size := 64, get_margin := 2,
        get_omit := false, get_repeat_threshold := 100 }
    _image := some 0
    _has_uvs := true
    _size_known := true
    _is_filled := true
    _omit_reason := OmitReason.OR_solitary
    _position :=
      { _margin := 2, _x := 0, _y := 0, _x_size := 64, _y_size := 64,
        _min_uv := ⟨0, 0⟩, _max_uv := ⟨1, 1⟩,
        _wrap_u := WrapMode.WM_clamp, _wrap_v := WrapMode.WM_clamp }
    _placed :=
      { _margin := 2, _x := 0, _y := 0, _x_size := 64, _y_size := 64,
        _min_uv := ⟨0, 0⟩, _max_uv := ⟨1, 1⟩,
        _wrap_u := WrapMode.WM_clamp, _wrap_v := WrapMode.WM_clamp }
    _references :=
      [{ has_uvs := true, get_min_uv := ⟨fl (1 / 100), 0⟩, get_max_uv := ⟨1, 1⟩,
         get_wrap_u := WrapMode.WM_clamp, get_wrap_v := WrapMode.WM_clamp }] }

/-- Scenario S6: the heap, with image 0 resized to 64x64 and holding placement 0. -/
def S6_heap : Heap :=
  { placements := fun _ => S6_placement
    images := fun _ =>
      { _x_size := 64, _y_size := 64, _placements := [0], _cleared_regions := [],
        _new_image := false, _got_image := false, file_exists := true } }

/-- Scenario S6: page size 128x128, UV rounding with unit 0.1 and fuzz 0.01. -/
def S6_pal : Palettizer :=
  { _pal_x_size := 128, _pal_y_size := 128, _round_uvs := true,
    _round_unit := fl (1 / 10), _round_fuzz := fl (1 / 100), _omit_solitary := true }

/-- Scenario S3: an unplaced placement of a 64x64 texture whose only reference covers
(0,0)-(4,4) with wrap mode repeat; repeat threshold 100 percent. -/
def S3_placement : TexturePlacement :=
  { unplaced_placement 64 64 with
    _references :=
      [{ has_uvs := true, get_min_uv := ⟨0, 0⟩, get_max_uv := ⟨4, 4⟩,
         get_wrap_u := WrapMode.WM_repeat, get_wrap_v := WrapMode.WM_repeat }] }

/-- Scenario S3: the heap. -/
def S3_heap : Heap :=
  { placements := fun _ => S3_placement
    images := fun _ => empty_image 128 128 }

/-- An unplaced placement of a 128x127 texture (the page size less one pixel on one
axis), referenced with UV box (0,0)-(1,1). -/
def page_edge_placement : TexturePlacement :=
  { unplaced_placement 128 127 with
    _references :=
      [{ has_uvs := true, get_min_uv := ⟨0, 0⟩, get_max_uv := ⟨1, 1⟩,
         get_wrap_u := WrapMode.WM_clamp, get_wrap_v := WrapMode.WM_clamp }] }

/-- The heap holding `page_edge_placement`. -/
def page_edge_heap : Heap :=
  { placements := fun _ => page_edge_placement
    images := fun _ => empty_image 128 128 }

/-! ## Solitary placements and the texture matrix -/

namespace PaletteImage

/-- The loop of the `else` branch of `check_solitary`: every listed placement is told it
is not solitary; the assertion on the omit reason ends the function when it fails. -/
def not_solitary_each : Heap → List Nat → Heap
  | w, [] => w
  | w, p :: rest =>
    if (w.placements p)._omit_reason = OmitReason.OR_none ∨
        (w.placements p)._omit_reason = OmitReason.OR_solitary then
      not_solitary_each (w.set_placement p (w.placements p).not_solitary) rest
    else w

/-- The method `PaletteImage::check_solitary` of image `a`. -/
def check_solitary (pal : Palettizer) (w : Heap) (a : Nat) : Heap :=
  if (w.images a)._placements.length = 1 then
    match (w.images a)._placements with
    | [] => w
    | p :: _ =>
      if (w.placements p)._omit_reason = OmitReason.OR_none ∨
          (w.placements p)._omit_reason = OmitReason.OR_solitary then
        if pal._omit_solitary = true ∨ (w.placements p)._omit_reason = OmitReason.OR_solitary then
          w.set_placement p (w.placements p).omit_solitary
        else w
      else w
  else not_solitary_each w (w.images a)._placements

end PaletteImage

/-- A 3x3 matrix (`LMatrix3d`), row by row. -/
structure LMatrix3d where
  m00 : ℚ
  m01 : ℚ
  m02 : ℚ
  m10 : ℚ
  m11 : ℚ
  m12 : ℚ
  m20 : ℚ
  m21 : ℚ
  m22 : ℚ
  deriving DecidableEq

/-- The row vector `(u, v, 1)` times the matrix: the transformed texture coordinates. -/
def LMatrix3d.xform_point (m : LMatrix3d) (u v : ℚ) : ℚ × ℚ :=
  (u * m.m00 + v * m.m10 + m.m20, u * m.m01 + v * m.m11 + m.m21)

/-- The method `TexturePlacement::compute_tex_matrix` of placement `p`: the matrix stored
in `transform`, or `none` when the assertion `is_placed()` fails and nothing is stored. -/
def TexturePlacement.compute_tex_matrix (w : Heap) (p : Nat) : Option LMatrix3d :=
  match (w.placements p)._image with
  | none => none
  | some image =>
    let placed := (w.placements p)._placed
    let x_size : Int := wrap32 (placed._x_size - placed._margin * 2)
    let y_size : Int := wrap32 (placed._y_size - placed._margin * 2)
    let range_u : ℚ := Double.sub placed._max_uv.u placed._min_uv.u
    let range_v : ℚ := Double.sub placed._max_uv.v placed._min_uv.v
    let x_origin : Int := Double.round_quotient (Double.mul placed._min_uv.u (x_size : ℚ)) range_u
    let y_origin : Int := Double.round_quotient (Double.mul placed._min_uv.v (y_size : ℚ)) range_v
    let x_size : Int := Double.round_quotient (x_size : ℚ) range_u
    let y_size : Int := Double.round_quotient (y_size : ℚ) range_v
    let x : Int := wrap32 (placed._x + placed._margin - x_origin)
    let y : Int := wrap32 (-placed._y + placed._margin - y_origin)
    let pal_x_size : Int := (w.images image)._x_size
    let pal_y_size : Int := (w.images image)._y_size
    let t0 : ℚ := Double.div (x : ℚ) (pal_x_size : ℚ)
    let t1 : ℚ :=
      Double.div (wrap32 (pal_y_size - 1 - (placed._y_size - 1 - y)) : ℚ) (pal_y_size : ℚ)
    let s0 : ℚ := Double.div (x_size : ℚ) (pal_x_size : ℚ)
    let s1 : ℚ := Double.div (y_size : ℚ) (pal_y_size : ℚ)
    some
      { m00 := s0, m01 := 0, m02 := 0,
        m10 := 0, m11 := s1, m12 := 0,
        m20 := t0, m21 := t1, m22 := 1 }

/-- The UV transform in the words of the specification, for a placed rectangle
`(x, y, w, h)` with margin `m` and UV box `min_uv`, `max_uv` on an atlas `W` by `H`;
`round` is `floor(. + 1/2)`. -/
def spec_tex_matrix (x y w h m : Int) (min_uv max_uv : TexCoordd) (W H : Int) : LMatrix3d :=
  let inner_w : ℚ := w - 2 * m
  let inner_h : ℚ := h - 2 * m
  let range_u : ℚ := max_uv.u - min_uv.u
  let range_v : ℚ := max_uv.v - min_uv.v
  let ox : ℚ := ⌊min_uv.u * inner_w / range_u + 1 / 2⌋
  let oy : ℚ := ⌊min_uv.v * inner_h / range_v + 1 / 2⌋
  let sw : ℚ := ⌊inner_w / range_u + 1 / 2⌋
  let sh : ℚ := ⌊inner_h / range_v + 1 / 2⌋
  let tx : ℚ := (x + m - ox) / W
  let ty : ℚ := (H - 1 - ((h - 1) - (-y + m - oy))) / H
  let sx : ℚ := sw / W
  let sy : ℚ := sh / H
  { m00 := sx, m01 := 0, m02 := 0,
    m10 := 0, m11 := sy, m12 := 0,
    m20 := tx, m21 := ty, m22 := 1 }

/-- The matrix with each entry rounded to the nearest double. -/
def LMatrix3d.to_double (m : LMatrix3d) : LMatrix3d :=
  { m00 := fl m.m00, m01 := fl m.m01, m02 := fl m.m02,
    m10 := fl m.m10, m11 := fl m.m11, m12 := fl m.m12,
    m20 := fl m.m20, m21 := fl m.m21, m22 := fl m.m22 }

/-- A placed rectangle `P` of ordinary size on an atlas `W` by `H`: the margins fit in the
rectangle, the rectangle is at most 16384 pixels wide and high, the position and the
atlas size are at most 2^20, the UV box lies within [-256, 256] and its range is at least
1/256 on both axes. Within these bounds no `int` of `compute_tex_matrix` overflows. -/
structure TexturePosition.ordinary (P : TexturePosition) (W H : Int) : Prop where
  margin_nonneg : 0 ≤ P._margin
  margin_x : 2 * P._margin ≤ P._x_size
  margin_y : 2 * P._margin ≤ P._y_size
  x_size_le : P._x_size ≤ 16384
  y_size_le : P._y_size ≤ 16384
  x_range : |P._x| ≤ 1048576
  y_range : |P._y| ≤ 1048576
  W_pos : 0 < W
  W_le : W ≤ 1048576
  H_pos : 0 < H
  H_le : H ≤ 1048576
  min_u : |P._min_uv.u| ≤ 256
  max_u : |P._max_uv.u| ≤ 256
  min_v : |P._min_uv.v| ≤ 256
  max_v : |P._max_uv.v| ≤ 256
  range_u : 1 / 256 ≤ P._max_uv.u - P._min_uv.u
  range_v : 1 / 256 ≤ P._max_uv.v - P._min_uv.v

/-! ## Palette groups -/

/-- The object `PaletteGroup`; `_dependent` lists the groups it depends on, in the order
the loops visit them. -/
structure PaletteGroup where
  _dirname : String
  _dependent : List Nat
  _egg_count : Int
  _dependency_level : Int
  _dependency_order : Int
  _dirname_order : Int
  deriving DecidableEq

namespace PaletteGroup

/-- The method `PaletteGroup::is_preferred_over`. -/
def is_preferred_over (g other : PaletteGroup) : Bool :=
  if g._dirname_order ≠ other._dirname_order then
    decide (g._dirname_order > other._dirname_order)
  else if g._dependency_order ≠ other._dependency_order then
    decide (g._dependency_order > other._dependency_order)
  else decide (g._egg_count < other._egg_count)

/-- The body of the loop of `set_dependency_order` after the recursive call: group `g`
(`this`) raises its two orders against the group `group` it depends on. The result says
whether anything was changed. -/
def order_against (gs : Nat → PaletteGroup) (g group : Nat) : (Nat → PaletteGroup) × Bool :=
  let r1 : (Nat → PaletteGroup) × Bool :=
    if (gs g)._dependency_order ≤ (gs group)._dependency_order then
      (Function.update gs g
        { gs g with _dependency_order := (gs group)._dependency_order + 1 }, true)
    else (gs, false)
  if (r1.1 g)._dirname = (r1.1 group)._dirname then
    if (r1.1 g)._dirname_order < (r1.1 group)._dirname_order then
      (Function.update r1.1 g
        { r1.1 g with _dirname_order := (r1.1 group)._dirname_order }, true)
    else r1
  else
    if (r1.1 g)._dirname_order ≤ (r1.1 group)._dirname_order then
      (Function.update r1.1 g
        { r1.1 g with _dirname_order := (r1.1 group)._dirname_order + 1 }, true)
    else r1

/-- The loop of `set_dependency_order` of group `g` over the rest of `_dependent`;
`recurse` is the call `group->set_dependency_order()`, `none` when it does not return. -/
def order_loop (recurse : (Nat → PaletteGroup) → Nat → Option ((Nat → PaletteGroup) × Bool))
    (g : Nat) : List Nat → (Nat → PaletteGroup) → Bool → Option ((Nat → PaletteGroup) × Bool)
  | [], gs, any_changed => some (gs, any_changed)
  | group :: rest, gs, any_changed =>
    match recurse gs group with
    | none => none
    | some r =>
      order_loop recurse g rest (order_against r.1 g group).1
        (any_changed || r.2 || (order_against r.1 g group).2)

/-- The method `PaletteGroup::set_dependency_order` of group `g`, with the recursion
depth bounded by `depth`: `none` when the recursion goes deeper (as it does for ever on a
cyclic graph). -/
def set_dependency_order : Nat → (Nat → PaletteGroup) → Nat →
    Option ((Nat → PaletteGroup) × Bool)
  | 0, _, _ => none
  | depth + 1, gs, g =>
    order_loop (set_dependency_order depth) g (gs g)._dependent gs false

/-- The body of the loop of `set_dependency_order` in the `int` arithmetic of the
program: both `+ 1` wrap around at `INT_MAX` (two's complement; the overflow is undefined
in C++). It is `order_against` as long as the orders of the dependency are below
`INT_MAX`. -/
def order_against_int (gs : Nat → PaletteGroup) (g group : Nat) :
    (Nat → PaletteGroup) × Bool :=
  let r1 : (Nat → PaletteGroup) × Bool :=
    if (gs g)._dependency_order ≤ (gs group)._dependency_order then
      (Function.update gs g
        { gs g with _dependency_order := wrap32 ((gs group)._dependency_order + 1) }, true)
    else (gs, false)
  if (r1.1 g)._dirname = (r1.1 group)._dirname then
    if (r1.1 g)._dirname_order < (r1.1 group)._dirname_order then
      (Function.update r1.1 g
        { r1.1 g with _dirname_order := (r1.1 group)._dirname_order }, true)
    else r1
  else
    if (r1.1 g)._dirname_order ≤ (r1.1 group)._dirname_order then
      (Function.update r1.1 g
        { r1.1 g with _dirname_order := wrap32 ((r1.1 group)._dirname_order + 1) }, true)
    else r1

/-- The loop of `set_dependency_order` with the loop body `order_against_int`. -/
def order_loop_int
    (recurse : (Nat → PaletteGroup) → Nat → Option ((Nat → PaletteGroup) × Bool))
    (g : Nat) : List Nat → (Nat → PaletteGroup) → Bool → Option ((Nat → PaletteGroup) × Bool)
  | [], gs, any_changed => some (gs, any_changed)
  | group :: rest, gs, any_changed =>
    match recurse gs group with
    | none => none
    | some r =>
      order_loop_int recurse g rest (order_against_int r.1 g group).1
        (any_changed || r.2 || (order_against_int r.1 g group).2)

/-- The method `PaletteGroup::set_dependency_order` of group `g` in the `int` arithmetic
of the program, with the recursion depth bounded by `depth`. -/
def set_dependency_order_int : Nat → (Nat → PaletteGroup) → Nat →
    Option ((Nat → PaletteGroup) × Bool)
  | 0, _, _ => none
  | depth + 1, gs, g =>
    order_loop_int (set_dependency_order_int depth) g (gs g)._dependent gs false

end PaletteGroup

/-- Scenario S1: one 64x64 placement placed on a new 128x128 palette image 0. -/
def S1_heap : Heap :=
  (PaletteImage.place
    { placements := fun _ => unplaced_placement 64 64
      images := fun _ => empty_image 128 128 } 0 0).1

/-- A placement placed at (0,0) as 10x10 without margin whose placed UV box is
(0.1,0)-(0.4,1): the rectangle `compute_size_from_uvs` gives a 33x10 texture for that
box. -/
def strip_placement : TexturePlacement :=
  { unplaced_placement 10 10 with
    _texture :=
      { is_size_known := true, get_x_size := 33, get_y_size := 10, get_margin := 0,
        get_omit := false, get_repeat_threshold := 100 }
    _image := some 0
    _omit_reason := OmitReason.OR_none
    _position :=
      { _margin := 0, _x := 0, _y := 0, _x_size := 10, _y_size := 10,
        _min_uv := ⟨fl (1 / 10), 0⟩, _max_uv := ⟨fl (4 / 10), 1⟩,
        _wrap_u := WrapMode.WM_clamp, _wrap_v := WrapMode.WM_clamp }
    _placed :=
      { _margin := 0, _x := 0, _y := 0, _x_size := 10, _y_size := 10,
        _min_uv := ⟨fl (1 / 10), 0⟩, _max_uv := ⟨fl (4 / 10), 1⟩,
        _wrap_u := WrapMode.WM_clamp, _wrap_v := WrapMode.WM_clamp } }

/-- The heap holding `strip_placement` on a 64x64 palette image 0. -/
def strip_heap : Heap :=
  { placements := fun _ => strip_placement
    images := fun _ =>
      { _x_size := 64, _y_size := 64, _placements := [0], _cleared_regions := [],
        _new_image := true, _got_image := false, file_exists := false } }

/-- The matrix `compute_tex_matrix` emits for `strip_placement`: resample size 33x10,
origin (3, 0). -/
def strip_matrix : LMatrix3d :=
  { m00 := 33 / 64, m01 := 0, m02 := 0,
    m10 := 0, m11 := 10 / 64, m12 := 0,
    m20 := -3 / 64, m21 := 54 / 64, m22 := 1 }

/-- A placement placed at (0,0) as 4x4 without margin whose placed UV box is
(0,0)-(1.6,1), on the 64x64 palette image 0. -/
def coarse_placement : TexturePlacement :=
  { unplaced_placement 4 4 with
    _image := some 0
    _omit_reason := OmitReason.OR_none
    _position :=
      { _margin := 0, _x := 0, _y := 0, _x_size := 4, _y_size := 4,
        _min_uv := ⟨0, 0⟩, _max_uv := ⟨fl (8 / 5), 1⟩,
        _wrap_u := WrapMode.WM_clamp, _wrap_v := WrapMode.WM_clamp }
    _placed :=
      { _margin := 0, _x := 0, _y := 0, _x_size := 4, _y_size := 4,
        _min_uv := ⟨0, 0⟩, _max_uv := ⟨fl (8 / 5), 1⟩,
        _wrap_u := WrapMode.WM_clamp, _wrap_v := WrapMode.WM_clamp } }

/-- The heap holding `coarse_placement` on a 64x64 palette image 0. -/
def coarse_heap : Heap :=
  { placements := fun _ => coarse_placement
    images := fun _ =>
      { _x_size := 64, _y_size := 64, _placements := [0], _cleared_regions := [],
        _new_image := true, _got_image := false, file_exists := false } }

/-- A placement placed at (0,0) as 4x4 without margin whose placed UV box is
(0,0)-(2^-31,1), on the 64x64 palette image 0. -/
def narrow_placement : TexturePlacement :=
  { unplaced_placement 4 4 with
    _image := some 0
    _omit_reason := OmitReason.OR_none
    _position :=
      { _margin := 0, _x := 0, _y := 0, _x_size := 4, _y_size := 4,
        _min_uv := ⟨0, 0⟩, _max_uv := ⟨1 / 2147483648, 1⟩,
        _wrap_u := WrapMode.WM_clamp, _wrap_v := WrapMode.WM_clamp }
    _placed :=
      { _margin := 0, _x := 0, _y := 0, _x_size := 4, _y_size := 4,
        _min_uv := ⟨0, 0⟩, _max_uv := ⟨1 / 2147483648, 1⟩,
        _wrap_u := WrapMode.WM_clamp, _wrap_v := WrapMode.WM_clamp } }

/-- The heap holding `narrow_placement` on a 64x64 palette image 0. -/
def narrow_heap : Heap :=
  { placements := fun _ => narrow_placement
    images := fun _ =>
      { _x_size := 64, _y_size := 64, _placements := [0], _cleared_regions := [],
        _new_image := true, _got_image := false, file_exists := false } }

/-- An unplaced placement of a 64x64 texture whose only reference covers
(0,0)-(1.005,1). -/
def fuzz_placement : TexturePlacement :=
  { unplaced_placement 64 64 with
    _references :=
      [{ has_uvs := true, get_min_uv := ⟨0, 0⟩, get_max_uv := ⟨fl (201 / 200), 1⟩,
         get_wrap_u := WrapMode.WM_clamp, get_wrap_v := WrapMode.WM_clamp }] }

/-- An unplaced placement of a 64x64 texture whose only reference covers
(1.7,0)-(2,1). -/
def grid_placement : TexturePlacement :=
  { unplaced_placement 64 64 with
    _references :=
      [{ has_uvs := true, get_min_uv := ⟨fl (17 / 10), 0⟩, get_max_uv := ⟨2, 1⟩,
         get_wrap_u := WrapMode.WM_clamp, get_wrap_v := WrapMode.WM_clamp }] }

/-- Scenario S6 with the rounding fuzz set to zero. -/
def S6_pal_no_fuzz : Palettizer :=
  { S6_pal with _round_fuzz := 0 }

/-- Scenario S6 with UV rounding switched off. -/
def S6_pal_no_round : Palettizer :=
  { S6_pal with _round_uvs := false }

/-- The constructor `PaletteGroup()`, for a group without directory name and without
dependencies. -/
def PaletteGroup.create : PaletteGroup :=
  { _dirname := "", _dependent := [], _egg_count := 0,
    _dependency_level := 0, _dependency_order := 0, _dirname_order := 0 }

/-- Group `a` depends on group `b`, directly or transitively. -/
def PaletteGroup.depends_on (gs : Nat → PaletteGroup) (a b : Nat) : Prop :=
  Relation.TransGen (fun x y => y ∈ (gs x)._dependent) a b

/-- The depends-on graph is acyclic: `rank` strictly decreases along every edge. -/
def PaletteGroup.acyclic (gs : Nat → PaletteGroup) (rank : Nat → Nat) : Prop :=
  ∀ a b, b ∈ (gs a)._dependent → rank b < rank a

/-- Every group has dependency order and dirname order zero (after
`reset_dependency_level` on all groups). -/
def PaletteGroup.orders_reset (gs : Nat → PaletteGroup) : Prop :=
  ∀ g, (gs g)._dependency_order = 0 ∧ (gs g)._dirname_order = 0

/-- The heap is a fixed point of `set_dependency_order`: the call on any group returns
false and changes nothing. -/
def PaletteGroup.order_fixed_point (gs : Nat → PaletteGroup) (rank : Nat → Nat) : Prop :=
  ∀ g, PaletteGroup.set_dependency_order (rank g + 1) gs g = some (gs, false)

/-- The relation the loop body of `set_dependency_order` establishes between a group `z`
and a group `w` it depends on, with directory names `N`. -/
def orders_ok (N : Nat → String) (h : Nat → PaletteGroup) (z w : Nat) : Prop :=
  (h w)._dependency_order < (h z)._dependency_order ∧
  (if N z = N w then (h w)._dirname_order ≤ (h z)._dirname_order
   else (h w)._dirname_order < (h z)._dirname_order)

/-- The static part of the groups: dependency lists `D` and directory names `N`. -/
def static_graph (D : Nat → List Nat) (N : Nat → String) (h : Nat → PaletteGroup) : Prop :=
  ∀ x, (h x)._dependent = D x ∧ (h x)._dirname = N x

/-- Group `b` is `a` or is reached from `a` along dependency lists `D`. -/
def reaches (D : Nat → List Nat) (a b : Nat) : Prop :=
  Relation.ReflTransGen (fun x y => y ∈ D x) a b

/-- Every group reached from `x` is above each of its dependencies. -/
def orders_good (D : Nat → List Nat) (N : Nat → String) (h : Nat → PaletteGroup)
    (x : Nat) : Prop :=
  ∀ z, reaches D x z → ∀ w ∈ D z, orders_ok N h z w

/-- What one call `g->set_dependency_order()` achieves, from heap `h` to heap `h2` with
result `ch`. -/
structure OrderPost (D : Nat → List Nat) (N : Nat → String) (h : Nat → PaletteGroup)
    (g : Nat) (h2 : Nat → PaletteGroup) (ch : Bool) : Prop where
  static : static_graph D N h2
  fields : ∀ x, (h2 x)._egg_count = (h x)._egg_count ∧
    (h2 x)._dependency_level = (h x)._dependency_level
  frame : ∀ x, ¬ reaches D g x → h2 x = h x
  stable : ∀ x, orders_good D N h x → h2 x = h x
  good : orders_good D N h2 g
  mono : ∀ x, (h x)._dependency_order ≤ (h2 x)._dependency_order ∧
    (h x)._dirname_order ≤ (h2 x)._dirname_order
  unchanged : ch = false → h2 = h
  settled : orders_good D N h g → ch = false

/-- What the loop of `set_dependency_order` of group `g` achieves over the dependencies
`l`, from heap `h` and flag `c` to heap `h2` and flag `c2`. -/
structure OrderLoopPost (D : Nat → List Nat) (N : Nat → String) (g : Nat) (l : List Nat)
    (h : Nat → PaletteGroup) (c : Bool) (h2 : Nat → PaletteGroup) (c2 : Bool) : Prop where
  static : static_graph D N h2
  fields : ∀ x, (h2 x)._egg_count = (h x)._egg_count ∧
    (h2 x)._dependency_level = (h x)._dependency_level
  frame : ∀ x, x ≠ g → (∀ d ∈ l, ¬ reaches D d x) → h2 x = h x
  stable : ∀ x, orders_good D N h x → h2 x = h x
  result : ∀ d ∈ l, orders_good D N h2 d ∧ orders_ok N h2 g d
  mono : ∀ x, (h x)._dependency_order ≤ (h2 x)._dependency_order ∧
    (h x)._dirname_order ≤ (h2 x)._dirname_order
  unchanged : c2 = false → h2 = h ∧ c = false
  settled : orders_good D N h g → c2 = c

/-- Three groups from reset orders: group 2 (directory "x") depends on group 0 (directory
"x") and on group 1 (directory "y"). -/
def split_dir_groups : Nat → PaletteGroup
  | 0 => { PaletteGroup.create with _dirname := "x" }
  | 1 => { PaletteGroup.create with _dirname := "y" }
  | 2 => { PaletteGroup.create with _dirname := "x", _dependent := [0, 1] }
  | _ => PaletteGroup.create

/-- The groups `split_dir_groups` after `set_dependency_order` on group 2. -/
def split_dir_settled : Nat → PaletteGroup :=
  ((PaletteGroup.set_dependency_order 3 split_dir_groups 2).getD (split_dir_groups, false)).1

/-- Scenario S4: `base` is group 0; `world` (group 1, three scenes) and `char` (group 2,
one scene) both depend on `base`; all orders reset. -/
def S4_groups : Nat → PaletteGroup
  | 1 => { PaletteGroup.create with _dependent := [0], _egg_count := 3 }
  | 2 => { PaletteGroup.create with _dependent := [0], _egg_count := 1 }
  | _ => PaletteGroup.create

/-- Scenario S4 after `set_dependency_order` on `world`. -/
def S4_after_world : Nat → PaletteGroup :=
  ((PaletteGroup.set_dependency_order 2 S4_groups 1).getD (S4_groups, false)).1

/-- Scenario S4 after `set_dependency_order` on `world` and then on `char`. -/
def S4_settled : Nat → PaletteGroup :=
  ((PaletteGroup.set_dependency_order 2 S4_after_world 2).getD (S4_after_world, false)).1

/-- Every order value is an `int`. -/
def orders_int (gs : Nat → PaletteGroup) : Prop :=
  ∀ x, -2147483648 ≤ (gs x)._dependency_order ∧ -2147483648 ≤ (gs x)._dirname_order

/-- No order value of a group is more than its rank above `bound`. -/
def orders_below (rank : Nat → Nat) (bound : Int) (gs : Nat → PaletteGroup) : Prop :=
  ∀ x, (gs x)._dependency_order ≤ bound + rank x ∧ (gs x)._dirname_order ≤ bound + rank x

/-- Two groups, group 1 depending on group 0, whose dependency order is `INT_MAX` (a
value `fillin` can read from a state file). -/
def overflow_groups : Nat → PaletteGroup
  | 0 => { PaletteGroup.create with _dependency_order := 2147483647 }
  | 1 => { PaletteGroup.create with _dependent := [0] }
  | _ => PaletteGroup.create

/-- The groups `overflow_groups` after `set_dependency_order` on group 1. -/
def overflow_settled : Nat → PaletteGroup :=
  ((PaletteGroup.set_dependency_order_int 2 overflow_groups 1).getD
    (overflow_groups, false)).1

/-- A rank for scenario S4: `base` below `world` and `char`. -/
def S4_rank : Nat → Nat
  | 1 => 1
  | 2 => 1
  | _ => 0

/-! ## Resizing, file names and image updates -/

namespace PaletteImage

/-- The method `PaletteImage::is_empty`: no placement, or a single placement flagged
solitary. -/
def is_empty (ps : Nat → TexturePlacement) (img : PaletteImage) : Bool :=
  match img._placements with
  | [] => true
  | [p] => decide ((ps p)._omit_reason = OmitReason.OR_solitary)
  | _ => false

/-- The `do ... while (success)` loop of `optimal_resize` on image `a`; `fuel` bounds the
number of rounds and `none` means the bound was reached. The assertion
`_x_size > 0 && _y_size > 0` ends the function when it fails; past it both sizes are
positive, where the truncating division of C++ and `/` agree. The second call reads
`_x_size` and `_y_size` as the first call left them. -/
def optimal_resize_loop (sort : (Nat → TexturePlacement) → List Nat → List Nat)
    (a : Nat) : Nat → Heap → Option Heap
  | 0, _ => none
  | fuel + 1, w =>
    if (w.images a)._x_size > 0 ∧ (w.images a)._y_size > 0 then
      let r1 := resize_image sort w a (w.images a)._x_size ((w.images a)._y_size / 2)
      let r2 := resize_image sort r1.1 a ((r1.1.images a)._x_size / 2) (r1.1.images a)._y_size
      if r1.2 || r2.2 then optimal_resize_loop sort a fuel r2.1
      else some r2.1
    else some w

/-- Rounds the loop of `optimal_resize` can need: every round but the last shrinks the
image. -/
def optimal_resize_fuel (img : PaletteImage) : Nat :=
  img._x_size.toNat + img._y_size.toNat + 1

/-- The method `PaletteImage::optimal_resize` of image `a`. -/
def optimal_resize (sort : (Nat → TexturePlacement) → List Nat → List Nat)
    (w : Heap) (a : Nat) : Option Heap :=
  if is_empty w.placements (w.images a) then some w
  else optimal_resize_loop sort a (optimal_resize_fuel (w.images a)) w

end PaletteImage

/-- Scenario S1 with the placement flagged solitary by an earlier pass. -/
def S1_solitary : Heap :=
  PaletteImage.check_solitary S6_pal S1_heap 0

/-- The settings of `S6_pal` with `omit_solitary` disabled. -/
def pal_keep_solitary : Palettizer :=
  { S6_pal with _omit_solitary := false }

/-- The atlas of `S1_solitary` after a second 64x64 placement went on it: placement 0
still carries the solitary mark. -/
def S1_solitary_joined : Heap :=
  (PaletteImage.place S1_solitary 0 1).1

/-- Two 64x64 placements side by side on a 128x128 palette image 0. -/
def two_squares_heap : Heap :=
  (PaletteImage.place S1_heap 0 1).1

/-- The size of image `a`, as the pair `(x_size, y_size)`. -/
def Heap.image_size (w : Heap) (a : Nat) : Int × Int :=
  ((w.images a)._x_size, (w.images a)._y_size)

/-- What the scenarios observe of placement `p` and image `a`: the image size, the image
the placement is on, its placed corner, its omit reason and the image's placement list. -/
def Heap.summary (w : Heap) (a p : Nat) :
    (Int × Int) × Option Nat × (Int × Int) × OmitReason × List Nat :=
  (w.image_size a, (w.placements p)._image,
    ((w.placements p)._placed._x, (w.placements p)._placed._y),
    (w.placements p)._omit_reason, (w.images a)._placements)

/-- Unplaced placements for one 128x32 page: placements 0, 1 and 6 want 48x16, all the
others 40x16. -/
def shelf_start : Heap :=
  { placements := fun p =>
      match p with
      | 0 => unplaced_placement 48 16
      | 1 => unplaced_placement 48 16
      | 6 => unplaced_placement 48 16
      | _ => unplaced_placement 40 16
    images := fun _ => empty_image 128 32 }

/-- Two runs on `shelf_start`: placements 0, 6 and 1 are placed, placement 6 is taken off
again, then placements 2 to 5 are placed. -/
def shelf_ops : List AtlasOp :=
  [AtlasOp.place 0 0, AtlasOp.place 0 6, AtlasOp.place 0 1, AtlasOp.force_replace 6,
   AtlasOp.place 0 2, AtlasOp.place 0 3, AtlasOp.place 0 4, AtlasOp.place 0 5]

/-- The page after `shelf_ops`: two rows, each holding widths 48, 40, 40. The list is in
descending order of size already. -/
def shelf_heap : Heap :=
  shelf_start.run_ops keep_order shelf_ops

/-- The placed rectangle `(x, y, x_size, y_size)` of every placement on image `a`, in list
order, with the image each is on. -/
def Heap.layout (w : Heap) (a : Nat) : List (Nat × Option Nat × Int × Int × Int × Int) :=
  (w.images a)._placements.map fun p =>
    (p, (w.placements p)._image, (w.placements p)._placed._x, (w.placements p)._placed._y,
      (w.placements p)._placed._x_size, (w.placements p)._placed._y_size)

/-- The placement sits on cell `k` of a grid of `c` columns of `cw` by `ch` cells, counted
row by row. -/
def TexturePlacement.on_cell (t : TexturePlacement) (cw ch : Int) (c k : Nat) : Prop :=
  t.is_placed = true ∧ t._placed._x = ((k % c : Nat) : Int) * cw ∧
    t._placed._y = ((k / c : Nat) : Int) * ch ∧
    t._placed._x_size = cw ∧ t._placed._y_size = ch

/-- The placements listed on the image fill exactly the first `i` cells of the grid. -/
def PaletteImage.grid_filled (ps : Nat → TexturePlacement) (img : PaletteImage)
    (cw ch : Int) (c i : Nat) : Prop :=
  (∀ o ∈ img._placements, ∃ k, k < i ∧ (ps o).on_cell cw ch c k) ∧
    ∀ k, k < i → ∃ o, o ∈ img._placements ∧ (ps o).on_cell cw ch c k

/-- The state after the first `i` placements of the list `l` went on image `a` of the
heap `w0`, row by row on the grid; the others are as they were. -/
structure GridRun (w0 w : Heap) (a : Nat) (l : List Nat) (cw ch : Int) (c i : Nat) :
    Prop where
  filled : (w.images a).grid_filled w.placements cw ch c i
  x_size : (w.images a)._x_size = (w0.images a)._x_size
  y_size : (w.images a)._y_size = (w0.images a)._y_size
  rest : ∀ p ∈ l.drop i, w.placements p = w0.placements p

/-! ### File names

A `std::string` is the list of its characters. -/

/-- Modelled from the spec: `format_string` (string_utils.h) is not among the sources; the
page index is written in decimal. -/
def format_string (n : Int) : List Char :=
  (toString n).toList

namespace PaletteImage

/-- The `switch (*si)` of `setup_filename`: what one keycode after a `%` adds to
`_basename`. -/
def keycode (group_name page_name : List Char) (index : Int) (k : Char) : List Char :=
  if k = '%' then ['%']
  else if k = 'g' then group_name
  else if k = 'p' then page_name
  else if k = 'i' then format_string (index + 1)
  else ['%', k]

/-- The `while (si != pattern.end())` loop of `setup_filename`, from the iterator position
on: what it appends to `_basename`. A `%` at the very end adds nothing. -/
def scan_pattern (group_name page_name : List Char) (index : Int) : List Char → List Char
  | [] => []
  | c :: rest =>
    if c = '%' then
      match rest with
      | [] => []
      | k :: rest2 =>
        keycode group_name page_name index k ++ scan_pattern group_name page_name index rest2
    else c :: scan_pattern group_name page_name index rest

/-- The end of the basename in `setup_filename`: a dot is added when the basename is empty
or its last character is not a dot. -/
def end_with_dot (basename : List Char) : List Char :=
  if basename = [] ∨ basename.getLast? ≠ some '.' then basename ++ ['.'] else basename

/-- The `_basename` that `PaletteImage::setup_filename` builds from the image pattern
`pal->_generated_image_pattern`, the group name, the page name and `_index`. (Its return
value comes from `set_filename` and `make_shadow_image`, which are not among the
sources.) -/
def setup_filename (pattern group_name page_name : List Char) (index : Int) : List Char :=
  end_with_dot (scan_pattern group_name page_name index pattern)

end PaletteImage

/-- The pieces of an image pattern in which every `%` is followed by `g`, `p`, `i` or
`%`. -/
inductive PatternToken
  | literal (c : Char)
  | group
  | page
  | index
  | percent
  deriving DecidableEq

/-- How a token is written in the pattern. -/
def PatternToken.text : PatternToken → List Char
  | PatternToken.literal c => [c]
  | PatternToken.group => ['%', 'g']
  | PatternToken.page => ['%', 'p']
  | PatternToken.index => ['%', 'i']
  | PatternToken.percent => ['%', '%']

/-- What a token is replaced with: the group name for `%g`, the page name for `%p`, the
decimal of `index + 1` for `%i`, a percent sign for `%%`, itself otherwise. -/
def PatternToken.replacement (group_name page_name : List Char) (index : Int) :
    PatternToken → List Char
  | PatternToken.literal c => [c]
  | PatternToken.group => group_name
  | PatternToken.page => page_name
  | PatternToken.index => format_string (index + 1)
  | PatternToken.percent => ['%']

/-- The pattern a list of tokens spells. -/
def pattern_text : List PatternToken → List Char
  | [] => []
  | t :: ts => t.text ++ pattern_text ts

/-- The pattern with every token replaced. -/
def pattern_replaced (group_name page_name : List Char) (index : Int) :
    List PatternToken → List Char
  | [] => []
  | t :: ts => t.replacement group_name page_name index ++
      pattern_replaced group_name page_name index ts

/-- A literal token is any character but `%`. -/
def PatternToken.well_formed : PatternToken → Bool
  | PatternToken.literal c => decide (c ≠ '%')
  | _ => true

/-- The image pattern `%g_palette_%p_%i`. -/
def usual_pattern : List PatternToken :=
  [PatternToken.group, PatternToken.literal '_', PatternToken.literal 'p',
   PatternToken.literal 'a', PatternToken.literal 'l', PatternToken.literal 'e',
   PatternToken.literal 't', PatternToken.literal 't', PatternToken.literal 'e',
   PatternToken.literal '_', PatternToken.page, PatternToken.literal '_',
   PatternToken.index]

/-! ### Pixels

The class `PNMImage` is not among the sources. A pixel component is kept as a fraction of
full intensity: `set_xel`, `get_xel`, `set_alpha` and `get_alpha` store and return the
fraction as it is (the quantisation to `maxval` steps is not modelled), while
`set_xel_val` and `set_alpha_val` take a raw value, which stands for `value / maxval`. -/

/-- A colour (`RGBColord`): red, green and blue as fractions of full intensity. -/
structure RGBColord where
  r : ℚ
  g : ℚ
  b : ℚ
  deriving DecidableEq

/-- What the modelled code uses of a `PNMImage`: the largest raw value, whether there is an
alpha channel, and the pixels. -/
structure PNMImage where
  get_maxval : Int
  has_alpha : Bool
  get_xel : Int → Int → RGBColord
  get_alpha : Int → Int → ℚ

namespace PNMImage

/-- The method `set_xel(x, y, rgb)`. -/
def set_xel (image : PNMImage) (x y : Int) (rgb : RGBColord) : PNMImage :=
  { image with get_xel := fun x1 y1 => if x1 = x ∧ y1 = y then rgb else image.get_xel x1 y1 }

/-- The method `set_alpha(x, y, a)`. -/
def set_alpha (image : PNMImage) (x y : Int) (a : ℚ) : PNMImage :=
  { image with get_alpha := fun x1 y1 => if x1 = x ∧ y1 = y then a else image.get_alpha x1 y1 }

/-- The method `set_xel_val(x, y, r, g, b)`, on raw values. -/
def set_xel_val (image : PNMImage) (x y r g b : Int) : PNMImage :=
  image.set_xel x y
    ⟨(r : ℚ) / image.get_maxval, (g : ℚ) / image.get_maxval, (b : ℚ) / image.get_maxval⟩

/-- The method `set_alpha_val(x, y, a)`, on a raw value. -/
def set_alpha_val (image : PNMImage) (x y a : Int) : PNMImage :=
  image.set_alpha x y ((a : ℚ) / image.get_maxval)

/-- The loops `for (y = y0; y < y0 + y_size; y++) for (x = x0; x < x0 + x_size; x++)` around
one pixel assignment `body x y`: `fuel_x` and `fuel_y` count the rounds left. -/
def for_row (body : Int → Int → PNMImage → PNMImage) (y : Int) :
    Nat → Int → PNMImage → PNMImage
  | 0, _, image => image
  | n + 1, x, image => for_row body y n (x + 1) (body x y image)

/-- The outer loop over the rows. -/
def for_rows (body : Int → Int → PNMImage → PNMImage) (x0 : Int) (x_size : Nat) :
    Nat → Int → PNMImage → PNMImage
  | 0, _, image => image
  | n + 1, y, image => for_rows body x0 x_size n (y + 1) (for_row body y x_size x0 image)

/-- Both loops over the rectangle with corner `(x0, y0)`; a size that is not positive gives
no round. -/
def for_rect (body : Int → Int → PNMImage → PNMImage) (x0 y0 x_size y_size : Int)
    (image : PNMImage) : PNMImage :=
  for_rows body x0 x_size.toNat y_size.toNat y0 image

end PNMImage

namespace TexturePlacement

/-- The method `TexturePlacement::flag_error_image`. -/
def flag_error_image (t : TexturePlacement) (image : PNMImage) : PNMImage :=
  if !t.is_placed then image
  else
    let image1 := PNMImage.for_rect (fun x y img => img.set_xel_val x y 1 0 0)
      t._placed._x t._placed._y t._placed._x_size t._placed._y_size image
    if image.has_alpha then
      PNMImage.for_rect (fun x y img => img.set_alpha_val x y 1)
        t._placed._x t._placed._y t._placed._x_size t._placed._y_size image1
    else image1

/-- The source coordinate that `fill_image` reads for the coordinate `s` of a resampled
source of size `n`: clamped to `[0, n)` under `WM_clamp`, else wrapped with the
sign-independent modulo (`%` of C++ truncates). -/
def source_index (wrap : WrapMode) (s n : Int) : Int :=
  if wrap = WrapMode.WM_clamp then max (min s (n - 1)) 0
  else if s < 0 then n - 1 - (-s - 1).tmod n else s.tmod n

/-- The resample size and origin of `fill_image` along one axis, for the placed size
`size`, the margin and the placed UV range `[min_uv, max_uv]`: `(origin, resampled)`. -/
def resample (size margin : Int) (min_uv max_uv : ℚ) : Int × Int :=
  (Double.round_quotient (Double.mul min_uv (wrap32 (size - margin * 2) : ℚ))
      (Double.sub max_uv min_uv),
    Double.round_quotient (wrap32 (size - margin * 2) : ℚ) (Double.sub max_uv min_uv))

/-- The conversion `(int)floor(...)` of `compute_size_from_uvs` stays within the `int`
range on the axis with source size `size` and UV range `[min_uv, max_uv]`: the rounded
product is below `2^31`. -/
def axis_fits (size : Int) (min_uv max_uv : ℚ) : Prop :=
  Double.add (Double.mul (size : ℚ) (Double.sub max_uv min_uv)) (1 / 2) < 2147483648

/-- The conversion `(int)floor(...)` of the resample size of `fill_image` and
`compute_tex_matrix` stays within the `int` range: the rounded quotient is below
`2^31`. -/
def resample_fits (size margin : Int) (min_uv max_uv : ℚ) : Prop :=
  Double.add (Double.div (wrap32 (size - margin * 2) : ℚ) (Double.sub max_uv min_uv)) (1 / 2)
    < 2147483648

/-- The method `TexturePlacement::fill_image`. `source` is `none` when
`read_source_image()` gives no valid image, and else that image resampled by
`quick_filter_from` (not among the sources) to the size computed here. The result is the
placement and the palette image. -/
def fill_image (t : TexturePlacement) (source : Option PNMImage) (image : PNMImage) :
    TexturePlacement × PNMImage :=
  if !t.is_placed then (t, image)
  else
    let t1 := { t with _is_filled := true }
    let rx := resample t._placed._x_size t._placed._margin t._placed._min_uv.u t._placed._max_uv.u
    let ry := resample t._placed._y_size t._placed._margin t._placed._min_uv.v t._placed._max_uv.v
    match source with
    | none => (t1, t1.flag_error_image image)
    | some source =>
      (t1, PNMImage.for_rect
        (fun x y img =>
          let sy := source_index t._placed._wrap_v
            (ry.2 - 1 - ((t._placed._y_size - 1 - y) - t._placed._margin + ry.1)) ry.2
          let sx := source_index t._placed._wrap_u (x - t._placed._margin + rx.1) rx.2
          let img1 := img.set_xel (x + t._placed._x) (y + t._placed._y) (source.get_xel sx sy)
          if image.has_alpha then
            if source.has_alpha then
              img1.set_alpha (x + t._placed._x) (y + t._placed._y) (source.get_alpha sx sy)
            else img1.set_alpha (x + t._placed._x) (y + t._placed._y) 1
          else img1)
        0 0 t._placed._x_size t._placed._y_size image)

/-- Modelled from the spec: `mark_unfilled` (texturePlacement.I) is not among the sources;
it clears the filled flag. -/
def mark_unfilled (t : TexturePlacement) : TexturePlacement :=
  { t with _is_filled := false }

end TexturePlacement

/-! ### Updating the image file

The pixel buffer `_image` is left out of this part: of `get_image`, `ClearedRegion::clear`,
`fill_image`, `write` and `release_image` it keeps what they do to the flags, to the lists
and to the file. -/

/-- What `fill_image` does to the placement itself, whatever the source and the image. -/
def TexturePlacement.filled (t : TexturePlacement) : TexturePlacement :=
  if !t.is_placed then t else { t with _is_filled := true }

/-- What one call of `update_image` finds outside the object graph. -/
structure FileSystem where
  /-- The return value of `setup_filename()` inside `update_filename()`: the name changed. -/
  filename_changed : Bool
  /-- A file exists under the new name. -/
  exists_renamed : Bool
  /-- The call `read(_image)` succeeds on the image file. -/
  read_image : Bool
  /-- The shadow image file exists and `_shadow_image.read(_image)` succeeds. -/
  read_shadow : Bool
  /-- For the texture of placement `p`: `get_preferred_source()` is not NULL and its file
  is newer than the palette image file (`compare_timestamps(get_filename()) > 0`). -/
  source_newer : Nat → Bool

namespace PaletteImage

/-- The method `PaletteImage::update_filename`, on the image itself (marking the egg files
stale is outside the model). -/
def update_filename (fs : FileSystem) (img : PaletteImage) : PaletteImage :=
  if fs.filename_changed then
    { img with file_exists := fs.exists_renamed, _new_image := true }
  else img

/-- The loop of `update_image` over the placements that decides `needs_update` and marks
the placements whose source is newer as unfilled. -/
def check_sources (fs : FileSystem) : Heap → List Nat → Bool → Heap × Bool
  | w, [], needs_update => (w, needs_update)
  | w, p :: rest, needs_update =>
    if !(w.placements p)._is_filled then check_sources fs w rest true
    else if (w.placements p)._texture.is_texture_named && fs.source_newer p then
      check_sources fs (w.set_placement p (w.placements p).mark_unfilled) rest true
    else check_sources fs w rest needs_update

/-- The loop `for (pi ...) placement->fill_image(_image)` of `get_image`. -/
def fill_each : Heap → List Nat → Heap
  | w, [] => w
  | w, p :: rest => fill_each (w.set_placement p (w.placements p).filled) rest

/-- The loop `for (pi ...) if (!placement->is_filled()) placement->fill_image(_image)` of
`update_image`. -/
def fill_unfilled : Heap → List Nat → Heap
  | w, [] => w
  | w, p :: rest =>
    if !(w.placements p)._is_filled then
      fill_unfilled (w.set_placement p (w.placements p).filled) rest
    else fill_unfilled w rest

/-- The method `PaletteImage::get_image` of image `a`. -/
def get_image (pal : Palettizer) (fs : FileSystem) (w : Heap) (a : Nat) : Heap :=
  let img := w.images a
  if img._got_image then w
  else if !img._new_image &&
      (if pal._shadow_color_type then fs.read_shadow else img.file_exists && fs.read_image) then
    w.set_image a { img with _got_image := true }
  else
    let w1 := w.set_image a
      { img with _cleared_regions := [], _new_image := false, _got_image := true }
    fill_each w1 img._placements

/-- The part of `update_image` past `if (!needs_update) return`: the image is got, the
cleared regions are blanked and forgotten, the unfilled placements are filled, the file is
written and the image is released. -/
def regenerate (pal : Palettizer) (fs : FileSystem) (w : Heap) (a : Nat) : Heap :=
  let w3 := get_image pal fs w a
  let w4 := w3.set_image a { w3.images a with _cleared_regions := [] }
  let w5 := fill_unfilled w4 (w4.images a)._placements
  w5.set_image a { w5.images a with file_exists := true, _got_image := false }

/-- The method `PaletteImage::update_image` of image `a`: the heap afterwards, and whether
the image file was written. -/
def update_image (pal : Palettizer) (fs : FileSystem) (w : Heap) (a : Nat)
    (redo_all : Bool) : Heap × Bool :=
  if is_empty w.placements (w.images a) && pal._aggressively_clean_mapdir then
    (w.set_image a (remove_image (w.images a)), false)
  else
    let w1 := if redo_all then w.set_image a (remove_image (w.images a)) else w
    let w2 := w1.set_image a (update_filename fs (w1.images a))
    let needs_update :=
      (w2.images a)._new_image || !(w2.images a).file_exists ||
        !(w2.images a)._cleared_regions.isEmpty
    let r := check_sources fs w2 (w2.images a)._placements needs_update
    if !r.2 then (r.1, false)
    else (regenerate pal fs r.1 a, true)

/-- The condition `needs_update` of `update_image`, read off the state on entry: the image
is new (flagged so, or because everything is redone, or because its name changed), or its
file does not exist, or a region was cleared, or a placement on it is not filled, or a
filled placement of a texture named on the command line has a newer source. -/
def needs_update (fs : FileSystem) (w : Heap) (a : Nat) (redo_all : Bool) : Prop :=
  (w.images a)._new_image = true ∨ redo_all = true ∨ fs.filename_changed = true ∨
    (w.images a).file_exists = false ∨ (w.images a)._cleared_regions ≠ [] ∨
    ∃ p ∈ (w.images a)._placements,
      (w.placements p)._is_filled = false ∨
      ((w.placements p)._texture.is_texture_named = true ∧ fs.source_newer p = true)

end PaletteImage

/-- The two placements agree on everything but the filled flag. -/
def TexturePlacement.same_but_filled (t t2 : TexturePlacement) : Prop :=
  { t2 with _is_filled := true } = { t with _is_filled := true }

/-- A file system in which nothing was renamed and every source file is newer than the
palette image. -/
def stale_sources : FileSystem :=
  { filename_changed := false, exists_renamed := false, read_image := true,
    read_shadow := false, source_newer := fun _ => true }

/-- A file system in which nothing was renamed and no source file is newer than the palette
image. -/
def fresh_sources : FileSystem :=
  { stale_sources with source_newer := fun _ => false }

/-- Scenario S6 with the texture named on the command line. -/
def S6_named : Heap :=
  { S6_heap with
    placements := fun _ =>
      { S6_placement with
        _texture := { S6_placement._texture with is_texture_named := true } } }

/-- What a pass that only fills placements does: the images stay, every placement stays
but for its filled flag, and no filled flag is cleared. -/
structure OnlyFills (w w2 : Heap) : Prop where
  images : w2.images = w.images
  same : ∀ q, (w.placements q).same_but_filled (w2.placements q)
  kept : ∀ q, (w.placements q)._is_filled = true → (w2.placements q)._is_filled = true

/-- A black, fully transparent palette image with the usual 8-bit range of raw values. -/
def blank_canvas : PNMImage :=
  { get_maxval := 255, has_alpha := true,
    get_xel := fun _ _ => ⟨0, 0, 0⟩, get_alpha := fun _ _ => 0 }

/-- The pixel `(X, Y)` lies in the placed rectangle of the placement. -/
def TexturePlacement.covers (t : TexturePlacement) (X Y : Int) : Prop :=
  t._placed._x ≤ X ∧ X < t._placed._x + t._placed._x_size ∧
    t._placed._y ≤ Y ∧ Y < t._placed._y + t._placed._y_size

/-! ## Removing a placement, pixel indices and image formats -/

/-- Scenario S5, before the rerun: the ten 32x32 placements of S2 packed on image 0. -/
def S5_heap : Heap :=
  (PaletteImage.place_each 0 S2_heap (List.range 10)).1

/-- The references of a placement that have UVs. -/
def TexturePlacement.uv_references (t : TexturePlacement) : List TextureReference :=
  t._references.filter fun r => r.has_uvs

/-- The number `m` is the least member of the list `l`. -/
def least_of (l : List ℚ) (m : ℚ) : Prop :=
  m ∈ l ∧ ∀ x ∈ l, m ≤ x

/-- The number `m` is the greatest member of the list `l`. -/
def greatest_of (l : List ℚ) (m : ℚ) : Prop :=
  m ∈ l ∧ ∀ x ∈ l, x ≤ m

/-- The first block of the last branch of `determine_size` (`else if (is_placed())`): the
test of `_position` against `_placed` and the re-place it can lead to. -/
def TexturePlacement.replace_if_needed (pal : Palettizer) (w : Heap) (p : Nat)
    (min_uv max_uv : TexCoordd) : Heap :=
  let t := w.placements p
  if TexturePlacement.needs_replace t then
    if pal._round_uvs then
      let t1 := TexturePlacement.compute_size_from_uvs t min_uv max_uv
      if TexturePlacement.fits_placed t1 then w.set_placement p t1
      else
        TexturePlacement.force_replace
          (w.set_placement p
            (TexturePlacement.compute_size_from_uvs t1
              (TexturePlacement.rounded_min_uv pal min_uv)
              (TexturePlacement.rounded_max_uv pal max_uv)))
          p
    else TexturePlacement.force_replace w p
  else w

/-- The second block of the last branch of `determine_size`, on the placement alone:
`if (_position._wrap_u != _placed._wrap_u || _position._wrap_v != _placed._wrap_v)`. -/
def TexturePlacement.copy_wrap_modes (t : TexturePlacement) : TexturePlacement :=
  if t._position._wrap_u ≠ t._placed._wrap_u ∨ t._position._wrap_v ≠ t._placed._wrap_v then
    { t with
      _is_filled := false
      _placed := { t._placed with
        _wrap_u := t._position._wrap_u, _wrap_v := t._position._wrap_v } }
  else t

/-- Scenario S6 with a changed wrap mode instead of a changed UV box: the only reference
covers (0,0)-(1,1) and now repeats along u. -/
def wrap_changed_heap : Heap :=
  { placements := fun _ =>
      { S6_placement with
        _references :=
          [{ has_uvs := true, get_min_uv := ⟨0, 0⟩, get_max_uv := ⟨1, 1⟩,
             get_wrap_u := WrapMode.WM_repeat, get_wrap_v := WrapMode.WM_clamp }] }
    images := S6_heap.images }

/-- The heap `wrap_changed_heap` at the point where `determine_size` enters its last
branch: the desired rectangle is stored, with wrap mode repeat along u. -/
def wrap_changed_desired : Heap :=
  wrap_changed_heap.set_placement 0
    { wrap_changed_heap.placements 0 with
      _omit_reason := OmitReason.OR_none
      _position :=
        { _margin := 2, _x := 0, _y := 0, _x_size := 64, _y_size := 64,
          _min_uv := ⟨0, 0⟩, _max_uv := ⟨1, 1⟩,
          _wrap_u := WrapMode.WM_repeat, _wrap_v := WrapMode.WM_clamp } }

/-- An unplaced placement of a 64x64 texture with three references: UVs (1/4,0)-(1/2,1/2)
clamped, no UVs but repeating along u, and UVs (0,1/4)-(3/4,1) clamped. -/
def three_references_heap : Heap :=
  { placements := fun _ =>
      { unplaced_placement 64 64 with
        _references :=
          [{ has_uvs := true, get_min_uv := ⟨1 / 4, 0⟩, get_max_uv := ⟨1 / 2, 1 / 2⟩,
             get_wrap_u := WrapMode.WM_clamp, get_wrap_v := WrapMode.WM_clamp },
           { has_uvs := false, get_min_uv := ⟨-5, -5⟩, get_max_uv := ⟨9, 9⟩,
             get_wrap_u := WrapMode.WM_repeat, get_wrap_v := WrapMode.WM_clamp },
           { has_uvs := true, get_min_uv := ⟨0, 1 / 4⟩, get_max_uv := ⟨3 / 4, 1⟩,
             get_wrap_u := WrapMode.WM_clamp, get_wrap_v := WrapMode.WM_clamp }] }
    images := fun _ => empty_image 128 128 }

/-! ## The image format of egg-mkfont -/

/-- A colour (`Colord`): components 0 to 3 are red, green, blue and alpha. -/
structure Colord where
  r : ℚ
  g : ℚ
  b : ℚ
  a : ℚ
  deriving DecidableEq

/-- The image formats of `EggTexture` that `EggMakeFont::run` chooses from. -/
inductive EggTextureFormat
  | F_rgba
  | F_alpha
  | F_luminance_alpha
  | F_rgb
  | F_luminance
  deriving DecidableEq, Repr

/-- The format carries an alpha component. -/
def EggTextureFormat.has_alpha : EggTextureFormat → Bool
  | F_rgba => true
  | F_alpha => true
  | F_luminance_alpha => true
  | F_rgb => false
  | F_luminance => false

/-- The colour fields of the program object `EggMakeFont` and what `run` derives from
them; `_num_channels` and `_format` are `none` until `run` assigns them. -/
structure EggMakeFont where
  _fg : Colord
  _bg : Colord
  _interior : Colord
  _got_interior : Bool
  _num_channels : Option Int
  _format : Option EggTextureFormat
  deriving DecidableEq

namespace EggMakeFont

/-- The constructor `EggMakeFont()`: foreground 1,1,1,1, background 1,1,1,0 and interior
1,1,1,0. -/
def create : EggMakeFont :=
  { _fg := ⟨1, 1, 1, 1⟩
    _bg := ⟨1, 1, 1, 0⟩
    _interior := ⟨1, 1, 1, 0⟩
    _got_interior := false
    _num_channels := none
    _format := none }

/-- The options `-fg`, `-bg` and `-interior` of a command line, each absent (`none`) or
present with the colour `dispatch_color` parsed; `-interior` also sets
`_got_interior`. -/
def parse_colors (m : EggMakeFont) (fg bg interior : Option Colord) : EggMakeFont :=
  let m1 := match fg with
    | some c => { m with _fg := c }
    | none => m
  let m2 := match bg with
    | some c => { m1 with _bg := c }
    | none => m1
  match interior with
  | some c => { m2 with _interior := c, _got_interior := true }
  | none => m2

/-- The local `needs_alpha` of `EggMakeFont::run`. -/
def needs_alpha (m : EggMakeFont) : Bool :=
  decide (m._fg.a ≠ 1) || decide (m._bg.a ≠ 1) || decide (m._interior.a ≠ 1)

/-- The local `needs_color` of `EggMakeFont::run`. -/
def needs_color (m : EggMakeFont) : Bool :=
  decide (m._fg.r ≠ m._fg.g) || decide (m._fg.g ≠ m._fg.b) ||
  decide (m._bg.r ≠ m._bg.g) || decide (m._bg.g ≠ m._bg.b) ||
  decide (m._interior.r ≠ m._interior.g) || decide (m._interior.g ≠ m._interior.b)

/-- The part of `EggMakeFont::run` that chooses the number of channels and the image
format from the colours. -/
def run (m : EggMakeFont) : EggMakeFont :=
  if m.needs_alpha then
    if m.needs_color then
      { m with _num_channels := some 4, _format := some EggTextureFormat.F_rgba }
    else
      if m._fg.r = 1 ∧ m._bg.r = 1 ∧ m._interior.r = 1 then
        { m with
          _fg := ⟨m._fg.a, m._fg.a, m._fg.a, m._fg.a⟩
          _bg := ⟨m._bg.a, m._bg.a, m._bg.a, m._bg.a⟩
          _num_channels := some 1
          _format := some EggTextureFormat.F_alpha }
      else
        { m with _num_channels := some 2, _format := some EggTextureFormat.F_luminance_alpha }
  else
    if m.needs_color then
      { m with _num_channels := some 3, _format := some EggTextureFormat.F_rgb }
    else
      { m with _num_channels := some 1, _format := some EggTextureFormat.F_luminance }

/-- The program from the constructor through the colour options to the format choice of
`run`. -/
def main (fg bg interior : Option Colord) : EggMakeFont :=
  run (parse_colors create fg bg interior)

end EggMakeFont

/-! ## Dependency levels -/

namespace PaletteGroup

end PaletteGroup

/-- Modelled from the spec: one field of a `Datagram` (datagram.h is not among the
sources), with its type; a pointer is stored as the index of the object it refers to. -/
inductive DatagramField
  | string (s : String)
  | int32 (i : Int)
  | uint32 (n : Nat)
  | pointer (p : Nat)
  deriving DecidableEq

/-- Modelled from the spec: `Datagram::add_uint32` stores the low 32 bits. -/
def add_uint32 (n : Nat) : DatagramField :=
  DatagramField.uint32 (n % 4294967296)

/-- Modelled from the spec: `DatagramIterator::get_string` takes the next field, which
has to be a string. -/
def get_string : List DatagramField → Option (String × List DatagramField)
  | DatagramField.string s :: rest => some (s, rest)
  | _ => none

/-- Modelled from the spec: `DatagramIterator::get_int32` takes the next field, which has
to be a signed 32-bit number. -/
def get_int32 : List DatagramField → Option (Int × List DatagramField)
  | DatagramField.int32 i :: rest => some (i, rest)
  | _ => none

/-- Modelled from the spec: `DatagramIterator::get_uint32` takes the next field, which has
to be an unsigned 32-bit number. -/
def get_uint32 : List DatagramField → Option (Nat × List DatagramField)
  | DatagramField.uint32 n :: rest => some (n, rest)
  | _ => none

/-- Modelled from the spec: `BamWriter::write_pointer` for each pointer of a list, in
order. -/
def write_pointers (l : List Nat) : List DatagramField :=
  l.map DatagramField.pointer

/-- Modelled from the spec: `BamReader::read_pointers` takes `n` object indices from the
datagram; they are resolved in a second pass. -/
def read_pointers : Nat → List DatagramField → Option (List Nat × List DatagramField)
  | 0, scan => some ([], scan)
  | n + 1, DatagramField.pointer p :: rest =>
    match read_pointers n rest with
    | some r => some (p :: r.1, r.2)
    | none => none
  | _ + 1, _ => none

/-- Modelled from the spec: `PaletteGroups::write_datagram` (paletteGroups.cxx is not among
the sources) stores the number of groups and a pointer to each. -/
def PaletteGroups.write_datagram (groups : List Nat) : List DatagramField :=
  add_uint32 groups.length :: write_pointers groups

/-- Modelled from the spec: `PaletteGroups::fillin` reads the number of groups and that
many pointers. -/
def PaletteGroups.fillin (scan : List DatagramField) :
    Option (List Nat × List DatagramField) :=
  match get_uint32 scan with
  | some (n, rest) => read_pointers n rest
  | none => none

/-- The object `PaletteGroup` with the members that are stored: the name (`Namable`), the
placements and the pages, both as pointers in iteration order, and the counts
`_num_placements` and `_num_pages` that `fillin` keeps for `complete_pointers`. -/
structure StoredGroup extends PaletteGroup where
  name : String
  _placements : List Nat
  _pages : List Nat
  _num_placements : Nat
  _num_pages : Nat
  deriving DecidableEq

namespace StoredGroup

/-- The constructor `PaletteGroup()`, as `make_PaletteGroup` calls it: the three numbers
are zero, name and directory name are empty. -/
def create : StoredGroup :=
  { PaletteGroup.create with
    name := "", _placements := [], _pages := [], _num_placements := 0, _num_pages := 0 }

/-- The method `PaletteGroup::write_datagram`: the fields it adds, in order. -/
def write_datagram (g : StoredGroup) : List DatagramField :=
  [DatagramField.string g.name, DatagramField.string g._dirname] ++
    PaletteGroups.write_datagram g._dependent ++
    [DatagramField.int32 g._dependency_level, DatagramField.int32 g._dependency_order,
      DatagramField.int32 g._dirname_order] ++
    [add_uint32 g._placements.length] ++ write_pointers g._placements ++
    [add_uint32 g._pages.length] ++ write_pointers g._pages

/-- The datagram of a group in a snapshot of version `version`: the fields of
`write_datagram`, without `_dirname_order` below version 4 and without any of the three
numbers below version 3. -/
def stored_datagram (version : Int) (g : StoredGroup) : List DatagramField :=
  [DatagramField.string g.name, DatagramField.string g._dirname] ++
    PaletteGroups.write_datagram g._dependent ++
    (if version ≥ 3 then
      [DatagramField.int32 g._dependency_level, DatagramField.int32 g._dependency_order] ++
        (if version ≥ 4 then [DatagramField.int32 g._dirname_order] else [])
    else []) ++
    [add_uint32 g._placements.length] ++ write_pointers g._placements ++
    [add_uint32 g._pages.length] ++ write_pointers g._pages

/-- The version-dependent part of `PaletteGroup::fillin`, with
`Palettizer::_read_pi_version` as `version`. -/
def fillin_numbers (version : Int) (me : StoredGroup) (scan : List DatagramField) :
    Option (StoredGroup × List DatagramField) :=
  if version ≥ 3 then
    match get_int32 scan with
    | none => none
    | some (level, s1) =>
      match get_int32 s1 with
      | none => none
      | some (order, s2) =>
        if version ≥ 4 then
          match get_int32 s2 with
          | none => none
          | some (dirname_order, s3) =>
            some ({ me with _dependency_level := level, _dependency_order := order,
                            _dirname_order := dirname_order }, s3)
        else some ({ me with _dependency_level := level, _dependency_order := order }, s2)
  else some (me, scan)

/-- The method `PaletteGroup::fillin` on the object `me`, with
`Palettizer::_read_pi_version` as `version`: the object read, the pointers handed to the
reader (dependencies, placements, pages) and the rest of the datagram; `none` when the
datagram does not hold the field asked for. -/
def fillin (version : Int) (me : StoredGroup) (scan : List DatagramField) :
    Option (StoredGroup × List Nat × List DatagramField) :=
  match get_string scan with
  | none => none
  | some (name, s1) =>
    match get_string s1 with
    | none => none
    | some (dirname, s2) =>
      match PaletteGroups.fillin s2 with
      | none => none
      | some (groups, s3) =>
        match fillin_numbers version { me with name := name, _dirname := dirname } s3 with
        | none => none
        | some (me2, s4) =>
          match get_uint32 s4 with
          | none => none
          | some (num_placements, s5) =>
            match read_pointers num_placements s5 with
            | none => none
            | some (placements, s6) =>
              match get_uint32 s6 with
              | none => none
              | some (num_pages, s7) =>
                match read_pointers num_pages s7 with
                | none => none
                | some (pages, s8) =>
                  some ({ me2 with _num_placements := num_placements,
                                   _num_pages := num_pages },
                    groups ++ placements ++ pages, s8)

end StoredGroup

/-- A group to store: `world` of scenario S4 at level 1, order 1, dirname order 2, with
two placements and one page. -/
def stored_world : StoredGroup :=
  { name := "world", _dirname := "maps", _dependent := [0], _egg_count := 3,
    _dependency_level := 1, _dependency_order := 1, _dirname_order := 2,
    _placements := [10, 11], _pages := [20], _num_placements := 0, _num_pages := 0 }

/-- An unplaced request for the 33x10 texture of `strip_placement`. -/
def strip_request : TexturePlacement :=
  { unplaced_placement 10 10 with _texture := strip_placement._texture }

/-! ## Lemmas and theorems -/

/-! ## Double arithmetic: rounding lemmas -/

theorem round_even_err (y : ℚ) : |(round_even y : ℚ) - y| ≤ 1 / 2 := by
  have h1 := Int.floor_le y
  have h2 := Int.lt_floor_add_one y
  unfold round_even
  split_ifs with a b c
  · rw [abs_le]; constructor <;> linarith
  · rw [abs_le]; push_cast; constructor <;> linarith
  · rw [abs_le]; constructor <;> linarith
  · rw [abs_le]; push_cast; constructor <;> linarith

theorem round_even_near (y : ℚ) (m : Int) (h : |y - m| < 1 / 2) : round_even y = m := by
  rw [abs_lt] at h
  unfold round_even
  by_cases hy : (m : ℚ) ≤ y
  · have hf : ⌊y⌋ = m := by
      rw [Int.floor_eq_iff]; constructor <;> linarith
    rw [hf, if_pos (by linarith)]
  · have hf : ⌊y⌋ = m - 1 := by
      rw [Int.floor_eq_iff]; push_cast; constructor <;> linarith
    rw [hf]
    push_cast
    rw [if_neg (by linarith), if_pos (by linarith)]
    ring

theorem round_even_int (n : Int) : round_even (n : ℚ) = n :=
  round_even_near _ n (by simp)

theorem round_even_mono {y z : ℚ} (h : y ≤ z) : round_even y ≤ round_even z := by
  by_contra hlt
  push_neg at hlt
  have h1 := round_even_err y
  have h2 := round_even_err z
  rw [abs_le] at h1 h2
  have h3 : (round_even z : ℚ) + 1 ≤ (round_even y : ℚ) := by exact_mod_cast hlt
  have hyz : y = z := by linarith
  rw [hyz] at hlt
  exact lt_irrefl _ hlt

theorem round_even_neg (y : ℚ) : round_even (-y) = -round_even y := by
  have h1 := Int.floor_le y
  have h2 := Int.lt_floor_add_one y
  by_cases hi : (⌊y⌋ : ℚ) = y
  · have e : -y = ((-⌊y⌋ : Int) : ℚ) := by push_cast; rw [hi]
    have e2 : round_even y = ⌊y⌋ := by
      conv_lhs => rw [← hi]
      exact round_even_int _
    rw [e, round_even_int, e2]
  · have hlt : (⌊y⌋ : ℚ) < y := lt_of_le_of_ne h1 hi
    have hf : ⌊-y⌋ = -⌊y⌋ - 1 := by
      rw [Int.floor_eq_iff]; push_cast; constructor <;> linarith
    unfold round_even
    rw [hf]
    push_cast
    by_cases a : y - ⌊y⌋ < 1 / 2
    · rw [if_pos a, if_neg (by linarith), if_pos (by linarith)]
      ring
    · by_cases b : 1 / 2 < y - (⌊y⌋ : ℚ)
      · rw [if_neg a, if_pos b, if_pos (by linarith)]
        ring
      · have c : y - (⌊y⌋ : ℚ) = 1 / 2 := by linarith
        rw [if_neg a, if_neg b, if_neg (by linarith), if_neg (by linarith)]
        by_cases hev : ⌊y⌋ % 2 = 0
        · rw [if_pos hev, if_neg (by omega)]
          ring
        · rw [if_neg hev, if_pos (by omega)]
          ring

theorem two_zpow_pos (e : Int) : (0 : ℚ) < 2 ^ e := zpow_pos (by norm_num) e

theorem two_zpow_succ (e : Int) : (2 : ℚ) ^ (e + 1) = 2 * 2 ^ e := by
  rw [zpow_add₀ (by norm_num : (2 : ℚ) ≠ 0)]; ring

theorem two_zpow_le {a b : Int} (h : a ≤ b) : (2 : ℚ) ^ a ≤ 2 ^ b :=
  zpow_le_zpow_right₀ (by norm_num) h

/-- The exponent used for a non-zero `x` with `2^e <= |x| < 2^(e+1)`, `e >= -1022`. -/
theorem ulp_exponent_normal (x : ℚ) (e : Int) (he : -1022 ≤ e)
    (hlo : (2 : ℚ) ^ e ≤ |x|) (hhi : |x| < (2 : ℚ) ^ (e + 1)) :
    ulp_exponent x = e - 52 := by
  have hpos : 0 < |x| := lt_of_lt_of_le (two_zpow_pos e) hlo
  have h1 : e ≤ Int.log 2 |x| := (Int.zpow_le_iff_le_log (by norm_num) hpos).mp (by exact_mod_cast hlo)
  have h2 : Int.log 2 |x| < e + 1 :=
    (Int.lt_zpow_iff_log_lt (by norm_num) hpos).mp (by exact_mod_cast hhi)
  have hx : x ≠ 0 := abs_pos.mp hpos
  unfold ulp_exponent
  rw [if_neg hx]
  omega

/-- The exponent used below the normal range. -/
theorem ulp_exponent_small (x : ℚ) (hhi : |x| < (2 : ℚ) ^ (-1021 : Int)) :
    ulp_exponent x = -1074 := by
  unfold ulp_exponent
  by_cases hx : x = 0
  · rw [if_pos hx]
  · have hpos : 0 < |x| := abs_pos.mpr hx
    have h2 : Int.log 2 |x| < -1021 :=
      (Int.lt_zpow_iff_log_lt (by norm_num) hpos).mp (by exact_mod_cast hhi)
    rw [if_neg hx]
    omega

/-- The exponent of the last place is at least that of the subnormal numbers. -/
theorem ulp_exponent_ge (x : ℚ) : -1074 ≤ ulp_exponent x := by
  unfold ulp_exponent
  split
  · exact le_refl _
  · have := le_max_right (Int.log 2 |x|) (-1022)
    omega

/-- A number lies below the end of its binade: `|x| < 2^(ulp_exponent x + 53)`. -/
theorem abs_lt_binade (x : ℚ) : |x| < (2 : ℚ) ^ (ulp_exponent x + 53) := by
  unfold ulp_exponent
  by_cases hx : x = 0
  · rw [if_pos hx, hx, abs_zero]; exact two_zpow_pos _
  · rw [if_neg hx]
    have hpos : 0 < |x| := abs_pos.mpr hx
    have h := Int.lt_zpow_succ_log_self (by norm_num : 1 < 2) |x|
    have h2 : (2 : ℚ) ^ (Int.log 2 |x| + 1) ≤ 2 ^ (max (Int.log 2 |x|) (-1022) - 52 + 53) :=
      two_zpow_le (by have := le_max_left (Int.log 2 |x|) (-1022); omega)
    exact lt_of_lt_of_le (by exact_mod_cast h) h2

/-- A normal number lies above the start of its binade. -/
theorem binade_le_abs (x : ℚ) (h : -1074 < ulp_exponent x) :
    (2 : ℚ) ^ (ulp_exponent x + 52) ≤ |x| := by
  unfold ulp_exponent at h ⊢
  by_cases hx : x = 0
  · rw [if_pos hx] at h; omega
  · rw [if_neg hx] at h ⊢
    have hpos : 0 < |x| := abs_pos.mpr hx
    have hl : max (Int.log 2 |x|) (-1022) = Int.log 2 |x| := by
      rcases max_choice (Int.log 2 |x|) (-1022) with e | e
      · exact e
      · rw [e] at h; omega
    rw [hl]
    have h2 := Int.zpow_log_le_self (by norm_num : 1 < 2) hpos
    have e : Int.log 2 |x| - 52 + 52 = Int.log 2 |x| := by ring
    rw [e]
    exact_mod_cast h2

theorem fl_zero : fl 0 = 0 := by
  unfold fl
  rw [zero_div]
  have : round_even 0 = 0 := by simpa using round_even_int 0
  rw [this]; simp

/-- The value of `fl` at `x`, from the last-place exponent `e` of `x` and the nearest
multiple `m * 2^e`. -/
theorem fl_eval (x : ℚ) (e m : Int) (he : -1074 ≤ e)
    (hlo : e = -1074 ∨ (2 : ℚ) ^ (e + 52) ≤ |x|)
    (hhi : |x| < (2 : ℚ) ^ (e + 53))
    (hm : |x - m * 2 ^ e| < 2 ^ e / 2) : fl x = m * 2 ^ e := by
  have hq := two_zpow_pos e
  have hexp : x ≠ 0 → ulp_exponent x = e := by
    intro hx
    rcases hlo with h | h
    · rw [h] at hhi ⊢
      exact ulp_exponent_small x (by norm_num at hhi ⊢; exact hhi)
    · by_cases he2 : e = -1074
      · rw [he2] at hhi ⊢
        exact ulp_exponent_small x (by norm_num at hhi ⊢; exact hhi)
      · have := ulp_exponent_normal x (e + 52) (by omega) h (by
          have e3 : e + 52 + 1 = e + 53 := by ring
          rw [e3]; exact hhi)
        rw [this]; ring
  have hr : round_even (x / 2 ^ e) = m := by
    apply round_even_near
    have e1 : x / 2 ^ e - m = (x - m * 2 ^ e) / 2 ^ e := by
      field_simp
      ring
    rw [e1, abs_div, abs_of_pos hq, div_lt_iff₀ hq]
    linarith
  by_cases hx : x = 0
  · subst hx
    rw [fl_zero]
    have : round_even ((0 : ℚ) / 2 ^ e) = 0 := by
      rw [zero_div]; simpa using round_even_int 0
    rw [this] at hr
    rw [← hr]; simp
  · unfold fl
    rw [hexp hx, hr]

theorem ulp_exponent_neg (x : ℚ) : ulp_exponent (-x) = ulp_exponent x := by
  unfold ulp_exponent
  rw [abs_neg]
  simp only [neg_eq_zero]

theorem fl_neg (x : ℚ) : fl (-x) = -fl x := by
  unfold fl
  rw [ulp_exponent_neg, neg_div, round_even_neg]
  push_cast
  ring

theorem fl_nonneg {x : ℚ} (h : 0 ≤ x) : 0 ≤ fl x := by
  unfold fl
  have hq := two_zpow_pos (ulp_exponent x)
  have h0 : round_even 0 ≤ round_even (x / 2 ^ ulp_exponent x) :=
    round_even_mono (div_nonneg h hq.le)
  have r0 : round_even 0 = 0 := by simpa using round_even_int 0
  rw [r0] at h0
  have : (0 : ℚ) ≤ (round_even (x / 2 ^ ulp_exponent x) : ℚ) := by exact_mod_cast h0
  exact mul_nonneg this hq.le

theorem fl_nonpos {x : ℚ} (h : x ≤ 0) : fl x ≤ 0 := by
  have := fl_nonneg (neg_nonneg.mpr h)
  rw [fl_neg] at this
  linarith

/-- The rounding error is at most half a unit in the last place. -/
theorem fl_err (x : ℚ) : |fl x - x| ≤ 2 ^ ulp_exponent x / 2 := by
  have hq := two_zpow_pos (ulp_exponent x)
  have h := round_even_err (x / 2 ^ ulp_exponent x)
  have e : fl x - x =
      ((round_even (x / 2 ^ ulp_exponent x) : ℚ) - x / 2 ^ ulp_exponent x)
        * 2 ^ ulp_exponent x := by
    unfold fl
    field_simp
  rw [e, abs_mul, abs_of_pos hq]
  calc |(round_even (x / 2 ^ ulp_exponent x) : ℚ) - x / 2 ^ ulp_exponent x|
        * 2 ^ ulp_exponent x ≤ 1 / 2 * 2 ^ ulp_exponent x :=
        mul_le_mul_of_nonneg_right h hq.le
    _ = 2 ^ ulp_exponent x / 2 := by ring

/-- The relative rounding error of a number of the normal range is at most `2^-53`. -/
theorem fl_err_rel (x : ℚ) (h : (2 : ℚ) ^ (-1022 : Int) ≤ |x|) :
    |fl x - x| ≤ |x| / 2 ^ (53 : Nat) := by
  have herr := fl_err x
  have hpos : 0 < |x| := lt_of_lt_of_le (two_zpow_pos _) h
  have hx : x ≠ 0 := abs_pos.mp hpos
  have hl : -1022 ≤ Int.log 2 |x| :=
    (Int.zpow_le_iff_le_log (by norm_num) hpos).mp (by exact_mod_cast h)
  have he : ulp_exponent x = Int.log 2 |x| - 52 := by
    unfold ulp_exponent
    rw [if_neg hx, max_eq_left hl]
  have h2 : (2 : ℚ) ^ (Int.log 2 |x|) ≤ |x| := by
    exact_mod_cast Int.zpow_log_le_self (by norm_num : 1 < 2) hpos
  have e2 : (2 : ℚ) ^ (Int.log 2 |x| - 52) = 2 ^ (Int.log 2 |x|) / 2 ^ (52 : Nat) := by
    rw [zpow_sub₀ (by norm_num : (2 : ℚ) ≠ 0)]
    norm_num
  rw [he, e2] at herr
  have e3 : |x| / 2 ^ (53 : Nat) = |x| / 2 ^ (52 : Nat) / 2 := by
    rw [div_div]; norm_num
  rw [e3]
  have h4 : (2 : ℚ) ^ (Int.log 2 |x|) / 2 ^ (52 : Nat) ≤ |x| / 2 ^ (52 : Nat) :=
    div_le_div_of_nonneg_right h2 (by positivity)
  linarith

/-- The rounding error in general: relative `2^-53`, or absolute `2^-1075` below the
normal range. -/
theorem fl_err_abs (x : ℚ) :
    |fl x - x| ≤ |x| / 2 ^ (53 : Nat) + 2 ^ (-1075 : Int) := by
  by_cases h : (2 : ℚ) ^ (-1022 : Int) ≤ |x|
  · have := fl_err_rel x h
    have := two_zpow_pos (-1075)
    linarith
  · push_neg at h
    have hs : ulp_exponent x = -1074 :=
      ulp_exponent_small x (lt_trans h (by norm_num))
    have herr := fl_err x
    rw [hs] at herr
    have e : (2 : ℚ) ^ (-1074 : Int) / 2 = 2 ^ (-1075 : Int) := by
      rw [show (-1074 : Int) = -1075 + 1 by norm_num, two_zpow_succ]
      ring
    rw [e] at herr
    have : 0 ≤ |x| / 2 ^ (53 : Nat) := by positivity
    exact le_trans herr (le_add_of_nonneg_left this)

theorem ulp_exponent_mono {x y : ℚ} (hx : 0 < x) (hxy : x ≤ y) :
    ulp_exponent x ≤ ulp_exponent y := by
  have hy : 0 < y := lt_of_lt_of_le hx hxy
  unfold ulp_exponent
  rw [if_neg (ne_of_gt hx), if_neg (ne_of_gt hy), abs_of_pos hx, abs_of_pos hy]
  have := Int.log_mono_right (b := 2) hx hxy
  have h1 := max_le_max_right (-1022) this
  omega

theorem fl_mono_pos {x y : ℚ} (hx : 0 < x) (hxy : x ≤ y) : fl x ≤ fl y := by
  have hy : 0 < y := lt_of_lt_of_le hx hxy
  have he := ulp_exponent_mono hx hxy
  have hqx := two_zpow_pos (ulp_exponent x)
  have hqy := two_zpow_pos (ulp_exponent y)
  rcases eq_or_lt_of_le he with e | e
  · unfold fl
    rw [e]
    have : round_even (x / 2 ^ ulp_exponent y) ≤ round_even (y / 2 ^ ulp_exponent y) :=
      round_even_mono (div_le_div_of_nonneg_right hxy hqy.le)
    have h2 : (round_even (x / 2 ^ ulp_exponent y) : ℚ) ≤
        (round_even (y / 2 ^ ulp_exponent y) : ℚ) := by exact_mod_cast this
    exact mul_le_mul_of_nonneg_right h2 hqy.le
  · -- `fl x` is at most the end of the binade of `x`, `fl y` at least the start of its own
    have h1 : fl x ≤ 2 ^ (ulp_exponent x + 53) := by
      unfold fl
      have hb := abs_lt_binade x
      rw [abs_of_pos hx] at hb
      have hd : x / 2 ^ ulp_exponent x ≤ ((2 ^ 53 : Int) : ℚ) := by
        rw [div_le_iff₀ hqx]
        have e2 : (2 : ℚ) ^ (ulp_exponent x + 53) = ((2 ^ 53 : Int) : ℚ) * 2 ^ ulp_exponent x := by
          rw [zpow_add₀ (by norm_num : (2 : ℚ) ≠ 0)]
          push_cast
          rw [mul_comm]
          norm_num
        rw [← e2]; exact hb.le
      have hr := round_even_mono hd
      rw [round_even_int] at hr
      have hr2 : (round_even (x / 2 ^ ulp_exponent x) : ℚ) ≤ ((2 ^ 53 : Int) : ℚ) := by
        exact_mod_cast hr
      have e2 : (2 : ℚ) ^ (ulp_exponent x + 53) = ((2 ^ 53 : Int) : ℚ) * 2 ^ ulp_exponent x := by
        rw [zpow_add₀ (by norm_num : (2 : ℚ) ≠ 0)]
        push_cast
        rw [mul_comm]
        norm_num
      rw [e2]
      exact mul_le_mul_of_nonneg_right hr2 hqx.le
    have h2 : (2 : ℚ) ^ (ulp_exponent y + 52) ≤ fl y := by
      unfold fl
      have hge := ulp_exponent_ge x
      have hb := binade_le_abs y (by omega)
      rw [abs_of_pos hy] at hb
      have e2 : (2 : ℚ) ^ (ulp_exponent y + 52) = ((2 ^ 52 : Int) : ℚ) * 2 ^ ulp_exponent y := by
        rw [zpow_add₀ (by norm_num : (2 : ℚ) ≠ 0)]
        push_cast
        rw [mul_comm]
        norm_num
      have hd : ((2 ^ 52 : Int) : ℚ) ≤ y / 2 ^ ulp_exponent y := by
        rw [le_div_iff₀ hqy, ← e2]; exact hb
      have hr := round_even_mono hd
      rw [round_even_int] at hr
      have hr2 : ((2 ^ 52 : Int) : ℚ) ≤ (round_even (y / 2 ^ ulp_exponent y) : ℚ) := by
        exact_mod_cast hr
      rw [e2]
      exact mul_le_mul_of_nonneg_right hr2 hqy.le
    have h3 : (2 : ℚ) ^ (ulp_exponent x + 53) ≤ 2 ^ (ulp_exponent y + 52) :=
      two_zpow_le (by omega)
    linarith

/-- Rounding to the nearest double is monotone. -/
theorem fl_mono {x y : ℚ} (hxy : x ≤ y) : fl x ≤ fl y := by
  rcases lt_trichotomy x 0 with hx | hx | hx
  · rcases lt_trichotomy y 0 with hy | hy | hy
    · have := fl_mono_pos (neg_pos.mpr hy) (neg_le_neg hxy)
      rw [fl_neg, fl_neg] at this
      linarith
    · rw [hy, fl_zero]; exact fl_nonpos hx.le
    · exact le_trans (fl_nonpos hx.le) (fl_nonneg hy.le)
  · rw [hx, fl_zero]; exact fl_nonneg (by rw [← hx]; exact hxy)
  · exact fl_mono_pos hx hxy

theorem two_zpow_lt_iff {a b : Int} (h : (2 : ℚ) ^ a < 2 ^ b) : a < b := by
  by_contra hc
  push_neg at hc
  exact absurd (two_zpow_le hc) (not_le.mpr h)

theorem two_zpow_le_iff {a b : Int} (h : (2 : ℚ) ^ a ≤ 2 ^ b) : a ≤ b := by
  by_contra hc
  push_neg at hc
  have h1 : (2 : ℚ) ^ (b + 1) ≤ 2 ^ a := two_zpow_le (by omega)
  rw [two_zpow_succ] at h1
  have := two_zpow_pos b
  linarith

/-- A power of two with a natural exponent difference, as an integer. -/
theorem two_zpow_sub_int {e u : Int} (h : u ≤ e) :
    (2 : ℚ) ^ e = (((2 : Int) ^ (e - u).toNat : Int) : ℚ) * 2 ^ u := by
  have e1 : e = ((e - u).toNat : Int) + u := by
    rw [Int.toNat_of_nonneg (by omega)]; ring
  conv_lhs => rw [e1, zpow_add₀ (by norm_num : (2 : ℚ) ≠ 0), zpow_natCast]
  push_cast
  ring

/-- A multiple `m * 2^e` of a power of two with at most 53 bits is a double: rounding
leaves it as it is. -/
theorem fl_exact (m e : Int) (he : -1074 ≤ e) (hm : |m| ≤ 2 ^ 53) :
    fl ((m : ℚ) * 2 ^ e) = (m : ℚ) * 2 ^ e := by
  by_cases hx : (m : ℚ) * 2 ^ e = 0
  · rw [hx, fl_zero]
  · have hq := two_zpow_pos e
    have hqu := two_zpow_pos (ulp_exponent ((m : ℚ) * 2 ^ e))
    have hmq : |(m : ℚ)| ≤ 2 ^ (53 : Nat) := by
      have : ((|m| : Int) : ℚ) ≤ ((2 ^ 53 : Int) : ℚ) := by exact_mod_cast hm
      simpa using this
    have e53 : (2 : ℚ) ^ (53 : Nat) * 2 ^ e = 2 ^ (e + 53) := by
      rw [show e + 53 = 53 + e by ring, zpow_add₀ (by norm_num : (2 : ℚ) ≠ 0)]
      norm_num
    by_cases hs : ulp_exponent ((m : ℚ) * 2 ^ e) ≤ e
    · -- the quotient by the last place is an integer
      have hk : (m : ℚ) * 2 ^ e / 2 ^ ulp_exponent ((m : ℚ) * 2 ^ e) =
          ((m * (2 : Int) ^ (e - ulp_exponent ((m : ℚ) * 2 ^ e)).toNat : Int) : ℚ) := by
        rw [div_eq_iff (ne_of_gt hqu)]
        conv_lhs => rw [two_zpow_sub_int hs]
        push_cast
        ring
      unfold fl
      rw [hk, round_even_int, ← hk]
      field_simp
    · push_neg at hs
      have hlo := binade_le_abs ((m : ℚ) * 2 ^ e) (by omega)
      rw [abs_mul, abs_of_pos hq] at hlo
      have h0 : |(m : ℚ)| * 2 ^ e ≤ 2 ^ (e + 53) := by
        rw [← e53]; exact mul_le_mul_of_nonneg_right hmq hq.le
      have hle : ulp_exponent ((m : ℚ) * 2 ^ e) + 52 ≤ e + 53 :=
        two_zpow_le_iff (le_trans hlo h0)
      have hu : ulp_exponent ((m : ℚ) * 2 ^ e) = e + 1 := by omega
      rw [hu, show e + 1 + 52 = e + 53 by ring, ← e53] at hlo
      have h3 : (2 : ℚ) ^ (53 : Nat) ≤ |(m : ℚ)| := le_of_mul_le_mul_right hlo hq
      have hmeq : |(m : ℚ)| = 2 ^ (53 : Nat) := le_antisymm hmq h3
      have hk : (m : ℚ) * 2 ^ e / 2 ^ (e + 1) = ((m / 2 : Int) : ℚ) := by
        have hmz : |m| = 2 ^ 53 := by
          have : ((|m| : Int) : ℚ) = ((2 ^ 53 : Int) : ℚ) := by
            push_cast; exact hmeq
          exact_mod_cast this
        have hdvd : (2 : Int) ∣ m := by
          rcases abs_choice m with h | h
          · rw [h] at hmz; rw [hmz]; norm_num
          · rw [h] at hmz
            have : m = -(2 ^ 53) := by omega
            rw [this]; norm_num
        rw [Int.cast_div hdvd (by norm_num), two_zpow_succ]
        field_simp
        ring
      unfold fl
      rw [hu, hk, round_even_int, ← hk]
      field_simp

/-- An integer of at most 53 bits is a double. -/
theorem fl_int (n : Int) (h : |n| ≤ 2 ^ 53) : fl (n : ℚ) = n := by
  have := fl_exact n 0 (by norm_num) h
  simpa using this

theorem fl_one : fl 1 = 1 := by
  simpa using fl_int 1 (by norm_num)

theorem fl_half : fl (1 / 2) = 1 / 2 := by
  have := fl_exact 1 (-1) (by norm_num) (by norm_num)
  norm_num at this
  simpa using this

/-- The result of a rounding is a multiple of its last place with at most 53 bits. -/
theorem fl_mantissa (x : ℚ) :
    |round_even (x / 2 ^ ulp_exponent x)| ≤ 2 ^ 53 := by
  have hq := two_zpow_pos (ulp_exponent x)
  have hb := abs_lt_binade x
  have e2 : (2 : ℚ) ^ (ulp_exponent x + 53) = ((2 ^ 53 : Int) : ℚ) * 2 ^ ulp_exponent x := by
    rw [zpow_add₀ (by norm_num : (2 : ℚ) ≠ 0)]
    push_cast
    rw [mul_comm]
    norm_num
  rw [e2, abs_lt] at hb
  have h1 : x / 2 ^ ulp_exponent x ≤ ((2 ^ 53 : Int) : ℚ) := by
    rw [div_le_iff₀ hq]; exact hb.2.le
  have h2 : ((-(2 ^ 53) : Int) : ℚ) ≤ x / 2 ^ ulp_exponent x := by
    rw [le_div_iff₀ hq]; push_cast; push_cast at hb; linarith [hb.1]
  have r1 := round_even_mono h1
  have r2 := round_even_mono h2
  rw [round_even_int] at r1 r2
  rw [abs_le]
  exact ⟨r2, r1⟩

/-- Rounding is idempotent: the result of an operation is a double. -/
theorem fl_fl (x : ℚ) : fl (fl x) = fl x := by
  unfold fl
  exact fl_exact _ _ (ulp_exponent_ge x) (fl_mantissa x)

/-- The value of `fl` at a tie `(m + 1/2) * 2^e`: the even one of `m` and `m + 1`. -/
theorem fl_eval_tie (x : ℚ) (e m : Int) (he : -1074 ≤ e)
    (hlo : e = -1074 ∨ (2 : ℚ) ^ (e + 52) ≤ |x|)
    (hhi : |x| < (2 : ℚ) ^ (e + 53))
    (hm : x = (m + 1 / 2) * 2 ^ e) :
    fl x = (if m % 2 = 0 then (m : ℚ) else (m : ℚ) + 1) * 2 ^ e := by
  have hq := two_zpow_pos e
  have hx : x ≠ 0 := by
    rw [hm]
    intro h
    rcases mul_eq_zero.mp h with h1 | h1
    · have h2 : ((2 * m + 1 : Int) : ℚ) = 0 := by push_cast; linarith
      have : 2 * m + 1 = 0 := by exact_mod_cast h2
      omega
    · exact absurd h1 (ne_of_gt hq)
  have hexp : ulp_exponent x = e := by
    rcases hlo with h | h
    · rw [h] at hhi ⊢
      exact ulp_exponent_small x (by norm_num at hhi ⊢; exact hhi)
    · by_cases he2 : e = -1074
      · rw [he2] at hhi ⊢
        exact ulp_exponent_small x (by norm_num at hhi ⊢; exact hhi)
      · have := ulp_exponent_normal x (e + 52) (by omega) h (by
          have e3 : e + 52 + 1 = e + 53 := by ring
          rw [e3]; exact hhi)
        rw [this]; ring
  have hd : x / 2 ^ e = (m : ℚ) + 1 / 2 := by
    rw [hm]; field_simp
    ring
  have hf : ⌊(m : ℚ) + 1 / 2⌋ = m := by
    rw [Int.floor_eq_iff]; constructor <;> linarith
  unfold fl
  rw [hexp, hd]
  unfold round_even
  rw [hf]
  rw [if_neg (by linarith), if_neg (by linarith)]
  split_ifs <;> push_cast <;> ring

namespace Double

theorem to_int_of_range {x : Int} (h1 : -2147483648 ≤ x) (h2 : x ≤ 2147483647) :
    Double.to_int x = x := by
  unfold Double.to_int
  rw [if_pos ⟨h1, h2⟩]

theorem to_int_ge (x : Int) : -2147483648 ≤ Double.to_int x := by
  unfold Double.to_int
  split_ifs with h
  · exact h.1
  · exact le_refl _

theorem to_int_le (x : Int) : Double.to_int x ≤ 2147483647 := by
  unfold Double.to_int
  split_ifs with h
  · exact h.2
  · norm_num

end Double

theorem wrap32_of_range {n : Int} (h1 : -2147483648 ≤ n) (h2 : n ≤ 2147483647) :
    wrap32 n = n := by
  unfold wrap32
  rw [Int.emod_eq_of_lt (by omega) (by omega)]
  ring

theorem wrap32_ge (n : Int) : -2147483648 ≤ wrap32 n := by
  unfold wrap32
  have := Int.emod_nonneg (n + 2147483648) (by norm_num : (4294967296 : Int) ≠ 0)
  omega

theorem wrap32_le (n : Int) : wrap32 n ≤ 2147483647 := by
  unfold wrap32
  have := Int.emod_lt_of_pos (n + 2147483648) (by norm_num : (0 : Int) < 4294967296)
  omega

/-- Subtracting what was added takes a wrapped sum back: `wrap32` works modulo `2^32`. -/
theorem wrap32_add_sub (p m : Int) (h1 : -2147483648 ≤ p) (h2 : p ≤ 2147483647) :
    wrap32 (wrap32 (p + m) - m) = p := by
  unfold wrap32
  omega

/-! ### The doubles of some decimal literals -/

theorem fl_one_tenth : fl (1 / 10) = 3602879701896397 / 36028797018963968 := by
  rw [fl_eval (1 / 10) (-56) (7205759403792794) (by norm_num)
    (Or.inr (by norm_num [abs_of_pos])) (by norm_num [abs_of_pos]) (by norm_num [abs_lt])]
  norm_num

theorem fl_one_hundredth : fl (1 / 100) = 5764607523034235 / 576460752303423488 := by
  rw [fl_eval (1 / 100) (-59) (5764607523034235) (by norm_num)
    (Or.inr (by norm_num [abs_of_pos])) (by norm_num [abs_of_pos]) (by norm_num [abs_lt])]
  norm_num

theorem Double.finite_iff (x : ℚ) :
    Double.finite x ↔ -((2 ^ 53 - 1) * 2 ^ 971) ≤ x ∧ x ≤ (2 ^ 53 - 1) * 2 ^ 971 := by
  unfold Double.finite Double.max_value
  exact abs_le

/-- Every value of at most `2^1000` in magnitude is in the range of the finite
doubles. -/
theorem Double.finite_of_abs_le {x : ℚ} (h : |x| ≤ 2 ^ 1000) : Double.finite x := by
  unfold Double.finite Double.max_value
  refine le_trans h ?_
  norm_num

/-! ### Error bounds for chains of operations -/

/-- The rounding error of a value of magnitude at most `B`. -/
theorem fl_close (x B : ℚ) (h : |x| ≤ B) :
    |fl x - x| ≤ B / 2 ^ (53 : Nat) + 2 ^ (-1075 : Int) := by
  have h1 := fl_err_abs x
  have h2 : |x| / 2 ^ (53 : Nat) ≤ B / 2 ^ (53 : Nat) :=
    div_le_div_of_nonneg_right h (by positivity)
  linarith

theorem tiny_le : (2 : ℚ) ^ (-1075 : Int) ≤ 1 / 2 ^ (200 : Nat) := by
  have h : (2 : ℚ) ^ (-1075 : Int) ≤ 2 ^ (-200 : Int) := two_zpow_le (by norm_num)
  have e : (2 : ℚ) ^ (-200 : Int) = 1 / 2 ^ (200 : Nat) := by
    rw [zpow_neg, one_div]; norm_cast
  rw [← e]; exact h

/-- The value of `fl(fl(X * fl(r)) + 1/2)`, the argument of `floor` in
`compute_size_from_uvs`, is within `2^-20` of the exact `X * r + 1/2` as long as the
product is at most `2^30` in magnitude. -/
theorem size_arg_close (X : Int) (r : ℚ) (hX : |X| ≤ 2 ^ 31)
    (hE : |(X : ℚ) * r| ≤ 2 ^ 30) :
    |Double.add (Double.mul (X : ℚ) (fl r)) (1 / 2) - ((X : ℚ) * r + 1 / 2)|
      ≤ 1 / 2 ^ (20 : Nat) := by
  unfold Double.add Double.mul
  have hη := tiny_le
  have hη0 := two_zpow_pos (-1075)
  have hXq : |(X : ℚ)| ≤ 2 ^ (31 : Nat) := by
    have : ((|X| : Int) : ℚ) ≤ ((2 ^ 31 : Int) : ℚ) := by exact_mod_cast hX
    simpa using this
  -- the rounded range
  have h1 := fl_err_abs r
  have h2 : |(X : ℚ) * fl r - (X : ℚ) * r| ≤
      |(X : ℚ) * r| / 2 ^ (53 : Nat) + 2 ^ (31 : Nat) * 2 ^ (-1075 : Int) := by
    rw [← mul_sub, abs_mul]
    calc |(X : ℚ)| * |fl r - r|
        ≤ |(X : ℚ)| * (|r| / 2 ^ (53 : Nat) + 2 ^ (-1075 : Int)) :=
          mul_le_mul_of_nonneg_left h1 (abs_nonneg _)
      _ = |(X : ℚ) * r| / 2 ^ (53 : Nat) + |(X : ℚ)| * 2 ^ (-1075 : Int) := by
          rw [abs_mul]; ring
      _ ≤ |(X : ℚ) * r| / 2 ^ (53 : Nat) + 2 ^ (31 : Nat) * 2 ^ (-1075 : Int) := by
          have := mul_le_mul_of_nonneg_right hXq hη0.le
          linarith
  have h2b : |(X : ℚ) * fl r - (X : ℚ) * r| ≤ 1 / 2 ^ (22 : Nat) := by
    have e1 : |(X : ℚ) * r| / 2 ^ (53 : Nat) ≤ 2 ^ 30 / 2 ^ (53 : Nat) :=
      div_le_div_of_nonneg_right hE (by positivity)
    have e2 : (2 : ℚ) ^ (31 : Nat) * 2 ^ (-1075 : Int) ≤ 2 ^ (31 : Nat) * (1 / 2 ^ (200 : Nat)) :=
      mul_le_mul_of_nonneg_left hη (by positivity)
    have e3 : (2 : ℚ) ^ 30 / 2 ^ (53 : Nat) + 2 ^ (31 : Nat) * (1 / 2 ^ (200 : Nat))
        ≤ 1 / 2 ^ (22 : Nat) := by norm_num
    linarith
  have h3 : |(X : ℚ) * fl r| ≤ 2 ^ (31 : Nat) := by
    have := abs_sub_abs_le_abs_sub ((X : ℚ) * fl r) ((X : ℚ) * r)
    have e : (2 : ℚ) ^ 30 + 1 / 2 ^ (22 : Nat) ≤ 2 ^ (31 : Nat) := by norm_num
    linarith
  have h4 := fl_close _ _ h3
  have h5 : |fl ((X : ℚ) * fl r) + 1 / 2| ≤ 2 ^ (31 : Nat) + 1 := by
    have a1 := abs_add (fl ((X : ℚ) * fl r) - (X : ℚ) * fl r) ((X : ℚ) * fl r)
    have a2 := abs_add (fl ((X : ℚ) * fl r)) (1 / 2)
    rw [sub_add_cancel] at a1
    have e : |(1 / 2 : ℚ)| = 1 / 2 := by norm_num
    rw [e] at a2
    have e2 : (2 : ℚ) ^ (31 : Nat) / 2 ^ (53 : Nat) + 1 / 2 ^ (200 : Nat) + 2 ^ (31 : Nat) + 1 / 2
        ≤ 2 ^ (31 : Nat) + 1 := by norm_num
    linarith
  have h6 := fl_close _ _ h5
  have e : fl (fl ((X : ℚ) * fl r) + 1 / 2) - ((X : ℚ) * r + 1 / 2) =
      (fl (fl ((X : ℚ) * fl r) + 1 / 2) - (fl ((X : ℚ) * fl r) + 1 / 2)) +
      (fl ((X : ℚ) * fl r) - (X : ℚ) * fl r) + ((X : ℚ) * fl r - (X : ℚ) * r) := by ring
  rw [e]
  have t1 := abs_add (fl (fl ((X : ℚ) * fl r) + 1 / 2) - (fl ((X : ℚ) * fl r) + 1 / 2) +
      (fl ((X : ℚ) * fl r) - (X : ℚ) * fl r)) ((X : ℚ) * fl r - (X : ℚ) * r)
  have t2 := abs_add (fl (fl ((X : ℚ) * fl r) + 1 / 2) - (fl ((X : ℚ) * fl r) + 1 / 2))
      (fl ((X : ℚ) * fl r) - (X : ℚ) * fl r)
  have e4 : ((2 : ℚ) ^ (31 : Nat) + 1) / 2 ^ (53 : Nat) + 1 / 2 ^ (200 : Nat) +
      (2 ^ (31 : Nat) / 2 ^ (53 : Nat) + 1 / 2 ^ (200 : Nat)) + 1 / 2 ^ (22 : Nat)
        ≤ 1 / 2 ^ (20 : Nat) := by norm_num
  linarith

/-- The margin test of `compute_size_from_uvs`, `(double)margin / (double)size > 0.10`,
decides the exact comparison `margin / size > 1/10` for every size from 4 up to
`2^31`: the quotients just above one tenth are farther from it than the rounding. -/
theorem margin_test_exact (m s : Int) (hs : 4 ≤ s) (hs2 : s ≤ 2 ^ 31) :
    Double.div (m : ℚ) (s : ℚ) > fl (1 / 10) ↔ (m : ℚ) / (s : ℚ) > 1 / 10 := by
  have hs0 : (0 : ℚ) < (s : ℚ) := by exact_mod_cast (by omega : (0 : Int) < s)
  have hsq : (s : ℚ) ≤ 2147483648 := by exact_mod_cast hs2
  unfold Double.div
  constructor
  · intro h
    by_contra hc
    push_neg at hc
    exact absurd (fl_mono hc) (not_le.mpr h)
  · intro h
    rw [gt_iff_lt, lt_div_iff₀ hs0] at h
    have h1 : (s : ℚ) < 10 * (m : ℚ) := by linarith
    have h2 : s < 10 * m := by exact_mod_cast h1
    have h3 : (s : ℚ) + 1 ≤ 10 * (m : ℚ) := by exact_mod_cast (by omega : s + 1 ≤ 10 * m)
    have h4 : (1 : ℚ) / 10 + 1 / 21474836480 ≤ (m : ℚ) / (s : ℚ) := by
      rw [le_div_iff₀ hs0]
      have : (1 : ℚ) / 21474836480 * (s : ℚ) ≤ 1 / 10 := by linarith
      linarith
    have h5 := fl_mono h4
    have h6 : fl (1 / 10 + 1 / 21474836480) = 7205759407148237 / 72057594037927936 := by
      rw [fl_eval (1 / 10 + 1 / 21474836480) (-56) (7205759407148237) (by norm_num)
        (Or.inr (by norm_num [abs_of_pos])) (by norm_num [abs_of_pos]) (by norm_num [abs_lt])]
      norm_num
    rw [h6] at h5
    rw [fl_one_tenth]
    refine lt_of_lt_of_le ?_ h5
    norm_num

@[simp] theorem Heap.set_placement_placements (w : Heap) (p : Nat) (v : TexturePlacement) (q : Nat) :
    (w.set_placement p v).placements q = if q = p then v else w.placements q := by
  simp [Heap.set_placement, Function.update_apply]

@[simp] theorem Heap.set_placement_images (w : Heap) (p : Nat) (v : TexturePlacement) :
    (w.set_placement p v).images = w.images := rfl

@[simp] theorem Heap.set_image_images (w : Heap) (a : Nat) (v : PaletteImage) (b : Nat) :
    (w.set_image a v).images b = if b = a then v else w.images b := by
  simp [Heap.set_image, Function.update_apply]

@[simp] theorem Heap.set_image_placements (w : Heap) (a : Nat) (v : PaletteImage) :
    (w.set_image a v).placements = w.placements := rfl

theorem force_replace_placements (w : Heap) (p q : Nat) :
    (TexturePlacement.force_replace w p).placements q =
      if q = p ∧ (w.placements p)._image ≠ none then
        { w.placements p with _image := none, _omit_reason := OmitReason.OR_working }
      else w.placements q := by
  unfold TexturePlacement.force_replace
  cases h : (w.placements p)._image with
  | none => simp
  | some a =>
    simp only [PaletteImage.unplace, TexturePlacement.is_placed, h]
    by_cases hq : q = p <;> simp [hq]

theorem force_replace_images (w : Heap) (p b : Nat) :
    (TexturePlacement.force_replace w p).images b =
      if (w.placements p)._image = some b then
        { w.images b with
          _placements := (w.images b)._placements.filter fun q => decide (q ≠ p)
          _cleared_regions := (w.images b)._cleared_regions ++
            [ClearedRegion.of_placement (w.placements p)] }
      else w.images b := by
  unfold TexturePlacement.force_replace
  cases h : (w.placements p)._image with
  | none => simp
  | some a =>
    simp only [PaletteImage.unplace, TexturePlacement.is_placed, h]
    by_cases hb : b = a
    · subst hb; simp
    · have : a ≠ b := fun h => hb h.symm
      simp [hb, this]

theorem force_replace_image (w : Heap) (p q : Nat) :
    ((TexturePlacement.force_replace w p).placements q)._image =
      if q = p then none else (w.placements q)._image := by
  rw [force_replace_placements]
  by_cases hq : q = p
  · subst hq
    by_cases h : (w.placements q)._image = none <;> simp [h]
  · simp [hq]

theorem force_replace_placed (w : Heap) (p q : Nat) :
    ((TexturePlacement.force_replace w p).placements q)._placed = (w.placements q)._placed := by
  rw [force_replace_placements]
  split
  · next h => rw [h.1]
  · rfl

theorem force_replace_list (w : Heap) (p b : Nat) :
    ((TexturePlacement.force_replace w p).images b)._placements =
      if (w.placements p)._image = some b then
        (w.images b)._placements.filter fun q => decide (q ≠ p)
      else (w.images b)._placements := by
  rw [force_replace_images]; split <;> rfl

theorem force_replace_x_size (w : Heap) (p b : Nat) :
    ((TexturePlacement.force_replace w p).images b)._x_size = (w.images b)._x_size := by
  rw [force_replace_images]; split <;> rfl

theorem force_replace_y_size (w : Heap) (p b : Nat) :
    ((TexturePlacement.force_replace w p).images b)._y_size = (w.images b)._y_size := by
  rw [force_replace_images]; split <;> rfl

theorem force_replace_mem (w : Heap) (p b q : Nat)
    (h : q ∈ ((TexturePlacement.force_replace w p).images b)._placements) :
    q ∈ (w.images b)._placements := by
  rw [force_replace_list] at h
  split at h
  · exact (List.mem_filter.mp h).1
  · exact h

theorem AtlasInv.force_replace {P : TexturePlacement → Prop} {ex : Nat → Prop} {w : Heap}
    (hP : PlacementStable P) (h : AtlasInv P ex w) (p : Nat) :
    AtlasInv P ex (TexturePlacement.force_replace w p) := by
  have hne : ∀ b q, q ∈ ((TexturePlacement.force_replace w p).images b)._placements →
      q ≠ p := by
    intro b q hq hqp
    subst hqp
    have h1 := h.listed_image b q (force_replace_mem w q b q hq)
    rw [force_replace_list] at hq
    simp [h1] at hq
  refine ⟨?_, ?_, ?_, ?_, ?_, ?_⟩
  · intro b q hq
    rw [force_replace_image, if_neg (hne b q hq)]
    exact h.listed_image b q (force_replace_mem w p b q hq)
  · intro b q hb hq
    rw [force_replace_image] at hq
    by_cases hqp : q = p
    · simp [hqp] at hq
    · rw [if_neg hqp] at hq
      have := h.image_listed b q hb hq
      rw [force_replace_list]
      split
      · exact List.mem_filter.mpr ⟨this, by simpa using hqp⟩
      · exact this
  · intro b
    rw [force_replace_list]
    split
    · exact (h.nodup b).filter _
    · exact h.nodup b
  · intro b
    unfold Heap.no_overlap
    simp only [force_replace_placed]
    rw [force_replace_list]
    split
    · exact (h.disjoint b).filter _
    · exact h.disjoint b
  · intro b q hq
    rw [force_replace_placed, force_replace_x_size, force_replace_y_size]
    exact h.bounds b q (force_replace_mem w p b q hq)
  · intro q
    rw [force_replace_placements]
    split
    · exact hP.replaced _ (h.pred p)
    · exact h.pred q

theorem find_overlap_none_iff (ps : Nat → TexturePlacement) (img : PaletteImage)
    (x y x_size y_size : Int) :
    PaletteImage.find_overlap ps img x y x_size y_size = none ↔
      ∀ q ∈ img._placements,
        ¬ ((ps q).is_placed = true ∧ (ps q).intersects x y x_size y_size = true) := by
  simp [PaletteImage.find_overlap, List.find?_eq_none]

theorem intersects_iff (t : TexturePlacement) (x y x_size y_size : Int) :
    t.intersects x y x_size y_size = true ↔
      t.is_placed = true ∧ x < t._placed._x + t._placed._x_size ∧
        t._placed._x < x + x_size ∧ y < t._placed._y + t._placed._y_size ∧
        t._placed._y < y + y_size := by
  unfold TexturePlacement.intersects
  by_cases h : t.is_placed = true
  · simp [h, not_le, and_assoc]
  · simp [h]

theorem find_hole_row_found (ps : Nat → TexturePlacement) (img : PaletteImage)
    (y x_size y_size : Int) (fuel : Nat) (x next_y x1 : Int)
    (h : PaletteImage.find_hole_row ps img y x_size y_size fuel x next_y = RowScan.found x1) :
    x ≤ x1 ∧ x1 + x_size ≤ img._x_size ∧
      PaletteImage.find_overlap ps img x1 y x_size y_size = none := by
  induction fuel generalizing x next_y with
  | zero => simp [PaletteImage.find_hole_row] at h
  | succ n ih =>
    unfold PaletteImage.find_hole_row at h
    split at h
    · next hx =>
      split at h
      · next hov =>
        injection h with h
        subst h
        exact ⟨le_refl _, hx, hov⟩
      · next ov hov =>
        simp only at h
        split at h
        · next hlt =>
          have := ih _ _ h
          exact ⟨by omega, this.2⟩
        · cases h
    · cases h

theorem find_hole_rows_found (ps : Nat → TexturePlacement) (img : PaletteImage)
    (x_size y_size : Int) (fuel : Nat) (y x1 y1 : Int)
    (h : PaletteImage.find_hole_rows ps img x_size y_size fuel y = HoleScan.found x1 y1) :
    y ≤ y1 ∧ 0 ≤ x1 ∧ x1 + x_size ≤ img._x_size ∧ y1 + y_size ≤ img._y_size ∧
      PaletteImage.find_overlap ps img x1 y1 x_size y_size = none := by
  induction fuel generalizing y with
  | zero => simp [PaletteImage.find_hole_rows] at h
  | succ n ih =>
    unfold PaletteImage.find_hole_rows at h
    split at h
    · next hy =>
      split at h
      · next x hrow =>
        injection h with hx hy1
        subst hx; subst hy1
        have := find_hole_row_found _ _ _ _ _ _ _ _ _ hrow
        exact ⟨le_refl _, this.1, this.2.1, hy, this.2.2⟩
      · next ny hrow =>
        split at h
        · next hlt =>
          have := ih _ h
          exact ⟨by omega, this.2⟩
        · cases h
      · cases h
      · cases h
    · cases h

theorem find_hole_some (ps : Nat → TexturePlacement) (img : PaletteImage)
    (x_size y_size x y : Int)
    (h : PaletteImage.find_hole ps img x_size y_size = some (x, y)) :
    0 ≤ x ∧ 0 ≤ y ∧ x + x_size ≤ img._x_size ∧ y + y_size ≤ img._y_size ∧
      PaletteImage.find_overlap ps img x y x_size y_size = none := by
  unfold PaletteImage.find_hole at h
  split at h
  · next x1 y1 hs =>
    injection h with h
    injection h with hx hy
    subst hx; subst hy
    have := find_hole_rows_found _ _ _ _ _ _ _ _ hs
    exact ⟨this.2.1, this.1, this.2.2⟩
  · cases h

/-- The three outcomes of `place`: an assertion stops it (result `true`, nothing changes),
no hole is found (result `false`, nothing changes), or the placement is stored at the
hole and appended to the list. -/
theorem place_cases (w : Heap) (a p : Nat) :
    PaletteImage.place w a p = (w, true) ∨ PaletteImage.place w a p = (w, false) ∨
    ∃ x y, (w.placements p)._size_known = true ∧ (w.placements p)._image = none ∧
      PaletteImage.find_hole w.placements (w.images a) (w.placements p)._position._x_size
        (w.placements p)._position._y_size = some (x, y) ∧
      PaletteImage.place w a p =
        ((w.set_placement p
            { w.placements p with
              _image := some a, _is_filled := false,
              _position := { (w.placements p)._position with _x := x, _y := y },
              _placed := { (w.placements p)._position with _x := x, _y := y },
              _omit_reason := OmitReason.OR_none }).set_image a
          { w.images a with _placements := (w.images a)._placements ++ [p] }, true) := by
  unfold PaletteImage.place
  by_cases hk : (w.placements p)._size_known = true
  · cases hi : (w.placements p)._image with
    | some b => left; simp [hk, TexturePlacement.is_placed, hi]
    | none =>
      have hgx : (w.placements p).get_x_size = (w.placements p)._position._x_size := by
        simp [TexturePlacement.get_x_size, hk]
      have hgy : (w.placements p).get_y_size = (w.placements p)._position._y_size := by
        simp [TexturePlacement.get_y_size, hk]
      rw [hgx, hgy]
      cases hf : PaletteImage.find_hole w.placements (w.images a)
          (w.placements p)._position._x_size (w.placements p)._position._y_size with
      | none => right; left; simp [hk, TexturePlacement.is_placed, hi]
      | some xy =>
        obtain ⟨x, y⟩ := xy
        right; right
        refine ⟨x, y, hk, rfl, rfl, ?_⟩
        simp [TexturePlacement.place_at, TexturePlacement.is_placed, hi, hk]
  · left; simp [hk]

theorem AtlasInv.place {P : TexturePlacement → Prop} {ex : Nat → Prop} {w : Heap}
    (hP : PlacementStable P) (h : AtlasInv P ex w) (a p : Nat) :
    AtlasInv P ex (PaletteImage.place w a p).1 := by
  rcases place_cases w a p with h1 | h1 | ⟨x, y, hk, hi, hf, h1⟩
  · rw [h1]; exact h
  · rw [h1]; exact h
  · rw [h1]
    have hfs := find_hole_some _ _ _ _ _ _ hf
    have hpn : ∀ b, p ∉ (w.images b)._placements := by
      intro b hb
      have := h.listed_image b p hb
      rw [hi] at this
      cases this
    have hov := (find_overlap_none_iff _ _ _ _ _ _).mp hfs.2.2.2.2
    refine ⟨?_, ?_, ?_, ?_, ?_, ?_⟩
    · intro b q hq
      simp only [Heap.set_image_images, Heap.set_image_placements,
        Heap.set_placement_placements, Heap.set_placement_images] at hq ⊢
      by_cases hb : b = a
      · subst hb
        simp only [if_true, List.mem_append, List.mem_singleton] at hq
        rcases hq with hq | hq
        · have hqp : q ≠ p := fun e => hpn b (e ▸ hq)
          simp only [if_neg hqp]
          exact h.listed_image b q hq
        · simp [hq]
      · simp only [if_neg hb] at hq
        have hqp : q ≠ p := fun e => hpn b (e ▸ hq)
        simp only [if_neg hqp]
        exact h.listed_image b q hq
    · intro b q hb hq
      simp only [Heap.set_image_images, Heap.set_image_placements,
        Heap.set_placement_placements, Heap.set_placement_images] at hq ⊢
      by_cases hqp : q = p
      · subst hqp
        simp only [if_true] at hq
        injection hq with hq
        subst hq
        simp
      · simp only [if_neg hqp] at hq
        have := h.image_listed b q hb hq
        by_cases hba : b = a
        · subst hba; simp [this]
        · simp [hba, this]
    · intro b
      simp only [Heap.set_image_images, Heap.set_placement_images]
      by_cases hb : b = a
      · subst hb
        simp only [if_true]
        exact List.Nodup.append (h.nodup b) (List.nodup_singleton p)
          (by simpa using hpn b)
      · simp only [if_neg hb]; exact h.nodup b
    · intro b
      unfold Heap.no_overlap
      simp only [Heap.set_image_images, Heap.set_image_placements,
        Heap.set_placement_placements, Heap.set_placement_images]
      have hold : ∀ b, List.Pairwise (fun p_1 q =>
          ¬ (if p_1 = p then
              ({ w.placements p with
                _image := some a, _is_filled := false,
                _position := { (w.placements p)._position with _x := x, _y := y },
                _placed := { (w.placements p)._position with _x := x, _y := y },
                _omit_reason := OmitReason.OR_none } : TexturePlacement)
            else w.placements p_1)._placed.overlaps
            (if q = p then
              ({ w.placements p with
                _image := some a, _is_filled := false,
                _position := { (w.placements p)._position with _x := x, _y := y },
                _placed := { (w.placements p)._position with _x := x, _y := y },
                _omit_reason := OmitReason.OR_none } : TexturePlacement)
            else w.placements q)._placed) (w.images b)._placements := by
        intro b
        refine List.Pairwise.imp_of_mem ?_ (h.disjoint b)
        intro q1 q2 hq1 hq2 hr
        have e1 : q1 ≠ p := fun e => hpn b (e ▸ hq1)
        have e2 : q2 ≠ p := fun e => hpn b (e ▸ hq2)
        simpa only [if_neg e1, if_neg e2] using hr
      by_cases hb : b = a
      · subst hb
        simp only [if_true]
        rw [List.pairwise_append]
        refine ⟨hold b, List.pairwise_singleton _ _, ?_⟩
        intro q hq r hr
        rw [List.mem_singleton] at hr
        subst hr
        have e1 : q ≠ r := fun e => hpn b (e ▸ hq)
        simp only [if_neg e1, if_true]
        have hq1 := h.listed_image b q hq
        have hno := hov q hq
        rw [intersects_iff] at hno
        simp only [TexturePlacement.is_placed, hq1, Option.isSome_some, true_and,
          not_true_eq_false, not_false_eq_true] at hno
        intro ho
        apply hno
        unfold TexturePosition.overlaps at ho
        simp only at ho
        exact ⟨ho.2.1, ho.1, ho.2.2.2, ho.2.2.1⟩
      · simp only [if_neg hb]; exact hold b
    · intro b q hq
      simp only [Heap.set_image_images, Heap.set_image_placements,
        Heap.set_placement_placements, Heap.set_placement_images] at hq ⊢
      by_cases hb : b = a
      · subst hb
        simp only [if_true, List.mem_append, List.mem_singleton] at hq ⊢
        rcases hq with hq | hq
        · have hqp : q ≠ p := fun e => hpn b (e ▸ hq)
          simp only [if_neg hqp]
          exact h.bounds b q hq
        · subst hq
          simp only [if_true]
          exact ⟨hfs.1, hfs.2.1, hfs.2.2.1, hfs.2.2.2.1⟩
      · simp only [if_neg hb] at hq ⊢
        have hqp : q ≠ p := fun e => hpn b (e ▸ hq)
        simp only [if_neg hqp]
        exact h.bounds b q hq
    · intro q
      simp only [Heap.set_image_placements, Heap.set_placement_placements]
      split
      · exact hP.placed _ _ _ (h.pred p)
      · exact h.pred q

theorem AtlasInv.foldl_force_replace {P : TexturePlacement → Prop} {ex : Nat → Prop}
    (hP : PlacementStable P) (l : List Nat) {w : Heap} (h : AtlasInv P ex w) :
    AtlasInv P ex (l.foldl TexturePlacement.force_replace w) := by
  induction l generalizing w with
  | nil => exact h
  | cons p l ih => exact ih (h.force_replace hP p)

theorem foldl_force_replace_image (l : List Nat) (w : Heap) (q : Nat) :
    ((l.foldl TexturePlacement.force_replace w).placements q)._image =
      if q ∈ l then none else (w.placements q)._image := by
  induction l generalizing w with
  | nil => simp
  | cons p l ih =>
    rw [List.foldl_cons, ih, force_replace_image]
    by_cases h1 : q ∈ l
    · simp [h1]
    · by_cases h2 : q = p
      · simp [h2]
      · simp [h1, h2]

theorem AtlasInv.clear_list {P : TexturePlacement → Prop} {ex : Nat → Prop} {w : Heap}
    (h : AtlasInv P ex w) (a : Nat) (v : PaletteImage) (hv : v._placements = []) :
    AtlasInv P (fun b => ex b ∨ b = a) (w.set_image a v) := by
  refine ⟨?_, ?_, ?_, ?_, ?_, ?_⟩
  · intro b q hq
    simp only [Heap.set_image_images, Heap.set_image_placements] at hq ⊢
    by_cases hb : b = a
    · simp [hb, hv] at hq
    · rw [if_neg hb] at hq; exact h.listed_image b q hq
  · intro b q hb hq
    simp only [Heap.set_image_images, Heap.set_image_placements] at hq ⊢
    have hba : b ≠ a := fun e => hb (Or.inr e)
    rw [if_neg hba]
    exact h.image_listed b q (fun e => hb (Or.inl e)) hq
  · intro b
    simp only [Heap.set_image_images]
    by_cases hb : b = a
    · simp [hb, hv]
    · rw [if_neg hb]; exact h.nodup b
  · intro b
    unfold Heap.no_overlap
    simp only [Heap.set_image_images, Heap.set_image_placements]
    by_cases hb : b = a
    · simp [hb, hv]
    · rw [if_neg hb]; exact h.disjoint b
  · intro b q hq
    simp only [Heap.set_image_images, Heap.set_image_placements] at hq ⊢
    by_cases hb : b = a
    · simp [hb, hv] at hq
    · rw [if_neg hb] at hq ⊢; exact h.bounds b q hq
  · intro q
    exact h.pred q

theorem AtlasInv.restore {P : TexturePlacement → Prop} {ex ex2 : Nat → Prop} {w : Heap}
    (h : AtlasInv P ex2 w)
    (hno : ∀ b, ex2 b → ¬ ex b → ∀ q, (w.placements q)._image ≠ some b) :
    AtlasInv P ex w := by
  refine ⟨h.listed_image, ?_, h.nodup, h.disjoint, h.bounds, h.pred⟩
  intro b q hb hq
  by_cases hb2 : ex2 b
  · exact absurd hq (hno b hb2 hb q)
  · exact h.image_listed b q hb2 hq

theorem AtlasInv.place_while_packed {P : TexturePlacement → Prop} {ex : Nat → Prop}
    (hP : PlacementStable P) (a : Nat) (l : List Nat) {w : Heap} (h : AtlasInv P ex w) :
    AtlasInv P ex (PaletteImage.place_while_packed a w l).1 := by
  induction l generalizing w with
  | nil => exact h
  | cons p l ih =>
    unfold PaletteImage.place_while_packed
    have hp := h.place hP a p
    split
    · next w1 heq => rw [heq] at hp; exact ih hp
    · next w1 heq => rw [heq] at hp; exact hp

theorem AtlasInv.place_each {P : TexturePlacement → Prop} {ex : Nat → Prop}
    (hP : PlacementStable P) (a : Nat) (l : List Nat) {w : Heap} (h : AtlasInv P ex w) :
    AtlasInv P ex (PaletteImage.place_each a w l).1 := by
  induction l generalizing w with
  | nil => exact h
  | cons p l ih =>
    unfold PaletteImage.place_each
    exact ih (h.place hP a p)

/-- Emptying the list of image `a` and unplacing every placement that pointed at it (the
`swap` / `force_replace` idiom of `resize_image` and `reset_image`) keeps the invariant. -/
theorem AtlasInv.swap_out {P : TexturePlacement → Prop} {w : Heap}
    (hP : PlacementStable P) (h : AtlasInv P (fun _ => False) w) (a : Nat) (v : PaletteImage)
    (hv : v._placements = []) (l : List Nat)
    (hl : ∀ q ∈ (w.images a)._placements, q ∈ l) :
    AtlasInv P (fun _ => False) (l.foldl TexturePlacement.force_replace (w.set_image a v)) ∧
    ∀ q, ((l.foldl TexturePlacement.force_replace (w.set_image a v)).placements q)._image
      ≠ some a := by
  have h1 := (h.clear_list a v hv).foldl_force_replace hP l
  have h2 : ∀ q, ((l.foldl TexturePlacement.force_replace (w.set_image a v)).placements q)._image
      ≠ some a := by
    intro q hq
    rw [foldl_force_replace_image] at hq
    by_cases hql : q ∈ l
    · simp [hql] at hq
    · rw [if_neg hql, Heap.set_image_placements] at hq
      exact hql (hl q (h.image_listed a q not_false hq))
  refine ⟨h1.restore ?_, h2⟩
  intro b hb _ q
  rcases hb with hb | hb
  · exact absurd hb not_false
  · rw [hb]; exact h2 q

theorem AtlasInv.list_eq_nil {P : TexturePlacement → Prop} {ex : Nat → Prop} {w : Heap}
    (h : AtlasInv P ex w) (a : Nat) (hno : ∀ q, (w.placements q)._image ≠ some a) :
    (w.images a)._placements = [] := by
  apply List.eq_nil_iff_forall_not_mem.mpr
  intro q hq
  exact hno q (h.listed_image a q hq)

/-- Changing fields of image `a` other than a list that is empty keeps the invariant. -/
theorem AtlasInv.set_empty_image {P : TexturePlacement → Prop} {w : Heap}
    (h : AtlasInv P (fun _ => False) w) (a : Nat) (v : PaletteImage)
    (hv : v._placements = []) (hno : ∀ q, (w.placements q)._image ≠ some a) :
    AtlasInv P (fun _ => False) (w.set_image a v) := by
  refine (h.clear_list a v hv).restore ?_
  intro b hb _ q
  rcases hb with hb | hb
  · exact absurd hb not_false
  · rw [hb]; exact hno q

theorem AtlasInv.resize_image {P : TexturePlacement → Prop} {w : Heap}
    (hP : PlacementStable P) (sort : (Nat → TexturePlacement) → List Nat → List Nat)
    (hsort : ∀ ps l, (sort ps l).Perm l)
    (h : AtlasInv P (fun _ => False) w) (a : Nat) (x_size y_size : Int) :
    AtlasInv P (fun _ => False) (PaletteImage.resize_image sort w a x_size y_size).1 := by
  unfold PaletteImage.resize_image
  simp only
  have hA := h.swap_out hP a
    { PaletteImage.remove_image (w.images a) with _cleared_regions := [], _placements := [] }
    rfl (sort w.placements (w.images a)._placements)
    (fun q hq => ((hsort _ _).mem_iff).mpr hq)
  have hB := hA.1.set_empty_image a
    { ((sort w.placements (w.images a)._placements).foldl TexturePlacement.force_replace
        (w.set_image a { PaletteImage.remove_image (w.images a) with
          _cleared_regions := [], _placements := [] })).images a with
      _x_size := x_size, _y_size := y_size }
    (hA.1.list_eq_nil a hA.2) hA.2
  have hC := hB.place_while_packed hP a (sort w.placements (w.images a)._placements)
  split
  · exact hC
  · exact AtlasInv.place_each hP a _
      (AtlasInv.swap_out hP hC a _ (by rfl) _ (fun q hq => hq)).1

theorem AtlasInv.reset_image {P : TexturePlacement → Prop} {w : Heap}
    (hP : PlacementStable P) (h : AtlasInv P (fun _ => False) w) (a : Nat) :
    AtlasInv P (fun _ => False) (PaletteImage.reset_image w a) := by
  unfold PaletteImage.reset_image
  simp only
  have h1 := h.foldl_force_replace hP (w.images a)._placements
  have h2 : ∀ q, (((w.images a)._placements.foldl TexturePlacement.force_replace
      w).placements q)._image ≠ some a := by
    intro q hq
    rw [foldl_force_replace_image] at hq
    by_cases hql : q ∈ (w.images a)._placements
    · simp [hql] at hq
    · rw [if_neg hql] at hq
      exact hql (h.image_listed a q not_false hq)
  exact h1.set_empty_image a _ rfl h2

theorem AtlasInv.run {P : TexturePlacement → Prop} {w : Heap}
    (hP : PlacementStable P) (sort : (Nat → TexturePlacement) → List Nat → List Nat)
    (hsort : ∀ ps l, (sort ps l).Perm l)
    (h : AtlasInv P (fun _ => False) w) (op : AtlasOp) :
    AtlasInv P (fun _ => False) (op.run sort w) := by
  cases op with
  | place a p => exact h.place hP a p
  | force_replace p => exact h.force_replace hP p
  | resize_image a x_size y_size => exact h.resize_image hP sort hsort a x_size y_size
  | reset_image a => exact h.reset_image hP a

theorem AtlasInv.run_ops {P : TexturePlacement → Prop}
    (hP : PlacementStable P) (sort : (Nat → TexturePlacement) → List Nat → List Nat)
    (hsort : ∀ ps l, (sort ps l).Perm l) (ops : List AtlasOp) {w : Heap}
    (h : AtlasInv P (fun _ => False) w) :
    AtlasInv P (fun _ => False) (w.run_ops sort ops) := by
  unfold Heap.run_ops
  induction ops generalizing w with
  | nil => exact h
  | cons op ops ih => exact ih (h.run hP sort hsort op)

theorem AtlasInv.of_empty_atlases {P : TexturePlacement → Prop} {ex : Nat → Prop} {w : Heap}
    (h : w.empty_atlases) (hp : ∀ p, P (w.placements p)) : AtlasInv P ex w := by
  refine ⟨?_, ?_, ?_, ?_, ?_, hp⟩
  · intro a p hp; rw [h.1 a] at hp; cases hp
  · intro a p _ hi; rw [h.2 p] at hi; cases hi
  · intro a; rw [h.1 a]; exact List.nodup_nil
  · intro a; unfold Heap.no_overlap; rw [h.1 a]; exact List.Pairwise.nil
  · intro a p hp; rw [h.1 a] at hp; cases hp

theorem AtlasInv.closed {P : TexturePlacement → Prop} {w : Heap}
    (h : AtlasInv P (fun _ => False) w) : w.closed := by
  intro a p
  by_cases hi : (w.placements p)._image = some a
  · rw [if_pos hi]
    exact List.count_eq_one_of_mem (h.nodup a) (h.image_listed a p not_false hi)
  · rw [if_neg hi]
    exact List.count_eq_zero_of_not_mem (fun hm => hi (h.listed_image a p hm))

theorem none_placed_stable :
    PlacementStable fun t => t._omit_reason = OmitReason.OR_none → t._image ≠ none := by
  constructor
  · intro t pos a _ _ h; cases h
  · intro t _ h; cases h

theorem true_stable : PlacementStable fun _ => True :=
  ⟨fun _ _ _ _ => trivial, fun _ _ => trivial⟩

/-- C1. In every state reached from empty atlases by `PaletteImage::place`,
`TexturePlacement::force_replace`, `PaletteImage::resize_image` and
`PaletteImage::reset_image`, no two entries of an atlas's placement list have intersecting
placed rectangles, and every placed rectangle lies within the atlas:
`0 <= x`, `0 <= y`, `x + x_size <= atlas x_size`, `y + y_size <= atlas y_size`.
(This holds for placements of any size, in particular of positive size.) -/
theorem C1_no_overlap_within_bounds
    (sort : (Nat → TexturePlacement) → List Nat → List Nat)
    (hsort : ∀ ps l, (sort ps l).Perm l)
    (w0 : Heap) (h0 : w0.empty_atlases) (ops : List AtlasOp) (a : Nat) :
    (w0.run_ops sort ops).no_overlap a ∧ (w0.run_ops sort ops).in_bounds a := by
  have h := (AtlasInv.of_empty_atlases h0 (fun _ => trivial)).run_ops
    true_stable sort hsort ops
  exact ⟨h.disjoint a, h.bounds a⟩

/-- Witness of C1 on scenario S2: placements 0 and 2 end on the 64x64 image, disjoint
and within bounds. -/
theorem C1_no_overlap_within_bounds_witness :
    ((S2_heap.run_ops keep_order S2_ops).images 0)._placements = [0, 2] ∧
    (S2_heap.run_ops keep_order S2_ops).no_overlap 0 ∧
    (S2_heap.run_ops keep_order S2_ops).in_bounds 0 :=
  ⟨by decide,
   C1_no_overlap_within_bounds keep_order (fun _ _ => List.Perm.refl _) S2_heap
    ⟨fun _ => rfl, fun _ => rfl⟩ S2_ops 0⟩

/-- C2. For every atlas and every requested size `w` by `h` (in particular every
`w > 0`, `h > 0`): if `PaletteImage::find_hole` returns true with position `(x, y)`, then
`0 <= x`, `0 <= y`, `x + w <= atlas x_size`, `y + h <= atlas y_size`,
`find_overlap(x, y, w, h)` is NULL and no placement on the atlas intersects the rectangle
`(x, y, w, h)`. -/
theorem C2_find_hole_sound (ps : Nat → TexturePlacement) (img : PaletteImage)
    (w h x y : Int)
    (hf : PaletteImage.find_hole ps img w h = some (x, y)) :
    0 ≤ x ∧ 0 ≤ y ∧ x + w ≤ img._x_size ∧ y + h ≤ img._y_size ∧
      PaletteImage.find_overlap ps img x y w h = none ∧
      ∀ q ∈ img._placements, (ps q).intersects x y w h = false := by
  have hs := find_hole_some ps img w h x y hf
  refine ⟨hs.1, hs.2.1, hs.2.2.1, hs.2.2.2.1, hs.2.2.2.2, ?_⟩
  intro q hq
  have hno := (find_overlap_none_iff _ _ _ _ _ _).mp hs.2.2.2.2 q hq
  cases hi : (ps q).intersects x y w h with
  | false => rfl
  | true => exact absurd ⟨((intersects_iff _ _ _ _ _).mp hi).1, hi⟩ hno

/-- Witness of C2: on the S2 image with placements 0 and 1 placed, the hole for a 32x32
rectangle is at (64, 0). -/
theorem C2_find_hole_sound_witness :
    PaletteImage.find_hole S2_two_placed.placements (S2_two_placed.images 0) 32 32
        = some (64, 0) ∧
      (0 : Int) ≤ 64 ∧ (0 : Int) ≤ 0 ∧ (64 : Int) + 32 ≤ (S2_two_placed.images 0)._x_size ∧
      (0 : Int) + 32 ≤ (S2_two_placed.images 0)._y_size ∧
      PaletteImage.find_overlap S2_two_placed.placements (S2_two_placed.images 0)
        64 0 32 32 = none ∧
      ∀ q ∈ (S2_two_placed.images 0)._placements,
        (S2_two_placed.placements q).intersects 64 0 32 32 = false :=
  ⟨by decide,
   C2_find_hole_sound S2_two_placed.placements (S2_two_placed.images 0) 32 32 64 0
    (by decide)⟩

/-- C3. In every state reached from empty atlases (no placement on an image, none with
omit reason `none`) by `PaletteImage::place`, `TexturePlacement::force_replace`,
`PaletteImage::resize_image` and `PaletteImage::reset_image`, a placement appears in an
atlas's placement list exactly when its image pointer is that atlas, and then exactly
once; and every placement with omit reason `none` has a non-null image whose list
contains it. -/
theorem C3_closure
    (sort : (Nat → TexturePlacement) → List Nat → List Nat)
    (hsort : ∀ ps l, (sort ps l).Perm l)
    (w0 : Heap) (h0 : w0.empty_atlases)
    (hr : ∀ p, (w0.placements p)._omit_reason ≠ OmitReason.OR_none)
    (ops : List AtlasOp) :
    (w0.run_ops sort ops).closed ∧ (w0.run_ops sort ops).none_are_listed := by
  have hinit : AtlasInv (fun t => t._omit_reason = OmitReason.OR_none → t._image ≠ none)
      (fun _ => False) w0 :=
    AtlasInv.of_empty_atlases h0 (fun p hp => absurd hp (hr p))
  have h := hinit.run_ops none_placed_stable sort hsort ops
  refine ⟨h.closed, ?_⟩
  intro p hp
  have hi := h.pred p hp
  cases hq : ((w0.run_ops sort ops).placements p)._image with
  | none => exact absurd hq hi
  | some a => exact ⟨a, rfl, h.image_listed a p not_false hq⟩

/-- Witness of C3 on scenario S2. -/
theorem C3_closure_witness :
    ((S2_heap.run_ops keep_order S2_ops).placements 2)._omit_reason = OmitReason.OR_none ∧
    ((S2_heap.run_ops keep_order S2_ops).placements 2)._image = some 0 ∧
    (S2_heap.run_ops keep_order S2_ops).closed ∧
    (S2_heap.run_ops keep_order S2_ops).none_are_listed :=
  ⟨by decide, by decide,
   C3_closure keep_order (fun _ _ => List.Perm.refl _) S2_heap
    ⟨fun _ => rfl, fun _ => rfl⟩ (fun _ h => OmitReason.noConfusion h) S2_ops⟩

/-- C5. `PaletteImage::place` of a placement that is not yet on the atlas leaves every
placement already listed exactly as it was (placed x, y, x_size, y_size, image and all
other fields), keeps the list in order (the new list is the old one, or the old one with
the new placement appended), and when it returns false the whole heap, so the atlas's
placement list, cleared regions and dimensions, is unchanged. -/
theorem C5_place_frame (w : Heap) (a p : Nat)
    (hnew : p ∉ (w.images a)._placements) :
    (∀ q ∈ (w.images a)._placements,
      (PaletteImage.place w a p).1.placements q = w.placements q) ∧
    (((PaletteImage.place w a p).1.images a)._placements = (w.images a)._placements ∨
      ((PaletteImage.place w a p).1.images a)._placements = (w.images a)._placements ++ [p]) ∧
    ((PaletteImage.place w a p).2 = false → (PaletteImage.place w a p).1 = w) := by
  rcases place_cases w a p with h1 | h1 | ⟨x, y, _, _, _, h1⟩
  · rw [h1]; exact ⟨fun _ _ => rfl, Or.inl rfl, fun _ => rfl⟩
  · rw [h1]; exact ⟨fun _ _ => rfl, Or.inl rfl, fun _ => rfl⟩
  · rw [h1]
    refine ⟨?_, Or.inr ?_, ?_⟩
    · intro q hq
      have hqp : q ≠ p := fun e => hnew (e ▸ hq)
      simp [hqp]
    · simp
    · intro hc; cases hc

/-- Witness of C5: placing placement 2 on the S2 image that holds 0 and 1. -/
theorem C5_place_frame_witness :
    (∀ q ∈ (S2_two_placed.images 0)._placements,
      (PaletteImage.place S2_two_placed 0 2).1.placements q = S2_two_placed.placements q) ∧
    (((PaletteImage.place S2_two_placed 0 2).1.images 0)._placements =
        (S2_two_placed.images 0)._placements ∨
     ((PaletteImage.place S2_two_placed 0 2).1.images 0)._placements =
        (S2_two_placed.images 0)._placements ++ [2]) ∧
    ((PaletteImage.place S2_two_placed 0 2).2 = false →
      (PaletteImage.place S2_two_placed 0 2).1 = S2_two_placed) :=
  C5_place_frame S2_two_placed 0 2 (by decide)

theorem placed_iff_reason_congr {t t2 : TexturePlacement} (hi : t2._image = t._image)
    (hr : t2._omit_reason = t._omit_reason) (h : t.placed_iff_reason) :
    t2.placed_iff_reason := by
  unfold TexturePlacement.placed_iff_reason at *
  rw [hi, hr]; exact h

theorem placed_iff_reason_unplaced {t : TexturePlacement} (hi : t._image = none)
    (h1 : t._omit_reason ≠ OmitReason.OR_none) (h2 : t._omit_reason ≠ OmitReason.OR_solitary) :
    t.placed_iff_reason := by
  unfold TexturePlacement.placed_iff_reason
  simp [hi, h1, h2]

theorem force_replace_omit_reason (w : Heap) (p q : Nat) :
    ((TexturePlacement.force_replace w p).placements q)._omit_reason =
      if q = p ∧ (w.placements p)._image ≠ none then OmitReason.OR_working
      else (w.placements q)._omit_reason := by
  rw [force_replace_placements]; split <;> rfl

theorem force_replace_placed_iff_reason (w : Heap) (p q : Nat)
    (h : (w.placements q).placed_iff_reason) :
    ((TexturePlacement.force_replace w p).placements q).placed_iff_reason := by
  by_cases hc : q = p ∧ (w.placements p)._image ≠ none
  · apply placed_iff_reason_unplaced
    · rw [force_replace_image, if_pos hc.1]
    · rw [force_replace_omit_reason, if_pos hc]; decide
    · rw [force_replace_omit_reason, if_pos hc]; decide
  · rw [force_replace_placements, if_neg hc]; exact h

theorem force_replace_set_omit_reason (w : Heap) (p : Nat) (r : OmitReason)
    (h1 : r ≠ OmitReason.OR_none) (h2 : r ≠ OmitReason.OR_solitary) :
    ((TexturePlacement.set_omit_reason (TexturePlacement.force_replace w p) p r).placements
      p).placed_iff_reason := by
  apply placed_iff_reason_unplaced
  · simp [TexturePlacement.set_omit_reason, force_replace_image]
  · simpa [TexturePlacement.set_omit_reason] using h1
  · simpa [TexturePlacement.set_omit_reason] using h2

theorem force_replace_set_omit_reason_other (w : Heap) (p q : Nat) (r : OmitReason)
    (hq : q ≠ p) :
    (TexturePlacement.set_omit_reason (TexturePlacement.force_replace w p) p r).placements q =
      w.placements q := by
  simp [TexturePlacement.set_omit_reason, hq, force_replace_placements]

@[simp] theorem compute_size_from_uvs_image (t : TexturePlacement) (a b : TexCoordd) :
    (t.compute_size_from_uvs a b)._image = t._image := rfl

@[simp] theorem compute_size_from_uvs_omit_reason (t : TexturePlacement) (a b : TexCoordd) :
    (t.compute_size_from_uvs a b)._omit_reason = t._omit_reason := rfl

@[simp] theorem compute_size_from_uvs_placed (t : TexturePlacement) (a b : TexCoordd) :
    (t.compute_size_from_uvs a b)._placed = t._placed := rfl

@[simp] theorem compute_size_from_uvs_texture (t : TexturePlacement) (a b : TexCoordd) :
    (t.compute_size_from_uvs a b)._texture = t._texture := rfl

@[simp] theorem scanned_image (t : TexturePlacement) : t.scanned._image = t._image := rfl

@[simp] theorem scanned_placed (t : TexturePlacement) : t.scanned._placed = t._placed := rfl

@[simp] theorem scanned_texture (t : TexturePlacement) : t.scanned._texture = t._texture := rfl

@[simp] theorem scanned_omit_reason (t : TexturePlacement) :
    t.scanned._omit_reason =
      if t._omit_reason = OmitReason.OR_solitary then OmitReason.OR_none
      else t._omit_reason := rfl

@[simp] theorem desired_image (pal : Palettizer) (t : TexturePlacement) :
    (t.desired pal)._image = t._image := rfl

@[simp] theorem desired_placed (pal : Palettizer) (t : TexturePlacement) :
    (t.desired pal)._placed = t._placed := rfl

@[simp] theorem desired_texture (pal : Palettizer) (t : TexturePlacement) :
    (t.desired pal)._texture = t._texture := rfl

@[simp] theorem desired_omit_reason (pal : Palettizer) (t : TexturePlacement) :
    (t.desired pal)._omit_reason =
      if t._omit_reason = OmitReason.OR_solitary then OmitReason.OR_none
      else t._omit_reason := rfl

theorem scanned_placed_iff_reason {t : TexturePlacement} (h : t.placed_iff_reason) :
    t.scanned.placed_iff_reason := by
  unfold TexturePlacement.placed_iff_reason at *
  rw [scanned_image, scanned_omit_reason, ← h]
  by_cases hs : t._omit_reason = OmitReason.OR_solitary <;> simp [hs]

theorem desired_placed_iff_reason (pal : Palettizer) {t : TexturePlacement}
    (h : t.placed_iff_reason) : (t.desired pal).placed_iff_reason :=
  placed_iff_reason_congr rfl rfl (scanned_placed_iff_reason h)

theorem keep_or_replace_placed_iff_reason (pal : Palettizer) (w : Heap) (p : Nat)
    (mn mx : TexCoordd) (h : (w.placements p).placed_iff_reason) :
    ((TexturePlacement.keep_or_replace pal w p mn mx).placements p).placed_iff_reason := by
  unfold TexturePlacement.keep_or_replace
  simp only
  have key : ∀ w1 : Heap, (w1.placements p).placed_iff_reason →
      ((if (w1.placements p)._position._wrap_u ≠ (w1.placements p)._placed._wrap_u ∨
            (w1.placements p)._position._wrap_v ≠ (w1.placements p)._placed._wrap_v then
          w1.set_placement p
            { w1.placements p with
              _is_filled := false
              _placed := { (w1.placements p)._placed with
                _wrap_u := (w1.placements p)._position._wrap_u,
                _wrap_v := (w1.placements p)._position._wrap_v } }
        else w1).placements p).placed_iff_reason := by
    intro w1 h1
    split
    · rw [Heap.set_placement_placements, if_pos rfl]
      exact placed_iff_reason_congr rfl rfl h1
    · exact h1
  apply key
  split
  · split
    · split
      · rw [Heap.set_placement_placements, if_pos rfl]
        exact placed_iff_reason_congr rfl rfl h
      · apply force_replace_placed_iff_reason
        rw [Heap.set_placement_placements, if_pos rfl]
        exact placed_iff_reason_congr rfl rfl h
    · exact force_replace_placed_iff_reason w p p h
  · exact h

theorem keep_or_replace_other (pal : Palettizer) (w : Heap) (p q : Nat)
    (mn mx : TexCoordd) (hq : q ≠ p) :
    (TexturePlacement.keep_or_replace pal w p mn mx).placements q = w.placements q := by
  unfold TexturePlacement.keep_or_replace
  simp only
  split_ifs <;> simp [hq, force_replace_placements]

theorem determine_size_placed_iff_reason (pal : Palettizer) (w : Heap) (p : Nat)
    (h : (w.placements p).placed_iff_reason) :
    ((TexturePlacement.determine_size pal w p).1.placements p).placed_iff_reason := by
  unfold TexturePlacement.determine_size
  simp only
  split_ifs
  · exact force_replace_set_omit_reason w p _ (by decide) (by decide)
  · rw [Heap.set_placement_placements, if_pos rfl]; exact scanned_placed_iff_reason h
  · exact force_replace_set_omit_reason _ p _ (by decide) (by decide)
  · exact force_replace_set_omit_reason _ p _ (by decide) (by decide)
  · exact force_replace_set_omit_reason _ p _ (by decide) (by decide)
  · exact force_replace_set_omit_reason _ p _ (by decide) (by decide)
  · apply keep_or_replace_placed_iff_reason
    rw [Heap.set_placement_placements, if_pos rfl]
    exact desired_placed_iff_reason pal h
  · rw [Heap.set_placement_placements, if_pos rfl]
    exact desired_placed_iff_reason pal h

theorem determine_size_other (pal : Palettizer) (w : Heap) (p q : Nat) (hq : q ≠ p) :
    (TexturePlacement.determine_size pal w p).1.placements q = w.placements q := by
  unfold TexturePlacement.determine_size
  simp only
  split_ifs
  · exact force_replace_set_omit_reason_other w p q _ hq
  · simp [hq]
  · rw [force_replace_set_omit_reason_other _ p q _ hq]; simp [hq]
  · rw [force_replace_set_omit_reason_other _ p q _ hq]; simp [hq]
  · rw [force_replace_set_omit_reason_other _ p q _ hq]; simp [hq]
  · rw [force_replace_set_omit_reason_other _ p q _ hq]; simp [hq]
  · rw [keep_or_replace_other _ _ p q _ _ hq]; simp [hq]
  · simp [hq]

theorem PlacementOp.run_placed_iff_reason (w : Heap) (q p : Nat) (op : PlacementOp)
    (h : (w.placements p).placed_iff_reason) :
    ((op.run w q).placements p).placed_iff_reason := by
  by_cases hpq : p = q
  · subst hpq
    cases op with
    | place_at image x y =>
      simp only [PlacementOp.run, Heap.set_placement_placements, if_true]
      unfold TexturePlacement.place_at
      split_ifs
      · exact h
      · exact h
      · simp [TexturePlacement.placed_iff_reason]
    | force_replace => exact force_replace_placed_iff_reason w p p h
    | omit_solitary =>
      simp only [PlacementOp.run, Heap.set_placement_placements, if_true]
      unfold TexturePlacement.omit_solitary
      split
      · next hp =>
        unfold TexturePlacement.is_placed at hp
        simp only [TexturePlacement.placed_iff_reason, or_true, true_iff]
        intro hn; rw [hn] at hp; cases hp
      · exact h
    | not_solitary =>
      simp only [PlacementOp.run, Heap.set_placement_placements, if_true]
      unfold TexturePlacement.not_solitary
      split
      · next hp =>
        unfold TexturePlacement.is_placed at hp
        simp only [TexturePlacement.placed_iff_reason, true_or, true_iff]
        intro hn; rw [hn] at hp; cases hp
      · exact h
    | determine_size pal => exact determine_size_placed_iff_reason pal w p h
    | add_egg reference =>
      simp only [PlacementOp.run, Heap.set_placement_placements, if_true]
      exact placed_iff_reason_congr rfl rfl h
    | texture_changed texture =>
      simp only [PlacementOp.run, Heap.set_placement_placements, if_true]
      exact placed_iff_reason_congr rfl rfl h
  · cases op with
    | force_replace =>
      exact force_replace_placed_iff_reason w q p h
    | determine_size pal =>
      simp only [PlacementOp.run]
      rw [determine_size_other pal w q p hpq]; exact h
    | _ =>
      simp only [PlacementOp.run, Heap.set_placement_placements, if_neg hpq]
      exact h

theorem create_placed_iff_reason (texture : TextureImage) (pos : TexturePosition) :
    (TexturePlacement.create texture pos).placed_iff_reason := by
  apply placed_iff_reason_unplaced rfl
  · unfold TexturePlacement.create; simp only; split <;> decide
  · unfold TexturePlacement.create; simp only; split <;> decide

/-- C4. Starting from a placement built by the public constructor
`TexturePlacement(texture, group)`, after any sequence of `place_at`, `force_replace`,
`omit_solitary`, `not_solitary`, `determine_size` (and `add_egg`, changes of the texture,
and the same operations on other placements), the placement's omit reason is `none` or
`solitary` if and only if its image pointer is non-null. -/
theorem C4_placed_iff_reason (w : Heap) (p : Nat) (texture : TextureImage)
    (pos : TexturePosition) (ops : List (Nat × PlacementOp)) :
    (((w.set_placement p (TexturePlacement.create texture pos)).run_placement_ops
      ops).placements p).placed_iff_reason := by
  have hstep : ∀ (ops : List (Nat × PlacementOp)) (w1 : Heap),
      (w1.placements p).placed_iff_reason →
      ((w1.run_placement_ops ops).placements p).placed_iff_reason := by
    intro ops
    induction ops with
    | nil => intro w1 h; exact h
    | cons op ops ih =>
      intro w1 h
      exact ih _ (PlacementOp.run_placed_iff_reason w1 op.1 p op.2 h)
  apply hstep
  rw [Heap.set_placement_placements, if_pos rfl]
  exact create_placed_iff_reason texture pos

theorem foldl_scan_reference_has_uvs (l : List TextureReference) (s : UVScan) :
    (l.foldl TexturePlacement.scan_reference s).has_uvs = true ↔
      s.has_uvs = true ∨ ∃ r ∈ l, r.has_uvs = true := by
  induction l generalizing s with
  | nil => simp
  | cons r l ih =>
    rw [List.foldl_cons, ih]
    have h1 : (TexturePlacement.scan_reference s r).has_uvs = true ↔
        s.has_uvs = true ∨ r.has_uvs = true := by
      unfold TexturePlacement.scan_reference
      simp only
      by_cases hr : r.has_uvs = true <;> by_cases hs : s.has_uvs = true <;>
        split_ifs <;> simp [hr, hs]
    rw [h1]
    simp only [List.mem_cons, exists_eq_or_imp]
    tauto

theorem scan_references_has_uvs (t : TexturePlacement) :
    (TexturePlacement.scan_references t).has_uvs = true ↔
      ∃ r ∈ t._references, r.has_uvs = true := by
  unfold TexturePlacement.scan_references
  rw [foldl_scan_reference_has_uvs]
  simp

theorem wrap_update_image (w1 : Heap) (p : Nat) (c : Prop) [Decidable c]
    (f : TexturePosition) :
    ((if c then w1.set_placement p { w1.placements p with _is_filled := false, _placed := f }
      else w1).placements p)._image = (w1.placements p)._image := by
  split <;> simp

theorem wrap_update_omit_reason (w1 : Heap) (p : Nat) (c : Prop) [Decidable c]
    (f : TexturePosition) :
    ((if c then w1.set_placement p { w1.placements p with _is_filled := false, _placed := f }
      else w1).placements p)._omit_reason = (w1.placements p)._omit_reason := by
  split <;> simp

theorem keep_or_replace_image (pal : Palettizer) (w : Heap) (p : Nat) (mn mx : TexCoordd) :
    ((TexturePlacement.keep_or_replace pal w p mn mx).placements p)._image =
      if (w.placements p).forces_replace pal mn mx = true then none
      else (w.placements p)._image := by
  unfold TexturePlacement.keep_or_replace TexturePlacement.forces_replace
  simp only
  rw [wrap_update_image]
  cases h1 : (w.placements p).needs_replace <;> cases h2 : pal._round_uvs <;>
    cases h3 : ((w.placements p).compute_size_from_uvs mn mx).fits_placed <;>
    simp [force_replace_image]

theorem keep_or_replace_omit_reason (pal : Palettizer) (w : Heap) (p : Nat)
    (mn mx : TexCoordd) :
    ((TexturePlacement.keep_or_replace pal w p mn mx).placements p)._omit_reason =
      if (w.placements p).forces_replace pal mn mx = true ∧ (w.placements p)._image ≠ none
      then OmitReason.OR_working
      else (w.placements p)._omit_reason := by
  unfold TexturePlacement.keep_or_replace TexturePlacement.forces_replace
  simp only
  rw [wrap_update_omit_reason]
  cases h1 : (w.placements p).needs_replace <;> cases h2 : pal._round_uvs <;>
    cases h3 : ((w.placements p).compute_size_from_uvs mn mx).fits_placed <;>
    simp [force_replace_omit_reason]

theorem set_omit_reason_force_replace_reason (w : Heap) (p : Nat) (r : OmitReason) :
    ((TexturePlacement.set_omit_reason (TexturePlacement.force_replace w p) p r).placements
      p)._omit_reason = r := by
  simp [TexturePlacement.set_omit_reason]

theorem set_omit_reason_force_replace_image (w : Heap) (p : Nat) (r : OmitReason) :
    ((TexturePlacement.set_omit_reason (TexturePlacement.force_replace w p) p r).placements
      p)._image = none := by
  simp [TexturePlacement.set_omit_reason, force_replace_image]

/-- The omit reason `determine_size` ends with, branch by branch. -/
theorem determine_size_omit_reason (pal : Palettizer) (w : Heap) (p : Nat)
    (hu : (TexturePlacement.scan_references (w.placements p)).has_uvs = true) :
    ((TexturePlacement.determine_size pal w p).1.placements p)._omit_reason =
      if (!(w.placements p)._texture.is_size_known) = true then OmitReason.OR_unknown
      else if (w.placements p)._texture.get_omit = true then OmitReason.OR_omitted
      else if ((w.placements p).desired pal).get_uv_area >
          Double.div (w.placements p)._texture.get_repeat_threshold 100 then OmitReason.OR_repeats
      else if (((w.placements p).desired pal)._position._x_size > pal._pal_x_size ∨
            ((w.placements p).desired pal)._position._y_size > pal._pal_y_size) ∨
          (((w.placements p).desired pal)._position._x_size = pal._pal_x_size ∧
            ((w.placements p).desired pal)._position._y_size = pal._pal_y_size) then
        OmitReason.OR_size
      else if ((w.placements p).desired pal)._omit_reason = OmitReason.OR_omitted ∨
          ((w.placements p).desired pal)._omit_reason = OmitReason.OR_size ∨
          ((w.placements p).desired pal)._omit_reason = OmitReason.OR_repeats ∨
          ((w.placements p).desired pal)._omit_reason = OmitReason.OR_unknown then
        OmitReason.OR_working
      else if ((w.placements p).desired pal).forces_replace pal
            (TexturePlacement.scan_references (w.placements p)).min_uv
            (TexturePlacement.scan_references (w.placements p)).max_uv = true ∧
          (w.placements p)._image ≠ none then OmitReason.OR_working
      else ((w.placements p).desired pal)._omit_reason := by
  unfold TexturePlacement.determine_size
  simp only [hu, Bool.not_true, Bool.false_eq_true, if_false, desired_texture]
  split_ifs with h1 h2 h3 h4 h5 h6 h7 h8
  all_goals first
    | exact set_omit_reason_force_replace_reason _ _ _
    | (rw [keep_or_replace_omit_reason]; simp_all [TexturePlacement.is_placed])
    | simp_all [TexturePlacement.is_placed]

/-- The image pointer `determine_size` ends with, branch by branch. -/
theorem determine_size_image (pal : Palettizer) (w : Heap) (p : Nat)
    (hu : (TexturePlacement.scan_references (w.placements p)).has_uvs = true) :
    ((TexturePlacement.determine_size pal w p).1.placements p)._image =
      if (!(w.placements p)._texture.is_size_known) = true then none
      else if (w.placements p)._texture.get_omit = true then none
      else if ((w.placements p).desired pal).get_uv_area >
          Double.div (w.placements p)._texture.get_repeat_threshold 100 then none
      else if (((w.placements p).desired pal)._position._x_size > pal._pal_x_size ∨
            ((w.placements p).desired pal)._position._y_size > pal._pal_y_size) ∨
          (((w.placements p).desired pal)._position._x_size = pal._pal_x_size ∧
            ((w.placements p).desired pal)._position._y_size = pal._pal_y_size) then none
      else if ((w.placements p).desired pal)._omit_reason = OmitReason.OR_omitted ∨
          ((w.placements p).desired pal)._omit_reason = OmitReason.OR_size ∨
          ((w.placements p).desired pal)._omit_reason = OmitReason.OR_repeats ∨
          ((w.placements p).desired pal)._omit_reason = OmitReason.OR_unknown then none
      else if ((w.placements p).desired pal).forces_replace pal
            (TexturePlacement.scan_references (w.placements p)).min_uv
            (TexturePlacement.scan_references (w.placements p)).max_uv = true then none
      else (w.placements p)._image := by
  unfold TexturePlacement.determine_size
  simp only [hu, Bool.not_true, Bool.false_eq_true, if_false, desired_texture]
  split_ifs with h1 h2 h3 h4 h5 h6 h7 h8
  all_goals first
    | exact set_omit_reason_force_replace_image _ _ _
    | (rw [keep_or_replace_image]; simp_all [TexturePlacement.is_placed])
    | simp_all [TexturePlacement.is_placed]

theorem S6_scan : TexturePlacement.scan_references S6_placement =
    { has_uvs := true, min_uv := ⟨fl (1 / 100), 0⟩, max_uv := ⟨1, 1⟩,
      wrap_u := WrapMode.WM_clamp, wrap_v := WrapMode.WM_clamp } := by
  rfl

theorem S6_rounded_min :
    TexturePlacement.rounded_min_uv S6_pal ⟨fl (1 / 100), 0⟩ = ⟨0, 0⟩ := by
  have h1 : Double.add (5764607523034235 / 576460752303423488) (5764607523034235 / 576460752303423488) = 5764607523034235 / 288230376151711744 := by
    show fl ((5764607523034235 / 576460752303423488) + (5764607523034235 / 576460752303423488)) = 5764607523034235 / 288230376151711744
    rw [fl_eval ((5764607523034235 / 576460752303423488) + (5764607523034235 / 576460752303423488)) (-58) (5764607523034235) (by norm_num) (Or.inr (by norm_num [abs_of_pos])) (by norm_num [abs_of_pos]) (by norm_num [abs_lt])]; norm_num
  have h2 : Double.div (5764607523034235 / 288230376151711744) (3602879701896397 / 36028797018963968) = 7205759403792793 / 36028797018963968 := by
    show fl ((5764607523034235 / 288230376151711744) / (3602879701896397 / 36028797018963968)) = 7205759403792793 / 36028797018963968
    rw [fl_eval ((5764607523034235 / 288230376151711744) / (3602879701896397 / 36028797018963968)) (-55) (7205759403792793) (by norm_num) (Or.inr (by norm_num [abs_of_pos])) (by norm_num [abs_of_pos]) (by norm_num [abs_lt])]; norm_num
  have h3 : ⌊(7205759403792793 / 36028797018963968 : ℚ)⌋ = 0 := by
    rw [Int.floor_eq_iff]; norm_num
  have h4 : Double.mul ((0 : Int) : ℚ) (3602879701896397 / 36028797018963968) = 0 := by
    show fl (((0 : Int) : ℚ) * (3602879701896397 / 36028797018963968)) = 0
    rw [show (((0 : Int) : ℚ) * (3602879701896397 / 36028797018963968) : ℚ) = 0 by norm_num]; exact fl_zero
  have h5 : Double.add 0 (5764607523034235 / 576460752303423488) = 5764607523034235 / 576460752303423488 := by
    show fl (0 + (5764607523034235 / 576460752303423488)) = 5764607523034235 / 576460752303423488
    rw [fl_eval (0 + (5764607523034235 / 576460752303423488)) (-59) (5764607523034235) (by norm_num) (Or.inr (by norm_num [abs_of_pos])) (by norm_num [abs_of_pos]) (by norm_num [abs_lt])]; norm_num
  have h6 : Double.div (5764607523034235 / 576460752303423488) (3602879701896397 / 36028797018963968) = 7205759403792793 / 72057594037927936 := by
    show fl ((5764607523034235 / 576460752303423488) / (3602879701896397 / 36028797018963968)) = 7205759403792793 / 72057594037927936
    rw [fl_eval ((5764607523034235 / 576460752303423488) / (3602879701896397 / 36028797018963968)) (-56) (7205759403792793) (by norm_num) (Or.inr (by norm_num [abs_of_pos])) (by norm_num [abs_of_pos]) (by norm_num [abs_lt])]; norm_num
  have h7 : ⌊(7205759403792793 / 72057594037927936 : ℚ)⌋ = 0 := by
    rw [Int.floor_eq_iff]; norm_num
  have h8 : Double.mul ((0 : Int) : ℚ) (3602879701896397 / 36028797018963968) = 0 := by
    show fl (((0 : Int) : ℚ) * (3602879701896397 / 36028797018963968)) = 0
    rw [show (((0 : Int) : ℚ) * (3602879701896397 / 36028797018963968) : ℚ) = 0 by norm_num]; exact fl_zero
  simp only [TexturePlacement.rounded_min_uv, S6_pal, if_true, fl_one_tenth,
    fl_one_hundredth, h1, h2, h3, h4, h5, h6, h7, h8]

theorem S6_rounded_max : TexturePlacement.rounded_max_uv S6_pal ⟨1, 1⟩ = ⟨1, 1⟩ := by
  have h1 : Double.sub 1 (5764607523034235 / 576460752303423488) = 4458563631096791 / 4503599627370496 := by
    show fl (1 - (5764607523034235 / 576460752303423488)) = 4458563631096791 / 4503599627370496
    rw [fl_eval (1 - (5764607523034235 / 576460752303423488)) (-53) (8917127262193582) (by norm_num) (Or.inr (by norm_num [abs_of_pos])) (by norm_num [abs_of_pos]) (by norm_num [abs_lt])]; norm_num
  have h2 : Double.div (4458563631096791 / 4503599627370496) (3602879701896397 / 36028797018963968) = 1393301134717747 / 140737488355328 := by
    show fl ((4458563631096791 / 4503599627370496) / (3602879701896397 / 36028797018963968)) = 1393301134717747 / 140737488355328
    rw [fl_eval ((4458563631096791 / 4503599627370496) / (3602879701896397 / 36028797018963968)) (-49) (5573204538870988) (by norm_num) (Or.inr (by norm_num [abs_of_pos])) (by norm_num [abs_of_pos]) (by norm_num [abs_lt])]; norm_num
  have h3 : ⌈(1393301134717747 / 140737488355328 : ℚ)⌉ = 10 := by
    rw [Int.ceil_eq_iff]; norm_num
  have h4 : Double.mul ((10 : Int) : ℚ) (3602879701896397 / 36028797018963968) = 1 := by
    show fl (((10 : Int) : ℚ) * (3602879701896397 / 36028797018963968)) = 1
    rw [fl_eval (((10 : Int) : ℚ) * (3602879701896397 / 36028797018963968)) (-52) (4503599627370496) (by norm_num) (Or.inr (by norm_num [abs_of_pos])) (by norm_num [abs_of_pos]) (by norm_num [abs_lt])]; norm_num
  simp only [TexturePlacement.rounded_max_uv, S6_pal, if_true, fl_one_tenth,
    fl_one_hundredth, h1, h2, h3, h4]

/-- A 64 pixel source with margin 2 on the UV range [0, 1] asks for 64 pixels. -/
theorem axis_size_64_full : TexturePlacement.axis_size 64 2 0 1 = 64 := by
  have h1 : Double.sub 1 0 = 1 := by
    show fl (1 - 0) = 1
    rw [fl_eval (1 - 0) (-52) (4503599627370496) (by norm_num) (Or.inr (by norm_num [abs_of_pos])) (by norm_num [abs_of_pos]) (by norm_num [abs_lt])]; norm_num
  have h2 : Double.mul ((64 : Int) : ℚ) 1 = 64 := by
    show fl (((64 : Int) : ℚ) * 1) = 64
    rw [fl_eval (((64 : Int) : ℚ) * 1) (-46) (4503599627370496) (by norm_num) (Or.inr (by norm_num [abs_of_pos])) (by norm_num [abs_of_pos]) (by norm_num [abs_lt])]; norm_num
  have h3 : Double.add 64 (1 / 2) = 129 / 2 := by
    show fl (64 + (1 / 2)) = 129 / 2
    rw [fl_eval (64 + (1 / 2)) (-46) (4538783999459328) (by norm_num) (Or.inr (by norm_num [abs_of_pos])) (by norm_num [abs_of_pos]) (by norm_num [abs_lt])]; norm_num
  have h4 : ⌊(129 / 2 : ℚ)⌋ = 64 := by
    rw [Int.floor_eq_iff]; norm_num
  have h5 : Double.div ((2 : Int) : ℚ) ((64 : Int) : ℚ) = 1 / 32 := by
    show fl (((2 : Int) : ℚ) / ((64 : Int) : ℚ)) = 1 / 32
    rw [fl_eval (((2 : Int) : ℚ) / ((64 : Int) : ℚ)) (-57) (4503599627370496) (by norm_num) (Or.inr (by norm_num [abs_of_pos])) (by norm_num [abs_of_pos]) (by norm_num [abs_lt])]; norm_num
  have hi1 : Double.to_int (64) = 64 := by decide
  have hi2 : max (64 : Int) 4 = 64 := by decide
  unfold TexturePlacement.axis_size
  simp only [h1, h2, h3, h4, h5, hi1, hi2, fl_one_tenth]
  norm_num [wrap32]

theorem S6_desired_position : (S6_placement.desired S6_pal)._position =
    { _margin := 2, _x := 0, _y := 0, _x_size := 64, _y_size := 64,
      _min_uv := ⟨0, 0⟩, _max_uv := ⟨1, 1⟩,
      _wrap_u := WrapMode.WM_clamp, _wrap_v := WrapMode.WM_clamp } := by
  unfold TexturePlacement.desired
  rw [S6_scan]
  simp only [S6_rounded_min, S6_rounded_max]
  simp only [TexturePlacement.compute_size_from_uvs, scanned_texture, S6_placement,
    axis_size_64_full]
  norm_num [TexturePlacement.scanned, S6_placement]
  exact ⟨rfl, rfl⟩

theorem S6_round_finite_u : TexturePlacement.round_finite S6_pal (fl (1 / 100)) 1 := by
  have h1 : Double.add (5764607523034235 / 576460752303423488) (5764607523034235 / 576460752303423488) = 5764607523034235 / 288230376151711744 := by
    show fl ((5764607523034235 / 576460752303423488) + (5764607523034235 / 576460752303423488)) = 5764607523034235 / 288230376151711744
    rw [fl_eval ((5764607523034235 / 576460752303423488) + (5764607523034235 / 576460752303423488)) (-58) (5764607523034235) (by norm_num) (Or.inr (by norm_num [abs_of_pos])) (by norm_num [abs_of_pos]) (by norm_num [abs_lt])]; norm_num
  have h2 : Double.div (5764607523034235 / 288230376151711744) (3602879701896397 / 36028797018963968) = 7205759403792793 / 36028797018963968 := by
    show fl ((5764607523034235 / 288230376151711744) / (3602879701896397 / 36028797018963968)) = 7205759403792793 / 36028797018963968
    rw [fl_eval ((5764607523034235 / 288230376151711744) / (3602879701896397 / 36028797018963968)) (-55) (7205759403792793) (by norm_num) (Or.inr (by norm_num [abs_of_pos])) (by norm_num [abs_of_pos]) (by norm_num [abs_lt])]; norm_num
  have h3 : ⌊(7205759403792793 / 36028797018963968 : ℚ)⌋ = 0 := by
    rw [Int.floor_eq_iff]; norm_num
  have h4 : Double.mul ((0 : Int) : ℚ) (3602879701896397 / 36028797018963968) = 0 := by
    show fl (((0 : Int) : ℚ) * (3602879701896397 / 36028797018963968)) = 0
    rw [show (((0 : Int) : ℚ) * (3602879701896397 / 36028797018963968) : ℚ) = 0 by norm_num]; exact fl_zero
  have h5 : Double.sub 1 (5764607523034235 / 576460752303423488) = 4458563631096791 / 4503599627370496 := by
    show fl (1 - (5764607523034235 / 576460752303423488)) = 4458563631096791 / 4503599627370496
    rw [fl_eval (1 - (5764607523034235 / 576460752303423488)) (-53) (8917127262193582) (by norm_num) (Or.inr (by norm_num [abs_of_pos])) (by norm_num [abs_of_pos]) (by norm_num [abs_lt])]; norm_num
  have h6 : Double.div (4458563631096791 / 4503599627370496) (3602879701896397 / 36028797018963968) = 1393301134717747 / 140737488355328 := by
    show fl ((4458563631096791 / 4503599627370496) / (3602879701896397 / 36028797018963968)) = 1393301134717747 / 140737488355328
    rw [fl_eval ((4458563631096791 / 4503599627370496) / (3602879701896397 / 36028797018963968)) (-49) (5573204538870988) (by norm_num) (Or.inr (by norm_num [abs_of_pos])) (by norm_num [abs_of_pos]) (by norm_num [abs_lt])]; norm_num
  have h7 : ⌈(1393301134717747 / 140737488355328 : ℚ)⌉ = 10 := by
    rw [Int.ceil_eq_iff]; norm_num
  have h8 : Double.mul ((10 : Int) : ℚ) (3602879701896397 / 36028797018963968) = 1 := by
    show fl (((10 : Int) : ℚ) * (3602879701896397 / 36028797018963968)) = 1
    rw [fl_eval (((10 : Int) : ℚ) * (3602879701896397 / 36028797018963968)) (-52) (4503599627370496) (by norm_num) (Or.inr (by norm_num [abs_of_pos])) (by norm_num [abs_of_pos]) (by norm_num [abs_lt])]; norm_num
  simp only [TexturePlacement.round_finite, S6_pal, fl_one_tenth, fl_one_hundredth,
    h1, h2, h3, h4, h5, h6, h7, h8, Double.finite_iff]
  norm_num

theorem S6_round_finite_v : TexturePlacement.round_finite S6_pal 0 1 := by
  have h1 : Double.add 0 (5764607523034235 / 576460752303423488) = 5764607523034235 / 576460752303423488 := by
    show fl (0 + (5764607523034235 / 576460752303423488)) = 5764607523034235 / 576460752303423488
    rw [fl_eval (0 + (5764607523034235 / 576460752303423488)) (-59) (5764607523034235) (by norm_num) (Or.inr (by norm_num [abs_of_pos])) (by norm_num [abs_of_pos]) (by norm_num [abs_lt])]; norm_num
  have h2 : Double.div (5764607523034235 / 576460752303423488) (3602879701896397 / 36028797018963968) = 7205759403792793 / 72057594037927936 := by
    show fl ((5764607523034235 / 576460752303423488) / (3602879701896397 / 36028797018963968)) = 7205759403792793 / 72057594037927936
    rw [fl_eval ((5764607523034235 / 576460752303423488) / (3602879701896397 / 36028797018963968)) (-56) (7205759403792793) (by norm_num) (Or.inr (by norm_num [abs_of_pos])) (by norm_num [abs_of_pos]) (by norm_num [abs_lt])]; norm_num
  have h3 : ⌊(7205759403792793 / 72057594037927936 : ℚ)⌋ = 0 := by
    rw [Int.floor_eq_iff]; norm_num
  have h4 : Double.mul ((0 : Int) : ℚ) (3602879701896397 / 36028797018963968) = 0 := by
    show fl (((0 : Int) : ℚ) * (3602879701896397 / 36028797018963968)) = 0
    rw [show (((0 : Int) : ℚ) * (3602879701896397 / 36028797018963968) : ℚ) = 0 by norm_num]; exact fl_zero
  have h5 : Double.sub 1 (5764607523034235 / 576460752303423488) = 4458563631096791 / 4503599627370496 := by
    show fl (1 - (5764607523034235 / 576460752303423488)) = 4458563631096791 / 4503599627370496
    rw [fl_eval (1 - (5764607523034235 / 576460752303423488)) (-53) (8917127262193582) (by norm_num) (Or.inr (by norm_num [abs_of_pos])) (by norm_num [abs_of_pos]) (by norm_num [abs_lt])]; norm_num
  have h6 : Double.div (4458563631096791 / 4503599627370496) (3602879701896397 / 36028797018963968) = 1393301134717747 / 140737488355328 := by
    show fl ((4458563631096791 / 4503599627370496) / (3602879701896397 / 36028797018963968)) = 1393301134717747 / 140737488355328
    rw [fl_eval ((4458563631096791 / 4503599627370496) / (3602879701896397 / 36028797018963968)) (-49) (5573204538870988) (by norm_num) (Or.inr (by norm_num [abs_of_pos])) (by norm_num [abs_of_pos]) (by norm_num [abs_lt])]; norm_num
  have h7 : ⌈(1393301134717747 / 140737488355328 : ℚ)⌉ = 10 := by
    rw [Int.ceil_eq_iff]; norm_num
  have h8 : Double.mul ((10 : Int) : ℚ) (3602879701896397 / 36028797018963968) = 1 := by
    show fl (((10 : Int) : ℚ) * (3602879701896397 / 36028797018963968)) = 1
    rw [fl_eval (((10 : Int) : ℚ) * (3602879701896397 / 36028797018963968)) (-52) (4503599627370496) (by norm_num) (Or.inr (by norm_num [abs_of_pos])) (by norm_num [abs_of_pos]) (by norm_num [abs_lt])]; norm_num
  simp only [TexturePlacement.round_finite, S6_pal, fl_one_tenth, fl_one_hundredth,
    h1, h2, h3, h4, h5, h6, h7, h8, Double.finite_iff]
  norm_num

theorem axis_finite_64_full : TexturePlacement.axis_finite 64 0 1 := by
  have h1 : Double.sub 1 0 = 1 := by
    show fl (1 - 0) = 1
    rw [fl_eval (1 - 0) (-52) (4503599627370496) (by norm_num) (Or.inr (by norm_num [abs_of_pos])) (by norm_num [abs_of_pos]) (by norm_num [abs_lt])]; norm_num
  have h2 : Double.mul ((64 : Int) : ℚ) 1 = 64 := by
    show fl (((64 : Int) : ℚ) * 1) = 64
    rw [fl_eval (((64 : Int) : ℚ) * 1) (-46) (4503599627370496) (by norm_num) (Or.inr (by norm_num [abs_of_pos])) (by norm_num [abs_of_pos]) (by norm_num [abs_lt])]; norm_num
  have h3 : Double.add 64 (1 / 2) = 129 / 2 := by
    show fl (64 + (1 / 2)) = 129 / 2
    rw [fl_eval (64 + (1 / 2)) (-46) (4538783999459328) (by norm_num) (Or.inr (by norm_num [abs_of_pos])) (by norm_num [abs_of_pos]) (by norm_num [abs_lt])]; norm_num
  simp only [TexturePlacement.axis_finite, h1, h2, h3, Double.finite_iff]
  norm_num

theorem S6_desired_area : (S6_placement.desired S6_pal).get_uv_area = 1 := by
  have h1 : Double.sub 1 0 = 1 := by
    show fl (1 - 0) = 1
    rw [fl_eval (1 - 0) (-52) (4503599627370496) (by norm_num) (Or.inr (by norm_num [abs_of_pos])) (by norm_num [abs_of_pos]) (by norm_num [abs_lt])]; norm_num
  have h2 : Double.mul 1 1 = 1 := by
    show fl (1 * 1) = 1
    rw [fl_eval (1 * 1) (-52) (4503599627370496) (by norm_num) (Or.inr (by norm_num [abs_of_pos])) (by norm_num [abs_of_pos]) (by norm_num [abs_lt])]; norm_num
  unfold TexturePlacement.get_uv_area
  rw [S6_desired_position]
  have h : (S6_placement.desired S6_pal)._has_uvs = true := rfl
  rw [h]
  simp only [Bool.not_true, Bool.false_eq_true, if_false, h1, h2]

/-- Scenario S6 stays within the finite doubles. -/
theorem S6_desired_finite : S6_placement.desired_finite S6_pal := by
  unfold TexturePlacement.desired_finite
  rw [S6_desired_area, S6_scan]
  simp only [S6_rounded_min, S6_rounded_max]
  refine ⟨fun _ => ⟨S6_round_finite_u, S6_round_finite_v⟩,
    ⟨axis_finite_64_full, axis_finite_64_full⟩, ?_⟩
  rw [Double.finite_iff]
  norm_num

theorem S6_rounded_min_zero : TexturePlacement.rounded_min_uv S6_pal ⟨0, 0⟩ = ⟨0, 0⟩ := by
  have h1 : Double.add 0 (5764607523034235 / 576460752303423488) = 5764607523034235 / 576460752303423488 := by
    show fl (0 + (5764607523034235 / 576460752303423488)) = 5764607523034235 / 576460752303423488
    rw [fl_eval (0 + (5764607523034235 / 576460752303423488)) (-59) (5764607523034235) (by norm_num) (Or.inr (by norm_num [abs_of_pos])) (by norm_num [abs_of_pos]) (by norm_num [abs_lt])]; norm_num
  have h2 : Double.div (5764607523034235 / 576460752303423488) (3602879701896397 / 36028797018963968) = 7205759403792793 / 72057594037927936 := by
    show fl ((5764607523034235 / 576460752303423488) / (3602879701896397 / 36028797018963968)) = 7205759403792793 / 72057594037927936
    rw [fl_eval ((5764607523034235 / 576460752303423488) / (3602879701896397 / 36028797018963968)) (-56) (7205759403792793) (by norm_num) (Or.inr (by norm_num [abs_of_pos])) (by norm_num [abs_of_pos]) (by norm_num [abs_lt])]; norm_num
  have h3 : ⌊(7205759403792793 / 72057594037927936 : ℚ)⌋ = 0 := by
    rw [Int.floor_eq_iff]; norm_num
  have h4 : Double.mul ((0 : Int) : ℚ) (3602879701896397 / 36028797018963968) = 0 := by
    show fl (((0 : Int) : ℚ) * (3602879701896397 / 36028797018963968)) = 0
    rw [show (((0 : Int) : ℚ) * (3602879701896397 / 36028797018963968) : ℚ) = 0 by norm_num]; exact fl_zero
  simp only [TexturePlacement.rounded_min_uv, S6_pal, if_true, fl_one_tenth,
    fl_one_hundredth, h1, h2, h3, h4]

theorem S3_rounded_max : TexturePlacement.rounded_max_uv S6_pal ⟨4, 4⟩ = ⟨4, 4⟩ := by
  have h1 : Double.sub 4 (5764607523034235 / 576460752303423488) = 2246170314151035 / 562949953421312 := by
    show fl (4 - (5764607523034235 / 576460752303423488)) = 2246170314151035 / 562949953421312
    rw [fl_eval (4 - (5764607523034235 / 576460752303423488)) (-51) (8984681256604140) (by norm_num) (Or.inr (by norm_num [abs_of_pos])) (by norm_num [abs_of_pos]) (by norm_num [abs_lt])]; norm_num
  have h2 : Double.div (2246170314151035 / 562949953421312) (3602879701896397 / 36028797018963968) = 5615425785377587 / 140737488355328 := by
    show fl ((2246170314151035 / 562949953421312) / (3602879701896397 / 36028797018963968)) = 5615425785377587 / 140737488355328
    rw [fl_eval ((2246170314151035 / 562949953421312) / (3602879701896397 / 36028797018963968)) (-47) (5615425785377587) (by norm_num) (Or.inr (by norm_num [abs_of_pos])) (by norm_num [abs_of_pos]) (by norm_num [abs_lt])]; norm_num
  have h3 : ⌈(5615425785377587 / 140737488355328 : ℚ)⌉ = 40 := by
    rw [Int.ceil_eq_iff]; norm_num
  have h4 : Double.mul ((40 : Int) : ℚ) (3602879701896397 / 36028797018963968) = 4 := by
    show fl (((40 : Int) : ℚ) * (3602879701896397 / 36028797018963968)) = 4
    rw [fl_eval (((40 : Int) : ℚ) * (3602879701896397 / 36028797018963968)) (-50) (4503599627370496) (by norm_num) (Or.inr (by norm_num [abs_of_pos])) (by norm_num [abs_of_pos]) (by norm_num [abs_lt])]; norm_num
  simp only [TexturePlacement.rounded_max_uv, S6_pal, if_true, fl_one_tenth,
    fl_one_hundredth, h1, h2, h3, h4]

theorem S3_round_finite : TexturePlacement.round_finite S6_pal 0 4 := by
  have h1 : Double.add 0 (5764607523034235 / 576460752303423488) = 5764607523034235 / 576460752303423488 := by
    show fl (0 + (5764607523034235 / 576460752303423488)) = 5764607523034235 / 576460752303423488
    rw [fl_eval (0 + (5764607523034235 / 576460752303423488)) (-59) (5764607523034235) (by norm_num) (Or.inr (by norm_num [abs_of_pos])) (by norm_num [abs_of_pos]) (by norm_num [abs_lt])]; norm_num
  have h2 : Double.div (5764607523034235 / 576460752303423488) (3602879701896397 / 36028797018963968) = 7205759403792793 / 72057594037927936 := by
    show fl ((5764607523034235 / 576460752303423488) / (3602879701896397 / 36028797018963968)) = 7205759403792793 / 72057594037927936
    rw [fl_eval ((5764607523034235 / 576460752303423488) / (3602879701896397 / 36028797018963968)) (-56) (7205759403792793) (by norm_num) (Or.inr (by norm_num [abs_of_pos])) (by norm_num [abs_of_pos]) (by norm_num [abs_lt])]; norm_num
  have h3 : ⌊(7205759403792793 / 72057594037927936 : ℚ)⌋ = 0 := by
    rw [Int.floor_eq_iff]; norm_num
  have h4 : Double.mul ((0 : Int) : ℚ) (3602879701896397 / 36028797018963968) = 0 := by
    show fl (((0 : Int) : ℚ) * (3602879701896397 / 36028797018963968)) = 0
    rw [show (((0 : Int) : ℚ) * (3602879701896397 / 36028797018963968) : ℚ) = 0 by norm_num]; exact fl_zero
  have h5 : Double.sub 4 (5764607523034235 / 576460752303423488) = 2246170314151035 / 562949953421312 := by
    show fl (4 - (5764607523034235 / 576460752303423488)) = 2246170314151035 / 562949953421312
    rw [fl_eval (4 - (5764607523034235 / 576460752303423488)) (-51) (8984681256604140) (by norm_num) (Or.inr (by norm_num [abs_of_pos])) (by norm_num [abs_of_pos]) (by norm_num [abs_lt])]; norm_num
  have h6 : Double.div (2246170314151035 / 562949953421312) (3602879701896397 / 36028797018963968) = 5615425785377587 / 140737488355328 := by
    show fl ((2246170314151035 / 562949953421312) / (3602879701896397 / 36028797018963968)) = 5615425785377587 / 140737488355328
    rw [fl_eval ((2246170314151035 / 562949953421312) / (3602879701896397 / 36028797018963968)) (-47) (5615425785377587) (by norm_num) (Or.inr (by norm_num [abs_of_pos])) (by norm_num [abs_of_pos]) (by norm_num [abs_lt])]; norm_num
  have h7 : ⌈(5615425785377587 / 140737488355328 : ℚ)⌉ = 40 := by
    rw [Int.ceil_eq_iff]; norm_num
  have h8 : Double.mul ((40 : Int) : ℚ) (3602879701896397 / 36028797018963968) = 4 := by
    show fl (((40 : Int) : ℚ) * (3602879701896397 / 36028797018963968)) = 4
    rw [fl_eval (((40 : Int) : ℚ) * (3602879701896397 / 36028797018963968)) (-50) (4503599627370496) (by norm_num) (Or.inr (by norm_num [abs_of_pos])) (by norm_num [abs_of_pos]) (by norm_num [abs_lt])]; norm_num
  simp only [TexturePlacement.round_finite, S6_pal, fl_one_tenth, fl_one_hundredth,
    h1, h2, h3, h4, h5, h6, h7, h8, Double.finite_iff]
  norm_num

theorem axis_finite_64_four : TexturePlacement.axis_finite 64 0 4 := by
  have h1 : Double.sub 4 0 = 4 := by
    show fl (4 - 0) = 4
    rw [fl_eval (4 - 0) (-50) (4503599627370496) (by norm_num) (Or.inr (by norm_num [abs_of_pos])) (by norm_num [abs_of_pos]) (by norm_num [abs_lt])]; norm_num
  have h2 : Double.mul ((64 : Int) : ℚ) 4 = 256 := by
    show fl (((64 : Int) : ℚ) * 4) = 256
    rw [fl_eval (((64 : Int) : ℚ) * 4) (-44) (4503599627370496) (by norm_num) (Or.inr (by norm_num [abs_of_pos])) (by norm_num [abs_of_pos]) (by norm_num [abs_lt])]; norm_num
  have h3 : Double.add 256 (1 / 2) = 513 / 2 := by
    show fl (256 + (1 / 2)) = 513 / 2
    rw [fl_eval (256 + (1 / 2)) (-44) (4512395720392704) (by norm_num) (Or.inr (by norm_num [abs_of_pos])) (by norm_num [abs_of_pos]) (by norm_num [abs_lt])]; norm_num
  simp only [TexturePlacement.axis_finite, h1, h2, h3, Double.finite_iff]
  norm_num

theorem S3_scan : TexturePlacement.scan_references S3_placement =
    { has_uvs := true, min_uv := ⟨0, 0⟩, max_uv := ⟨4, 4⟩,
      wrap_u := WrapMode.WM_repeat, wrap_v := WrapMode.WM_repeat } := by
  rfl

/-- The area of the box (0,0)-(4,4), as `get_uv_area` computes it. -/
theorem area_four : Double.mul (Double.sub 4 0) (Double.sub 4 0) = 16 := by
  have h1 : Double.sub 4 0 = 4 := by
    show fl (4 - 0) = 4
    rw [fl_eval (4 - 0) (-50) (4503599627370496) (by norm_num) (Or.inr (by norm_num [abs_of_pos])) (by norm_num [abs_of_pos]) (by norm_num [abs_lt])]; norm_num
  have h2 : Double.mul 4 4 = 16 := by
    show fl (4 * 4) = 16
    rw [fl_eval (4 * 4) (-48) (4503599627370496) (by norm_num) (Or.inr (by norm_num [abs_of_pos])) (by norm_num [abs_of_pos]) (by norm_num [abs_lt])]; norm_num
  simp only [h1, h2]

theorem hundred_percent : Double.div 100 100 = 1 := by
  show fl (100 / 100) = 1
  rw [show ((100 : ℚ) / 100) = 1 by norm_num]; exact fl_one

theorem desired_get_uv_area (pal : Palettizer) (t : TexturePlacement)
    (hu : (TexturePlacement.scan_references t).has_uvs = true) :
    (t.desired pal).get_uv_area =
      Double.mul
        (Double.sub (t.desired pal)._position._max_uv.u (t.desired pal)._position._min_uv.u)
        (Double.sub (t.desired pal)._position._max_uv.v (t.desired pal)._position._min_uv.v) := by
  have h : (t.desired pal)._has_uvs = true := hu
  simp [TexturePlacement.get_uv_area, h]

theorem desired_min_uv (pal : Palettizer) (t : TexturePlacement) :
    (t.desired pal)._position._min_uv =
      TexturePlacement.rounded_min_uv pal (TexturePlacement.scan_references t).min_uv := rfl

theorem desired_max_uv (pal : Palettizer) (t : TexturePlacement) :
    (t.desired pal)._position._max_uv =
      TexturePlacement.rounded_max_uv pal (TexturePlacement.scan_references t).max_uv := rfl

/-- Scenario S3 stays within the finite doubles. -/
theorem S3_desired_finite : S3_placement.desired_finite S6_pal := by
  unfold TexturePlacement.desired_finite
  rw [desired_get_uv_area S6_pal S3_placement rfl, desired_min_uv, desired_max_uv, S3_scan]
  simp only [S6_rounded_min_zero, S3_rounded_max, area_four]
  refine ⟨fun _ => ⟨S3_round_finite, S3_round_finite⟩,
    ⟨axis_finite_64_four, axis_finite_64_four⟩, ?_⟩
  rw [Double.finite_iff]
  norm_num

theorem axis_size_128_full : TexturePlacement.axis_size 128 0 0 1 = 128 := by
  have h1 : Double.sub 1 0 = 1 := by
    show fl (1 - 0) = 1
    rw [fl_eval (1 - 0) (-52) (4503599627370496) (by norm_num) (Or.inr (by norm_num [abs_of_pos])) (by norm_num [abs_of_pos]) (by norm_num [abs_lt])]; norm_num
  have h2 : Double.mul ((128 : Int) : ℚ) 1 = 128 := by
    show fl (((128 : Int) : ℚ) * 1) = 128
    rw [fl_eval (((128 : Int) : ℚ) * 1) (-45) (4503599627370496) (by norm_num) (Or.inr (by norm_num [abs_of_pos])) (by norm_num [abs_of_pos]) (by norm_num [abs_lt])]; norm_num
  have h3 : Double.add 128 (1 / 2) = 257 / 2 := by
    show fl (128 + (1 / 2)) = 257 / 2
    rw [fl_eval (128 + (1 / 2)) (-45) (4521191813414912) (by norm_num) (Or.inr (by norm_num [abs_of_pos])) (by norm_num [abs_of_pos]) (by norm_num [abs_lt])]; norm_num
  have h4 : ⌊(257 / 2 : ℚ)⌋ = 128 := by
    rw [Int.floor_eq_iff]; norm_num
  have h5 : Double.div ((0 : Int) : ℚ) ((128 : Int) : ℚ) = 0 := by
    show fl (((0 : Int) : ℚ) / ((128 : Int) : ℚ)) = 0
    rw [show (((0 : Int) : ℚ) / ((128 : Int) : ℚ) : ℚ) = 0 by norm_num]; exact fl_zero
  have hi1 : Double.to_int (128) = 128 := by decide
  have hi2 : max (128 : Int) 4 = 128 := by decide
  unfold TexturePlacement.axis_size
  simp only [h1, h2, h3, h4, h5, hi1, hi2, fl_one_tenth]
  norm_num [wrap32]

theorem axis_size_127_full : TexturePlacement.axis_size 127 0 0 1 = 127 := by
  have h1 : Double.sub 1 0 = 1 := by
    show fl (1 - 0) = 1
    rw [fl_eval (1 - 0) (-52) (4503599627370496) (by norm_num) (Or.inr (by norm_num [abs_of_pos])) (by norm_num [abs_of_pos]) (by norm_num [abs_lt])]; norm_num
  have h2 : Double.mul ((127 : Int) : ℚ) 1 = 127 := by
    show fl (((127 : Int) : ℚ) * 1) = 127
    rw [fl_eval (((127 : Int) : ℚ) * 1) (-46) (8936830510563328) (by norm_num) (Or.inr (by norm_num [abs_of_pos])) (by norm_num [abs_of_pos]) (by norm_num [abs_lt])]; norm_num
  have h3 : Double.add 127 (1 / 2) = 255 / 2 := by
    show fl (127 + (1 / 2)) = 255 / 2
    rw [fl_eval (127 + (1 / 2)) (-46) (8972014882652160) (by norm_num) (Or.inr (by norm_num [abs_of_pos])) (by norm_num [abs_of_pos]) (by norm_num [abs_lt])]; norm_num
  have h4 : ⌊(255 / 2 : ℚ)⌋ = 127 := by
    rw [Int.floor_eq_iff]; norm_num
  have h5 : Double.div ((0 : Int) : ℚ) ((127 : Int) : ℚ) = 0 := by
    show fl (((0 : Int) : ℚ) / ((127 : Int) : ℚ)) = 0
    rw [show (((0 : Int) : ℚ) / ((127 : Int) : ℚ) : ℚ) = 0 by norm_num]; exact fl_zero
  have hi1 : Double.to_int (127) = 127 := by decide
  have hi2 : max (127 : Int) 4 = 127 := by decide
  unfold TexturePlacement.axis_size
  simp only [h1, h2, h3, h4, h5, hi1, hi2, fl_one_tenth]
  norm_num [wrap32]

theorem axis_finite_128_full : TexturePlacement.axis_finite 128 0 1 := by
  have h1 : Double.sub 1 0 = 1 := by
    show fl (1 - 0) = 1
    rw [fl_eval (1 - 0) (-52) (4503599627370496) (by norm_num) (Or.inr (by norm_num [abs_of_pos])) (by norm_num [abs_of_pos]) (by norm_num [abs_lt])]; norm_num
  have h2 : Double.mul ((128 : Int) : ℚ) 1 = 128 := by
    show fl (((128 : Int) : ℚ) * 1) = 128
    rw [fl_eval (((128 : Int) : ℚ) * 1) (-45) (4503599627370496) (by norm_num) (Or.inr (by norm_num [abs_of_pos])) (by norm_num [abs_of_pos]) (by norm_num [abs_lt])]; norm_num
  have h3 : Double.add 128 (1 / 2) = 257 / 2 := by
    show fl (128 + (1 / 2)) = 257 / 2
    rw [fl_eval (128 + (1 / 2)) (-45) (4521191813414912) (by norm_num) (Or.inr (by norm_num [abs_of_pos])) (by norm_num [abs_of_pos]) (by norm_num [abs_lt])]; norm_num
  simp only [TexturePlacement.axis_finite, h1, h2, h3, Double.finite_iff]
  norm_num

theorem axis_finite_127_full : TexturePlacement.axis_finite 127 0 1 := by
  have h1 : Double.sub 1 0 = 1 := by
    show fl (1 - 0) = 1
    rw [fl_eval (1 - 0) (-52) (4503599627370496) (by norm_num) (Or.inr (by norm_num [abs_of_pos])) (by norm_num [abs_of_pos]) (by norm_num [abs_lt])]; norm_num
  have h2 : Double.mul ((127 : Int) : ℚ) 1 = 127 := by
    show fl (((127 : Int) : ℚ) * 1) = 127
    rw [fl_eval (((127 : Int) : ℚ) * 1) (-46) (8936830510563328) (by norm_num) (Or.inr (by norm_num [abs_of_pos])) (by norm_num [abs_of_pos]) (by norm_num [abs_lt])]; norm_num
  have h3 : Double.add 127 (1 / 2) = 255 / 2 := by
    show fl (127 + (1 / 2)) = 255 / 2
    rw [fl_eval (127 + (1 / 2)) (-46) (8972014882652160) (by norm_num) (Or.inr (by norm_num [abs_of_pos])) (by norm_num [abs_of_pos]) (by norm_num [abs_lt])]; norm_num
  simp only [TexturePlacement.axis_finite, h1, h2, h3, Double.finite_iff]
  norm_num

/-- The area of the box (0,0)-(1,1), as `get_uv_area` computes it. -/
theorem area_one : Double.mul (Double.sub 1 0) (Double.sub 1 0) = 1 := by
  have h1 : Double.sub 1 0 = 1 := by
    show fl (1 - 0) = 1
    rw [fl_eval (1 - 0) (-52) (4503599627370496) (by norm_num) (Or.inr (by norm_num [abs_of_pos])) (by norm_num [abs_of_pos]) (by norm_num [abs_lt])]; norm_num
  have h2 : Double.mul 1 1 = 1 := by
    show fl (1 * 1) = 1
    rw [fl_eval (1 * 1) (-52) (4503599627370496) (by norm_num) (Or.inr (by norm_num [abs_of_pos])) (by norm_num [abs_of_pos]) (by norm_num [abs_lt])]; norm_num
  simp only [h1, h2]

theorem page_edge_scan : TexturePlacement.scan_references page_edge_placement =
    { has_uvs := true, min_uv := ⟨0, 0⟩, max_uv := ⟨1, 1⟩,
      wrap_u := WrapMode.WM_clamp, wrap_v := WrapMode.WM_clamp } := by
  rfl

theorem page_edge_desired_position : (page_edge_placement.desired S6_pal)._position =
    { _margin := 0, _x := 0, _y := 0, _x_size := 128, _y_size := 127,
      _min_uv := ⟨0, 0⟩, _max_uv := ⟨1, 1⟩,
      _wrap_u := WrapMode.WM_clamp, _wrap_v := WrapMode.WM_clamp } := by
  unfold TexturePlacement.desired
  rw [page_edge_scan]
  simp only [S6_rounded_min_zero, S6_rounded_max]
  simp only [TexturePlacement.compute_size_from_uvs, scanned_texture, page_edge_placement,
    unplaced_placement, axis_size_128_full, axis_size_127_full]
  norm_num [TexturePlacement.scanned, page_edge_placement, unplaced_placement]
  exact ⟨rfl, rfl⟩

/-- The page-edge scenario stays within the finite doubles. -/
theorem page_edge_desired_finite : page_edge_placement.desired_finite S6_pal := by
  unfold TexturePlacement.desired_finite
  rw [desired_get_uv_area S6_pal page_edge_placement rfl, page_edge_desired_position,
    page_edge_scan]
  simp only [S6_rounded_min_zero, S6_rounded_max, area_one]
  refine ⟨fun _ => ⟨S6_round_finite_v, S6_round_finite_v⟩,
    ⟨axis_finite_128_full, axis_finite_127_full⟩, ?_⟩
  rw [Double.finite_iff]
  norm_num

theorem needs_replace_eq_false {d : TexturePlacement}
    (hx : d._position._x_size = d._placed._x_size)
    (hy : d._position._y_size = d._placed._y_size)
    (h1 : d._placed._min_uv.u ≤ d._position._min_uv.u)
    (h2 : d._placed._min_uv.v ≤ d._position._min_uv.v)
    (h3 : d._position._max_uv.u ≤ d._placed._max_uv.u)
    (h4 : d._position._max_uv.v ≤ d._placed._max_uv.v) :
    d.needs_replace = false := by
  simp [TexturePlacement.needs_replace, hx, hy, h1, h2, h3, h4]

/-- Without a forced re-place, the last branch of `determine_size` only stores the new
wrap modes: the palette images and the placed rectangle stay as they are. -/
theorem keep_or_replace_kept (pal : Palettizer) (w : Heap) (p : Nat) (mn mx : TexCoordd)
    (hn : (w.placements p).needs_replace = false) :
    (TexturePlacement.keep_or_replace pal w p mn mx).images = w.images ∧
    ((TexturePlacement.keep_or_replace pal w p mn mx).placements p)._image =
      (w.placements p)._image ∧
    ((TexturePlacement.keep_or_replace pal w p mn mx).placements p)._placed._x =
      (w.placements p)._placed._x ∧
    ((TexturePlacement.keep_or_replace pal w p mn mx).placements p)._placed._y =
      (w.placements p)._placed._y ∧
    ((TexturePlacement.keep_or_replace pal w p mn mx).placements p)._placed._x_size =
      (w.placements p)._placed._x_size ∧
    ((TexturePlacement.keep_or_replace pal w p mn mx).placements p)._placed._y_size =
      (w.placements p)._placed._y_size ∧
    ((TexturePlacement.keep_or_replace pal w p mn mx).placements p)._placed._margin =
      (w.placements p)._placed._margin ∧
    ((TexturePlacement.keep_or_replace pal w p mn mx).placements p)._placed._min_uv =
      (w.placements p)._placed._min_uv ∧
    ((TexturePlacement.keep_or_replace pal w p mn mx).placements p)._placed._max_uv =
      (w.placements p)._placed._max_uv := by
  unfold TexturePlacement.keep_or_replace
  simp only [hn, Bool.false_eq_true, if_false]
  split <;> simp

/-- C10. Drift policy, keep case: if a placement is on an atlas (omit reason `none` or
`solitary`), none of the unknown / omitted / repeats / size rules hits, and the newly
computed desired size equals the placed size on both axes while the desired UV box lies
inside the placed UV box, then `determine_size` leaves the placement's image, placed x, y,
x_size, y_size, margin and placed UV box unchanged and changes no palette image (so it
adds no cleared region). Sizes, UV boxes, area and threshold are the values the program
computes in double arithmetic, on a run without overflow (`desired_finite`). -/
theorem C10_drift_keep (pal : Palettizer) (w : Heap) (p a : Nat)
    (himage : (w.placements p)._image = some a)
    (hreason : (w.placements p)._omit_reason = OmitReason.OR_none ∨
      (w.placements p)._omit_reason = OmitReason.OR_solitary)
    (hknown : (w.placements p)._texture.is_size_known = true)
    (huvs : ∃ r ∈ (w.placements p)._references, r.has_uvs = true)
    (_hfin : (w.placements p).desired_finite pal)
    (homit : (w.placements p)._texture.get_omit = false)
    (hrepeats : ¬ ((w.placements p).desired pal).get_uv_area >
      Double.div (w.placements p)._texture.get_repeat_threshold 100)
    (hsize : ¬ ((((w.placements p).desired pal)._position._x_size > pal._pal_x_size ∨
        ((w.placements p).desired pal)._position._y_size > pal._pal_y_size) ∨
      (((w.placements p).desired pal)._position._x_size = pal._pal_x_size ∧
        ((w.placements p).desired pal)._position._y_size = pal._pal_y_size)))
    (hx : ((w.placements p).desired pal)._position._x_size = (w.placements p)._placed._x_size)
    (hy : ((w.placements p).desired pal)._position._y_size = (w.placements p)._placed._y_size)
    (hmin_u : (w.placements p)._placed._min_uv.u ≤
      ((w.placements p).desired pal)._position._min_uv.u)
    (hmin_v : (w.placements p)._placed._min_uv.v ≤
      ((w.placements p).desired pal)._position._min_uv.v)
    (hmax_u : ((w.placements p).desired pal)._position._max_uv.u ≤
      (w.placements p)._placed._max_uv.u)
    (hmax_v : ((w.placements p).desired pal)._position._max_uv.v ≤
      (w.placements p)._placed._max_uv.v) :
    ((TexturePlacement.determine_size pal w p).1.placements p)._image = some a ∧
    ((TexturePlacement.determine_size pal w p).1.placements p)._placed._x =
      (w.placements p)._placed._x ∧
    ((TexturePlacement.determine_size pal w p).1.placements p)._placed._y =
      (w.placements p)._placed._y ∧
    ((TexturePlacement.determine_size pal w p).1.placements p)._placed._x_size =
      (w.placements p)._placed._x_size ∧
    ((TexturePlacement.determine_size pal w p).1.placements p)._placed._y_size =
      (w.placements p)._placed._y_size ∧
    ((TexturePlacement.determine_size pal w p).1.placements p)._placed._margin =
      (w.placements p)._placed._margin ∧
    ((TexturePlacement.determine_size pal w p).1.placements p)._placed._min_uv =
      (w.placements p)._placed._min_uv ∧
    ((TexturePlacement.determine_size pal w p).1.placements p)._placed._max_uv =
      (w.placements p)._placed._max_uv ∧
    (TexturePlacement.determine_size pal w p).1.images = w.images ∧
    ∀ b, ((TexturePlacement.determine_size pal w p).1.images b)._cleared_regions =
      (w.images b)._cleared_regions := by
  have hu := (scan_references_has_uvs (w.placements p)).mpr huvs
  have hd : ((w.placements p).desired pal)._omit_reason = OmitReason.OR_none := by
    rw [desired_omit_reason]
    rcases hreason with h | h <;> simp [h]
  have hn : ((w.set_placement p ((w.placements p).desired pal)).placements p).needs_replace
      = false := by
    rw [Heap.set_placement_placements, if_pos rfl]
    exact needs_replace_eq_false hx hy hmin_u hmin_v hmax_u hmax_v
  have hk := keep_or_replace_kept pal (w.set_placement p ((w.placements p).desired pal)) p
    (TexturePlacement.scan_references (w.placements p)).min_uv
    (TexturePlacement.scan_references (w.placements p)).max_uv hn
  have hds : (TexturePlacement.determine_size pal w p).1 =
      TexturePlacement.keep_or_replace pal (w.set_placement p ((w.placements p).desired pal)) p
        (TexturePlacement.scan_references (w.placements p)).min_uv
        (TexturePlacement.scan_references (w.placements p)).max_uv := by
    unfold TexturePlacement.determine_size
    simp only [hknown, hu, Bool.not_true, Bool.false_eq_true, if_false, desired_texture, homit,
      hrepeats, hsize, hd, TexturePlacement.is_placed, desired_image, himage,
      Option.isSome_some, if_true]
    simp
  rw [hds]
  simp only [Heap.set_placement_placements, if_pos, Heap.set_placement_images,
    desired_image, desired_placed] at hk
  refine ⟨hk.2.1.trans (by simpa using himage), ?_, ?_, ?_, ?_, ?_, ?_, ?_, hk.1, ?_⟩
  · simpa using hk.2.2.1
  · simpa using hk.2.2.2.1
  · simpa using hk.2.2.2.2.1
  · simpa using hk.2.2.2.2.2.1
  · simpa using hk.2.2.2.2.2.2.1
  · simpa using hk.2.2.2.2.2.2.2.1
  · simpa using hk.2.2.2.2.2.2.2.2
  · intro b; rw [hk.1]

/-- Witness of C10, scenario S6: the placement placed as 64x64 with box (0,0)-(1,1),
whose UVs are now (0.01,0)-(1,1), stays where it is. -/
theorem C10_drift_keep_witness :
    ((TexturePlacement.determine_size S6_pal S6_heap 0).1.placements 0)._image = some 0 ∧
    ((TexturePlacement.determine_size S6_pal S6_heap 0).1.placements 0)._placed._x = 0 ∧
    ((TexturePlacement.determine_size S6_pal S6_heap 0).1.placements 0)._placed._y = 0 ∧
    ((TexturePlacement.determine_size S6_pal S6_heap 0).1.placements 0)._placed._x_size = 64 ∧
    ((TexturePlacement.determine_size S6_pal S6_heap 0).1.placements 0)._placed._y_size = 64 ∧
    ((TexturePlacement.determine_size S6_pal S6_heap 0).1.placements 0)._placed._margin = 2 ∧
    ((TexturePlacement.determine_size S6_pal S6_heap 0).1.placements 0)._placed._min_uv
      = ⟨0, 0⟩ ∧
    ((TexturePlacement.determine_size S6_pal S6_heap 0).1.placements 0)._placed._max_uv
      = ⟨1, 1⟩ ∧
    (TexturePlacement.determine_size S6_pal S6_heap 0).1.images = S6_heap.images ∧
    ∀ b, ((TexturePlacement.determine_size S6_pal S6_heap 0).1.images b)._cleared_regions =
      (S6_heap.images b)._cleared_regions :=
  C10_drift_keep S6_pal S6_heap 0 0 rfl (Or.inr rfl) rfl
    ⟨_, List.mem_singleton_self _, rfl⟩ S6_desired_finite rfl
    (by
      show ¬ (S6_placement.desired S6_pal).get_uv_area > Double.div 100 100
      rw [S6_desired_area, hundred_percent]; norm_num)
    (by
      show ¬ (((S6_placement.desired S6_pal)._position._x_size > 128 ∨
          (S6_placement.desired S6_pal)._position._y_size > 128) ∨
        ((S6_placement.desired S6_pal)._position._x_size = 128 ∧
          (S6_placement.desired S6_pal)._position._y_size = 128))
      rw [S6_desired_position]; decide)
    (by show (S6_placement.desired S6_pal)._position._x_size = 64
        rw [S6_desired_position])
    (by show (S6_placement.desired S6_pal)._position._y_size = 64
        rw [S6_desired_position])
    (by show (0 : ℚ) ≤ (S6_placement.desired S6_pal)._position._min_uv.u
        rw [S6_desired_position])
    (by show (0 : ℚ) ≤ (S6_placement.desired S6_pal)._position._min_uv.v
        rw [S6_desired_position])
    (by show (S6_placement.desired S6_pal)._position._max_uv.u ≤ (1 : ℚ)
        rw [S6_desired_position])
    (by show (S6_placement.desired S6_pal)._position._max_uv.v ≤ (1 : ℚ)
        rw [S6_desired_position])

/-- C6, as stated, fails on scenario S6: no rule hits, so the stated assignment gives
`working`, but `determine_size` keeps the placement on its atlas with omit reason
`none`. -/
theorem C6_counterexample :
    (∃ r ∈ (S6_heap.placements 0)._references, r.has_uvs = true) ∧
    spec_omit_reason S6_pal (S6_heap.placements 0) = OmitReason.OR_working ∧
    ((TexturePlacement.determine_size S6_pal S6_heap 0).1.placements 0)._omit_reason
      = OmitReason.OR_none ∧
    ((TexturePlacement.determine_size S6_pal S6_heap 0).1.placements 0)._omit_reason
      ≠ spec_omit_reason S6_pal (S6_heap.placements 0) := by
  have hs : spec_omit_reason S6_pal (S6_heap.placements 0) = OmitReason.OR_working := by
    show spec_omit_reason S6_pal S6_placement = OmitReason.OR_working
    unfold spec_omit_reason
    rw [S6_desired_area, S6_desired_position]
    norm_num [S6_placement, S6_pal, hundred_percent]
  have hd : ((TexturePlacement.determine_size S6_pal S6_heap 0).1.placements 0)._omit_reason
      = OmitReason.OR_none := by
    rw [determine_size_omit_reason S6_pal S6_heap 0 rfl]
    show (if (!S6_placement._texture.is_size_known) = true then OmitReason.OR_unknown
      else if S6_placement._texture.get_omit = true then OmitReason.OR_omitted
      else if (S6_placement.desired S6_pal).get_uv_area >
          Double.div S6_placement._texture.get_repeat_threshold 100 then OmitReason.OR_repeats
      else if ((S6_placement.desired S6_pal)._position._x_size > S6_pal._pal_x_size ∨
            (S6_placement.desired S6_pal)._position._y_size > S6_pal._pal_y_size) ∨
          ((S6_placement.desired S6_pal)._position._x_size = S6_pal._pal_x_size ∧
            (S6_placement.desired S6_pal)._position._y_size = S6_pal._pal_y_size) then
        OmitReason.OR_size
      else if (S6_placement.desired S6_pal)._omit_reason = OmitReason.OR_omitted ∨
          (S6_placement.desired S6_pal)._omit_reason = OmitReason.OR_size ∨
          (S6_placement.desired S6_pal)._omit_reason = OmitReason.OR_repeats ∨
          (S6_placement.desired S6_pal)._omit_reason = OmitReason.OR_unknown then
        OmitReason.OR_working
      else if (S6_placement.desired S6_pal).forces_replace S6_pal
            (TexturePlacement.scan_references S6_placement).min_uv
            (TexturePlacement.scan_references S6_placement).max_uv = true ∧
          S6_placement._image ≠ none then OmitReason.OR_working
      else (S6_placement.desired S6_pal)._omit_reason) = OmitReason.OR_none
    have hn : (S6_placement.desired S6_pal).needs_replace = false := by
      unfold TexturePlacement.needs_replace
      rw [S6_desired_position]
      simp [S6_placement]
    rw [S6_desired_area, S6_desired_position]
    simp only [TexturePlacement.forces_replace, hn]
    norm_num [S6_placement, S6_pal, hundred_percent]
    decide
  refine ⟨⟨_, List.mem_singleton_self _, rfl⟩, hs, hd, ?_⟩
  rw [hs, hd]; decide

/-- C6, amended. For every placement with at least one reference carrying UVs, whose
omit reason is `none` or `solitary` exactly when it is on an atlas and is not `coverage`,
`determine_size` sets the omit reason to the first rule that hits, in this order: source
size unknown -> `unknown`; texture flagged omit -> `omitted`;
uv_area > repeat_threshold/100 -> `repeats`; x_size > page_max_x or y_size > page_max_y or
both equal -> `size`; otherwise `none` if the placement is left on its atlas and
`working` if it is on no atlas afterwards. The area, the threshold and the sizes are the
values the program computes in double arithmetic, on a run without overflow
(`desired_finite`). -/
theorem C6_omit_reason_order (pal : Palettizer) (w : Heap) (p : Nat)
    (huvs : ∃ r ∈ (w.placements p)._references, r.has_uvs = true)
    (_hfin : (w.placements p).desired_finite pal)
    (hinv : (w.placements p).placed_iff_reason)
    (hcov : (w.placements p)._omit_reason ≠ OmitReason.OR_coverage) :
    ((TexturePlacement.determine_size pal w p).1.placements p)._omit_reason =
      if (w.placements p)._texture.is_size_known = false then OmitReason.OR_unknown
      else if (w.placements p)._texture.get_omit = true then OmitReason.OR_omitted
      else if ((w.placements p).desired pal).get_uv_area >
          Double.div (w.placements p)._texture.get_repeat_threshold 100 then OmitReason.OR_repeats
      else if ((w.placements p).desired pal)._position._x_size > pal._pal_x_size ∨
          ((w.placements p).desired pal)._position._y_size > pal._pal_y_size ∨
          (((w.placements p).desired pal)._position._x_size = pal._pal_x_size ∧
            ((w.placements p).desired pal)._position._y_size = pal._pal_y_size) then
        OmitReason.OR_size
      else if ((TexturePlacement.determine_size pal w p).1.placements p)._image ≠ none then
        OmitReason.OR_none
      else OmitReason.OR_working := by
  have hu := (scan_references_has_uvs (w.placements p)).mpr huvs
  rw [determine_size_image pal w p hu, determine_size_omit_reason pal w p hu]
  unfold TexturePlacement.placed_iff_reason at hinv
  by_cases h1 : (w.placements p)._texture.is_size_known = false
  · simp [h1]
  · have hk : (w.placements p)._texture.is_size_known = true := by simpa using h1
    simp only [hk, Bool.not_true, Bool.false_eq_true, if_false]
    by_cases h2 : (w.placements p)._texture.get_omit = true
    · simp [h2]
    · simp only [h2, if_false]
      by_cases h3 : ((w.placements p).desired pal).get_uv_area >
          Double.div (w.placements p)._texture.get_repeat_threshold 100
      · simp [h3]
      · simp only [h3, if_false]
        by_cases h4 : (((w.placements p).desired pal)._position._x_size > pal._pal_x_size ∨
            ((w.placements p).desired pal)._position._y_size > pal._pal_y_size) ∨
          (((w.placements p).desired pal)._position._x_size = pal._pal_x_size ∧
            ((w.placements p).desired pal)._position._y_size = pal._pal_y_size)
        · have h4b : ((w.placements p).desired pal)._position._x_size > pal._pal_x_size ∨
              ((w.placements p).desired pal)._position._y_size > pal._pal_y_size ∨
              (((w.placements p).desired pal)._position._x_size = pal._pal_x_size ∧
                ((w.placements p).desired pal)._position._y_size = pal._pal_y_size) :=
            or_assoc.mp h4
          rw [if_pos h4]; simp [h4b]
        · have h4b : ¬ (((w.placements p).desired pal)._position._x_size > pal._pal_x_size ∨
              ((w.placements p).desired pal)._position._y_size > pal._pal_y_size ∨
              (((w.placements p).desired pal)._position._x_size = pal._pal_x_size ∧
                ((w.placements p).desired pal)._position._y_size = pal._pal_y_size)) :=
            fun h => h4 (or_assoc.mpr h)
          rw [if_neg h4, if_neg h4]
          simp only [Bool.true_eq_false, Bool.false_eq_true, if_false, h4b]
          rw [desired_omit_reason]
          cases hf : ((w.placements p).desired pal).forces_replace pal
              (TexturePlacement.scan_references (w.placements p)).min_uv
              (TexturePlacement.scan_references (w.placements p)).max_uv <;>
            cases hr : (w.placements p)._omit_reason <;>
            cases hi : (w.placements p)._image <;>
            simp_all

/-- Witness of the amended C6 on scenario S6. -/
theorem C6_omit_reason_order_witness :
    ((TexturePlacement.determine_size S6_pal S6_heap 0).1.placements 0)._omit_reason =
      if (S6_heap.placements 0)._texture.is_size_known = false then OmitReason.OR_unknown
      else if (S6_heap.placements 0)._texture.get_omit = true then OmitReason.OR_omitted
      else if ((S6_heap.placements 0).desired S6_pal).get_uv_area >
          Double.div (S6_heap.placements 0)._texture.get_repeat_threshold 100 then OmitReason.OR_repeats
      else if ((S6_heap.placements 0).desired S6_pal)._position._x_size > S6_pal._pal_x_size ∨
          ((S6_heap.placements 0).desired S6_pal)._position._y_size > S6_pal._pal_y_size ∨
          (((S6_heap.placements 0).desired S6_pal)._position._x_size = S6_pal._pal_x_size ∧
            ((S6_heap.placements 0).desired S6_pal)._position._y_size = S6_pal._pal_y_size) then
        OmitReason.OR_size
      else if ((TexturePlacement.determine_size S6_pal S6_heap 0).1.placements 0)._image
          ≠ none then
        OmitReason.OR_none
      else OmitReason.OR_working :=
  C6_omit_reason_order S6_pal S6_heap 0 ⟨_, List.mem_singleton_self _, rfl⟩
    S6_desired_finite (by unfold TexturePlacement.placed_iff_reason; decide) (by decide)

/-- C7. For a placement whose source size is known, that has UVs and whose texture is not
flagged omit, `determine_size` ends with omit reason `repeats` and the placement on no
atlas if and only if the area of the desired UV box (u-range times v-range of
`max_uv - min_uv`) is strictly greater than repeat_threshold/100; an area exactly equal to
the threshold is not omitted for repeats. The ranges, their product and the quotient
`repeat_threshold / 100.0` are the doubles the program computes, on a run without overflow
(`desired_finite`). -/
theorem C7_repeats_iff (pal : Palettizer) (w : Heap) (p : Nat)
    (hknown : (w.placements p)._texture.is_size_known = true)
    (huvs : ∃ r ∈ (w.placements p)._references, r.has_uvs = true)
    (_hfin : (w.placements p).desired_finite pal)
    (homit : (w.placements p)._texture.get_omit = false) :
    ((((TexturePlacement.determine_size pal w p).1.placements p)._omit_reason
          = OmitReason.OR_repeats ∧
        ((TexturePlacement.determine_size pal w p).1.placements p)._image = none) ↔
      Double.mul
          (Double.sub ((w.placements p).desired pal)._position._max_uv.u
            ((w.placements p).desired pal)._position._min_uv.u)
          (Double.sub ((w.placements p).desired pal)._position._max_uv.v
            ((w.placements p).desired pal)._position._min_uv.v) >
        Double.div (w.placements p)._texture.get_repeat_threshold 100) ∧
    (Double.mul
          (Double.sub ((w.placements p).desired pal)._position._max_uv.u
            ((w.placements p).desired pal)._position._min_uv.u)
          (Double.sub ((w.placements p).desired pal)._position._max_uv.v
            ((w.placements p).desired pal)._position._min_uv.v) =
        Double.div (w.placements p)._texture.get_repeat_threshold 100 →
      ((TexturePlacement.determine_size pal w p).1.placements p)._omit_reason
        ≠ OmitReason.OR_repeats) := by
  have hu := (scan_references_has_uvs (w.placements p)).mpr huvs
  rw [← desired_get_uv_area pal (w.placements p) hu]
  have key : ¬ ((w.placements p).desired pal).get_uv_area >
        Double.div (w.placements p)._texture.get_repeat_threshold 100 →
      ((TexturePlacement.determine_size pal w p).1.placements p)._omit_reason
        ≠ OmitReason.OR_repeats := by
    intro h3
    rw [determine_size_omit_reason pal w p hu]
    simp only [hknown, homit, h3, Bool.not_true, Bool.false_eq_true, if_false]
    split_ifs with h4 h5 h6
    · decide
    · decide
    · decide
    · intro h; exact h5 (Or.inr (Or.inr (Or.inl h)))
  refine ⟨⟨fun h => ?_, fun h => ?_⟩, fun h => key (by rw [h]; exact lt_irrefl _)⟩
  · by_contra h3
    exact key h3 h.1
  · rw [determine_size_omit_reason pal w p hu, determine_size_image pal w p hu]
    simp [hknown, homit, h]

/-- C8. For a placement that passes the unknown, omitted and repeats rules,
`determine_size` sets omit reason `size` if and only if the desired x_size > page_max_x,
or the desired y_size > page_max_y, or both are equal to the page size; a desired size
equal to the page size on one axis and smaller on the other is not omitted for size. The
desired sizes are the `int` values the program computes through double arithmetic, on a
run without overflow (`desired_finite`). -/
theorem C8_size_iff (pal : Palettizer) (w : Heap) (p : Nat)
    (hknown : (w.placements p)._texture.is_size_known = true)
    (huvs : ∃ r ∈ (w.placements p)._references, r.has_uvs = true)
    (_hfin : (w.placements p).desired_finite pal)
    (homit : (w.placements p)._texture.get_omit = false)
    (hrepeats : ¬ ((w.placements p).desired pal).get_uv_area >
      Double.div (w.placements p)._texture.get_repeat_threshold 100) :
    (((TexturePlacement.determine_size pal w p).1.placements p)._omit_reason
        = OmitReason.OR_size ↔
      (((w.placements p).desired pal)._position._x_size > pal._pal_x_size ∨
        ((w.placements p).desired pal)._position._y_size > pal._pal_y_size ∨
        (((w.placements p).desired pal)._position._x_size = pal._pal_x_size ∧
          ((w.placements p).desired pal)._position._y_size = pal._pal_y_size))) ∧
    (((((w.placements p).desired pal)._position._x_size = pal._pal_x_size ∧
          ((w.placements p).desired pal)._position._y_size < pal._pal_y_size) ∨
        (((w.placements p).desired pal)._position._x_size < pal._pal_x_size ∧
          ((w.placements p).desired pal)._position._y_size = pal._pal_y_size)) →
      ((TexturePlacement.determine_size pal w p).1.placements p)._omit_reason
        ≠ OmitReason.OR_size) := by
  have hu := (scan_references_has_uvs (w.placements p)).mpr huvs
  have hiff : ((TexturePlacement.determine_size pal w p).1.placements p)._omit_reason
        = OmitReason.OR_size ↔
      (((w.placements p).desired pal)._position._x_size > pal._pal_x_size ∨
        ((w.placements p).desired pal)._position._y_size > pal._pal_y_size ∨
        (((w.placements p).desired pal)._position._x_size = pal._pal_x_size ∧
          ((w.placements p).desired pal)._position._y_size = pal._pal_y_size)) := by
    rw [determine_size_omit_reason pal w p hu]
    simp only [hknown, homit, hrepeats, Bool.not_true, Bool.false_eq_true, if_false]
    split_ifs with h4 h5 h6
    · constructor
      · intro _; exact or_assoc.mp h4
      · intro _; rfl
    · constructor
      · intro h; cases h
      · intro h; exact absurd (or_assoc.mpr h) h4
    · constructor
      · intro h; cases h
      · intro h; exact absurd (or_assoc.mpr h) h4
    · constructor
      · intro h; exact absurd (Or.inr (Or.inl h)) h5
      · intro h; exact absurd (or_assoc.mpr h) h4
  refine ⟨hiff, fun h hs => ?_⟩
  have := hiff.mp hs
  omega

/-- Witness of C7. Scenario S3: UV box (0,0)-(4,4) with repeat threshold 100 gives
`repeats`, on no atlas. Scenario S6: the desired box (0,0)-(1,1) has area exactly
100/100, and the placement is not omitted for repeats. -/
theorem C7_repeats_iff_witness :
    (((TexturePlacement.determine_size S6_pal S3_heap 0).1.placements 0)._omit_reason
        = OmitReason.OR_repeats ∧
      ((TexturePlacement.determine_size S6_pal S3_heap 0).1.placements 0)._image = none) ∧
    ((S6_heap.placements 0).desired S6_pal).get_uv_area =
      Double.div (S6_heap.placements 0)._texture.get_repeat_threshold 100 ∧
    ((TexturePlacement.determine_size S6_pal S6_heap 0).1.placements 0)._omit_reason
      ≠ OmitReason.OR_repeats :=
  ⟨(C7_repeats_iff S6_pal S3_heap 0 rfl ⟨_, List.mem_singleton_self _, rfl⟩
      S3_desired_finite rfl).1.mpr
    (by
      show Double.mul
          (Double.sub (S3_placement.desired S6_pal)._position._max_uv.u
            (S3_placement.desired S6_pal)._position._min_uv.u)
          (Double.sub (S3_placement.desired S6_pal)._position._max_uv.v
            (S3_placement.desired S6_pal)._position._min_uv.v) > Double.div 100 100
      rw [desired_min_uv, desired_max_uv, S3_scan]
      simp only [S3_rounded_max, S6_rounded_min_zero, area_four, hundred_percent]
      norm_num),
    (by
      show (S6_placement.desired S6_pal).get_uv_area = Double.div 100 100
      rw [S6_desired_area, hundred_percent]),
    (C7_repeats_iff S6_pal S6_heap 0 rfl ⟨_, List.mem_singleton_self _, rfl⟩
      S6_desired_finite rfl).2
    (by
      show Double.mul
          (Double.sub (S6_placement.desired S6_pal)._position._max_uv.u
            (S6_placement.desired S6_pal)._position._min_uv.u)
          (Double.sub (S6_placement.desired S6_pal)._position._max_uv.v
            (S6_placement.desired S6_pal)._position._min_uv.v) = Double.div 100 100
      rw [S6_desired_position]
      simp only [area_one, hundred_percent])⟩

/-- Witness of C8: a desired size of 128x127 on a 128x128 page is not omitted for
size. -/
theorem C8_size_iff_witness :
    ((TexturePlacement.determine_size S6_pal page_edge_heap 0).1.placements 0)._omit_reason
      ≠ OmitReason.OR_size :=
  (C8_size_iff S6_pal page_edge_heap 0 rfl ⟨_, List.mem_singleton_self _, rfl⟩
    page_edge_desired_finite rfl
    (by
      show ¬ (page_edge_placement.desired S6_pal).get_uv_area > Double.div 100 100
      rw [desired_get_uv_area S6_pal page_edge_placement rfl, page_edge_desired_position]
      simp only [area_one, hundred_percent]
      norm_num)).2
    (Or.inl (by
      show (page_edge_placement.desired S6_pal)._position._x_size = 128 ∧
        (page_edge_placement.desired S6_pal)._position._y_size < 128
      rw [page_edge_desired_position]; decide))

/-- The size `compute_size_from_uvs` gives one axis, against the exact product
`E = size * (max_uv - min_uv)`: the value before the margin test is at least 4 and lies
between `floor(E + 1/2 - 2^-20)` and `floor(E + 1/2 + 2^-20)` (clamped at 4), twice the
margin is added exactly when `margin / size > 1/10`, and the result is at least 4. -/
theorem axis_size_spec (X m : Int) (lo hi : ℚ) (hX : |X| ≤ 2 ^ 31) (hm : m ≤ 2 ^ 27)
    (hE : |(X : ℚ) * (hi - lo)| ≤ 2 ^ 30) :
    ∃ s : Int,
      max ⌊(X : ℚ) * (hi - lo) + 1 / 2 - 1 / 2 ^ (20 : Nat)⌋ 4 ≤ s ∧
      s ≤ max ⌊(X : ℚ) * (hi - lo) + 1 / 2 + 1 / 2 ^ (20 : Nat)⌋ 4 ∧
      TexturePlacement.axis_size X m lo hi =
        (if (m : ℚ) / (s : ℚ) > 1 / 10 then s + 2 * m else s) ∧
      4 ≤ TexturePlacement.axis_size X m lo hi := by
  have hc := size_arg_close X (hi - lo) hX hE
  rw [abs_le] at hc hE
  have hk1 : ⌊(X : ℚ) * (hi - lo) + 1 / 2 - 1 / 2 ^ (20 : Nat)⌋ ≤
      ⌊Double.add (Double.mul (X : ℚ) (fl (hi - lo))) (1 / 2)⌋ :=
    Int.floor_mono (by linarith [hc.1])
  have hk2 : ⌊Double.add (Double.mul (X : ℚ) (fl (hi - lo))) (1 / 2)⌋ ≤
      ⌊(X : ℚ) * (hi - lo) + 1 / 2 + 1 / 2 ^ (20 : Nat)⌋ :=
    Int.floor_mono (by linarith [hc.2])
  have hub : ⌊(X : ℚ) * (hi - lo) + 1 / 2 + 1 / 2 ^ (20 : Nat)⌋ ≤ 2 ^ 30 + 1 := by
    have h1 : (X : ℚ) * (hi - lo) + 1 / 2 + 1 / 2 ^ (20 : Nat) < ((2 ^ 30 + 2 : Int) : ℚ) := by
      push_cast
      have : (1 : ℚ) / 2 + 1 / 2 ^ (20 : Nat) < 2 := by norm_num
      linarith [hE.2]
    have := Int.floor_lt.mpr h1
    omega
  have hlb : -(2 ^ 30) - 1 ≤ ⌊(X : ℚ) * (hi - lo) + 1 / 2 - 1 / 2 ^ (20 : Nat)⌋ := by
    apply Int.le_floor.mpr
    push_cast
    have : (0 : ℚ) ≤ 1 / 2 - 1 / 2 ^ (20 : Nat) := by norm_num
    linarith [hE.1]
  have hto : Double.to_int ⌊Double.add (Double.mul (X : ℚ) (fl (hi - lo))) (1 / 2)⌋ =
      ⌊Double.add (Double.mul (X : ℚ) (fl (hi - lo))) (1 / 2)⌋ :=
    Double.to_int_of_range (by omega) (by omega)
  have hs4 : (4 : Int) ≤ max ⌊Double.add (Double.mul (X : ℚ) (fl (hi - lo))) (1 / 2)⌋ 4 :=
    le_max_right _ _
  have hs31 : max ⌊Double.add (Double.mul (X : ℚ) (fl (hi - lo))) (1 / 2)⌋ 4 ≤ 2 ^ 30 + 1 :=
    max_le (by omega) (by norm_num)
  have hval : TexturePlacement.axis_size X m lo hi =
      (if (m : ℚ) / ((max ⌊Double.add (Double.mul (X : ℚ) (fl (hi - lo))) (1 / 2)⌋ 4 : Int) : ℚ)
          > 1 / 10 then
        max ⌊Double.add (Double.mul (X : ℚ) (fl (hi - lo))) (1 / 2)⌋ 4 + 2 * m
      else max ⌊Double.add (Double.mul (X : ℚ) (fl (hi - lo))) (1 / 2)⌋ 4) := by
    unfold TexturePlacement.axis_size
    simp only [Double.sub, hto]
    by_cases hgt : (m : ℚ) /
        ((max ⌊Double.add (Double.mul (X : ℚ) (fl (hi - lo))) (1 / 2)⌋ 4 : Int) : ℚ) > 1 / 10
    · rw [if_pos ((margin_test_exact m _ hs4 (by omega)).mpr hgt), if_pos hgt]
      rw [wrap32_of_range (by
        have hm0 : (0 : ℚ) < (m : ℚ) := by
          by_contra hneg
          have hs0 : (0 : ℚ) <
              ((max ⌊Double.add (Double.mul (X : ℚ) (fl (hi - lo))) (1 / 2)⌋ 4 : Int) : ℚ) := by
            exact_mod_cast (by omega : (0 : Int) <
              max ⌊Double.add (Double.mul (X : ℚ) (fl (hi - lo))) (1 / 2)⌋ 4)
          have := div_nonpos_of_nonpos_of_nonneg (not_lt.mp hneg) hs0.le
          linarith
        have hm1 : (0 : Int) < m := by exact_mod_cast hm0
        omega) (by omega)]
      ring
    · rw [if_neg (fun h => hgt ((margin_test_exact m _ hs4 (by omega)).mp h)), if_neg hgt]
  refine ⟨max ⌊Double.add (Double.mul (X : ℚ) (fl (hi - lo))) (1 / 2)⌋ 4,
    max_le_max hk1 (le_refl 4), max_le_max hk2 (le_refl 4), hval, ?_⟩
  rw [hval]
  split_ifs with hgt
  · have hs0 : (0 : ℚ) <
        ((max ⌊Double.add (Double.mul (X : ℚ) (fl (hi - lo))) (1 / 2)⌋ 4 : Int) : ℚ) := by
      exact_mod_cast (by omega : (0 : Int) <
        max ⌊Double.add (Double.mul (X : ℚ) (fl (hi - lo))) (1 / 2)⌋ 4)
    have hm0 : (0 : ℚ) < (m : ℚ) := by
      by_contra hneg
      have := div_nonpos_of_nonpos_of_nonneg (not_lt.mp hneg) hs0.le
      linarith
    have hm1 : (0 : Int) < m := by exact_mod_cast hm0
    omega
  · exact hs4

/-- Where no integer lies within `2^-20` of `E + 1/2`, the size `compute_size_from_uvs`
gives one axis is that of the exact formula. -/
theorem axis_size_eq_spec (X m : Int) (lo hi : ℚ) (hX : |X| ≤ 2 ^ 31) (hm : m ≤ 2 ^ 27)
    (hE : |(X : ℚ) * (hi - lo)| ≤ 2 ^ 30)
    (hgap : ⌊(X : ℚ) * (hi - lo) + 1 / 2 - 1 / 2 ^ (20 : Nat)⌋ =
      ⌊(X : ℚ) * (hi - lo) + 1 / 2 + 1 / 2 ^ (20 : Nat)⌋) :
    TexturePlacement.axis_size X m lo hi = spec_axis_size X m lo hi := by
  obtain ⟨s, h1, h2, h3, _⟩ := axis_size_spec X m lo hi hX hm hE
  have hmid1 : ⌊(X : ℚ) * (hi - lo) + 1 / 2 - 1 / 2 ^ (20 : Nat)⌋ ≤
      ⌊(X : ℚ) * (hi - lo) + 1 / 2⌋ :=
    Int.floor_mono (by have : (0 : ℚ) ≤ 1 / 2 ^ (20 : Nat) := by positivity
                       linarith)
  have hmid2 : ⌊(X : ℚ) * (hi - lo) + 1 / 2⌋ ≤
      ⌊(X : ℚ) * (hi - lo) + 1 / 2 + 1 / 2 ^ (20 : Nat)⌋ :=
    Int.floor_mono (by have : (0 : ℚ) ≤ 1 / 2 ^ (20 : Nat) := by positivity
                       linarith)
  have hs : s = max ⌊(X : ℚ) * (hi - lo) + 1 / 2⌋ 4 := by
    have e1 : ⌊(X : ℚ) * (hi - lo) + 1 / 2⌋ =
        ⌊(X : ℚ) * (hi - lo) + 1 / 2 + 1 / 2 ^ (20 : Nat)⌋ := by omega
    rw [hgap] at h1
    rw [e1]
    omega
  rw [h3, hs]
  rfl

theorem fl_eleven_sixths : fl (11 / 6) = 8256599316845909 / 4503599627370496 := by
  rw [fl_eval (11 / 6) (-52) (8256599316845909) (by norm_num)
    (Or.inr (by norm_num [abs_of_pos])) (by norm_num [abs_of_pos]) (by norm_num [abs_lt])]
  norm_num

/-- A source 2^30 pixels wide on the UV range [0, 4]: the product 2^32 does not fit an
`int`, the conversion gives `INT_MIN` and the clamp makes it 4. -/
theorem axis_size_overflow : TexturePlacement.axis_size 1073741824 0 0 4 = 4 := by
  have h1 : Double.sub 4 0 = 4 := by
    show fl (4 - 0) = 4
    rw [fl_eval (4 - 0) (-50) (4503599627370496) (by norm_num) (Or.inr (by norm_num [abs_of_pos])) (by norm_num [abs_of_pos]) (by norm_num [abs_lt])]; norm_num
  have h2 : Double.mul ((1073741824 : Int) : ℚ) 4 = 4294967296 := by
    show fl (((1073741824 : Int) : ℚ) * 4) = 4294967296
    rw [fl_eval (((1073741824 : Int) : ℚ) * 4) (-20) (4503599627370496) (by norm_num) (Or.inr (by norm_num [abs_of_pos])) (by norm_num [abs_of_pos]) (by norm_num [abs_lt])]; norm_num
  have h3 : Double.add 4294967296 (1 / 2) = 8589934593 / 2 := by
    show fl (4294967296 + (1 / 2)) = 8589934593 / 2
    rw [fl_eval (4294967296 + (1 / 2)) (-20) (4503599627894784) (by norm_num) (Or.inr (by norm_num [abs_of_pos])) (by norm_num [abs_of_pos]) (by norm_num [abs_lt])]; norm_num
  have h4 : ⌊(8589934593 / 2 : ℚ)⌋ = 4294967296 := by
    rw [Int.floor_eq_iff]; norm_num
  have h5 : Double.div ((0 : Int) : ℚ) ((4 : Int) : ℚ) = 0 := by
    show fl (((0 : Int) : ℚ) / ((4 : Int) : ℚ)) = 0
    rw [show (((0 : Int) : ℚ) / ((4 : Int) : ℚ) : ℚ) = 0 by norm_num]; exact fl_zero
  have hi1 : Double.to_int (4294967296) = (-2147483648) := by decide
  have hi2 : max ((-2147483648) : Int) 4 = 4 := by decide
  unfold TexturePlacement.axis_size
  simp only [h1, h2, h3, h4, h5, hi1, hi2, fl_one_tenth]
  norm_num [wrap32]

/-- A source 3 pixels wide on the UV range [0, 1.8333333333333333]: the product rounds
up to 5.5 and the size is 6, where the exact product is below 5.5. -/
theorem axis_size_tie : TexturePlacement.axis_size 3 0 0 (fl (11 / 6)) = 6 := by
  rw [fl_eleven_sixths]
  have h1 : Double.sub (8256599316845909 / 4503599627370496) 0 = 8256599316845909 / 4503599627370496 := by
    show fl ((8256599316845909 / 4503599627370496) - 0) = 8256599316845909 / 4503599627370496
    rw [fl_eval ((8256599316845909 / 4503599627370496) - 0) (-52) (8256599316845909) (by norm_num) (Or.inr (by norm_num [abs_of_pos])) (by norm_num [abs_of_pos]) (by norm_num [abs_lt])]; norm_num
  have h2 : Double.mul ((3 : Int) : ℚ) (8256599316845909 / 4503599627370496) = 11 / 2 := by
    show fl (((3 : Int) : ℚ) * (8256599316845909 / 4503599627370496)) = 11 / 2
    rw [fl_eval (((3 : Int) : ℚ) * (8256599316845909 / 4503599627370496)) (-50) (6192449487634432) (by norm_num) (Or.inr (by norm_num [abs_of_pos])) (by norm_num [abs_of_pos]) (by norm_num [abs_lt])]; norm_num
  have h3 : Double.add (11 / 2) (1 / 2) = 6 := by
    show fl ((11 / 2) + (1 / 2)) = 6
    rw [fl_eval ((11 / 2) + (1 / 2)) (-50) (6755399441055744) (by norm_num) (Or.inr (by norm_num [abs_of_pos])) (by norm_num [abs_of_pos]) (by norm_num [abs_lt])]; norm_num
  have h4 : ⌊(6 : ℚ)⌋ = 6 := by
    rw [Int.floor_eq_iff]; norm_num
  have h5 : Double.div ((0 : Int) : ℚ) ((6 : Int) : ℚ) = 0 := by
    show fl (((0 : Int) : ℚ) / ((6 : Int) : ℚ)) = 0
    rw [show (((0 : Int) : ℚ) / ((6 : Int) : ℚ) : ℚ) = 0 by norm_num]; exact fl_zero
  have hi1 : Double.to_int (6) = 6 := by decide
  have hi2 : max (6 : Int) 4 = 6 := by decide
  unfold TexturePlacement.axis_size
  simp only [h1, h2, h3, h4, h5, hi1, hi2, fl_one_tenth]
  norm_num [wrap32]

/-- A margin of 2^30: the sum `4 + 2 * margin` wraps around. -/
theorem axis_size_margin_wrap : TexturePlacement.axis_size 4 1073741824 0 1 = (-2147483644) := by
  have h1 : Double.sub 1 0 = 1 := by
    show fl (1 - 0) = 1
    rw [fl_eval (1 - 0) (-52) (4503599627370496) (by norm_num) (Or.inr (by norm_num [abs_of_pos])) (by norm_num [abs_of_pos]) (by norm_num [abs_lt])]; norm_num
  have h2 : Double.mul ((4 : Int) : ℚ) 1 = 4 := by
    show fl (((4 : Int) : ℚ) * 1) = 4
    rw [fl_eval (((4 : Int) : ℚ) * 1) (-50) (4503599627370496) (by norm_num) (Or.inr (by norm_num [abs_of_pos])) (by norm_num [abs_of_pos]) (by norm_num [abs_lt])]; norm_num
  have h3 : Double.add 4 (1 / 2) = 9 / 2 := by
    show fl (4 + (1 / 2)) = 9 / 2
    rw [fl_eval (4 + (1 / 2)) (-50) (5066549580791808) (by norm_num) (Or.inr (by norm_num [abs_of_pos])) (by norm_num [abs_of_pos]) (by norm_num [abs_lt])]; norm_num
  have h4 : ⌊(9 / 2 : ℚ)⌋ = 4 := by
    rw [Int.floor_eq_iff]; norm_num
  have h5 : Double.div ((1073741824 : Int) : ℚ) ((4 : Int) : ℚ) = 268435456 := by
    show fl (((1073741824 : Int) : ℚ) / ((4 : Int) : ℚ)) = 268435456
    rw [fl_eval (((1073741824 : Int) : ℚ) / ((4 : Int) : ℚ)) (-24) (4503599627370496) (by norm_num) (Or.inr (by norm_num [abs_of_pos])) (by norm_num [abs_of_pos]) (by norm_num [abs_lt])]; norm_num
  have hi1 : Double.to_int (4) = 4 := by decide
  have hi2 : max (4 : Int) 4 = 4 := by decide
  unfold TexturePlacement.axis_size
  simp only [h1, h2, h3, h4, h5, hi1, hi2, fl_one_tenth]
  norm_num [wrap32]

theorem fl_four_tenths : fl (4 / 10) = 3602879701896397 / 9007199254740992 := by
  rw [fl_eval (4 / 10) (-54) (7205759403792794) (by norm_num) (Or.inr (by norm_num [abs_of_pos])) (by norm_num [abs_of_pos]) (by norm_num [abs_lt])]; norm_num

theorem fl_seven_tenths : fl (7 / 10) = 3152519739159347 / 4503599627370496 := by
  rw [fl_eval (7 / 10) (-53) (6305039478318694) (by norm_num) (Or.inr (by norm_num [abs_of_pos])) (by norm_num [abs_of_pos]) (by norm_num [abs_lt])]; norm_num

/-- A source 15 pixels wide on the UV range [0.4, 0.7]: the range is
0.29999999999999993 in doubles and the size is 4, not 5. -/
theorem axis_size_15_wide : TexturePlacement.axis_size 15 0 (fl (4 / 10)) (fl (7 / 10)) = 4 := by
  rw [fl_four_tenths, fl_seven_tenths]
  have h1 : Double.sub (3152519739159347 / 4503599627370496) (3602879701896397 / 9007199254740992) = 2702159776422297 / 9007199254740992 := by
    show fl ((3152519739159347 / 4503599627370496) - (3602879701896397 / 9007199254740992)) = 2702159776422297 / 9007199254740992
    rw [fl_eval ((3152519739159347 / 4503599627370496) - (3602879701896397 / 9007199254740992)) (-54) (5404319552844594) (by norm_num) (Or.inr (by norm_num [abs_of_pos])) (by norm_num [abs_of_pos]) (by norm_num [abs_lt])]; norm_num
  have h2 : Double.mul ((15 : Int) : ℚ) (2702159776422297 / 9007199254740992) = 5066549580791807 / 1125899906842624 := by
    show fl (((15 : Int) : ℚ) * (2702159776422297 / 9007199254740992)) = 5066549580791807 / 1125899906842624
    rw [fl_eval (((15 : Int) : ℚ) * (2702159776422297 / 9007199254740992)) (-50) (5066549580791807) (by norm_num) (Or.inr (by norm_num [abs_of_pos])) (by norm_num [abs_of_pos]) (by norm_num [abs_lt])]; norm_num
  have h3 : Double.add (5066549580791807 / 1125899906842624) (1 / 2) = 5629499534213119 / 1125899906842624 := by
    show fl ((5066549580791807 / 1125899906842624) + (1 / 2)) = 5629499534213119 / 1125899906842624
    rw [fl_eval ((5066549580791807 / 1125899906842624) + (1 / 2)) (-50) (5629499534213119) (by norm_num) (Or.inr (by norm_num [abs_of_pos])) (by norm_num [abs_of_pos]) (by norm_num [abs_lt])]; norm_num
  have h4 : ⌊(5629499534213119 / 1125899906842624 : ℚ)⌋ = 4 := by
    rw [Int.floor_eq_iff]; norm_num
  have h5 : Double.div ((0 : Int) : ℚ) ((4 : Int) : ℚ) = 0 := by
    show fl (((0 : Int) : ℚ) / ((4 : Int) : ℚ)) = 0
    rw [show (((0 : Int) : ℚ) / ((4 : Int) : ℚ) : ℚ) = 0 by norm_num]; exact fl_zero
  have hi1 : Double.to_int (4) = 4 := by decide
  have hi2 : max (4 : Int) 4 = 4 := by decide
  unfold TexturePlacement.axis_size
  simp only [h1, h2, h3, h4, h5, hi1, hi2, fl_one_tenth]
  norm_num [wrap32]

/-- C9, as stated, fails. A texture of 2^30 by 3 pixels with UV box (0,0)-(4, 1.8333333333333333):
the stated formula gives 2^32 and 5, `compute_size_from_uvs` gives 4 (the product does not
fit an `int`) and 6 (the product rounds up to 5.5 in doubles). And with a margin of 2^30
on a 4x4 texture the size is below 4. -/
theorem C9_counterexample :
    (((unplaced_placement 1073741824 3).compute_size_from_uvs ⟨0, 0⟩
        ⟨4, fl (11 / 6)⟩)._position._x_size = 4 ∧
      spec_axis_size 1073741824 0 0 4 = 4294967296) ∧
    (((unplaced_placement 1073741824 3).compute_size_from_uvs ⟨0, 0⟩
        ⟨4, fl (11 / 6)⟩)._position._y_size = 6 ∧
      spec_axis_size 3 0 0 (fl (11 / 6)) = 5) ∧
    (({ unplaced_placement 4 4 with
        _texture := { (unplaced_placement 4 4)._texture with get_margin := 1073741824 } }
      : TexturePlacement).compute_size_from_uvs ⟨0, 0⟩ ⟨1, 1⟩)._position._x_size < 4 := by
  refine ⟨⟨?_, ?_⟩, ⟨?_, ?_⟩, ?_⟩
  · show TexturePlacement.axis_size 1073741824 0 0 4 = 4
    exact axis_size_overflow
  · have h : ⌊((1073741824 : Int) : ℚ) * (4 - 0) + 1 / 2⌋ = 4294967296 := by
      rw [Int.floor_eq_iff]; norm_num
    unfold spec_axis_size
    simp only [h]
    norm_num
  · show TexturePlacement.axis_size 3 0 0 (fl (11 / 6)) = 6
    exact axis_size_tie
  · have h : ⌊((3 : Int) : ℚ) * (8256599316845909 / 4503599627370496 - 0) + 1 / 2⌋ = 5 := by
      rw [Int.floor_eq_iff]; norm_num
    unfold spec_axis_size
    rw [fl_eleven_sixths]
    simp only [h]
    norm_num
  · show TexturePlacement.axis_size 4 1073741824 0 1 < 4
    rw [axis_size_margin_wrap]
    norm_num

/-- C9, amended. For source sizes of at most `2^31` in magnitude, a margin of at most
`2^27` and exact products `E = source_size * (max_uv - min_uv)` of at most `2^30` in
magnitude, `compute_size_from_uvs` sets, independently on each axis, a size `s` that is
at least 4 and lies between `max(floor(E + 1/2 - 2^-20), 4)` and
`max(floor(E + 1/2 + 2^-20), 4)` (the product is computed in doubles), then adds
2*margin to that size exactly when margin / s > 1/10. Where no integer lies within
`2^-20` of `E + 1/2` the result is that of the exact formula
`max(floor(E + 1/2), 4)`. The desired x_size and y_size are both at least 4. -/
theorem C9_compute_size_from_uvs (t : TexturePlacement) (min_uv max_uv : TexCoordd)
    (hX : |t._texture.get_x_size| ≤ 2 ^ 31) (hY : |t._texture.get_y_size| ≤ 2 ^ 31)
    (hm : t._texture.get_margin ≤ 2 ^ 27)
    (hEx : |(t._texture.get_x_size : ℚ) * (max_uv.u - min_uv.u)| ≤ 2 ^ 30)
    (hEy : |(t._texture.get_y_size : ℚ) * (max_uv.v - min_uv.v)| ≤ 2 ^ 30) :
    (∃ s : Int,
      max ⌊(t._texture.get_x_size : ℚ) * (max_uv.u - min_uv.u) + 1 / 2 - 1 / 2 ^ (20 : Nat)⌋ 4
        ≤ s ∧
      s ≤ max
        ⌊(t._texture.get_x_size : ℚ) * (max_uv.u - min_uv.u) + 1 / 2 + 1 / 2 ^ (20 : Nat)⌋ 4 ∧
      (t.compute_size_from_uvs min_uv max_uv)._position._x_size =
        (if (t._texture.get_margin : ℚ) / (s : ℚ) > 1 / 10 then
          s + 2 * t._texture.get_margin else s)) ∧
    (∃ s : Int,
      max ⌊(t._texture.get_y_size : ℚ) * (max_uv.v - min_uv.v) + 1 / 2 - 1 / 2 ^ (20 : Nat)⌋ 4
        ≤ s ∧
      s ≤ max
        ⌊(t._texture.get_y_size : ℚ) * (max_uv.v - min_uv.v) + 1 / 2 + 1 / 2 ^ (20 : Nat)⌋ 4 ∧
      (t.compute_size_from_uvs min_uv max_uv)._position._y_size =
        (if (t._texture.get_margin : ℚ) / (s : ℚ) > 1 / 10 then
          s + 2 * t._texture.get_margin else s)) ∧
    (⌊(t._texture.get_x_size : ℚ) * (max_uv.u - min_uv.u) + 1 / 2 - 1 / 2 ^ (20 : Nat)⌋ =
        ⌊(t._texture.get_x_size : ℚ) * (max_uv.u - min_uv.u) + 1 / 2 + 1 / 2 ^ (20 : Nat)⌋ →
      (t.compute_size_from_uvs min_uv max_uv)._position._x_size =
        spec_axis_size t._texture.get_x_size t._texture.get_margin min_uv.u max_uv.u) ∧
    (⌊(t._texture.get_y_size : ℚ) * (max_uv.v - min_uv.v) + 1 / 2 - 1 / 2 ^ (20 : Nat)⌋ =
        ⌊(t._texture.get_y_size : ℚ) * (max_uv.v - min_uv.v) + 1 / 2 + 1 / 2 ^ (20 : Nat)⌋ →
      (t.compute_size_from_uvs min_uv max_uv)._position._y_size =
        spec_axis_size t._texture.get_y_size t._texture.get_margin min_uv.v max_uv.v) ∧
    4 ≤ (t.compute_size_from_uvs min_uv max_uv)._position._x_size ∧
    4 ≤ (t.compute_size_from_uvs min_uv max_uv)._position._y_size := by
  obtain ⟨sx, a1, a2, a3, a4⟩ := axis_size_spec _ _ min_uv.u max_uv.u hX hm hEx
  obtain ⟨sy, b1, b2, b3, b4⟩ := axis_size_spec _ _ min_uv.v max_uv.v hY hm hEy
  exact ⟨⟨sx, a1, a2, a3⟩, ⟨sy, b1, b2, b3⟩,
    fun h => axis_size_eq_spec _ _ _ _ hX hm hEx h,
    fun h => axis_size_eq_spec _ _ _ _ hY hm hEy h, a4, b4⟩

/-- Witness of the amended C9: the 64x64 texture of scenario S6 (margin 2) on the UV box
(0,0)-(1,1) gets 64x64, the value of the exact formula. -/
theorem C9_compute_size_from_uvs_witness :
    (S6_placement.compute_size_from_uvs ⟨0, 0⟩ ⟨1, 1⟩)._position._x_size = 64 ∧
    (S6_placement.compute_size_from_uvs ⟨0, 0⟩ ⟨1, 1⟩)._position._x_size =
      spec_axis_size 64 2 0 1 ∧
    4 ≤ (S6_placement.compute_size_from_uvs ⟨0, 0⟩ ⟨1, 1⟩)._position._y_size :=
  ⟨axis_size_64_full,
    (C9_compute_size_from_uvs S6_placement ⟨0, 0⟩ ⟨1, 1⟩ (by decide) (by decide) (by decide)
      (by norm_num [S6_placement]) (by norm_num [S6_placement])).2.2.1
      (by
        show ⌊((64 : Int) : ℚ) * ((1 : ℚ) - 0) + 1 / 2 - 1 / 2 ^ (20 : Nat)⌋ =
          ⌊((64 : Int) : ℚ) * ((1 : ℚ) - 0) + 1 / 2 + 1 / 2 ^ (20 : Nat)⌋
        have h1 : ⌊((64 : Int) : ℚ) * ((1 : ℚ) - 0) + 1 / 2 - 1 / 2 ^ (20 : Nat)⌋ = 64 := by
          rw [Int.floor_eq_iff]; norm_num
        have h2 : ⌊((64 : Int) : ℚ) * ((1 : ℚ) - 0) + 1 / 2 + 1 / 2 ^ (20 : Nat)⌋ = 64 := by
          rw [Int.floor_eq_iff]; norm_num
        rw [h1, h2]),
    (C9_compute_size_from_uvs S6_placement ⟨0, 0⟩ ⟨1, 1⟩ (by decide) (by decide) (by decide)
      (by norm_num [S6_placement]) (by norm_num [S6_placement])).2.2.2.2.2⟩

theorem find_hole_row_fuel (ps : Nat → TexturePlacement) (img : PaletteImage)
    (y x_size y_size : Int) (fuel : Nat) (x next_y : Int)
    (h : (img._x_size - x_size - x + 1).toNat + 1 ≤ fuel) :
    PaletteImage.find_hole_row ps img y x_size y_size fuel x next_y ≠ RowScan.out_of_fuel := by
  induction fuel generalizing x next_y with
  | zero => omega
  | succ n ih =>
    unfold PaletteImage.find_hole_row
    split
    · next hx =>
      split
      · intro hc; cases hc
      · simp only
        split
        · next hlt =>
          apply ih
          omega
        · intro hc; cases hc
    · intro hc; cases hc

theorem find_hole_rows_fuel (ps : Nat → TexturePlacement) (img : PaletteImage)
    (x_size y_size : Int) (fuel : Nat) (y : Int)
    (h : (img._y_size - y_size - y + 1).toNat + 1 ≤ fuel) :
    PaletteImage.find_hole_rows ps img x_size y_size fuel y ≠ HoleScan.out_of_fuel := by
  induction fuel generalizing y with
  | zero => omega
  | succ n ih =>
    unfold PaletteImage.find_hole_rows
    split
    · next hy =>
      split
      · intro hc; cases hc
      · split
        · next hlt =>
          apply ih
          omega
        · intro hc; cases hc
      · intro hc; cases hc
      · next hrow =>
        exact absurd hrow (find_hole_row_fuel ps img y x_size y_size _ 0 _
          (by unfold PaletteImage.row_fuel; omega))
    · intro hc; cases hc

/-- The loop bounds of the model are never reached: the search of `find_hole` always ends
by finding a hole, by finding none, or at one of its two assertions. -/
theorem find_hole_scan_fuel (ps : Nat → TexturePlacement) (img : PaletteImage)
    (x_size y_size : Int) :
    PaletteImage.find_hole_scan ps img x_size y_size ≠ HoleScan.out_of_fuel :=
  find_hole_rows_fuel ps img x_size y_size _ 0
    (by unfold PaletteImage.rows_fuel; omega)

/-- C13. `PaletteGroup::is_preferred_over` is the lexicographic comparison: for all
groups `a`, `b`, `a.is_preferred_over(b)` is true iff a's dirname_order is higher, or the
dirname_orders are equal and a's dependency_order is higher, or both orders are equal and
a's egg count is strictly lower. -/
theorem C13_is_preferred_over_lex (a b : PaletteGroup) :
    a.is_preferred_over b = true ↔
      (a._dirname_order > b._dirname_order ∨
       (a._dirname_order = b._dirname_order ∧ a._dependency_order > b._dependency_order) ∨
       (a._dirname_order = b._dirname_order ∧ a._dependency_order = b._dependency_order ∧
          a._egg_count < b._egg_count)) := by
  unfold PaletteGroup.is_preferred_over
  split_ifs with h1 h2
  · simp only [decide_eq_true_eq]
    constructor
    · intro h; exact Or.inl h
    · rintro (h | h | h)
      · exact h
      · exact absurd h.1 h1
      · exact absurd h.1 h1
  · simp only [decide_eq_true_eq]
    have h1e : a._dirname_order = b._dirname_order := not_not.mp h1
    constructor
    · intro h; exact Or.inr (Or.inl ⟨h1e, h⟩)
    · rintro (h | h | h)
      · omega
      · exact h.2
      · exact absurd h.2.1 h2
  · simp only [decide_eq_true_eq]
    have h1e : a._dirname_order = b._dirname_order := not_not.mp h1
    have h2e : a._dependency_order = b._dependency_order := not_not.mp h2
    constructor
    · intro h; exact Or.inr (Or.inr ⟨h1e, h2e, h⟩)
    · rintro (h | h | h)
      · omega
      · omega
      · exact h.2.2

/-- C20. With omit_solitary enabled, `PaletteImage::check_solitary` on an atlas whose
list holds exactly one placement, placed on that atlas with omit reason `none` or
`solitary`, sets that placement's omit reason to `solitary` and leaves it placed: its
image pointer, placed position and size are unchanged and `is_placed()` is still true. -/
theorem C20_check_solitary_marks (pal : Palettizer) (w : Heap) (a p : Nat)
    (hpal : pal._omit_solitary = true)
    (hlist : (w.images a)._placements = [p])
    (himage : (w.placements p)._image = some a)
    (hreason : (w.placements p)._omit_reason = OmitReason.OR_none ∨
      (w.placements p)._omit_reason = OmitReason.OR_solitary) :
    ((PaletteImage.check_solitary pal w a).placements p)._omit_reason
      = OmitReason.OR_solitary ∧
    ((PaletteImage.check_solitary pal w a).placements p)._image = some a ∧
    ((PaletteImage.check_solitary pal w a).placements p).is_placed = true ∧
    ((PaletteImage.check_solitary pal w a).placements p)._placed = (w.placements p)._placed ∧
    ((PaletteImage.check_solitary pal w a).placements p)._position
      = (w.placements p)._position ∧
    (PaletteImage.check_solitary pal w a).images = w.images := by
  have hc : PaletteImage.check_solitary pal w a =
      w.set_placement p { w.placements p with _omit_reason := OmitReason.OR_solitary } := by
    unfold PaletteImage.check_solitary
    simp [hlist, hreason, hpal, TexturePlacement.omit_solitary, TexturePlacement.is_placed,
      himage]
  rw [hc]
  simp [TexturePlacement.is_placed, himage]

/-- Witness of C20, scenario S1: the only placement of image 0 is flagged solitary and
stays at (0,0) on image 0. -/
theorem C20_check_solitary_marks_witness :
    ((PaletteImage.check_solitary S6_pal S1_heap 0).placements 0)._omit_reason
      = OmitReason.OR_solitary ∧
    ((PaletteImage.check_solitary S6_pal S1_heap 0).placements 0)._image = some 0 ∧
    ((PaletteImage.check_solitary S6_pal S1_heap 0).placements 0).is_placed = true ∧
    ((PaletteImage.check_solitary S6_pal S1_heap 0).placements 0)._placed
      = (S1_heap.placements 0)._placed ∧
    ((PaletteImage.check_solitary S6_pal S1_heap 0).placements 0)._position
      = (S1_heap.placements 0)._position ∧
    (PaletteImage.check_solitary S6_pal S1_heap 0).images = S1_heap.images :=
  C20_check_solitary_marks S6_pal S1_heap 0 0 rfl (by decide) (by decide) (by decide)

theorem tiny_eq : (2 : ℚ) ^ (-1075 : Int) = 1 / 2 ^ (1075 : Nat) := by
  rw [zpow_neg, one_div]; norm_cast

/-- The grid point below: `floor((x + f) / u) * u` in doubles is at most `x + f` plus the
rounding error of the three operations. -/
theorem grid_floor_le (x f u : ℚ) (hu : 0 < u) :
    Double.mul (⌊Double.div (Double.add x f) u⌋ : ℚ) u ≤
      x + f + ((|x + f| + u) / 2 ^ (50 : Nat) + 1 / 2 ^ (1000 : Nat)) := by
  unfold Double.mul Double.div Double.add
  have hη := tiny_eq
  have hA := abs_nonneg (x + f)
  -- the sum
  have hs := fl_err_abs (x + f)
  rw [abs_le] at hs
  have hsabs : |fl (x + f)| ≤ |x + f| + |x + f| / 2 ^ (53 : Nat) + 2 ^ (-1075 : Int) := by
    rw [abs_le]
    constructor
    · have := neg_abs_le (x + f); linarith [hs.1]
    · have := le_abs_self (x + f); linarith [hs.2]
  have hS := abs_nonneg (fl (x + f))
  -- the quotient, multiplied back by the unit
  have hq := fl_err_abs (fl (x + f) / u)
  rw [abs_div, abs_of_pos hu, abs_le] at hq
  have hqu1 : fl (fl (x + f) / u) * u ≤
      fl (x + f) + |fl (x + f)| / 2 ^ (53 : Nat) + 2 ^ (-1075 : Int) * u := by
    have h := mul_le_mul_of_nonneg_right (by linarith [hq.2] :
      fl (fl (x + f) / u) ≤ fl (x + f) / u + (|fl (x + f)| / u / 2 ^ (53 : Nat)
        + 2 ^ (-1075 : Int))) hu.le
    have e : (fl (x + f) / u + (|fl (x + f)| / u / 2 ^ (53 : Nat) + 2 ^ (-1075 : Int))) * u =
        fl (x + f) + |fl (x + f)| / 2 ^ (53 : Nat) + 2 ^ (-1075 : Int) * u := by
      field_simp
      ring
    linarith
  have hqu2 : fl (x + f) - |fl (x + f)| / 2 ^ (53 : Nat) - 2 ^ (-1075 : Int) * u ≤
      fl (fl (x + f) / u) * u := by
    have h := mul_le_mul_of_nonneg_right (by linarith [hq.1] :
      fl (x + f) / u - (|fl (x + f)| / u / 2 ^ (53 : Nat) + 2 ^ (-1075 : Int))
        ≤ fl (fl (x + f) / u)) hu.le
    have e : (fl (x + f) / u - (|fl (x + f)| / u / 2 ^ (53 : Nat) + 2 ^ (-1075 : Int))) * u =
        fl (x + f) - |fl (x + f)| / 2 ^ (53 : Nat) - 2 ^ (-1075 : Int) * u := by
      field_simp
      ring
    linarith
  -- the floor
  have hk1 : (⌊fl (fl (x + f) / u)⌋ : ℚ) * u ≤ fl (fl (x + f) / u) * u :=
    mul_le_mul_of_nonneg_right (Int.floor_le _) hu.le
  have hk2 : fl (fl (x + f) / u) * u - u ≤ (⌊fl (fl (x + f) / u)⌋ : ℚ) * u := by
    have h := mul_le_mul_of_nonneg_right (Int.lt_floor_add_one (fl (fl (x + f) / u))).le hu.le
    linarith
  have hM : |(⌊fl (fl (x + f) / u)⌋ : ℚ) * u| ≤
      |fl (x + f)| + |fl (x + f)| / 2 ^ (53 : Nat) + 2 ^ (-1075 : Int) * u + u := by
    rw [abs_le]
    constructor
    · have := neg_abs_le (fl (x + f)); linarith
    · have := le_abs_self (fl (x + f)); linarith
  -- the product
  have hr := fl_close _ _ hM
  rw [abs_le] at hr
  rw [hη] at hr hqu1 hqu2 hsabs hs hM
  have e1000 : (1 : ℚ) / 2 ^ (1075 : Nat) ≤ 1 / 2 ^ (1002 : Nat) := by
    apply one_div_le_one_div_of_le (by positivity)
    exact pow_le_pow_right₀ (by norm_num) (by norm_num)
  have hd53 : (1 : ℚ) / 2 ^ (1075 : Nat) * u ≤ u / 2 ^ (53 : Nat) := by
    have : (1 : ℚ) / 2 ^ (1075 : Nat) ≤ 1 / 2 ^ (53 : Nat) := by
      apply one_div_le_one_div_of_le (by positivity)
      exact pow_le_pow_right₀ (by norm_num) (by norm_num)
    have := mul_le_mul_of_nonneg_right this hu.le
    linarith [show (1 : ℚ) / 2 ^ (53 : Nat) * u = u / 2 ^ (53 : Nat) by ring]
  -- collect: everything is linear in |x + f|, |fl (x + f)|, u and the tiny constant
  have c1 : |fl (x + f)| / 2 ^ (53 : Nat) ≤
      (|x + f| + |x + f| / 2 ^ (53 : Nat) + 1 / 2 ^ (1075 : Nat)) / 2 ^ (53 : Nat) :=
    div_le_div_of_nonneg_right hsabs (by positivity)
  have key : (|x + f| + |x + f| / 2 ^ (53 : Nat) + 1 / 2 ^ (1075 : Nat)) / 2 ^ (53 : Nat)
      ≤ |x + f| * (2 / 2 ^ (53 : Nat)) + 1 / 2 ^ (1075 : Nat) := by
    have h53 : (1 : ℚ) / 2 ^ (53 : Nat) ≤ 1 := by
      rw [div_le_one (by positivity)]; norm_num
    have a1 : |x + f| / 2 ^ (53 : Nat) / 2 ^ (53 : Nat) ≤ |x + f| / 2 ^ (53 : Nat) := by
      apply div_le_self (by positivity); norm_num
    have a2 : (1 : ℚ) / 2 ^ (1075 : Nat) / 2 ^ (53 : Nat) ≤ 1 / 2 ^ (1075 : Nat) := by
      apply div_le_self (by positivity); norm_num
    have e : (|x + f| + |x + f| / 2 ^ (53 : Nat) + 1 / 2 ^ (1075 : Nat)) / 2 ^ (53 : Nat) =
        |x + f| / 2 ^ (53 : Nat) + |x + f| / 2 ^ (53 : Nat) / 2 ^ (53 : Nat) +
          1 / 2 ^ (1075 : Nat) / 2 ^ (53 : Nat) := by ring
    rw [e]
    have e2 : |x + f| * (2 / 2 ^ (53 : Nat)) = |x + f| / 2 ^ (53 : Nat) + |x + f| / 2 ^ (53 : Nat) := by
      ring
    linarith
  have hMd : (|fl (x + f)| + |fl (x + f)| / 2 ^ (53 : Nat) + 1 / 2 ^ (1075 : Nat) * u + u)
      / 2 ^ (53 : Nat) ≤
      |x + f| * (4 / 2 ^ (53 : Nat)) + u * (2 / 2 ^ (53 : Nat)) + 3 / 2 ^ (1075 : Nat) := by
    have b1 : (|fl (x + f)| + |fl (x + f)| / 2 ^ (53 : Nat) + 1 / 2 ^ (1075 : Nat) * u + u)
        / 2 ^ (53 : Nat) =
        |fl (x + f)| / 2 ^ (53 : Nat) + |fl (x + f)| / 2 ^ (53 : Nat) / 2 ^ (53 : Nat) +
          1 / 2 ^ (1075 : Nat) * u / 2 ^ (53 : Nat) + u / 2 ^ (53 : Nat) := by ring
    have b2 : |fl (x + f)| / 2 ^ (53 : Nat) / 2 ^ (53 : Nat) ≤ |fl (x + f)| / 2 ^ (53 : Nat) := by
      apply div_le_self (by positivity); norm_num
    have b3 : (1 : ℚ) / 2 ^ (1075 : Nat) * u / 2 ^ (53 : Nat) ≤ u / 2 ^ (53 : Nat) := by
      have h0 : (0 : ℚ) ≤ 1 / 2 ^ (1075 : Nat) * u := by positivity
      have := div_le_self h0 (by norm_num : (1 : ℚ) ≤ 2 ^ (53 : Nat))
      linarith
    have e3 : u * (2 / 2 ^ (53 : Nat)) = u / 2 ^ (53 : Nat) + u / 2 ^ (53 : Nat) := by ring
    have e4 : |x + f| * (4 / 2 ^ (53 : Nat)) =
        2 * (|x + f| * (2 / 2 ^ (53 : Nat))) := by ring
    have p0 : (0 : ℚ) ≤ 1 / 2 ^ (1075 : Nat) := by positivity
    rw [b1]
    linarith
  have fin1 : |x + f| / 2 ^ (53 : Nat) + |x + f| * (2 / 2 ^ (53 : Nat)) +
      |x + f| * (4 / 2 ^ (53 : Nat)) ≤ |x + f| / 2 ^ (50 : Nat) := by
    have e : |x + f| / 2 ^ (53 : Nat) + |x + f| * (2 / 2 ^ (53 : Nat)) +
        |x + f| * (4 / 2 ^ (53 : Nat)) = |x + f| * (7 / 2 ^ (53 : Nat)) := by ring
    have e2 : |x + f| / 2 ^ (50 : Nat) = |x + f| * (8 / 2 ^ (53 : Nat)) := by
      rw [div_eq_mul_inv]; congr 1; norm_num
    rw [e, e2]
    exact mul_le_mul_of_nonneg_left (by norm_num) hA
  have fin2 : u / 2 ^ (53 : Nat) + u * (2 / 2 ^ (53 : Nat)) ≤ u / 2 ^ (50 : Nat) := by
    have e : u / 2 ^ (53 : Nat) + u * (2 / 2 ^ (53 : Nat)) = u * (3 / 2 ^ (53 : Nat)) := by ring
    have e2 : u / 2 ^ (50 : Nat) = u * (8 / 2 ^ (53 : Nat)) := by
      rw [div_eq_mul_inv]; congr 1; norm_num
    rw [e, e2]
    exact mul_le_mul_of_nonneg_left (by norm_num) hu.le
  have fin3 : (6 : ℚ) / 2 ^ (1075 : Nat) ≤ 1 / 2 ^ (1000 : Nat) := by
    norm_num
  have e5 : (|x + f| + u) / 2 ^ (50 : Nat) = |x + f| / 2 ^ (50 : Nat) + u / 2 ^ (50 : Nat) := by
    ring
  rw [e5]
  have p0 : (0 : ℚ) ≤ 1 / 2 ^ (1075 : Nat) := by positivity
  have e6 : (6 : ℚ) / 2 ^ (1075 : Nat) = 6 * (1 / 2 ^ (1075 : Nat)) := by ring
  have e7 : (3 : ℚ) / 2 ^ (1075 : Nat) = 3 * (1 / 2 ^ (1075 : Nat)) := by ring
  rw [e6] at fin3
  rw [e7] at hMd
  linarith [hr.2]

/-- The grid point above: `ceil((x - f) / u) * u` in doubles is at least `x - f` less the
rounding error of the three operations. -/
theorem grid_ceil_ge (x f u : ℚ) (hu : 0 < u) :
    x - f - ((|x - f| + u) / 2 ^ (50 : Nat) + 1 / 2 ^ (1000 : Nat)) ≤
      Double.mul (⌈Double.div (Double.sub x f) u⌉ : ℚ) u := by
  have h := grid_floor_le (-x) f u hu
  have e1 : Double.add (-x) f = -Double.sub x f := by
    unfold Double.add Double.sub
    rw [← fl_neg]; congr 1; ring
  have e2 : Double.div (-Double.sub x f) u = -Double.div (Double.sub x f) u := by
    unfold Double.div
    rw [← fl_neg]; congr 1; ring
  have e3 : (⌊-Double.div (Double.sub x f) u⌋ : ℚ) = -(⌈Double.div (Double.sub x f) u⌉ : ℚ) := by
    rw [Int.floor_neg]; push_cast; ring
  have e4 : Double.mul (-(⌈Double.div (Double.sub x f) u⌉ : ℚ)) u =
      -Double.mul (⌈Double.div (Double.sub x f) u⌉ : ℚ) u := by
    unfold Double.mul
    rw [← fl_neg]; congr 1; ring
  rw [e1, e2, e3, e4] at h
  have e5 : |-x + f| = |x - f| := by
    rw [← abs_neg]; congr 1; ring
  rw [e5] at h
  linarith

theorem fl_1005 : fl (201 / 200) = 1131529406376837 / 1125899906842624 := by
  rw [fl_eval (201 / 200) (-52) (4526117625507348) (by norm_num) (Or.inr (by norm_num [abs_of_pos])) (by norm_num [abs_of_pos]) (by norm_num [abs_lt])]; norm_num

theorem fl_seventeen_tenths : fl (17 / 10) = 7656119366529843 / 4503599627370496 := by
  rw [fl_eval (17 / 10) (-52) (7656119366529843) (by norm_num) (Or.inr (by norm_num [abs_of_pos])) (by norm_num [abs_of_pos]) (by norm_num [abs_lt])]; norm_num

/-- With unit 0.1 and fuzz 0.01 the coordinate 1.005 is rounded up to 1.0. -/
theorem fuzz_rounded_max :
    (TexturePlacement.rounded_max_uv S6_pal ⟨fl (201 / 200), 1⟩).u = 1 := by
  have h1 : Double.sub (1131529406376837 / 1125899906842624) (5764607523034235 / 576460752303423488) = 4481081629233643 / 4503599627370496 := by
    show fl ((1131529406376837 / 1125899906842624) - (5764607523034235 / 576460752303423488)) = 4481081629233643 / 4503599627370496
    rw [fl_eval ((1131529406376837 / 1125899906842624) - (5764607523034235 / 576460752303423488)) (-53) (8962163258467286) (by norm_num) (Or.inr (by norm_num [abs_of_pos])) (by norm_num [abs_of_pos]) (by norm_num [abs_lt])]; norm_num
  have h2 : Double.div (4481081629233643 / 4503599627370496) (3602879701896397 / 36028797018963968) = 5601352036542053 / 562949953421312 := by
    show fl ((4481081629233643 / 4503599627370496) / (3602879701896397 / 36028797018963968)) = 5601352036542053 / 562949953421312
    rw [fl_eval ((4481081629233643 / 4503599627370496) / (3602879701896397 / 36028797018963968)) (-49) (5601352036542053) (by norm_num) (Or.inr (by norm_num [abs_of_pos])) (by norm_num [abs_of_pos]) (by norm_num [abs_lt])]; norm_num
  have h3 : ⌈(5601352036542053 / 562949953421312 : ℚ)⌉ = 10 := by
    rw [Int.ceil_eq_iff]; norm_num
  have h4 : Double.mul ((10 : Int) : ℚ) (3602879701896397 / 36028797018963968) = 1 := by
    show fl (((10 : Int) : ℚ) * (3602879701896397 / 36028797018963968)) = 1
    rw [fl_eval (((10 : Int) : ℚ) * (3602879701896397 / 36028797018963968)) (-52) (4503599627370496) (by norm_num) (Or.inr (by norm_num [abs_of_pos])) (by norm_num [abs_of_pos]) (by norm_num [abs_lt])]; norm_num
  simp only [TexturePlacement.rounded_max_uv, S6_pal, if_true, fl_one_tenth,
    fl_one_hundredth, fl_1005, h1, h2, h3, h4]

/-- With unit 0.1 and fuzz 0 the coordinate 1.7 is rounded down to 1.7000000000000002,
the double nearest to 17 units. -/
theorem grid_rounded_min :
    (TexturePlacement.rounded_min_uv S6_pal_no_fuzz ⟨fl (17 / 10), 0⟩).u =
      1914029841632461 / 1125899906842624 := by
  have h1 : Double.add (7656119366529843 / 4503599627370496) 0 = 7656119366529843 / 4503599627370496 := by
    show fl ((7656119366529843 / 4503599627370496) + 0) = 7656119366529843 / 4503599627370496
    rw [fl_eval ((7656119366529843 / 4503599627370496) + 0) (-52) (7656119366529843) (by norm_num) (Or.inr (by norm_num [abs_of_pos])) (by norm_num [abs_of_pos]) (by norm_num [abs_lt])]; norm_num
  have h2 : Double.div (7656119366529843 / 4503599627370496) (3602879701896397 / 36028797018963968) = 17 := by
    show fl ((7656119366529843 / 4503599627370496) / (3602879701896397 / 36028797018963968)) = 17
    rw [fl_eval ((7656119366529843 / 4503599627370496) / (3602879701896397 / 36028797018963968)) (-48) (4785074604081152) (by norm_num) (Or.inr (by norm_num [abs_of_pos])) (by norm_num [abs_of_pos]) (by norm_num [abs_lt])]; norm_num
  have h3 : ⌊(17 : ℚ)⌋ = 17 := by
    rw [Int.floor_eq_iff]; norm_num
  have h4 : Double.mul ((17 : Int) : ℚ) (3602879701896397 / 36028797018963968) = 1914029841632461 / 1125899906842624 := by
    show fl (((17 : Int) : ℚ) * (3602879701896397 / 36028797018963968)) = 1914029841632461 / 1125899906842624
    rw [fl_eval (((17 : Int) : ℚ) * (3602879701896397 / 36028797018963968)) (-52) (7656119366529844) (by norm_num) (Or.inr (by norm_num [abs_of_pos])) (by norm_num [abs_of_pos]) (by norm_num [abs_lt])]; norm_num
  simp only [TexturePlacement.rounded_min_uv, S6_pal_no_fuzz, S6_pal, if_true, fl_one_tenth,
    fl_seventeen_tenths, h1, h2, h3, h4]

/-- C12, as stated, fails. With round unit 0.1 and fuzz 0.01 a folded maximum u = 1.005
is rounded to 1.0, below the folded maximum. With round unit 0.1 and fuzz 0 a folded
minimum u = 1.7 is rounded to 1.7000000000000002, which is above the folded minimum and is
not an integer multiple of the round unit (the double 0.1). -/
theorem C12_counterexample :
    (S6_pal._round_uvs = true ∧ 0 < S6_pal._round_unit ∧ 0 ≤ S6_pal._round_fuzz ∧
      (fuzz_placement.desired S6_pal)._position._max_uv.u = 1 ∧
      ¬ ((TexturePlacement.scan_references fuzz_placement).max_uv.u ≤
        (fuzz_placement.desired S6_pal)._position._max_uv.u)) ∧
    (S6_pal_no_fuzz._round_uvs = true ∧ 0 < S6_pal_no_fuzz._round_unit ∧
      0 ≤ S6_pal_no_fuzz._round_fuzz ∧
      ¬ ((grid_placement.desired S6_pal_no_fuzz)._position._min_uv.u ≤
        (TexturePlacement.scan_references grid_placement).min_uv.u) ∧
      ¬ ∃ k : Int, (grid_placement.desired S6_pal_no_fuzz)._position._min_uv.u =
        k * S6_pal_no_fuzz._round_unit) := by
  have hs : (TexturePlacement.scan_references fuzz_placement).max_uv.u = fl (201 / 200) := rfl
  have hd : (fuzz_placement.desired S6_pal)._position._max_uv.u = 1 := fuzz_rounded_max
  have hs2 : (TexturePlacement.scan_references grid_placement).min_uv.u = fl (17 / 10) := rfl
  have hd2 : (grid_placement.desired S6_pal_no_fuzz)._position._min_uv.u =
      1914029841632461 / 1125899906842624 := grid_rounded_min
  have hu : S6_pal._round_unit = 3602879701896397 / 36028797018963968 := fl_one_tenth
  have hu2 : S6_pal_no_fuzz._round_unit = 3602879701896397 / 36028797018963968 := fl_one_tenth
  have hf : S6_pal._round_fuzz = 5764607523034235 / 576460752303423488 := fl_one_hundredth
  have hf2 : S6_pal_no_fuzz._round_fuzz = 0 := rfl
  refine ⟨⟨rfl, ?_, ?_, hd, ?_⟩, ⟨rfl, ?_, ?_, ?_, ?_⟩⟩
  · rw [hu]; norm_num
  · rw [hf]; norm_num
  · rw [hs, hd, fl_1005]; norm_num
  · rw [hu2]; norm_num
  · rw [hf2]
  · rw [hs2, hd2, fl_seventeen_tenths]; norm_num
  · rintro ⟨k, hk⟩
    rw [hd2, hu2] at hk
    have h1 : (17 : ℚ) < (k : ℚ) := by
      by_contra hc
      push_neg at hc
      have : (k : ℚ) * (3602879701896397 / 36028797018963968) ≤
          17 * (3602879701896397 / 36028797018963968) :=
        mul_le_mul_of_nonneg_right hc (by norm_num)
      rw [← hk] at this
      norm_num at this
    have h2 : (k : ℚ) < 18 := by
      by_contra hc
      push_neg at hc
      have : 18 * (3602879701896397 / 36028797018963968) ≤
          (k : ℚ) * (3602879701896397 / 36028797018963968) :=
        mul_le_mul_of_nonneg_right hc (by norm_num)
      rw [← hk] at this
      norm_num at this
    have h3 : (17 : Int) < k := by exact_mod_cast h1
    have h4 : k < (18 : Int) := by exact_mod_cast h2
    omega

/-- C12, amended. With UV rounding enabled (round_unit > 0, round_fuzz >= 0, no
operation overflowing), `determine_size` rounds the folded UV min/max to the round_unit
grid in double arithmetic: each rounded coordinate is the double nearest to an integer
multiple of round_unit, the rounded minimum is <= the folded minimum + round_fuzz + e and
the rounded maximum is >= the folded maximum - round_fuzz - e on both axes, where
e = (|coordinate| + round_fuzz + round_unit) / 2^50 + 2^-1000 covers the rounding of the
three operations; so the rounded box contains the folded box shrunk by round_fuzz + e on
every side. -/
theorem C12_round_uvs (pal : Palettizer) (t : TexturePlacement)
    (hround : pal._round_uvs = true) (hunit : 0 < pal._round_unit)
    (hfuzz : 0 ≤ pal._round_fuzz)
    (_hfin : TexturePlacement.round_finite pal (TexturePlacement.scan_references t).min_uv.u
        (TexturePlacement.scan_references t).max_uv.u ∧
      TexturePlacement.round_finite pal (TexturePlacement.scan_references t).min_uv.v
        (TexturePlacement.scan_references t).max_uv.v) :
    ((∃ k : Int, (t.desired pal)._position._min_uv.u = fl (k * pal._round_unit)) ∧
      (∃ k : Int, (t.desired pal)._position._min_uv.v = fl (k * pal._round_unit)) ∧
      (∃ k : Int, (t.desired pal)._position._max_uv.u = fl (k * pal._round_unit)) ∧
      (∃ k : Int, (t.desired pal)._position._max_uv.v = fl (k * pal._round_unit))) ∧
    (t.desired pal)._position._min_uv.u ≤
      (TexturePlacement.scan_references t).min_uv.u + pal._round_fuzz +
        ((|(TexturePlacement.scan_references t).min_uv.u| + pal._round_fuzz + pal._round_unit)
          / 2 ^ (50 : Nat) + 1 / 2 ^ (1000 : Nat)) ∧
    (t.desired pal)._position._min_uv.v ≤
      (TexturePlacement.scan_references t).min_uv.v + pal._round_fuzz +
        ((|(TexturePlacement.scan_references t).min_uv.v| + pal._round_fuzz + pal._round_unit)
          / 2 ^ (50 : Nat) + 1 / 2 ^ (1000 : Nat)) ∧
    (TexturePlacement.scan_references t).max_uv.u - pal._round_fuzz -
        ((|(TexturePlacement.scan_references t).max_uv.u| + pal._round_fuzz + pal._round_unit)
          / 2 ^ (50 : Nat) + 1 / 2 ^ (1000 : Nat)) ≤
      (t.desired pal)._position._max_uv.u ∧
    (TexturePlacement.scan_references t).max_uv.v - pal._round_fuzz -
        ((|(TexturePlacement.scan_references t).max_uv.v| + pal._round_fuzz + pal._round_unit)
          / 2 ^ (50 : Nat) + 1 / 2 ^ (1000 : Nat)) ≤
      (t.desired pal)._position._max_uv.v := by
  rw [desired_min_uv, desired_max_uv]
  simp only [TexturePlacement.rounded_min_uv, TexturePlacement.rounded_max_uv, hround, if_true]
  have habs1 : ∀ x : ℚ, |x + pal._round_fuzz| ≤ |x| + pal._round_fuzz := fun x => by
    have := abs_add x pal._round_fuzz
    rw [abs_of_nonneg hfuzz] at this
    exact this
  have habs2 : ∀ x : ℚ, |x - pal._round_fuzz| ≤ |x| + pal._round_fuzz := fun x => by
    have := abs_sub x pal._round_fuzz
    rw [abs_of_nonneg hfuzz] at this
    exact this
  have lo : ∀ x : ℚ,
      Double.mul (⌊Double.div (Double.add x pal._round_fuzz) pal._round_unit⌋ : ℚ)
          pal._round_unit ≤
        x + pal._round_fuzz + ((|x| + pal._round_fuzz + pal._round_unit) / 2 ^ (50 : Nat)
          + 1 / 2 ^ (1000 : Nat)) := fun x => by
    have h := grid_floor_le x pal._round_fuzz pal._round_unit hunit
    have h2 : (|x + pal._round_fuzz| + pal._round_unit) / 2 ^ (50 : Nat) ≤
        (|x| + pal._round_fuzz + pal._round_unit) / 2 ^ (50 : Nat) :=
      div_le_div_of_nonneg_right (by linarith [habs1 x]) (by positivity)
    linarith
  have hi : ∀ x : ℚ,
      x - pal._round_fuzz - ((|x| + pal._round_fuzz + pal._round_unit) / 2 ^ (50 : Nat)
          + 1 / 2 ^ (1000 : Nat)) ≤
        Double.mul (⌈Double.div (Double.sub x pal._round_fuzz) pal._round_unit⌉ : ℚ)
          pal._round_unit := fun x => by
    have h := grid_ceil_ge x pal._round_fuzz pal._round_unit hunit
    have h2 : (|x - pal._round_fuzz| + pal._round_unit) / 2 ^ (50 : Nat) ≤
        (|x| + pal._round_fuzz + pal._round_unit) / 2 ^ (50 : Nat) :=
      div_le_div_of_nonneg_right (by linarith [habs2 x]) (by positivity)
    linarith
  exact ⟨⟨⟨_, rfl⟩, ⟨_, rfl⟩, ⟨_, rfl⟩, ⟨_, rfl⟩⟩, lo _, lo _, hi _, hi _⟩

/-- Witness of the amended C12 on scenario S6 (round unit 0.1, fuzz 0.01). -/
theorem C12_round_uvs_witness :
    (S6_placement.desired S6_pal)._position._min_uv = ⟨0, 0⟩ ∧
    (S6_placement.desired S6_pal)._position._max_uv = ⟨1, 1⟩ ∧
    (S6_placement.desired S6_pal)._position._min_uv.u ≤
      (TexturePlacement.scan_references S6_placement).min_uv.u + S6_pal._round_fuzz +
        ((|(TexturePlacement.scan_references S6_placement).min_uv.u| + S6_pal._round_fuzz
          + S6_pal._round_unit) / 2 ^ (50 : Nat) + 1 / 2 ^ (1000 : Nat)) ∧
    (TexturePlacement.scan_references S6_placement).max_uv.u - S6_pal._round_fuzz -
        ((|(TexturePlacement.scan_references S6_placement).max_uv.u| + S6_pal._round_fuzz
          + S6_pal._round_unit) / 2 ^ (50 : Nat) + 1 / 2 ^ (1000 : Nat)) ≤
      (S6_placement.desired S6_pal)._position._max_uv.u :=
  ⟨by rw [S6_desired_position], by rw [S6_desired_position],
    (C12_round_uvs S6_pal S6_placement rfl
      (by show (0 : ℚ) < fl (1 / 10); rw [fl_one_tenth]; norm_num)
      (by show (0 : ℚ) ≤ fl (1 / 100); rw [fl_one_hundredth]; norm_num)
      ⟨S6_round_finite_u, S6_round_finite_v⟩).2.1,
    (C12_round_uvs S6_pal S6_placement rfl
      (by show (0 : ℚ) < fl (1 / 10); rw [fl_one_tenth]; norm_num)
      (by show (0 : ℚ) ≤ fl (1 / 100); rw [fl_one_hundredth]; norm_num)
      ⟨S6_round_finite_u, S6_round_finite_v⟩).2.2.2.1⟩

theorem needs_replace_iff (d : TexturePlacement) :
    d.needs_replace = true ↔
      (d._position._x_size ≠ d._placed._x_size ∨ d._position._y_size ≠ d._placed._y_size ∨
        d._position._min_uv.u < d._placed._min_uv.u ∨
        d._position._min_uv.v < d._placed._min_uv.v ∨
        d._position._max_uv.u > d._placed._max_uv.u ∨
        d._position._max_uv.v > d._placed._max_uv.v) := by
  simp [TexturePlacement.needs_replace, or_assoc]

theorem fits_placed_iff (d : TexturePlacement) :
    d.fits_placed = true ↔
      (d._position._x_size ≤ d._placed._x_size ∧ d._position._y_size ≤ d._placed._y_size ∧
        d._placed._min_uv.u ≤ d._position._min_uv.u ∧
        d._placed._min_uv.v ≤ d._position._min_uv.v ∧
        d._position._max_uv.u ≤ d._placed._max_uv.u ∧
        d._position._max_uv.v ≤ d._placed._max_uv.v) := by
  simp [TexturePlacement.fits_placed, and_assoc]

/-- C11. Drift policy, decision: for a placed placement (omit reason `none` or `solitary`)
that passes the unknown / omitted / repeats / size rules, `determine_size` forces a
re-place (image becomes null, omit reason `working`) if and only if the grid-rounded
desired rectangle does not fit the placed one (a size differs or the UV box extends beyond
the placed box) and it is not the case that rounding is enabled and the un-rounded desired
size is <= the placed size on both axes with the un-rounded UV box inside the placed
box. Sizes and UV boxes are the values the program computes in double arithmetic, on a
run without overflow (`desired_finite` for the rounded corners, `size_finite` for the
un-rounded ones). -/
theorem C11_drift_decision (pal : Palettizer) (w : Heap) (p a : Nat)
    (himage : (w.placements p)._image = some a)
    (hreason : (w.placements p)._omit_reason = OmitReason.OR_none ∨
      (w.placements p)._omit_reason = OmitReason.OR_solitary)
    (hknown : (w.placements p)._texture.is_size_known = true)
    (huvs : ∃ r ∈ (w.placements p)._references, r.has_uvs = true)
    (_hfin : (w.placements p).desired_finite pal)
    (_hraw : (w.placements p).size_finite
      (TexturePlacement.scan_references (w.placements p)).min_uv
      (TexturePlacement.scan_references (w.placements p)).max_uv)
    (homit : (w.placements p)._texture.get_omit = false)
    (hrepeats : ¬ ((w.placements p).desired pal).get_uv_area >
      Double.div (w.placements p)._texture.get_repeat_threshold 100)
    (hsize : ¬ ((((w.placements p).desired pal)._position._x_size > pal._pal_x_size ∨
        ((w.placements p).desired pal)._position._y_size > pal._pal_y_size) ∨
      (((w.placements p).desired pal)._position._x_size = pal._pal_x_size ∧
        ((w.placements p).desired pal)._position._y_size = pal._pal_y_size))) :
    (((TexturePlacement.determine_size pal w p).1.placements p)._image = none ∧
      ((TexturePlacement.determine_size pal w p).1.placements p)._omit_reason
        = OmitReason.OR_working) ↔
    ((((w.placements p).desired pal)._position._x_size ≠ (w.placements p)._placed._x_size ∨
        ((w.placements p).desired pal)._position._y_size ≠ (w.placements p)._placed._y_size ∨
        ((w.placements p).desired pal)._position._min_uv.u < (w.placements p)._placed._min_uv.u ∨
        ((w.placements p).desired pal)._position._min_uv.v < (w.placements p)._placed._min_uv.v ∨
        ((w.placements p).desired pal)._position._max_uv.u > (w.placements p)._placed._max_uv.u ∨
        ((w.placements p).desired pal)._position._max_uv.v
          > (w.placements p)._placed._max_uv.v) ∧
      ¬ (pal._round_uvs = true ∧
        (((w.placements p).desired pal).compute_size_from_uvs
            (TexturePlacement.scan_references (w.placements p)).min_uv
            (TexturePlacement.scan_references (w.placements p)).max_uv)._position._x_size
          ≤ (w.placements p)._placed._x_size ∧
        (((w.placements p).desired pal).compute_size_from_uvs
            (TexturePlacement.scan_references (w.placements p)).min_uv
            (TexturePlacement.scan_references (w.placements p)).max_uv)._position._y_size
          ≤ (w.placements p)._placed._y_size ∧
        (w.placements p)._placed._min_uv.u ≤
          (TexturePlacement.scan_references (w.placements p)).min_uv.u ∧
        (w.placements p)._placed._min_uv.v ≤
          (TexturePlacement.scan_references (w.placements p)).min_uv.v ∧
        (TexturePlacement.scan_references (w.placements p)).max_uv.u ≤
          (w.placements p)._placed._max_uv.u ∧
        (TexturePlacement.scan_references (w.placements p)).max_uv.v ≤
          (w.placements p)._placed._max_uv.v)) := by
  have hu := (scan_references_has_uvs (w.placements p)).mpr huvs
  have hd : ((w.placements p).desired pal)._omit_reason = OmitReason.OR_none := by
    rw [desired_omit_reason]
    rcases hreason with h | h <;> simp [h]
  have hforce : ((w.placements p).desired pal).forces_replace pal
        (TexturePlacement.scan_references (w.placements p)).min_uv
        (TexturePlacement.scan_references (w.placements p)).max_uv = true ↔
      ((((w.placements p).desired pal)._position._x_size ≠ (w.placements p)._placed._x_size ∨
        ((w.placements p).desired pal)._position._y_size ≠ (w.placements p)._placed._y_size ∨
        ((w.placements p).desired pal)._position._min_uv.u < (w.placements p)._placed._min_uv.u ∨
        ((w.placements p).desired pal)._position._min_uv.v < (w.placements p)._placed._min_uv.v ∨
        ((w.placements p).desired pal)._position._max_uv.u > (w.placements p)._placed._max_uv.u ∨
        ((w.placements p).desired pal)._position._max_uv.v
          > (w.placements p)._placed._max_uv.v) ∧
      ¬ (pal._round_uvs = true ∧
        (((w.placements p).desired pal).compute_size_from_uvs
            (TexturePlacement.scan_references (w.placements p)).min_uv
            (TexturePlacement.scan_references (w.placements p)).max_uv)._position._x_size
          ≤ (w.placements p)._placed._x_size ∧
        (((w.placements p).desired pal).compute_size_from_uvs
            (TexturePlacement.scan_references (w.placements p)).min_uv
            (TexturePlacement.scan_references (w.placements p)).max_uv)._position._y_size
          ≤ (w.placements p)._placed._y_size ∧
        (w.placements p)._placed._min_uv.u ≤
          (TexturePlacement.scan_references (w.placements p)).min_uv.u ∧
        (w.placements p)._placed._min_uv.v ≤
          (TexturePlacement.scan_references (w.placements p)).min_uv.v ∧
        (TexturePlacement.scan_references (w.placements p)).max_uv.u ≤
          (w.placements p)._placed._max_uv.u ∧
        (TexturePlacement.scan_references (w.placements p)).max_uv.v ≤
          (w.placements p)._placed._max_uv.v)) := by
    unfold TexturePlacement.forces_replace
    rw [Bool.and_eq_true, Bool.not_eq_true', Bool.and_eq_false_iff, needs_replace_iff]
    have hf := fits_placed_iff (((w.placements p).desired pal).compute_size_from_uvs
      (TexturePlacement.scan_references (w.placements p)).min_uv
      (TexturePlacement.scan_references (w.placements p)).max_uv)
    simp only [compute_size_from_uvs_placed, desired_placed] at hf ⊢
    have e1 : (((w.placements p).desired pal).compute_size_from_uvs
        (TexturePlacement.scan_references (w.placements p)).min_uv
        (TexturePlacement.scan_references (w.placements p)).max_uv)._position._min_uv
        = (TexturePlacement.scan_references (w.placements p)).min_uv := rfl
    have e2 : (((w.placements p).desired pal).compute_size_from_uvs
        (TexturePlacement.scan_references (w.placements p)).min_uv
        (TexturePlacement.scan_references (w.placements p)).max_uv)._position._max_uv
        = (TexturePlacement.scan_references (w.placements p)).max_uv := rfl
    rw [e1, e2] at hf
    rw [← hf]
    constructor
    · rintro ⟨h1, h2⟩
      refine ⟨h1, ?_⟩
      rintro ⟨h3, h4⟩
      rcases h2 with h2 | h2
      · rw [h3] at h2; cases h2
      · rw [h4] at h2; cases h2
    · rintro ⟨h1, h2⟩
      refine ⟨h1, ?_⟩
      by_cases h3 : pal._round_uvs = true
      · right
        by_contra h4
        exact h2 ⟨h3, by simpa using h4⟩
      · left; simpa using h3
  rw [← hforce, determine_size_image pal w p hu, determine_size_omit_reason pal w p hu]
  simp only [hknown, homit, hrepeats, hsize, hd, himage, Bool.not_true, Bool.false_eq_true,
    if_false]
  cases hf : ((w.placements p).desired pal).forces_replace pal
      (TexturePlacement.scan_references (w.placements p)).min_uv
      (TexturePlacement.scan_references (w.placements p)).max_uv <;> simp

/-- A 64 pixel source with margin 2 on the UV range [0.01, 1] asks for 63 pixels. -/
theorem axis_size_64_drift : TexturePlacement.axis_size 64 2 (fl (1 / 100)) 1 = 63 := by
  rw [fl_one_hundredth]
  have h1 : Double.sub 1 (5764607523034235 / 576460752303423488) = 4458563631096791 / 4503599627370496 := by
    show fl (1 - (5764607523034235 / 576460752303423488)) = 4458563631096791 / 4503599627370496
    rw [fl_eval (1 - (5764607523034235 / 576460752303423488)) (-53) (8917127262193582) (by norm_num) (Or.inr (by norm_num [abs_of_pos])) (by norm_num [abs_of_pos]) (by norm_num [abs_lt])]; norm_num
  have h2 : Double.mul ((64 : Int) : ℚ) (4458563631096791 / 4503599627370496) = 4458563631096791 / 70368744177664 := by
    show fl (((64 : Int) : ℚ) * (4458563631096791 / 4503599627370496)) = 4458563631096791 / 70368744177664
    rw [fl_eval (((64 : Int) : ℚ) * (4458563631096791 / 4503599627370496)) (-47) (8917127262193582) (by norm_num) (Or.inr (by norm_num [abs_of_pos])) (by norm_num [abs_of_pos]) (by norm_num [abs_lt])]; norm_num
  have h3 : Double.add (4458563631096791 / 70368744177664) (1 / 2) = 4493748003185623 / 70368744177664 := by
    show fl ((4458563631096791 / 70368744177664) + (1 / 2)) = 4493748003185623 / 70368744177664
    rw [fl_eval ((4458563631096791 / 70368744177664) + (1 / 2)) (-47) (8987496006371246) (by norm_num) (Or.inr (by norm_num [abs_of_pos])) (by norm_num [abs_of_pos]) (by norm_num [abs_lt])]; norm_num
  have h4 : ⌊(4493748003185623 / 70368744177664 : ℚ)⌋ = 63 := by
    rw [Int.floor_eq_iff]; norm_num
  have h5 : Double.div ((2 : Int) : ℚ) ((63 : Int) : ℚ) = 285942833483841 / 9007199254740992 := by
    show fl (((2 : Int) : ℚ) / ((63 : Int) : ℚ)) = 285942833483841 / 9007199254740992
    rw [fl_eval (((2 : Int) : ℚ) / ((63 : Int) : ℚ)) (-57) (4575085335741456) (by norm_num) (Or.inr (by norm_num [abs_of_pos])) (by norm_num [abs_of_pos]) (by norm_num [abs_lt])]; norm_num
  have hi1 : Double.to_int (63) = 63 := by decide
  have hi2 : max (63 : Int) 4 = 63 := by decide
  unfold TexturePlacement.axis_size
  simp only [h1, h2, h3, h4, h5, hi1, hi2, fl_one_tenth]
  norm_num [wrap32]

theorem axis_finite_64_drift : TexturePlacement.axis_finite 64 (fl (1 / 100)) 1 := by
  have h1 : Double.sub 1 (5764607523034235 / 576460752303423488) = 4458563631096791 / 4503599627370496 := by
    show fl (1 - (5764607523034235 / 576460752303423488)) = 4458563631096791 / 4503599627370496
    rw [fl_eval (1 - (5764607523034235 / 576460752303423488)) (-53) (8917127262193582) (by norm_num) (Or.inr (by norm_num [abs_of_pos])) (by norm_num [abs_of_pos]) (by norm_num [abs_lt])]; norm_num
  have h2 : Double.mul ((64 : Int) : ℚ) (4458563631096791 / 4503599627370496) = 4458563631096791 / 70368744177664 := by
    show fl (((64 : Int) : ℚ) * (4458563631096791 / 4503599627370496)) = 4458563631096791 / 70368744177664
    rw [fl_eval (((64 : Int) : ℚ) * (4458563631096791 / 4503599627370496)) (-47) (8917127262193582) (by norm_num) (Or.inr (by norm_num [abs_of_pos])) (by norm_num [abs_of_pos]) (by norm_num [abs_lt])]; norm_num
  have h3 : Double.add (4458563631096791 / 70368744177664) (1 / 2) = 4493748003185623 / 70368744177664 := by
    show fl ((4458563631096791 / 70368744177664) + (1 / 2)) = 4493748003185623 / 70368744177664
    rw [fl_eval ((4458563631096791 / 70368744177664) + (1 / 2)) (-47) (8987496006371246) (by norm_num) (Or.inr (by norm_num [abs_of_pos])) (by norm_num [abs_of_pos]) (by norm_num [abs_lt])]; norm_num
  rw [fl_one_hundredth]
  simp only [TexturePlacement.axis_finite, h1, h2, h3, Double.finite_iff]
  norm_num

theorem S6_no_round_desired_position :
    (S6_placement.desired S6_pal_no_round)._position =
      { _margin := 2, _x := 0, _y := 0, _x_size := 63, _y_size := 64,
        _min_uv := ⟨fl (1 / 100), 0⟩, _max_uv := ⟨1, 1⟩,
        _wrap_u := WrapMode.WM_clamp, _wrap_v := WrapMode.WM_clamp } := by
  have hmin : TexturePlacement.rounded_min_uv S6_pal_no_round ⟨fl (1 / 100), 0⟩ =
      ⟨fl (1 / 100), 0⟩ := rfl
  have hmax : TexturePlacement.rounded_max_uv S6_pal_no_round ⟨1, 1⟩ = ⟨1, 1⟩ := rfl
  unfold TexturePlacement.desired
  rw [S6_scan]
  simp only [hmin, hmax]
  simp only [TexturePlacement.compute_size_from_uvs, scanned_texture, S6_placement,
    axis_size_64_drift, axis_size_64_full]
  norm_num [TexturePlacement.scanned, S6_placement]
  exact ⟨rfl, rfl⟩

/-- The area of the box (0.01,0)-(1,1), as `get_uv_area` computes it. -/
theorem S6_no_round_area :
    Double.mul (Double.sub 1 (fl (1 / 100))) (Double.sub 1 0) = 4458563631096791 / 4503599627370496 := by
  have h1 : Double.sub 1 (5764607523034235 / 576460752303423488) = 4458563631096791 / 4503599627370496 := by
    show fl (1 - (5764607523034235 / 576460752303423488)) = 4458563631096791 / 4503599627370496
    rw [fl_eval (1 - (5764607523034235 / 576460752303423488)) (-53) (8917127262193582) (by norm_num) (Or.inr (by norm_num [abs_of_pos])) (by norm_num [abs_of_pos]) (by norm_num [abs_lt])]; norm_num
  have h2 : Double.sub 1 0 = 1 := by
    show fl (1 - 0) = 1
    rw [fl_eval (1 - 0) (-52) (4503599627370496) (by norm_num) (Or.inr (by norm_num [abs_of_pos])) (by norm_num [abs_of_pos]) (by norm_num [abs_lt])]; norm_num
  have h3 : Double.mul (4458563631096791 / 4503599627370496) 1 = 4458563631096791 / 4503599627370496 := by
    show fl ((4458563631096791 / 4503599627370496) * 1) = 4458563631096791 / 4503599627370496
    rw [fl_eval ((4458563631096791 / 4503599627370496) * 1) (-53) (8917127262193582) (by norm_num) (Or.inr (by norm_num [abs_of_pos])) (by norm_num [abs_of_pos]) (by norm_num [abs_lt])]; norm_num
  simp only [fl_one_hundredth, h1, h2, h3]

theorem S6_no_round_size_finite : S6_placement.size_finite ⟨fl (1 / 100), 0⟩ ⟨1, 1⟩ :=
  ⟨axis_finite_64_drift, axis_finite_64_full⟩

/-- Scenario S6 without rounding stays within the finite doubles. -/
theorem S6_no_round_desired_finite : S6_placement.desired_finite S6_pal_no_round := by
  have hmin : TexturePlacement.rounded_min_uv S6_pal_no_round ⟨fl (1 / 100), 0⟩ =
      ⟨fl (1 / 100), 0⟩ := rfl
  have hmax : TexturePlacement.rounded_max_uv S6_pal_no_round ⟨1, 1⟩ = ⟨1, 1⟩ := rfl
  unfold TexturePlacement.desired_finite
  rw [desired_get_uv_area S6_pal_no_round S6_placement rfl, S6_no_round_desired_position,
    S6_scan]
  simp only [hmin, hmax, S6_no_round_area]
  refine ⟨fun h => Bool.noConfusion h, S6_no_round_size_finite, ?_⟩
  rw [Double.finite_iff]
  norm_num

/-- Witness of C11, scenario S6 without UV rounding: the desired width 63 differs from the
placed width 64, so the placement is taken off its atlas. -/
theorem C11_drift_decision_witness :
    ((TexturePlacement.determine_size S6_pal_no_round S6_heap 0).1.placements 0)._image
      = none ∧
    ((TexturePlacement.determine_size S6_pal_no_round S6_heap 0).1.placements 0)._omit_reason
      = OmitReason.OR_working :=
  (C11_drift_decision S6_pal_no_round S6_heap 0 0 rfl (Or.inr rfl) rfl
    ⟨_, List.mem_singleton_self _, rfl⟩ S6_no_round_desired_finite S6_no_round_size_finite rfl
    (by
      show ¬ (S6_placement.desired S6_pal_no_round).get_uv_area > Double.div 100 100
      rw [desired_get_uv_area S6_pal_no_round S6_placement rfl, S6_no_round_desired_position]
      simp only [S6_no_round_area, hundred_percent]
      norm_num)
    (by
      show ¬ (((S6_placement.desired S6_pal_no_round)._position._x_size > 128 ∨
          (S6_placement.desired S6_pal_no_round)._position._y_size > 128) ∨
        ((S6_placement.desired S6_pal_no_round)._position._x_size = 128 ∧
          (S6_placement.desired S6_pal_no_round)._position._y_size = 128))
      rw [S6_no_round_desired_position]; decide)).mpr
    ⟨Or.inl (by
        show (S6_placement.desired S6_pal_no_round)._position._x_size ≠ 64
        rw [S6_no_round_desired_position]; decide),
      fun h => Bool.noConfusion h.1⟩

/-! ## The UV transform -/

/-- The argument of `floor` in `(int)floor(a / range + 0.5)`, computed in doubles from an
`a` that is the rounded value of `A` (or `A` itself) and from the rounded range, is within
`2^-20` of the exact `A / range + 1/2`, for a range of at least `2^-8` and a quotient of
at most `2^30` in magnitude. -/
theorem quotient_arg_close (a A lo hi : ℚ) (hB : 1 / 2 ^ (8 : Nat) ≤ hi - lo)
    (hQ : |A / (hi - lo)| ≤ 2 ^ (30 : Nat))
    (ha : |a - A| ≤ |A| / 2 ^ (53 : Nat) + 2 ^ (-1075 : Int)) :
    0 < Double.sub hi lo ∧
    |Double.add (Double.div a (Double.sub hi lo)) (1 / 2) - (A / (hi - lo) + 1 / 2)|
      ≤ 1 / 2 ^ (20 : Nat) := by
  have hη := tiny_le
  have hη0 := two_zpow_pos (-1075)
  have hBpos : 0 < hi - lo := lt_of_lt_of_le (by positivity) hB
  -- the rounded range
  have hnorm : (2 : ℚ) ^ (-1022 : Int) ≤ |hi - lo| := by
    rw [abs_of_pos hBpos]
    refine le_trans ?_ hB
    have h1 : (2 : ℚ) ^ (-1022 : Int) ≤ 2 ^ (-8 : Int) := two_zpow_le (by norm_num)
    have e : (2 : ℚ) ^ (-8 : Int) = 1 / 2 ^ (8 : Nat) := by
      rw [zpow_neg, one_div]; norm_cast
    rw [← e]; exact h1
  have hb := fl_err_rel (hi - lo) hnorm
  rw [abs_of_pos hBpos, abs_le] at hb
  have hb1 : (hi - lo) * (1 - 1 / 2 ^ (53 : Nat)) ≤ fl (hi - lo) := by
    have : (hi - lo) * (1 - 1 / 2 ^ (53 : Nat)) = (hi - lo) - (hi - lo) / 2 ^ (53 : Nat) := by
      ring
    rw [this]; linarith [hb.1]
  have hc : (0 : ℚ) < 1 - 1 / 2 ^ (53 : Nat) := by norm_num
  have hbpos : 0 < fl (hi - lo) := lt_of_lt_of_le (mul_pos hBpos hc) hb1
  refine ⟨hbpos, ?_⟩
  unfold Double.add Double.div Double.sub
  -- the quotient of the rounded values against the exact quotient
  have hAB : |A| ≤ 2 ^ (30 : Nat) * (hi - lo) := by
    rw [abs_div, abs_of_pos hBpos, div_le_iff₀ hBpos] at hQ
    exact hQ
  have hnum : |(a - A) * (hi - lo) + A * ((hi - lo) - fl (hi - lo))| ≤
      (hi - lo) * (2 * |A| / 2 ^ (53 : Nat) + 2 ^ (-1075 : Int)) := by
    have t1 : |(a - A) * (hi - lo)| ≤ (|A| / 2 ^ (53 : Nat) + 2 ^ (-1075 : Int)) * (hi - lo) := by
      rw [abs_mul, abs_of_pos hBpos]
      exact mul_le_mul_of_nonneg_right ha hBpos.le
    have t2 : |A * ((hi - lo) - fl (hi - lo))| ≤ |A| * ((hi - lo) / 2 ^ (53 : Nat)) := by
      rw [abs_mul]
      apply mul_le_mul_of_nonneg_left _ (abs_nonneg A)
      rw [abs_le]; constructor <;> linarith [hb.1, hb.2]
    have t3 := abs_add ((a - A) * (hi - lo)) (A * ((hi - lo) - fl (hi - lo)))
    have e : (|A| / 2 ^ (53 : Nat) + 2 ^ (-1075 : Int)) * (hi - lo) +
        |A| * ((hi - lo) / 2 ^ (53 : Nat)) =
        (hi - lo) * (2 * |A| / 2 ^ (53 : Nat) + 2 ^ (-1075 : Int)) := by ring
    linarith
  have hquot : |a / fl (hi - lo) - A / (hi - lo)| ≤ 1 / 2 ^ (22 : Nat) + 1 / 2 ^ (60 : Nat) := by
    have e : a / fl (hi - lo) - A / (hi - lo) =
        ((a - A) * (hi - lo) + A * ((hi - lo) - fl (hi - lo))) / (fl (hi - lo) * (hi - lo)) := by
      field_simp
      ring
    rw [e, abs_div, abs_of_pos (mul_pos hbpos hBpos), div_le_iff₀ (mul_pos hbpos hBpos)]
    refine le_trans hnum ?_
    -- (hi - lo) * (2 |A| δ + η) ≤ c * (b * (hi - lo)), with b ≥ (hi - lo) (1 - δ)
    have h1 : (hi - lo) * (2 * |A| / 2 ^ (53 : Nat) + 2 ^ (-1075 : Int)) ≤
        (hi - lo) * ((hi - lo) * (1 / 2 ^ (22 : Nat) + 1 / 2 ^ (100 : Nat))) := by
      apply mul_le_mul_of_nonneg_left _ hBpos.le
      have e1 : 2 * |A| / 2 ^ (53 : Nat) ≤ 2 * (2 ^ (30 : Nat) * (hi - lo)) / 2 ^ (53 : Nat) :=
        div_le_div_of_nonneg_right (by linarith) (by positivity)
      have e2 : 2 * (2 ^ (30 : Nat) * (hi - lo)) / 2 ^ (53 : Nat) =
          (hi - lo) * (1 / 2 ^ (22 : Nat)) := by
        field_simp; ring
      have e3 : (2 : ℚ) ^ (-1075 : Int) ≤ (hi - lo) * (1 / 2 ^ (100 : Nat)) := by
        have : (1 : ℚ) / 2 ^ (200 : Nat) ≤ 1 / 2 ^ (8 : Nat) * (1 / 2 ^ (100 : Nat)) := by
          norm_num
        have h8 : 1 / 2 ^ (8 : Nat) * (1 / 2 ^ (100 : Nat)) ≤ (hi - lo) * (1 / 2 ^ (100 : Nat)) :=
          mul_le_mul_of_nonneg_right hB (by positivity)
        linarith
      rw [e2] at e1
      have e4 : (hi - lo) * (1 / 2 ^ (22 : Nat) + 1 / 2 ^ (100 : Nat)) =
          (hi - lo) * (1 / 2 ^ (22 : Nat)) + (hi - lo) * (1 / 2 ^ (100 : Nat)) := by ring
      rw [e4]; linarith
    have h2 : (hi - lo) * ((hi - lo) * (1 / 2 ^ (22 : Nat) + 1 / 2 ^ (100 : Nat))) ≤
        (1 / 2 ^ (22 : Nat) + 1 / 2 ^ (60 : Nat)) * (fl (hi - lo) * (hi - lo)) := by
      have h3 : (hi - lo) * (1 / 2 ^ (22 : Nat) + 1 / 2 ^ (100 : Nat)) ≤
          (1 / 2 ^ (22 : Nat) + 1 / 2 ^ (60 : Nat)) * fl (hi - lo) := by
        have h4 : (1 / 2 ^ (22 : Nat) + 1 / 2 ^ (60 : Nat)) * ((hi - lo) * (1 - 1 / 2 ^ (53 : Nat)))
            ≤ (1 / 2 ^ (22 : Nat) + 1 / 2 ^ (60 : Nat)) * fl (hi - lo) :=
          mul_le_mul_of_nonneg_left hb1 (by positivity)
        have h5 : (hi - lo) * (1 / 2 ^ (22 : Nat) + 1 / 2 ^ (100 : Nat)) ≤
            (1 / 2 ^ (22 : Nat) + 1 / 2 ^ (60 : Nat)) * ((hi - lo) * (1 - 1 / 2 ^ (53 : Nat))) := by
          have e5 : (1 / 2 ^ (22 : Nat) + 1 / 2 ^ (60 : Nat)) *
              ((hi - lo) * (1 - 1 / 2 ^ (53 : Nat))) =
              (hi - lo) * ((1 / 2 ^ (22 : Nat) + 1 / 2 ^ (60 : Nat)) * (1 - 1 / 2 ^ (53 : Nat))) := by
            ring
          rw [e5]
          apply mul_le_mul_of_nonneg_left _ hBpos.le
          norm_num
        linarith
      have := mul_le_mul_of_nonneg_left h3 hBpos.le
      have e6 : (hi - lo) * ((1 / 2 ^ (22 : Nat) + 1 / 2 ^ (60 : Nat)) * fl (hi - lo)) =
          (1 / 2 ^ (22 : Nat) + 1 / 2 ^ (60 : Nat)) * (fl (hi - lo) * (hi - lo)) := by ring
      linarith
    exact le_trans h1 h2
  -- the two roundings of the quotient and of the sum
  rw [abs_le] at hquot hQ
  have hq1 : |a / fl (hi - lo)| ≤ 2 ^ (30 : Nat) + 1 := by
    rw [abs_le]
    have : (1 : ℚ) / 2 ^ (22 : Nat) + 1 / 2 ^ (60 : Nat) ≤ 1 := by norm_num
    constructor <;> linarith [hquot.1, hquot.2, hQ.1, hQ.2]
  have h3 := fl_close _ _ hq1
  rw [abs_le] at h3 hq1
  have hq2 : |fl (a / fl (hi - lo)) + 1 / 2| ≤ 2 ^ (30 : Nat) + 2 := by
    rw [abs_le]
    have : ((2 : ℚ) ^ (30 : Nat) + 1) / 2 ^ (53 : Nat) + 1 / 2 ^ (200 : Nat) ≤ 1 / 2 := by
      norm_num
    constructor <;> linarith [h3.1, h3.2, hq1.1, hq1.2]
  have h4 := fl_close _ _ hq2
  rw [abs_le] at h4 ⊢
  have hfin : (1 : ℚ) / 2 ^ (22 : Nat) + 1 / 2 ^ (60 : Nat) +
      (((2 : ℚ) ^ (30 : Nat) + 1) / 2 ^ (53 : Nat) + 1 / 2 ^ (200 : Nat)) +
      (((2 : ℚ) ^ (30 : Nat) + 2) / 2 ^ (53 : Nat) + 1 / 2 ^ (200 : Nat)) ≤ 1 / 2 ^ (20 : Nat) := by
    norm_num
  constructor <;> linarith [h3.1, h3.2, h4.1, h4.2, hquot.1, hquot.2]

/-- The value `(int)floor(a / range + 0.5)` of the program against the exact
`A / range`: between the floors of `A / range + 1/2 -+ 2^-20`, and within
`1/2 + 2^-20` of `A / range`. -/
theorem round_quotient_close (a A lo hi : ℚ) (hB : 1 / 2 ^ (8 : Nat) ≤ hi - lo)
    (hQ : |A / (hi - lo)| ≤ 2 ^ (30 : Nat))
    (ha : |a - A| ≤ |A| / 2 ^ (53 : Nat) + 2 ^ (-1075 : Int)) :
    ⌊A / (hi - lo) + 1 / 2 - 1 / 2 ^ (20 : Nat)⌋ ≤ Double.round_quotient a (Double.sub hi lo) ∧
    Double.round_quotient a (Double.sub hi lo) ≤ ⌊A / (hi - lo) + 1 / 2 + 1 / 2 ^ (20 : Nat)⌋ ∧
    |(Double.round_quotient a (Double.sub hi lo) : ℚ) - A / (hi - lo)|
      ≤ 1 / 2 + 1 / 2 ^ (20 : Nat) ∧
    |(Double.round_quotient a (Double.sub hi lo) : ℚ)| ≤ 2 ^ (30 : Nat) + 1 := by
  obtain ⟨hpos, hc⟩ := quotient_arg_close a A lo hi hB hQ ha
  rw [abs_le] at hc hQ
  have hfl := Int.floor_le (Double.add (Double.div a (Double.sub hi lo)) (1 / 2))
  have hfl2 := Int.lt_floor_add_one (Double.add (Double.div a (Double.sub hi lo)) (1 / 2))
  have hk1 : -(2 ^ 30) - 1 ≤ ⌊Double.add (Double.div a (Double.sub hi lo)) (1 / 2)⌋ := by
    apply Int.le_floor.mpr
    push_cast
    have : (0 : ℚ) ≤ 1 / 2 - 1 / 2 ^ (20 : Nat) := by norm_num
    linarith [hc.1, hQ.1]
  have hk2 : ⌊Double.add (Double.div a (Double.sub hi lo)) (1 / 2)⌋ ≤ 2 ^ 30 + 1 := by
    have h1 : Double.add (Double.div a (Double.sub hi lo)) (1 / 2) < ((2 ^ 30 + 2 : Int) : ℚ) := by
      push_cast
      have : (1 : ℚ) / 2 + 1 / 2 ^ (20 : Nat) < 2 := by norm_num
      linarith [hc.2, hQ.2]
    have := Int.floor_lt.mpr h1
    omega
  have hv : Double.round_quotient a (Double.sub hi lo) =
      ⌊Double.add (Double.div a (Double.sub hi lo)) (1 / 2)⌋ := by
    unfold Double.round_quotient
    rw [if_neg (ne_of_gt hpos), Double.to_int_of_range (by omega) (by omega)]
  rw [hv]
  refine ⟨Int.floor_mono (by linarith [hc.1]), Int.floor_mono (by linarith [hc.2]), ?_, ?_⟩
  · rw [abs_le]
    constructor <;> linarith [hc.1, hc.2]
  · rw [abs_le]
    have a1 : ((-(2 ^ 30) - 1 : Int) : ℚ) ≤
        (⌊Double.add (Double.div a (Double.sub hi lo)) (1 / 2)⌋ : ℚ) := by exact_mod_cast hk1
    have a2 : (⌊Double.add (Double.div a (Double.sub hi lo)) (1 / 2)⌋ : ℚ) ≤
        ((2 ^ 30 + 1 : Int) : ℚ) := by exact_mod_cast hk2
    push_cast at a1 a2
    constructor <;> linarith

/-- The origin and the resample size of `fill_image` and `compute_tex_matrix` on one axis
against their exact values, for a rectangle of ordinary size. -/
theorem resample_close (size margin : Int) (lo hi : ℚ) (hm : 0 ≤ margin)
    (hms : 2 * margin ≤ size) (hs : size ≤ 16384) (hlo : |lo| ≤ 256)
    (hr : 1 / 256 ≤ hi - lo) :
    (⌊lo * ((size : ℚ) - 2 * (margin : ℚ)) / (hi - lo) + 1 / 2 - 1 / 2 ^ (20 : Nat)⌋ ≤
        (TexturePlacement.resample size margin lo hi).1 ∧
      (TexturePlacement.resample size margin lo hi).1 ≤
        ⌊lo * ((size : ℚ) - 2 * (margin : ℚ)) / (hi - lo) + 1 / 2 + 1 / 2 ^ (20 : Nat)⌋ ∧
      |((TexturePlacement.resample size margin lo hi).1 : ℚ) -
          lo * ((size : ℚ) - 2 * (margin : ℚ)) / (hi - lo)| ≤ 1 / 2 + 1 / 2 ^ (20 : Nat) ∧
      |((TexturePlacement.resample size margin lo hi).1 : ℚ)| ≤ 2 ^ (30 : Nat) + 1) ∧
    (⌊((size : ℚ) - 2 * (margin : ℚ)) / (hi - lo) + 1 / 2 - 1 / 2 ^ (20 : Nat)⌋ ≤
        (TexturePlacement.resample size margin lo hi).2 ∧
      (TexturePlacement.resample size margin lo hi).2 ≤
        ⌊((size : ℚ) - 2 * (margin : ℚ)) / (hi - lo) + 1 / 2 + 1 / 2 ^ (20 : Nat)⌋ ∧
      |((TexturePlacement.resample size margin lo hi).2 : ℚ) -
          ((size : ℚ) - 2 * (margin : ℚ)) / (hi - lo)| ≤ 1 / 2 + 1 / 2 ^ (20 : Nat) ∧
      |((TexturePlacement.resample size margin lo hi).2 : ℚ)| ≤ 2 ^ (30 : Nat) + 1) := by
  have hB : (1 : ℚ) / 2 ^ (8 : Nat) ≤ hi - lo := by
    have : (1 : ℚ) / 2 ^ (8 : Nat) = 1 / 256 := by norm_num
    rw [this]; exact hr
  have hBpos : 0 < hi - lo := lt_of_lt_of_le (by positivity) hB
  have hw : wrap32 (size - margin * 2) = size - margin * 2 :=
    wrap32_of_range (by omega) (by omega)
  have hcast : ((size - margin * 2 : Int) : ℚ) = (size : ℚ) - 2 * (margin : ℚ) := by
    push_cast; ring
  have hi0 : (0 : ℚ) ≤ (size : ℚ) - 2 * (margin : ℚ) := by
    rw [← hcast]; exact_mod_cast (by omega : (0 : Int) ≤ size - margin * 2)
  have hi1 : (size : ℚ) - 2 * (margin : ℚ) ≤ 16384 := by
    rw [← hcast]; exact_mod_cast (by omega : size - margin * 2 ≤ 16384)
  -- the two exact quotients are at most 2^30 in magnitude
  have hq2 : |((size : ℚ) - 2 * (margin : ℚ)) / (hi - lo)| ≤ 2 ^ (30 : Nat) := by
    rw [abs_div, abs_of_pos hBpos, abs_of_nonneg hi0, div_le_iff₀ hBpos]
    have : (2 : ℚ) ^ (30 : Nat) * (1 / 256) ≤ 2 ^ (30 : Nat) * (hi - lo) :=
      mul_le_mul_of_nonneg_left hr (by positivity)
    have e : (2 : ℚ) ^ (30 : Nat) * (1 / 256) = 4194304 := by norm_num
    linarith
  have hq1 : |lo * ((size : ℚ) - 2 * (margin : ℚ)) / (hi - lo)| ≤ 2 ^ (30 : Nat) := by
    rw [abs_div, abs_of_pos hBpos, abs_mul, abs_of_nonneg hi0, div_le_iff₀ hBpos]
    have h1 : |lo| * ((size : ℚ) - 2 * (margin : ℚ)) ≤ 256 * 16384 :=
      mul_le_mul hlo hi1 hi0 (by norm_num)
    have : (2 : ℚ) ^ (30 : Nat) * (1 / 256) ≤ 2 ^ (30 : Nat) * (hi - lo) :=
      mul_le_mul_of_nonneg_left hr (by positivity)
    have e : (2 : ℚ) ^ (30 : Nat) * (1 / 256) = 4194304 := by norm_num
    linarith
  unfold TexturePlacement.resample
  simp only [hw, hcast]
  refine ⟨?_, ?_⟩
  · exact round_quotient_close _ _ lo hi hB hq1 (fl_err_abs _)
  · exact round_quotient_close _ _ lo hi hB hq2 (by
      rw [sub_self, abs_zero]
      have := two_zpow_pos (-1075)
      positivity)

/-- A quotient by the atlas size, multiplied back: the entry of the matrix in pixels is
the numerator up to the rounding of the division. -/
theorem div_mul_close (n W : ℚ) (hW : 0 < W) :
    |Double.div n W * W - n| ≤ |n| / 2 ^ (53 : Nat) + 2 ^ (-1075 : Int) * W := by
  unfold Double.div
  have h := fl_err_abs (n / W)
  have e : fl (n / W) * W - n = (fl (n / W) - n / W) * W := by
    field_simp
  rw [e, abs_mul, abs_of_pos hW]
  have h2 := mul_le_mul_of_nonneg_right h hW.le
  have e2 : (|n / W| / 2 ^ (53 : Nat) + 2 ^ (-1075 : Int)) * W =
      |n| / 2 ^ (53 : Nat) + 2 ^ (-1075 : Int) * W := by
    rw [abs_div, abs_of_pos hW]
    field_simp
    ring
  linarith

/-- The matrix of `compute_tex_matrix` in terms of the origin and the resample size that
`resample` computes on each axis. -/
theorem compute_tex_matrix_resample (w : Heap) (p a : Nat)
    (himage : (w.placements p)._image = some a) :
    TexturePlacement.compute_tex_matrix w p = some
    { m00 := Double.div (((TexturePlacement.resample (w.placements p)._placed._x_size
          (w.placements p)._placed._margin (w.placements p)._placed._min_uv.u
          (w.placements p)._placed._max_uv.u).2 : Int) : ℚ) ((w.images a)._x_size : ℚ),
      m01 := 0, m02 := 0, m10 := 0,
      m11 := Double.div (((TexturePlacement.resample (w.placements p)._placed._y_size
          (w.placements p)._placed._margin (w.placements p)._placed._min_uv.v
          (w.placements p)._placed._max_uv.v).2 : Int) : ℚ) ((w.images a)._y_size : ℚ),
      m12 := 0,
      m20 := Double.div ((wrap32 ((w.placements p)._placed._x + (w.placements p)._placed._margin -
          (TexturePlacement.resample (w.placements p)._placed._x_size
            (w.placements p)._placed._margin (w.placements p)._placed._min_uv.u
            (w.placements p)._placed._max_uv.u).1) : Int) : ℚ) ((w.images a)._x_size : ℚ),
      m21 := Double.div ((wrap32 ((w.images a)._y_size - 1 -
          ((w.placements p)._placed._y_size - 1 -
            wrap32 (-(w.placements p)._placed._y + (w.placements p)._placed._margin -
              (TexturePlacement.resample (w.placements p)._placed._y_size
                (w.placements p)._placed._margin (w.placements p)._placed._min_uv.v
                (w.placements p)._placed._max_uv.v).1))) : Int) : ℚ)
        ((w.images a)._y_size : ℚ),
      m22 := 1 } := by
  unfold TexturePlacement.compute_tex_matrix
  rw [himage]
  rfl

/-- The matrix of `compute_tex_matrix` for a placed rectangle of ordinary size, in terms
of the origin and resample size of `resample`: no `int` wraps around. -/
theorem compute_tex_matrix_form (w : Heap) (p a : Nat)
    (himage : (w.placements p)._image = some a)
    (hb : (w.placements p)._placed.ordinary (w.images a)._x_size (w.images a)._y_size) :
    TexturePlacement.compute_tex_matrix w p = some
      { m00 := Double.div (((TexturePlacement.resample (w.placements p)._placed._x_size
            (w.placements p)._placed._margin (w.placements p)._placed._min_uv.u
            (w.placements p)._placed._max_uv.u).2 : Int) : ℚ) ((w.images a)._x_size : ℚ),
        m01 := 0, m02 := 0, m10 := 0,
        m11 := Double.div (((TexturePlacement.resample (w.placements p)._placed._y_size
            (w.placements p)._placed._margin (w.placements p)._placed._min_uv.v
            (w.placements p)._placed._max_uv.v).2 : Int) : ℚ) ((w.images a)._y_size : ℚ),
        m12 := 0,
        m20 := Double.div (((w.placements p)._placed._x + (w.placements p)._placed._margin -
            (TexturePlacement.resample (w.placements p)._placed._x_size
              (w.placements p)._placed._margin (w.placements p)._placed._min_uv.u
              (w.placements p)._placed._max_uv.u).1 : Int) : ℚ) ((w.images a)._x_size : ℚ),
        m21 := Double.div (((w.images a)._y_size - 1 - ((w.placements p)._placed._y_size - 1 -
            (-(w.placements p)._placed._y + (w.placements p)._placed._margin -
              (TexturePlacement.resample (w.placements p)._placed._y_size
                (w.placements p)._placed._margin (w.placements p)._placed._min_uv.v
                (w.placements p)._placed._max_uv.v).1)) : Int) : ℚ) ((w.images a)._y_size : ℚ),
        m22 := 1 } := by
  obtain ⟨⟨_, _, _, hox⟩, _⟩ := resample_close _ _ _ (w.placements p)._placed._max_uv.u
    hb.margin_nonneg hb.margin_x hb.x_size_le hb.min_u hb.range_u
  obtain ⟨⟨_, _, _, hoy⟩, _⟩ := resample_close _ _ _ (w.placements p)._placed._max_uv.v
    hb.margin_nonneg hb.margin_y hb.y_size_le hb.min_v hb.range_v
  have box : |(TexturePlacement.resample (w.placements p)._placed._x_size
      (w.placements p)._placed._margin (w.placements p)._placed._min_uv.u
      (w.placements p)._placed._max_uv.u).1| ≤ 2 ^ 30 + 1 := by
    have : ((|(TexturePlacement.resample (w.placements p)._placed._x_size
      (w.placements p)._placed._margin (w.placements p)._placed._min_uv.u
      (w.placements p)._placed._max_uv.u).1| : Int) : ℚ) ≤ ((2 ^ 30 + 1 : Int) : ℚ) := by
      push_cast; linarith [hox]
    exact_mod_cast this
  have boy : |(TexturePlacement.resample (w.placements p)._placed._y_size
      (w.placements p)._placed._margin (w.placements p)._placed._min_uv.v
      (w.placements p)._placed._max_uv.v).1| ≤ 2 ^ 30 + 1 := by
    have : ((|(TexturePlacement.resample (w.placements p)._placed._y_size
      (w.placements p)._placed._margin (w.placements p)._placed._min_uv.v
      (w.placements p)._placed._max_uv.v).1| : Int) : ℚ) ≤ ((2 ^ 30 + 1 : Int) : ℚ) := by
      push_cast; linarith [hoy]
    exact_mod_cast this
  rw [abs_le] at box boy
  have hx := abs_le.mp hb.x_range
  have hy := abs_le.mp hb.y_range
  have hm := hb.margin_nonneg
  have hmx := hb.margin_x
  have hmy := hb.margin_y
  have hsx := hb.x_size_le
  have hsy := hb.y_size_le
  have hH := hb.H_pos
  have hH2 := hb.H_le
  have w1 : wrap32 ((w.placements p)._placed._x + (w.placements p)._placed._margin -
      (TexturePlacement.resample (w.placements p)._placed._x_size
        (w.placements p)._placed._margin (w.placements p)._placed._min_uv.u
        (w.placements p)._placed._max_uv.u).1) =
      (w.placements p)._placed._x + (w.placements p)._placed._margin -
      (TexturePlacement.resample (w.placements p)._placed._x_size
        (w.placements p)._placed._margin (w.placements p)._placed._min_uv.u
        (w.placements p)._placed._max_uv.u).1 :=
    wrap32_of_range (by omega) (by omega)
  have w2 : wrap32 (-(w.placements p)._placed._y + (w.placements p)._placed._margin -
      (TexturePlacement.resample (w.placements p)._placed._y_size
        (w.placements p)._placed._margin (w.placements p)._placed._min_uv.v
        (w.placements p)._placed._max_uv.v).1) =
      -(w.placements p)._placed._y + (w.placements p)._placed._margin -
      (TexturePlacement.resample (w.placements p)._placed._y_size
        (w.placements p)._placed._margin (w.placements p)._placed._min_uv.v
        (w.placements p)._placed._max_uv.v).1 :=
    wrap32_of_range (by omega) (by omega)
  have w3 : wrap32 ((w.images a)._y_size - 1 - ((w.placements p)._placed._y_size - 1 -
      (-(w.placements p)._placed._y + (w.placements p)._placed._margin -
        (TexturePlacement.resample (w.placements p)._placed._y_size
          (w.placements p)._placed._margin (w.placements p)._placed._min_uv.v
          (w.placements p)._placed._max_uv.v).1))) =
      (w.images a)._y_size - 1 - ((w.placements p)._placed._y_size - 1 -
      (-(w.placements p)._placed._y + (w.placements p)._placed._margin -
        (TexturePlacement.resample (w.placements p)._placed._y_size
          (w.placements p)._placed._margin (w.placements p)._placed._min_uv.v
          (w.placements p)._placed._max_uv.v).1)) :=
    wrap32_of_range (by omega) (by omega)
  rw [compute_tex_matrix_resample w p a himage, w2, w1, w3]

theorem fl_eight_fifths : fl (8 / 5) = 3602879701896397 / 2251799813685248 := by
  rw [fl_eval (8 / 5) (-52) (7205759403792794) (by norm_num) (Or.inr (by norm_num [abs_of_pos])) (by norm_num [abs_of_pos]) (by norm_num [abs_lt])]; norm_num

/-- Four pixels on the UV range [0, 1.6]: the quotient 4 / 1.6000000000000001 is 2.5 in
doubles and the resample size is 3. -/
theorem resample_coarse_u : TexturePlacement.resample 4 0 0 (fl (8 / 5)) = (0, 3) := by
  rw [fl_eight_fifths]
  have h1 : Double.sub (3602879701896397 / 2251799813685248) 0 = 3602879701896397 / 2251799813685248 := by
    show fl ((3602879701896397 / 2251799813685248) - 0) = 3602879701896397 / 2251799813685248
    rw [fl_eval ((3602879701896397 / 2251799813685248) - 0) (-52) (7205759403792794) (by norm_num) (Or.inr (by norm_num [abs_of_pos])) (by norm_num [abs_of_pos]) (by norm_num [abs_lt])]; norm_num
  have h2 : Double.mul 0 ((4 : Int) : ℚ) = 0 := by
    show fl (0 * ((4 : Int) : ℚ)) = 0
    rw [show (0 * ((4 : Int) : ℚ) : ℚ) = 0 by norm_num]; exact fl_zero
  have h3 : Double.div 0 (3602879701896397 / 2251799813685248) = 0 := by
    show fl (0 / (3602879701896397 / 2251799813685248)) = 0
    rw [show (0 / (3602879701896397 / 2251799813685248) : ℚ) = 0 by norm_num]; exact fl_zero
  have h4 : Double.add 0 (1 / 2) = 1 / 2 := by
    show fl (0 + (1 / 2)) = 1 / 2
    rw [fl_eval (0 + (1 / 2)) (-53) (4503599627370496) (by norm_num) (Or.inr (by norm_num [abs_of_pos])) (by norm_num [abs_of_pos]) (by norm_num [abs_lt])]; norm_num
  have h5 : ⌊(1 / 2 : ℚ)⌋ = 0 := by
    rw [Int.floor_eq_iff]; norm_num
  have h6 : Double.div ((4 : Int) : ℚ) (3602879701896397 / 2251799813685248) = 5 / 2 := by
    show fl (((4 : Int) : ℚ) / (3602879701896397 / 2251799813685248)) = 5 / 2
    rw [fl_eval (((4 : Int) : ℚ) / (3602879701896397 / 2251799813685248)) (-51) (5629499534213120) (by norm_num) (Or.inr (by norm_num [abs_of_pos])) (by norm_num [abs_of_pos]) (by norm_num [abs_lt])]; norm_num
  have h7 : Double.add (5 / 2) (1 / 2) = 3 := by
    show fl ((5 / 2) + (1 / 2)) = 3
    rw [fl_eval ((5 / 2) + (1 / 2)) (-51) (6755399441055744) (by norm_num) (Or.inr (by norm_num [abs_of_pos])) (by norm_num [abs_of_pos]) (by norm_num [abs_lt])]; norm_num
  have h8 : ⌊(3 : ℚ)⌋ = 3 := by
    rw [Int.floor_eq_iff]; norm_num
  have hw : wrap32 (4 - 0 * 2) = 4 := by decide
  have hi1 : Double.to_int (0) = 0 := by decide
  have hi2 : Double.to_int (3) = 3 := by decide
  have hr : (3602879701896397 / 2251799813685248 : ℚ) ≠ 0 := by norm_num
  unfold TexturePlacement.resample Double.round_quotient
  simp only [hw, h1, h2, h3, h4, h5, h6, h7, h8, hr, if_false, hi1, hi2]

theorem resample_4_full : TexturePlacement.resample 4 0 0 1 = (0, 4) := by
  have h1 : Double.sub 1 0 = 1 := by
    show fl (1 - 0) = 1
    rw [fl_eval (1 - 0) (-52) (4503599627370496) (by norm_num) (Or.inr (by norm_num [abs_of_pos])) (by norm_num [abs_of_pos]) (by norm_num [abs_lt])]; norm_num
  have h2 : Double.mul 0 ((4 : Int) : ℚ) = 0 := by
    show fl (0 * ((4 : Int) : ℚ)) = 0
    rw [show (0 * ((4 : Int) : ℚ) : ℚ) = 0 by norm_num]; exact fl_zero
  have h3 : Double.div 0 1 = 0 := by
    show fl (0 / 1) = 0
    rw [show (0 / 1 : ℚ) = 0 by norm_num]; exact fl_zero
  have h4 : Double.add 0 (1 / 2) = 1 / 2 := by
    show fl (0 + (1 / 2)) = 1 / 2
    rw [fl_eval (0 + (1 / 2)) (-53) (4503599627370496) (by norm_num) (Or.inr (by norm_num [abs_of_pos])) (by norm_num [abs_of_pos]) (by norm_num [abs_lt])]; norm_num
  have h5 : ⌊(1 / 2 : ℚ)⌋ = 0 := by
    rw [Int.floor_eq_iff]; norm_num
  have h6 : Double.div ((4 : Int) : ℚ) 1 = 4 := by
    show fl (((4 : Int) : ℚ) / 1) = 4
    rw [fl_eval (((4 : Int) : ℚ) / 1) (-50) (4503599627370496) (by norm_num) (Or.inr (by norm_num [abs_of_pos])) (by norm_num [abs_of_pos]) (by norm_num [abs_lt])]; norm_num
  have h7 : Double.add 4 (1 / 2) = 9 / 2 := by
    show fl (4 + (1 / 2)) = 9 / 2
    rw [fl_eval (4 + (1 / 2)) (-50) (5066549580791808) (by norm_num) (Or.inr (by norm_num [abs_of_pos])) (by norm_num [abs_of_pos]) (by norm_num [abs_lt])]; norm_num
  have h8 : ⌊(9 / 2 : ℚ)⌋ = 4 := by
    rw [Int.floor_eq_iff]; norm_num
  have hw : wrap32 (4 - 0 * 2) = 4 := by decide
  have hi1 : Double.to_int (0) = 0 := by decide
  have hi2 : Double.to_int (4) = 4 := by decide
  have hr : (1 : ℚ) ≠ 0 := by norm_num
  unfold TexturePlacement.resample Double.round_quotient
  simp only [hw, h1, h2, h3, h4, h5, h6, h7, h8, hr, if_false, hi1, hi2]

/-- Ten pixels on the UV range [0.1, 0.4]: origin 3, resample size 33. -/
theorem resample_strip_u : TexturePlacement.resample 10 0 (fl (1 / 10)) (fl (4 / 10)) = (3, 33) := by
  rw [fl_one_tenth, fl_four_tenths]
  have h1 : Double.sub (3602879701896397 / 9007199254740992) (3602879701896397 / 36028797018963968) = 1351079888211149 / 4503599627370496 := by
    show fl ((3602879701896397 / 9007199254740992) - (3602879701896397 / 36028797018963968)) = 1351079888211149 / 4503599627370496
    rw [fl_eval_tie ((3602879701896397 / 9007199254740992) - (3602879701896397 / 36028797018963968)) (-54) (5404319552844595) (by norm_num) (Or.inr (by norm_num [abs_of_pos])) (by norm_num [abs_of_pos]) (by norm_num)]; norm_num
  have h2 : Double.mul (3602879701896397 / 36028797018963968) ((10 : Int) : ℚ) = 1 := by
    show fl ((3602879701896397 / 36028797018963968) * ((10 : Int) : ℚ)) = 1
    rw [fl_eval ((3602879701896397 / 36028797018963968) * ((10 : Int) : ℚ)) (-52) (4503599627370496) (by norm_num) (Or.inr (by norm_num [abs_of_pos])) (by norm_num [abs_of_pos]) (by norm_num [abs_lt])]; norm_num
  have h3 : Double.div 1 (1351079888211149 / 4503599627370496) = 3752999689475413 / 1125899906842624 := by
    show fl (1 / (1351079888211149 / 4503599627370496)) = 3752999689475413 / 1125899906842624
    rw [fl_eval (1 / (1351079888211149 / 4503599627370496)) (-51) (7505999378950826) (by norm_num) (Or.inr (by norm_num [abs_of_pos])) (by norm_num [abs_of_pos]) (by norm_num [abs_lt])]; norm_num
  have h4 : Double.add (3752999689475413 / 1125899906842624) (1 / 2) = 4315949642896725 / 1125899906842624 := by
    show fl ((3752999689475413 / 1125899906842624) + (1 / 2)) = 4315949642896725 / 1125899906842624
    rw [fl_eval ((3752999689475413 / 1125899906842624) + (1 / 2)) (-51) (8631899285793450) (by norm_num) (Or.inr (by norm_num [abs_of_pos])) (by norm_num [abs_of_pos]) (by norm_num [abs_lt])]; norm_num
  have h5 : ⌊(4315949642896725 / 1125899906842624 : ℚ)⌋ = 3 := by
    rw [Int.floor_eq_iff]; norm_num
  have h6 : Double.div ((10 : Int) : ℚ) (1351079888211149 / 4503599627370496) = 2345624805922133 / 70368744177664 := by
    show fl (((10 : Int) : ℚ) / (1351079888211149 / 4503599627370496)) = 2345624805922133 / 70368744177664
    rw [fl_eval (((10 : Int) : ℚ) / (1351079888211149 / 4503599627370496)) (-47) (4691249611844266) (by norm_num) (Or.inr (by norm_num [abs_of_pos])) (by norm_num [abs_of_pos]) (by norm_num [abs_lt])]; norm_num
  have h7 : Double.add (2345624805922133 / 70368744177664) (1 / 2) = 2380809178010965 / 70368744177664 := by
    show fl ((2345624805922133 / 70368744177664) + (1 / 2)) = 2380809178010965 / 70368744177664
    rw [fl_eval ((2345624805922133 / 70368744177664) + (1 / 2)) (-47) (4761618356021930) (by norm_num) (Or.inr (by norm_num [abs_of_pos])) (by norm_num [abs_of_pos]) (by norm_num [abs_lt])]; norm_num
  have h8 : ⌊(2380809178010965 / 70368744177664 : ℚ)⌋ = 33 := by
    rw [Int.floor_eq_iff]; norm_num
  have hw : wrap32 (10 - 0 * 2) = 10 := by decide
  have hi1 : Double.to_int (3) = 3 := by decide
  have hi2 : Double.to_int (33) = 33 := by decide
  have hr : (1351079888211149 / 4503599627370496 : ℚ) ≠ 0 := by norm_num
  unfold TexturePlacement.resample Double.round_quotient
  simp only [hw, h1, h2, h3, h4, h5, h6, h7, h8, hr, if_false, hi1, hi2]

theorem resample_10_full : TexturePlacement.resample 10 0 0 1 = (0, 10) := by
  have h1 : Double.sub 1 0 = 1 := by
    show fl (1 - 0) = 1
    rw [fl_eval (1 - 0) (-52) (4503599627370496) (by norm_num) (Or.inr (by norm_num [abs_of_pos])) (by norm_num [abs_of_pos]) (by norm_num [abs_lt])]; norm_num
  have h2 : Double.mul 0 ((10 : Int) : ℚ) = 0 := by
    show fl (0 * ((10 : Int) : ℚ)) = 0
    rw [show (0 * ((10 : Int) : ℚ) : ℚ) = 0 by norm_num]; exact fl_zero
  have h3 : Double.div 0 1 = 0 := by
    show fl (0 / 1) = 0
    rw [show (0 / 1 : ℚ) = 0 by norm_num]; exact fl_zero
  have h4 : Double.add 0 (1 / 2) = 1 / 2 := by
    show fl (0 + (1 / 2)) = 1 / 2
    rw [fl_eval (0 + (1 / 2)) (-53) (4503599627370496) (by norm_num) (Or.inr (by norm_num [abs_of_pos])) (by norm_num [abs_of_pos]) (by norm_num [abs_lt])]; norm_num
  have h5 : ⌊(1 / 2 : ℚ)⌋ = 0 := by
    rw [Int.floor_eq_iff]; norm_num
  have h6 : Double.div ((10 : Int) : ℚ) 1 = 10 := by
    show fl (((10 : Int) : ℚ) / 1) = 10
    rw [fl_eval (((10 : Int) : ℚ) / 1) (-49) (5629499534213120) (by norm_num) (Or.inr (by norm_num [abs_of_pos])) (by norm_num [abs_of_pos]) (by norm_num [abs_lt])]; norm_num
  have h7 : Double.add 10 (1 / 2) = 21 / 2 := by
    show fl (10 + (1 / 2)) = 21 / 2
    rw [fl_eval (10 + (1 / 2)) (-49) (5910974510923776) (by norm_num) (Or.inr (by norm_num [abs_of_pos])) (by norm_num [abs_of_pos]) (by norm_num [abs_lt])]; norm_num
  have h8 : ⌊(21 / 2 : ℚ)⌋ = 10 := by
    rw [Int.floor_eq_iff]; norm_num
  have hw : wrap32 (10 - 0 * 2) = 10 := by decide
  have hi1 : Double.to_int (0) = 0 := by decide
  have hi2 : Double.to_int (10) = 10 := by decide
  have hr : (1 : ℚ) ≠ 0 := by norm_num
  unfold TexturePlacement.resample Double.round_quotient
  simp only [hw, h1, h2, h3, h4, h5, h6, h7, h8, hr, if_false, hi1, hi2]

theorem resample_S6 : TexturePlacement.resample 64 2 0 1 = (0, 60) := by
  have h1 : Double.sub 1 0 = 1 := by
    show fl (1 - 0) = 1
    rw [fl_eval (1 - 0) (-52) (4503599627370496) (by norm_num) (Or.inr (by norm_num [abs_of_pos])) (by norm_num [abs_of_pos]) (by norm_num [abs_lt])]; norm_num
  have h2 : Double.mul 0 ((60 : Int) : ℚ) = 0 := by
    show fl (0 * ((60 : Int) : ℚ)) = 0
    rw [show (0 * ((60 : Int) : ℚ) : ℚ) = 0 by norm_num]; exact fl_zero
  have h3 : Double.div 0 1 = 0 := by
    show fl (0 / 1) = 0
    rw [show (0 / 1 : ℚ) = 0 by norm_num]; exact fl_zero
  have h4 : Double.add 0 (1 / 2) = 1 / 2 := by
    show fl (0 + (1 / 2)) = 1 / 2
    rw [fl_eval (0 + (1 / 2)) (-53) (4503599627370496) (by norm_num) (Or.inr (by norm_num [abs_of_pos])) (by norm_num [abs_of_pos]) (by norm_num [abs_lt])]; norm_num
  have h5 : ⌊(1 / 2 : ℚ)⌋ = 0 := by
    rw [Int.floor_eq_iff]; norm_num
  have h6 : Double.div ((60 : Int) : ℚ) 1 = 60 := by
    show fl (((60 : Int) : ℚ) / 1) = 60
    rw [fl_eval (((60 : Int) : ℚ) / 1) (-47) (8444249301319680) (by norm_num) (Or.inr (by norm_num [abs_of_pos])) (by norm_num [abs_of_pos]) (by norm_num [abs_lt])]; norm_num
  have h7 : Double.add 60 (1 / 2) = 121 / 2 := by
    show fl (60 + (1 / 2)) = 121 / 2
    rw [fl_eval (60 + (1 / 2)) (-47) (8514618045497344) (by norm_num) (Or.inr (by norm_num [abs_of_pos])) (by norm_num [abs_of_pos]) (by norm_num [abs_lt])]; norm_num
  have h8 : ⌊(121 / 2 : ℚ)⌋ = 60 := by
    rw [Int.floor_eq_iff]; norm_num
  have hw : wrap32 (64 - 2 * 2) = 60 := by decide
  have hi1 : Double.to_int (0) = 0 := by decide
  have hi2 : Double.to_int (60) = 60 := by decide
  have hr : (1 : ℚ) ≠ 0 := by norm_num
  unfold TexturePlacement.resample Double.round_quotient
  simp only [hw, h1, h2, h3, h4, h5, h6, h7, h8, hr, if_false, hi1, hi2]

/-- Four pixels on the UV range [0, 2^-31]: the resample size 2^33 does not fit an
`int` and the conversion gives `INT_MIN`. -/
theorem resample_narrow_range : TexturePlacement.resample 4 0 0 (1 / 2147483648) = (0, (-2147483648)) := by
  have h1 : Double.sub (1 / 2147483648) 0 = 1 / 2147483648 := by
    show fl ((1 / 2147483648) - 0) = 1 / 2147483648
    rw [fl_eval ((1 / 2147483648) - 0) (-83) (4503599627370496) (by norm_num) (Or.inr (by norm_num [abs_of_pos])) (by norm_num [abs_of_pos]) (by norm_num [abs_lt])]; norm_num
  have h2 : Double.mul 0 ((4 : Int) : ℚ) = 0 := by
    show fl (0 * ((4 : Int) : ℚ)) = 0
    rw [show (0 * ((4 : Int) : ℚ) : ℚ) = 0 by norm_num]; exact fl_zero
  have h3 : Double.div 0 (1 / 2147483648) = 0 := by
    show fl (0 / (1 / 2147483648)) = 0
    rw [show (0 / (1 / 2147483648) : ℚ) = 0 by norm_num]; exact fl_zero
  have h4 : Double.add 0 (1 / 2) = 1 / 2 := by
    show fl (0 + (1 / 2)) = 1 / 2
    rw [fl_eval (0 + (1 / 2)) (-53) (4503599627370496) (by norm_num) (Or.inr (by norm_num [abs_of_pos])) (by norm_num [abs_of_pos]) (by norm_num [abs_lt])]; norm_num
  have h5 : ⌊(1 / 2 : ℚ)⌋ = 0 := by
    rw [Int.floor_eq_iff]; norm_num
  have h6 : Double.div ((4 : Int) : ℚ) (1 / 2147483648) = 8589934592 := by
    show fl (((4 : Int) : ℚ) / (1 / 2147483648)) = 8589934592
    rw [fl_eval (((4 : Int) : ℚ) / (1 / 2147483648)) (-19) (4503599627370496) (by norm_num) (Or.inr (by norm_num [abs_of_pos])) (by norm_num [abs_of_pos]) (by norm_num [abs_lt])]; norm_num
  have h7 : Double.add 8589934592 (1 / 2) = 17179869185 / 2 := by
    show fl (8589934592 + (1 / 2)) = 17179869185 / 2
    rw [fl_eval (8589934592 + (1 / 2)) (-19) (4503599627632640) (by norm_num) (Or.inr (by norm_num [abs_of_pos])) (by norm_num [abs_of_pos]) (by norm_num [abs_lt])]; norm_num
  have h8 : ⌊(17179869185 / 2 : ℚ)⌋ = 8589934592 := by
    rw [Int.floor_eq_iff]; norm_num
  have hw : wrap32 (4 - 0 * 2) = 4 := by decide
  have hi1 : Double.to_int (0) = 0 := by decide
  have hi2 : Double.to_int (8589934592) = (-2147483648) := by decide
  have hr : (1 / 2147483648 : ℚ) ≠ 0 := by norm_num
  unfold TexturePlacement.resample Double.round_quotient
  simp only [hw, h1, h2, h3, h4, h5, h6, h7, h8, hr, if_false, hi1, hi2]

/-- The matrix of `coarse_placement`: resample size 3x4, origin (0, 0). -/
theorem coarse_tex_matrix :
    TexturePlacement.compute_tex_matrix coarse_heap 0 = some
      { m00 := 3 / 64, m01 := 0, m02 := 0, m10 := 0, m11 := 1 / 16, m12 := 0,
        m20 := 0, m21 := 15 / 16, m22 := 1 } := by
  rw [compute_tex_matrix_resample coarse_heap 0 0 rfl]
  show some
    ({ m00 := Double.div (((TexturePlacement.resample 4 0 0 (fl (8 / 5))).2 : Int) : ℚ) ((64 : Int) : ℚ),
       m01 := 0, m02 := 0, m10 := 0,
       m11 := Double.div (((TexturePlacement.resample 4 0 0 1).2 : Int) : ℚ) ((64 : Int) : ℚ),
       m12 := 0,
       m20 := Double.div ((wrap32 (0 + 0 - (TexturePlacement.resample 4 0 0 (fl (8 / 5))).1) : Int) : ℚ) ((64 : Int) : ℚ),
       m21 := Double.div ((wrap32 (64 - 1 - (4 - 1 - wrap32 (-0 + 0 - (TexturePlacement.resample 4 0 0 1).1))) : Int) : ℚ)
         ((64 : Int) : ℚ),
       m22 := 1 } : LMatrix3d) = some _
  rw [resample_coarse_u, resample_4_full]
  have w1 : wrap32 (0 + 0 - 0) = 0 := by decide
  have w2 : wrap32 (-0 + 0 - 0) = 0 := by decide
  have w3 : wrap32 (64 - 1 - (4 - 1 - 0)) = 60 := by decide
  have d1 : Double.div ((3 : Int) : ℚ) ((64 : Int) : ℚ) = 3 / 64 := by
    show fl (((3 : Int) : ℚ) / ((64 : Int) : ℚ)) = 3 / 64
    rw [fl_eval (((3 : Int) : ℚ) / ((64 : Int) : ℚ)) (-57) (6755399441055744) (by norm_num) (Or.inr (by norm_num [abs_of_pos])) (by norm_num [abs_of_pos]) (by norm_num [abs_lt])]; norm_num
  have d2 : Double.div ((4 : Int) : ℚ) ((64 : Int) : ℚ) = 1 / 16 := by
    show fl (((4 : Int) : ℚ) / ((64 : Int) : ℚ)) = 1 / 16
    rw [fl_eval (((4 : Int) : ℚ) / ((64 : Int) : ℚ)) (-56) (4503599627370496) (by norm_num) (Or.inr (by norm_num [abs_of_pos])) (by norm_num [abs_of_pos]) (by norm_num [abs_lt])]; norm_num
  have d3 : Double.div ((0 : Int) : ℚ) ((64 : Int) : ℚ) = 0 := by
    show fl (((0 : Int) : ℚ) / ((64 : Int) : ℚ)) = 0
    rw [show (((0 : Int) : ℚ) / ((64 : Int) : ℚ) : ℚ) = 0 by norm_num]; exact fl_zero
  have d4 : Double.div ((60 : Int) : ℚ) ((64 : Int) : ℚ) = 15 / 16 := by
    show fl (((60 : Int) : ℚ) / ((64 : Int) : ℚ)) = 15 / 16
    rw [fl_eval (((60 : Int) : ℚ) / ((64 : Int) : ℚ)) (-53) (8444249301319680) (by norm_num) (Or.inr (by norm_num [abs_of_pos])) (by norm_num [abs_of_pos]) (by norm_num [abs_lt])]; norm_num
  simp only [w1, w2, w3, d1, d2, d3, d4]

/-- The matrix of `narrow_placement`: the resample size along u is `INT_MIN`. -/
theorem narrow_tex_matrix :
    TexturePlacement.compute_tex_matrix narrow_heap 0 = some
      { m00 := (-33554432), m01 := 0, m02 := 0, m10 := 0, m11 := 1 / 16, m12 := 0,
        m20 := 0, m21 := 15 / 16, m22 := 1 } := by
  rw [compute_tex_matrix_resample narrow_heap 0 0 rfl]
  show some
    ({ m00 := Double.div (((TexturePlacement.resample 4 0 0 (1 / 2147483648)).2 : Int) : ℚ) ((64 : Int) : ℚ),
       m01 := 0, m02 := 0, m10 := 0,
       m11 := Double.div (((TexturePlacement.resample 4 0 0 1).2 : Int) : ℚ) ((64 : Int) : ℚ),
       m12 := 0,
       m20 := Double.div ((wrap32 (0 + 0 - (TexturePlacement.resample 4 0 0 (1 / 2147483648)).1) : Int) : ℚ) ((64 : Int) : ℚ),
       m21 := Double.div ((wrap32 (64 - 1 - (4 - 1 - wrap32 (-0 + 0 - (TexturePlacement.resample 4 0 0 1).1))) : Int) : ℚ)
         ((64 : Int) : ℚ),
       m22 := 1 } : LMatrix3d) = some _
  rw [resample_narrow_range, resample_4_full]
  have w1 : wrap32 (0 + 0 - 0) = 0 := by decide
  have w2 : wrap32 (-0 + 0 - 0) = 0 := by decide
  have w3 : wrap32 (64 - 1 - (4 - 1 - 0)) = 60 := by decide
  have d1 : Double.div (((-2147483648) : Int) : ℚ) ((64 : Int) : ℚ) = (-33554432) := by
    show fl ((((-2147483648) : Int) : ℚ) / ((64 : Int) : ℚ)) = (-33554432)
    rw [fl_eval ((((-2147483648) : Int) : ℚ) / ((64 : Int) : ℚ)) (-27) (-4503599627370496) (by norm_num) (Or.inr (by norm_num [abs_of_neg])) (by norm_num [abs_of_neg]) (by norm_num [abs_lt])]; norm_num
  have d2 : Double.div ((4 : Int) : ℚ) ((64 : Int) : ℚ) = 1 / 16 := by
    show fl (((4 : Int) : ℚ) / ((64 : Int) : ℚ)) = 1 / 16
    rw [fl_eval (((4 : Int) : ℚ) / ((64 : Int) : ℚ)) (-56) (4503599627370496) (by norm_num) (Or.inr (by norm_num [abs_of_pos])) (by norm_num [abs_of_pos]) (by norm_num [abs_lt])]; norm_num
  have d3 : Double.div ((0 : Int) : ℚ) ((64 : Int) : ℚ) = 0 := by
    show fl (((0 : Int) : ℚ) / ((64 : Int) : ℚ)) = 0
    rw [show (((0 : Int) : ℚ) / ((64 : Int) : ℚ) : ℚ) = 0 by norm_num]; exact fl_zero
  have d4 : Double.div ((60 : Int) : ℚ) ((64 : Int) : ℚ) = 15 / 16 := by
    show fl (((60 : Int) : ℚ) / ((64 : Int) : ℚ)) = 15 / 16
    rw [fl_eval (((60 : Int) : ℚ) / ((64 : Int) : ℚ)) (-53) (8444249301319680) (by norm_num) (Or.inr (by norm_num [abs_of_pos])) (by norm_num [abs_of_pos]) (by norm_num [abs_lt])]; norm_num
  simp only [w1, w2, w3, d1, d2, d3, d4]

theorem strip_tex_matrix :
    TexturePlacement.compute_tex_matrix strip_heap 0 = some
      strip_matrix := by
  rw [compute_tex_matrix_resample strip_heap 0 0 rfl]
  show some
    ({ m00 := Double.div (((TexturePlacement.resample 10 0 (fl (1 / 10)) (fl (4 / 10))).2 : Int) : ℚ) ((64 : Int) : ℚ),
       m01 := 0, m02 := 0, m10 := 0,
       m11 := Double.div (((TexturePlacement.resample 10 0 0 1).2 : Int) : ℚ) ((64 : Int) : ℚ),
       m12 := 0,
       m20 := Double.div ((wrap32 (0 + 0 - (TexturePlacement.resample 10 0 (fl (1 / 10)) (fl (4 / 10))).1) : Int) : ℚ) ((64 : Int) : ℚ),
       m21 := Double.div ((wrap32 (64 - 1 - (10 - 1 - wrap32 (-0 + 0 - (TexturePlacement.resample 10 0 0 1).1))) : Int) : ℚ)
         ((64 : Int) : ℚ),
       m22 := 1 } : LMatrix3d) = some _
  rw [resample_strip_u, resample_10_full]
  have w1 : wrap32 (0 + 0 - 3) = (-3) := by decide
  have w2 : wrap32 (-0 + 0 - 0) = 0 := by decide
  have w3 : wrap32 (64 - 1 - (10 - 1 - 0)) = 54 := by decide
  have d1 : Double.div ((33 : Int) : ℚ) ((64 : Int) : ℚ) = 33 / 64 := by
    show fl (((33 : Int) : ℚ) / ((64 : Int) : ℚ)) = 33 / 64
    rw [fl_eval (((33 : Int) : ℚ) / ((64 : Int) : ℚ)) (-53) (4644337115725824) (by norm_num) (Or.inr (by norm_num [abs_of_pos])) (by norm_num [abs_of_pos]) (by norm_num [abs_lt])]; norm_num
  have d2 : Double.div ((10 : Int) : ℚ) ((64 : Int) : ℚ) = 5 / 32 := by
    show fl (((10 : Int) : ℚ) / ((64 : Int) : ℚ)) = 5 / 32
    rw [fl_eval (((10 : Int) : ℚ) / ((64 : Int) : ℚ)) (-55) (5629499534213120) (by norm_num) (Or.inr (by norm_num [abs_of_pos])) (by norm_num [abs_of_pos]) (by norm_num [abs_lt])]; norm_num
  have d3 : Double.div (((-3) : Int) : ℚ) ((64 : Int) : ℚ) = (-3) / 64 := by
    show fl ((((-3) : Int) : ℚ) / ((64 : Int) : ℚ)) = (-3) / 64
    rw [fl_eval ((((-3) : Int) : ℚ) / ((64 : Int) : ℚ)) (-57) (-6755399441055744) (by norm_num) (Or.inr (by norm_num [abs_of_neg])) (by norm_num [abs_of_neg]) (by norm_num [abs_lt])]; norm_num
  have d4 : Double.div ((54 : Int) : ℚ) ((64 : Int) : ℚ) = 27 / 32 := by
    show fl (((54 : Int) : ℚ) / ((64 : Int) : ℚ)) = 27 / 32
    rw [fl_eval (((54 : Int) : ℚ) / ((64 : Int) : ℚ)) (-53) (7599824371187712) (by norm_num) (Or.inr (by norm_num [abs_of_pos])) (by norm_num [abs_of_pos]) (by norm_num [abs_lt])]; norm_num
  simp only [w1, w2, w3, d1, d2, d3, d4]
  norm_num [strip_matrix]

/-- An integer between the floors of `E - e` and `E + e`, when the two floors agree, is
the floor of `E`. -/
theorem floor_between (E e : ℚ) (k : Int) (he : 0 ≤ e) (h1 : ⌊E - e⌋ ≤ k) (h2 : k ≤ ⌊E + e⌋)
    (g : ⌊E - e⌋ = ⌊E + e⌋) : k = ⌊E⌋ := by
  have a : ⌊E - e⌋ ≤ ⌊E⌋ := Int.floor_mono (by linarith)
  have b : ⌊E⌋ ≤ ⌊E + e⌋ := Int.floor_mono (by linarith)
  omega

/-- The floors of `E - e` and `E + e` agree when both lie in `[k, k + 1)`. -/
theorem floor_gap (E e : ℚ) (k : Int) (h1 : (k : ℚ) ≤ E - e) (h2 : E + e < k + 1)
    (he : 0 ≤ e) : ⌊E - e⌋ = ⌊E + e⌋ := by
  have a : ⌊E - e⌋ = k := by
    rw [Int.floor_eq_iff]; constructor <;> linarith
  have b : ⌊E + e⌋ = k := by
    rw [Int.floor_eq_iff]; constructor <;> linarith
  rw [a, b]

/-- The matrix of the specification from the values of its four floors. -/
theorem spec_tex_matrix_of_floors (x y w h m : Int) (mn mx : TexCoordd) (W H ox oy sw sh : Int)
    (hox : ⌊mn.u * ((w : ℚ) - 2 * (m : ℚ)) / (mx.u - mn.u) + 1 / 2⌋ = ox)
    (hoy : ⌊mn.v * ((h : ℚ) - 2 * (m : ℚ)) / (mx.v - mn.v) + 1 / 2⌋ = oy)
    (hsw : ⌊((w : ℚ) - 2 * (m : ℚ)) / (mx.u - mn.u) + 1 / 2⌋ = sw)
    (hsh : ⌊((h : ℚ) - 2 * (m : ℚ)) / (mx.v - mn.v) + 1 / 2⌋ = sh) :
    spec_tex_matrix x y w h m mn mx W H =
      { m00 := (sw : ℚ) / W, m01 := 0, m02 := 0, m10 := 0, m11 := (sh : ℚ) / H, m12 := 0,
        m20 := ((x : ℚ) + m - ox) / W,
        m21 := ((H : ℚ) - 1 - (((h : ℚ) - 1) - (-(y : ℚ) + m - oy))) / H, m22 := 1 } := by
  subst hox hoy hsw hsh
  rfl

/-- The rounding slack of one axis of the UV transform: with the resample size `sw` and
the origin `ox` within `1/2 + 2^-20` of their exact values and the rounding `e1`, `e2` of
the two matrix entries (in pixels) at most `2^-21`, a coordinate `u` of the UV box lands
at most `(|u| + 1) (1/2 + 2^-19)` outside of `[0, inner]`. -/
theorem axis_round_trip (inner lo hi u sw ox e1 e2 : ℚ) (hinner : 0 ≤ inner)
    (hrange : 0 < hi - lo) (hlo : lo ≤ u) (hhi : u ≤ hi)
    (hsw : |sw - inner / (hi - lo)| ≤ 1 / 2 + 1 / 2 ^ (20 : Nat))
    (hox : |ox - lo * inner / (hi - lo)| ≤ 1 / 2 + 1 / 2 ^ (20 : Nat))
    (he1 : |e1| ≤ 1 / 2 ^ (21 : Nat)) (he2 : |e2| ≤ 1 / 2 ^ (21 : Nat)) :
    -((|u| + 1) * (1 / 2 + 1 / 2 ^ (19 : Nat))) ≤ u * (sw + e1) + (e2 - ox) ∧
      u * (sw + e1) + (e2 - ox) ≤ inner + (|u| + 1) * (1 / 2 + 1 / 2 ^ (19 : Nat)) := by
  have hs : 0 ≤ inner / (hi - lo) := div_nonneg hinner hrange.le
  have hz : lo * inner / (hi - lo) = lo * (inner / (hi - lo)) := by ring
  rw [hz] at hox
  have hud : |u * (sw - inner / (hi - lo))| ≤ |u| * (1 / 2 + 1 / 2 ^ (20 : Nat)) := by
    rw [abs_mul]
    exact mul_le_mul_of_nonneg_left hsw (abs_nonneg u)
  have hue : |u * e1| ≤ |u| * (1 / 2 ^ (21 : Nat)) := by
    rw [abs_mul]
    exact mul_le_mul_of_nonneg_left he1 (abs_nonneg u)
  rw [abs_le] at hud hue hox he2
  have h0 : 0 ≤ (u - lo) * (inner / (hi - lo)) := mul_nonneg (by linarith) hs
  have h1 : (u - lo) * (inner / (hi - lo)) ≤ (hi - lo) * (inner / (hi - lo)) :=
    mul_le_mul_of_nonneg_right (by linarith) hs
  have h2 : (hi - lo) * (inner / (hi - lo)) = inner := by
    field_simp
  have hu0 := abs_nonneg u
  have e19 : (|u| + 1) * (1 / 2 + 1 / 2 ^ (19 : Nat)) =
      |u| * (1 / 2 + 1 / 2 ^ (20 : Nat)) + |u| * (1 / 2 ^ (21 : Nat)) + 1 / 2 ^ (21 : Nat)
        + (1 / 2 + 1 / 2 ^ (20 : Nat)) + (|u| + 1) * (1 / 2 ^ (21 : Nat)) := by
    ring
  have hrest : 0 ≤ (|u| + 1) * ((1 : ℚ) / 2 ^ (21 : Nat)) := by positivity
  have key : u * (sw + e1) + (e2 - ox) =
      u * (sw - inner / (hi - lo)) + u * e1 + e2 - (ox - lo * (inner / (hi - lo)))
        + (u - lo) * (inner / (hi - lo)) := by ring
  rw [key, e19]
  constructor <;> linarith [hud.1, hud.2, hue.1, hue.2, hox.1, hox.2, he2.1, he2.2]

/-- One axis of the UV transform with the entries of the matrix in doubles: the scale is
`sw / W` and the translation `n / W`, both rounded, with `n = c - ox`. -/
theorem axis_point (u W inner lo hi c : ℚ) (sw n ox : Int) (hn : (n : ℚ) = c - ox)
    (hW : 0 < W) (hW2 : W ≤ 2 ^ (20 : Nat))
    (hswb : |(sw : ℚ)| ≤ 2 ^ (30 : Nat) + 1) (hnb : |(n : ℚ)| ≤ 2 ^ (31 : Nat))
    (hinner : 0 ≤ inner) (hrange : 0 < hi - lo) (hlo : lo ≤ u) (hhi : u ≤ hi)
    (hsw : |(sw : ℚ) - inner / (hi - lo)| ≤ 1 / 2 + 1 / 2 ^ (20 : Nat))
    (hox : |(ox : ℚ) - lo * inner / (hi - lo)| ≤ 1 / 2 + 1 / 2 ^ (20 : Nat)) :
    c - (|u| + 1) * (1 / 2 + 1 / 2 ^ (19 : Nat)) ≤
        (u * Double.div (sw : ℚ) W + Double.div (n : ℚ) W) * W ∧
      (u * Double.div (sw : ℚ) W + Double.div (n : ℚ) W) * W ≤
        c + inner + (|u| + 1) * (1 / 2 + 1 / 2 ^ (19 : Nat)) := by
  have d1 := div_mul_close (sw : ℚ) W hW
  have d2 := div_mul_close (n : ℚ) W hW
  have t : (2 : ℚ) ^ (-1075 : Int) * W ≤ 1 / 2 ^ (200 : Nat) * 2 ^ (20 : Nat) :=
    mul_le_mul tiny_le hW2 hW.le (by positivity)
  have he1 : |Double.div (sw : ℚ) W * W - sw| ≤ 1 / 2 ^ (21 : Nat) := by
    have a : |(sw : ℚ)| / 2 ^ (53 : Nat) ≤ (2 ^ (30 : Nat) + 1) / 2 ^ (53 : Nat) :=
      div_le_div_of_nonneg_right hswb (by positivity)
    have b : ((2 : ℚ) ^ (30 : Nat) + 1) / 2 ^ (53 : Nat) + 1 / 2 ^ (200 : Nat) * 2 ^ (20 : Nat)
        ≤ 1 / 2 ^ (21 : Nat) := by norm_num
    linarith
  have he2 : |Double.div (n : ℚ) W * W - n| ≤ 1 / 2 ^ (21 : Nat) := by
    have a : |(n : ℚ)| / 2 ^ (53 : Nat) ≤ 2 ^ (31 : Nat) / 2 ^ (53 : Nat) :=
      div_le_div_of_nonneg_right hnb (by positivity)
    have b : ((2 : ℚ) ^ (31 : Nat)) / 2 ^ (53 : Nat) + 1 / 2 ^ (200 : Nat) * 2 ^ (20 : Nat)
        ≤ 1 / 2 ^ (21 : Nat) := by norm_num
    linarith
  obtain ⟨a1, a2⟩ := axis_round_trip inner lo hi u sw ox _ _ hinner hrange hlo hhi hsw hox
    he1 he2
  have e : (u * Double.div (sw : ℚ) W + Double.div (n : ℚ) W) * W =
      c + (u * ((sw : ℚ) + (Double.div (sw : ℚ) W * W - sw)) +
        ((Double.div (n : ℚ) W * W - n) - ox)) := by
    linear_combination hn
  rw [e]
  constructor <;> linarith

/-- C18, amended. For a placed placement with placed rectangle `(x, y, w, h)`, margin `m`
and placed UV box on an atlas of size `(W, H)`, all of ordinary size (`0 <= m`,
`2 m <= w, h <= 16384`, `|x|, |y| <= 2^20`, `0 < W, H <= 2^20`, UV box within
`[-256, 256]` with a range of at least `1/256` on both axes),
`TexturePlacement::compute_tex_matrix` emits the matrix `((sx,0,0),(0,sy,0),(tx,ty,1))`
with `tx = (x + m - ox)/W`, `ty = (H - 1 - ((h - 1) - (-y + m - oy)))/H`, `sx = sw/W`,
`sy = sh/H`, each quotient rounded to a double, for integers `ox`, `oy`, `sw`, `sh` that
are the values of the specification up to the rounding of the doubles:
`floor(E - 2^-20) <= . <= floor(E + 2^-20)` for `E` the argument of `floor` in
ox = floor(min_u*inner_w/range_u + 1/2), oy = floor(min_v*inner_h/range_v + 1/2),
sw = floor(inner_w/range_u + 1/2), sh = floor(inner_h/range_v + 1/2), inner_w = w-2m,
inner_h = h-2m. Where no integer lies within `2^-20` of the four arguments, the matrix
is exactly the matrix of the specification with its entries rounded to doubles. -/
theorem C18_tex_matrix (w : Heap) (p a : Nat)
    (himage : (w.placements p)._image = some a)
    (hb : (w.placements p)._placed.ordinary (w.images a)._x_size (w.images a)._y_size) :
    (∃ ox oy sw sh : Int,
      TexturePlacement.compute_tex_matrix w p = some
        { m00 := Double.div (sw : ℚ) ((w.images a)._x_size : ℚ), m01 := 0, m02 := 0,
          m10 := 0, m11 := Double.div (sh : ℚ) ((w.images a)._y_size : ℚ), m12 := 0,
          m20 := Double.div (((w.placements p)._placed._x + (w.placements p)._placed._margin - ox : Int) : ℚ)
            ((w.images a)._x_size : ℚ),
          m21 := Double.div (((w.images a)._y_size - 1 - ((w.placements p)._placed._y_size - 1 -
            (-(w.placements p)._placed._y + (w.placements p)._placed._margin - oy)) : Int) : ℚ)
            ((w.images a)._y_size : ℚ),
          m22 := 1 } ∧
      ⌊(w.placements p)._placed._min_uv.u * (((w.placements p)._placed._x_size : ℚ) - 2 * ((w.placements p)._placed._margin : ℚ)) / ((w.placements p)._placed._max_uv.u - (w.placements p)._placed._min_uv.u) + 1 / 2 - 1 / 2 ^ 20⌋ ≤ ox ∧
      ox ≤ ⌊(w.placements p)._placed._min_uv.u * (((w.placements p)._placed._x_size : ℚ) - 2 * ((w.placements p)._placed._margin : ℚ)) / ((w.placements p)._placed._max_uv.u - (w.placements p)._placed._min_uv.u) + 1 / 2 + 1 / 2 ^ 20⌋ ∧
      ⌊(w.placements p)._placed._min_uv.v * (((w.placements p)._placed._y_size : ℚ) - 2 * ((w.placements p)._placed._margin : ℚ)) / ((w.placements p)._placed._max_uv.v - (w.placements p)._placed._min_uv.v) + 1 / 2 - 1 / 2 ^ 20⌋ ≤ oy ∧
      oy ≤ ⌊(w.placements p)._placed._min_uv.v * (((w.placements p)._placed._y_size : ℚ) - 2 * ((w.placements p)._placed._margin : ℚ)) / ((w.placements p)._placed._max_uv.v - (w.placements p)._placed._min_uv.v) + 1 / 2 + 1 / 2 ^ 20⌋ ∧
      ⌊(((w.placements p)._placed._x_size : ℚ) - 2 * ((w.placements p)._placed._margin : ℚ)) / ((w.placements p)._placed._max_uv.u - (w.placements p)._placed._min_uv.u) + 1 / 2 - 1 / 2 ^ 20⌋ ≤ sw ∧
      sw ≤ ⌊(((w.placements p)._placed._x_size : ℚ) - 2 * ((w.placements p)._placed._margin : ℚ)) / ((w.placements p)._placed._max_uv.u - (w.placements p)._placed._min_uv.u) + 1 / 2 + 1 / 2 ^ 20⌋ ∧
      ⌊(((w.placements p)._placed._y_size : ℚ) - 2 * ((w.placements p)._placed._margin : ℚ)) / ((w.placements p)._placed._max_uv.v - (w.placements p)._placed._min_uv.v) + 1 / 2 - 1 / 2 ^ 20⌋ ≤ sh ∧
      sh ≤ ⌊(((w.placements p)._placed._y_size : ℚ) - 2 * ((w.placements p)._placed._margin : ℚ)) / ((w.placements p)._placed._max_uv.v - (w.placements p)._placed._min_uv.v) + 1 / 2 + 1 / 2 ^ 20⌋) ∧
    (⌊(w.placements p)._placed._min_uv.u * (((w.placements p)._placed._x_size : ℚ) - 2 * ((w.placements p)._placed._margin : ℚ)) / ((w.placements p)._placed._max_uv.u - (w.placements p)._placed._min_uv.u) + 1 / 2 - 1 / 2 ^ 20⌋ =
        ⌊(w.placements p)._placed._min_uv.u * (((w.placements p)._placed._x_size : ℚ) - 2 * ((w.placements p)._placed._margin : ℚ)) / ((w.placements p)._placed._max_uv.u - (w.placements p)._placed._min_uv.u) + 1 / 2 + 1 / 2 ^ 20⌋ →
      ⌊(w.placements p)._placed._min_uv.v * (((w.placements p)._placed._y_size : ℚ) - 2 * ((w.placements p)._placed._margin : ℚ)) / ((w.placements p)._placed._max_uv.v - (w.placements p)._placed._min_uv.v) + 1 / 2 - 1 / 2 ^ 20⌋ =
        ⌊(w.placements p)._placed._min_uv.v * (((w.placements p)._placed._y_size : ℚ) - 2 * ((w.placements p)._placed._margin : ℚ)) / ((w.placements p)._placed._max_uv.v - (w.placements p)._placed._min_uv.v) + 1 / 2 + 1 / 2 ^ 20⌋ →
      ⌊(((w.placements p)._placed._x_size : ℚ) - 2 * ((w.placements p)._placed._margin : ℚ)) / ((w.placements p)._placed._max_uv.u - (w.placements p)._placed._min_uv.u) + 1 / 2 - 1 / 2 ^ 20⌋ =
        ⌊(((w.placements p)._placed._x_size : ℚ) - 2 * ((w.placements p)._placed._margin : ℚ)) / ((w.placements p)._placed._max_uv.u - (w.placements p)._placed._min_uv.u) + 1 / 2 + 1 / 2 ^ 20⌋ →
      ⌊(((w.placements p)._placed._y_size : ℚ) - 2 * ((w.placements p)._placed._margin : ℚ)) / ((w.placements p)._placed._max_uv.v - (w.placements p)._placed._min_uv.v) + 1 / 2 - 1 / 2 ^ 20⌋ =
        ⌊(((w.placements p)._placed._y_size : ℚ) - 2 * ((w.placements p)._placed._margin : ℚ)) / ((w.placements p)._placed._max_uv.v - (w.placements p)._placed._min_uv.v) + 1 / 2 + 1 / 2 ^ 20⌋ →
      TexturePlacement.compute_tex_matrix w p = some
        (spec_tex_matrix (w.placements p)._placed._x (w.placements p)._placed._y
        (w.placements p)._placed._x_size (w.placements p)._placed._y_size
        (w.placements p)._placed._margin (w.placements p)._placed._min_uv
        (w.placements p)._placed._max_uv (w.images a)._x_size (w.images a)._y_size).to_double) := by
  obtain ⟨⟨ox1, ox2, _, _⟩, ⟨sw1, sw2, _, _⟩⟩ := resample_close _ _ _ (w.placements p)._placed._max_uv.u
    hb.margin_nonneg hb.margin_x hb.x_size_le hb.min_u hb.range_u
  obtain ⟨⟨oy1, oy2, _, _⟩, ⟨sh1, sh2, _, _⟩⟩ := resample_close _ _ _ (w.placements p)._placed._max_uv.v
    hb.margin_nonneg hb.margin_y hb.y_size_le hb.min_v hb.range_v
  have hform := compute_tex_matrix_form w p a himage hb
  refine ⟨⟨_, _, _, _, hform, ox1, ox2, oy1, oy2, sw1, sw2, sh1, sh2⟩, ?_⟩
  intro gx gy gsw gsh
  have hε : (0 : ℚ) ≤ 1 / 2 ^ 20 := by norm_num
  have fx := floor_between _ _ _ hε ox1 ox2 gx
  have fy := floor_between _ _ _ hε oy1 oy2 gy
  have fsw := floor_between _ _ _ hε sw1 sw2 gsw
  have fsh := floor_between _ _ _ hε sh1 sh2 gsh
  rw [hform, fx, fy, fsw, fsh]
  unfold spec_tex_matrix LMatrix3d.to_double Double.div
  simp only [fl_zero, fl_one]
  push_cast
  congr 3
/-- C19, amended. For every placed placement of ordinary size (rectangle `(x, y, w, h)`,
margin `0 <= m` with `2 m <= w, h <= 16384`, `|x|, |y| <= 2^20`, UV box within
`[-256, 256]` with a range of at least `1/256` on both axes, on an atlas `W` by `H` with
`0 < W, H <= 2^20`) and every UV point `(u, v)` inside its placed UV box, the point
mapped through the matrix of `compute_tex_matrix` lands inside the inner rectangle up to
the rounding of the resample size and origin to whole pixels and of the doubles:
`x + m - (|u|+1)(1/2 + 2^-19) <= (u*sx + tx)*W <= x + w - m + (|u|+1)(1/2 + 2^-19)` and
`H - (y + h - m) - (|v|+1)(1/2 + 2^-19) <= (v*sy + ty)*H <= H - (y + m) + (|v|+1)(1/2 + 2^-19)`.
The matrix is the one the program emits, with entries in doubles; the mapping of the
point itself is exact. -/
theorem C19_round_trip (w : Heap) (p a : Nat) (m : LMatrix3d) (u v : ℚ)
    (himage : (w.placements p)._image = some a)
    (hm : TexturePlacement.compute_tex_matrix w p = some m)
    (hb : (w.placements p)._placed.ordinary (w.images a)._x_size (w.images a)._y_size)
    (hu_lo : (w.placements p)._placed._min_uv.u ≤ u)
    (hu_hi : u ≤ (w.placements p)._placed._max_uv.u)
    (hv_lo : (w.placements p)._placed._min_uv.v ≤ v)
    (hv_hi : v ≤ (w.placements p)._placed._max_uv.v) :
    (((w.placements p)._placed._x + (w.placements p)._placed._margin : Int) : ℚ)
        - (|u| + 1) * (1 / 2 + 1 / 2 ^ 19) ≤ (m.xform_point u v).1 * ((w.images a)._x_size : ℚ) ∧
    (m.xform_point u v).1 * ((w.images a)._x_size : ℚ) ≤
      (((w.placements p)._placed._x + (w.placements p)._placed._x_size
        - (w.placements p)._placed._margin : Int) : ℚ) + (|u| + 1) * (1 / 2 + 1 / 2 ^ 19) ∧
    (((w.images a)._y_size - ((w.placements p)._placed._y + (w.placements p)._placed._y_size
        - (w.placements p)._placed._margin) : Int) : ℚ) - (|v| + 1) * (1 / 2 + 1 / 2 ^ 19)
      ≤ (m.xform_point u v).2 * ((w.images a)._y_size : ℚ) ∧
    (m.xform_point u v).2 * ((w.images a)._y_size : ℚ) ≤
      (((w.images a)._y_size - ((w.placements p)._placed._y
        + (w.placements p)._placed._margin) : Int) : ℚ) + (|v| + 1) * (1 / 2 + 1 / 2 ^ 19) := by
  rw [compute_tex_matrix_form w p a himage hb] at hm
  have hm2 := (Option.some.inj hm).symm
  subst hm2
  obtain ⟨⟨_, _, ox3, ox4⟩, ⟨_, _, sw3, sw4⟩⟩ := resample_close _ _ _ (w.placements p)._placed._max_uv.u
    hb.margin_nonneg hb.margin_x hb.x_size_le hb.min_u hb.range_u
  obtain ⟨⟨_, _, oy3, oy4⟩, ⟨_, _, sh3, sh4⟩⟩ := resample_close _ _ _ (w.placements p)._placed._max_uv.v
    hb.margin_nonneg hb.margin_y hb.y_size_le hb.min_v hb.range_v
  have hW : (0 : ℚ) < ((w.images a)._x_size : ℚ) := by exact_mod_cast hb.W_pos
  have hH : (0 : ℚ) < ((w.images a)._y_size : ℚ) := by exact_mod_cast hb.H_pos
  have hW2 : ((w.images a)._x_size : ℚ) ≤ 2 ^ (20 : Nat) := by
    have : ((w.images a)._x_size : ℚ) ≤ ((1048576 : Int) : ℚ) := by exact_mod_cast hb.W_le
    norm_num at this ⊢; exact this
  have hH2 : ((w.images a)._y_size : ℚ) ≤ 2 ^ (20 : Nat) := by
    have : ((w.images a)._y_size : ℚ) ≤ ((1048576 : Int) : ℚ) := by exact_mod_cast hb.H_le
    norm_num at this ⊢; exact this
  have qm0 : (0 : ℚ) ≤ ((w.placements p)._placed._margin : ℚ) := by exact_mod_cast hb.margin_nonneg
  have qmx : 2 * ((w.placements p)._placed._margin : ℚ) ≤ ((w.placements p)._placed._x_size : ℚ) := by
    exact_mod_cast hb.margin_x
  have qmy : 2 * ((w.placements p)._placed._margin : ℚ) ≤ ((w.placements p)._placed._y_size : ℚ) := by
    exact_mod_cast hb.margin_y
  have qsx : ((w.placements p)._placed._x_size : ℚ) ≤ 16384 := by exact_mod_cast hb.x_size_le
  have qsy : ((w.placements p)._placed._y_size : ℚ) ≤ 16384 := by exact_mod_cast hb.y_size_le
  have qx : |((w.placements p)._placed._x : ℚ)| ≤ 1048576 := by exact_mod_cast hb.x_range
  have qy : |((w.placements p)._placed._y : ℚ)| ≤ 1048576 := by exact_mod_cast hb.y_range
  rw [abs_le] at qx qy
  have ox5 := abs_le.mp ox4
  have oy5 := abs_le.mp oy4
  have e30 : (2 : ℚ) ^ (30 : Nat) = 1073741824 := by norm_num
  have e31 : (2 : ℚ) ^ (31 : Nat) = 2147483648 := by norm_num
  have e20 : (2 : ℚ) ^ (20 : Nat) = 1048576 := by norm_num
  have ru : (0 : ℚ) < (w.placements p)._placed._max_uv.u - (w.placements p)._placed._min_uv.u :=
    lt_of_lt_of_le (by norm_num) hb.range_u
  have rv : (0 : ℚ) < (w.placements p)._placed._max_uv.v - (w.placements p)._placed._min_uv.v :=
    lt_of_lt_of_le (by norm_num) hb.range_v
  have hx := axis_point u ((w.images a)._x_size : ℚ)
    (((w.placements p)._placed._x_size : ℚ) - 2 * ((w.placements p)._placed._margin : ℚ))
    (w.placements p)._placed._min_uv.u (w.placements p)._placed._max_uv.u
    (((w.placements p)._placed._x + (w.placements p)._placed._margin : Int) : ℚ) _
    ((w.placements p)._placed._x + (w.placements p)._placed._margin -
      (TexturePlacement.resample (w.placements p)._placed._x_size (w.placements p)._placed._margin
        (w.placements p)._placed._min_uv.u (w.placements p)._placed._max_uv.u).1) _
    (by push_cast; ring) hW hW2 sw4
    (by rw [abs_le]; push_cast; constructor <;> linarith)
    (by linarith) ru hu_lo hu_hi sw3 ox3
  have hy := axis_point v ((w.images a)._y_size : ℚ)
    (((w.placements p)._placed._y_size : ℚ) - 2 * ((w.placements p)._placed._margin : ℚ))
    (w.placements p)._placed._min_uv.v (w.placements p)._placed._max_uv.v
    (((w.images a)._y_size - ((w.placements p)._placed._y + (w.placements p)._placed._y_size
        - (w.placements p)._placed._margin) : Int) : ℚ) _
    ((w.images a)._y_size - 1 - ((w.placements p)._placed._y_size - 1 -
      (-(w.placements p)._placed._y + (w.placements p)._placed._margin -
        (TexturePlacement.resample (w.placements p)._placed._y_size (w.placements p)._placed._margin
          (w.placements p)._placed._min_uv.v (w.placements p)._placed._max_uv.v).1))) _
    (by push_cast; ring) hH hH2 sh4
    (by rw [abs_le]; push_cast; constructor <;> linarith)
    (by linarith) rv hv_lo hv_hi sh3 oy3
  simp only [LMatrix3d.xform_point, mul_zero, add_zero, zero_add]
  obtain ⟨hx1, hx2⟩ := hx
  obtain ⟨hy1, hy2⟩ := hy
  refine ⟨hx1, ?_, hy1, ?_⟩
  · refine le_trans hx2 (le_of_eq ?_)
    push_cast; ring
  · refine le_trans hy2 (le_of_eq ?_)
    push_cast; ring

/-- The matrix of the specification for `coarse_placement`: the exact quotient
`4 / 1.6000000000000001` is below 2.5 and the resample size is 2. -/
theorem spec_tex_matrix_coarse :
    spec_tex_matrix 0 0 4 4 0 ⟨0, 0⟩ ⟨fl (8 / 5), 1⟩ 64 64 =
      { m00 := 1 / 32, m01 := 0, m02 := 0, m10 := 0, m11 := 1 / 16, m12 := 0,
        m20 := 0, m21 := 15 / 16, m22 := 1 } := by
  rw [spec_tex_matrix_of_floors 0 0 4 4 0 ⟨0, 0⟩ ⟨fl (8 / 5), 1⟩ 64 64 0 0 2 4
    (by rw [Int.floor_eq_iff]; norm_num [fl_eight_fifths])
    (by rw [Int.floor_eq_iff]; norm_num)
    (by rw [Int.floor_eq_iff]; norm_num [fl_eight_fifths])
    (by rw [Int.floor_eq_iff]; norm_num)]
  norm_num

/-- The matrix of the specification for `narrow_placement`: resample size 2^33. -/
theorem spec_tex_matrix_narrow :
    spec_tex_matrix 0 0 4 4 0 ⟨0, 0⟩ ⟨1 / 2147483648, 1⟩ 64 64 =
      { m00 := 134217728, m01 := 0, m02 := 0, m10 := 0, m11 := 1 / 16, m12 := 0,
        m20 := 0, m21 := 15 / 16, m22 := 1 } := by
  rw [spec_tex_matrix_of_floors 0 0 4 4 0 ⟨0, 0⟩ ⟨1 / 2147483648, 1⟩ 64 64 0 0 8589934592 4
    (by rw [Int.floor_eq_iff]; norm_num)
    (by rw [Int.floor_eq_iff]; norm_num)
    (by rw [Int.floor_eq_iff]; norm_num)
    (by rw [Int.floor_eq_iff]; norm_num)]
  norm_num

theorem fl_one_thirtysecond : fl (1 / 32) = 1 / 32 := by
  have := fl_exact 1 (-5) (by norm_num) (by norm_num)
  norm_num at this
  simpa using this

/-- C18, as stated, fails. The 4x4 placement at (0,0) without margin whose placed UV box
is (0,0)-(1.6,1), on a 64x64 atlas: the range 1.6 is the double 1.6000000000000001, the
exact quotient `4 / range` is just below 2.5 and the formula gives `sw = 2`, `sx = 2/64`;
in doubles the quotient rounds to 2.5, the program computes `sw = 3` and emits
`sx = 3/64`, which is not the formula's value, rounded to a double or not. For the UV
box (0,0)-(2^-31,1) the quotient 2^33 does not fit an `int`: the program emits
`sx = INT_MIN/64 = -2^25` where the formula gives `2^27`. -/
theorem C18_counterexample :
    (coarse_heap.placements 0)._image = some 0 ∧
    (coarse_heap.placements 0)._placed._min_uv.u < (coarse_heap.placements 0)._placed._max_uv.u ∧
    (coarse_heap.placements 0)._placed._min_uv.v < (coarse_heap.placements 0)._placed._max_uv.v ∧
    TexturePlacement.compute_tex_matrix coarse_heap 0 = some
      { m00 := 3 / 64, m01 := 0, m02 := 0, m10 := 0, m11 := 1 / 16, m12 := 0,
        m20 := 0, m21 := 15 / 16, m22 := 1 } ∧
    spec_tex_matrix (coarse_heap.placements 0)._placed._x (coarse_heap.placements 0)._placed._y
        (coarse_heap.placements 0)._placed._x_size (coarse_heap.placements 0)._placed._y_size
        (coarse_heap.placements 0)._placed._margin (coarse_heap.placements 0)._placed._min_uv
        (coarse_heap.placements 0)._placed._max_uv (coarse_heap.images 0)._x_size
        (coarse_heap.images 0)._y_size =
      { m00 := 1 / 32, m01 := 0, m02 := 0, m10 := 0, m11 := 1 / 16, m12 := 0,
        m20 := 0, m21 := 15 / 16, m22 := 1 } ∧
    TexturePlacement.compute_tex_matrix coarse_heap 0 ≠ some
      (spec_tex_matrix (coarse_heap.placements 0)._placed._x
        (coarse_heap.placements 0)._placed._y
        (coarse_heap.placements 0)._placed._x_size (coarse_heap.placements 0)._placed._y_size
        (coarse_heap.placements 0)._placed._margin (coarse_heap.placements 0)._placed._min_uv
        (coarse_heap.placements 0)._placed._max_uv (coarse_heap.images 0)._x_size
        (coarse_heap.images 0)._y_size) ∧
    TexturePlacement.compute_tex_matrix coarse_heap 0 ≠ some
      (spec_tex_matrix (coarse_heap.placements 0)._placed._x
        (coarse_heap.placements 0)._placed._y
        (coarse_heap.placements 0)._placed._x_size (coarse_heap.placements 0)._placed._y_size
        (coarse_heap.placements 0)._placed._margin (coarse_heap.placements 0)._placed._min_uv
        (coarse_heap.placements 0)._placed._max_uv (coarse_heap.images 0)._x_size
        (coarse_heap.images 0)._y_size).to_double ∧
    (narrow_heap.placements 0)._image = some 0 ∧
    (narrow_heap.placements 0)._placed._min_uv.u < (narrow_heap.placements 0)._placed._max_uv.u ∧
    (narrow_heap.placements 0)._placed._min_uv.v < (narrow_heap.placements 0)._placed._max_uv.v ∧
    TexturePlacement.compute_tex_matrix narrow_heap 0 = some
      { m00 := -33554432, m01 := 0, m02 := 0, m10 := 0, m11 := 1 / 16, m12 := 0,
        m20 := 0, m21 := 15 / 16, m22 := 1 } ∧
    spec_tex_matrix (narrow_heap.placements 0)._placed._x (narrow_heap.placements 0)._placed._y
        (narrow_heap.placements 0)._placed._x_size (narrow_heap.placements 0)._placed._y_size
        (narrow_heap.placements 0)._placed._margin (narrow_heap.placements 0)._placed._min_uv
        (narrow_heap.placements 0)._placed._max_uv (narrow_heap.images 0)._x_size
        (narrow_heap.images 0)._y_size =
      { m00 := 134217728, m01 := 0, m02 := 0, m10 := 0, m11 := 1 / 16, m12 := 0,
        m20 := 0, m21 := 15 / 16, m22 := 1 } := by
  have hs : spec_tex_matrix (coarse_heap.placements 0)._placed._x
      (coarse_heap.placements 0)._placed._y
      (coarse_heap.placements 0)._placed._x_size (coarse_heap.placements 0)._placed._y_size
      (coarse_heap.placements 0)._placed._margin (coarse_heap.placements 0)._placed._min_uv
      (coarse_heap.placements 0)._placed._max_uv (coarse_heap.images 0)._x_size
      (coarse_heap.images 0)._y_size =
      { m00 := 1 / 32, m01 := 0, m02 := 0, m10 := 0, m11 := 1 / 16, m12 := 0,
        m20 := 0, m21 := 15 / 16, m22 := 1 } := spec_tex_matrix_coarse
  refine ⟨rfl, ?_, ?_, coarse_tex_matrix, hs, ?_, ?_, rfl, ?_, ?_, ?_, spec_tex_matrix_narrow⟩
  · show (0 : ℚ) < fl (8 / 5)
    rw [fl_eight_fifths]; norm_num
  · show (0 : ℚ) < 1
    norm_num
  · rw [coarse_tex_matrix, hs]
    norm_num
  · rw [coarse_tex_matrix, hs]
    simp only [LMatrix3d.to_double, fl_one_thirtysecond]
    norm_num
  · show (0 : ℚ) < 1 / 2147483648
    norm_num
  · show (0 : ℚ) < 1
    norm_num
  · have h := narrow_tex_matrix
    norm_num at h ⊢
    exact h

theorem S6_ordinary : (S6_heap.placements 0)._placed.ordinary (S6_heap.images 0)._x_size
    (S6_heap.images 0)._y_size where
  margin_nonneg := by decide
  margin_x := by decide
  margin_y := by decide
  x_size_le := by decide
  y_size_le := by decide
  x_range := by show |(0 : Int)| ≤ 1048576; norm_num
  y_range := by show |(0 : Int)| ≤ 1048576; norm_num
  W_pos := by decide
  W_le := by decide
  H_pos := by decide
  H_le := by decide
  min_u := by show |(0 : ℚ)| ≤ 256; norm_num
  max_u := by show |(1 : ℚ)| ≤ 256; norm_num
  min_v := by show |(0 : ℚ)| ≤ 256; norm_num
  max_v := by show |(1 : ℚ)| ≤ 256; norm_num
  range_u := by show (1 : ℚ) / 256 ≤ 1 - 0; norm_num
  range_v := by show (1 : ℚ) / 256 ≤ 1 - 0; norm_num

/-- Witness of the amended C18, scenario S6: the 64x64 placement with margin 2 and UV box
(0,0)-(1,1) on the 64x64 image is of ordinary size, no integer lies within 2^-20 of
the four arguments 1/2, 1/2, 60 + 1/2, 60 + 1/2, and the matrix is the matrix of the
specification. -/
theorem C18_tex_matrix_witness :
    (S6_heap.placements 0)._placed.ordinary (S6_heap.images 0)._x_size
      (S6_heap.images 0)._y_size ∧
    TexturePlacement.compute_tex_matrix S6_heap 0 =
      some (spec_tex_matrix 0 0 64 64 2 ⟨0, 0⟩ ⟨1, 1⟩ 64 64).to_double :=
  ⟨S6_ordinary, (C18_tex_matrix S6_heap 0 0 rfl S6_ordinary).2
    (by
      show ⌊(0 : ℚ) * ((((64 : Int) : ℚ)) - 2 * ((2 : Int) : ℚ)) / (1 - 0) + 1 / 2 - 1 / 2 ^ 20⌋ =
        ⌊(0 : ℚ) * ((((64 : Int) : ℚ)) - 2 * ((2 : Int) : ℚ)) / (1 - 0) + 1 / 2 + 1 / 2 ^ 20⌋
      exact floor_gap _ _ 0 (by norm_num) (by norm_num) (by norm_num))
    (by
      show ⌊(0 : ℚ) * ((((64 : Int) : ℚ)) - 2 * ((2 : Int) : ℚ)) / (1 - 0) + 1 / 2 - 1 / 2 ^ 20⌋ =
        ⌊(0 : ℚ) * ((((64 : Int) : ℚ)) - 2 * ((2 : Int) : ℚ)) / (1 - 0) + 1 / 2 + 1 / 2 ^ 20⌋
      exact floor_gap _ _ 0 (by norm_num) (by norm_num) (by norm_num))
    (by
      show ⌊((((64 : Int) : ℚ)) - 2 * ((2 : Int) : ℚ)) / ((1 : ℚ) - 0) + 1 / 2 - 1 / 2 ^ 20⌋ =
        ⌊((((64 : Int) : ℚ)) - 2 * ((2 : Int) : ℚ)) / ((1 : ℚ) - 0) + 1 / 2 + 1 / 2 ^ 20⌋
      exact floor_gap _ _ 60 (by norm_num) (by norm_num) (by norm_num))
    (by
      show ⌊((((64 : Int) : ℚ)) - 2 * ((2 : Int) : ℚ)) / ((1 : ℚ) - 0) + 1 / 2 - 1 / 2 ^ 20⌋ =
        ⌊((((64 : Int) : ℚ)) - 2 * ((2 : Int) : ℚ)) / ((1 : ℚ) - 0) + 1 / 2 + 1 / 2 ^ 20⌋
      exact floor_gap _ _ 60 (by norm_num) (by norm_num) (by norm_num))⟩

/-- The matrix of the specification in scenario S6; its entries are doubles. -/
theorem spec_tex_matrix_S6 :
    (spec_tex_matrix 0 0 64 64 2 ⟨0, 0⟩ ⟨1, 1⟩ 64 64).to_double =
      { m00 := 60 / 64, m01 := 0, m02 := 0, m10 := 0, m11 := 60 / 64, m12 := 0,
        m20 := 2 / 64, m21 := 2 / 64, m22 := 1 } := by
  rw [spec_tex_matrix_of_floors 0 0 64 64 2 ⟨0, 0⟩ ⟨1, 1⟩ 64 64 0 0 60 60
    (by rw [Int.floor_eq_iff]; norm_num)
    (by rw [Int.floor_eq_iff]; norm_num)
    (by rw [Int.floor_eq_iff]; norm_num)
    (by rw [Int.floor_eq_iff]; norm_num)]
  have f1 : fl (15 / 16) = 15 / 16 := by
    have := fl_exact 15 (-4) (by norm_num) (by norm_num)
    norm_num at this
    simpa using this
  have f2 : fl (1 / 32) = 1 / 32 := fl_one_thirtysecond
  simp only [LMatrix3d.to_double, fl_zero, fl_one]
  norm_num [f1, f2]

theorem strip_ordinary : (strip_heap.placements 0)._placed.ordinary (strip_heap.images 0)._x_size
    (strip_heap.images 0)._y_size where
  margin_nonneg := by decide
  margin_x := by decide
  margin_y := by decide
  x_size_le := by decide
  y_size_le := by decide
  x_range := by show |(0 : Int)| ≤ 1048576; norm_num
  y_range := by show |(0 : Int)| ≤ 1048576; norm_num
  W_pos := by decide
  W_le := by decide
  H_pos := by decide
  H_le := by decide
  min_u := by show |fl (1 / 10)| ≤ 256; rw [fl_one_tenth]; norm_num [abs_of_pos]
  max_u := by show |fl (4 / 10)| ≤ 256; rw [fl_four_tenths]; norm_num [abs_of_pos]
  min_v := by show |(0 : ℚ)| ≤ 256; norm_num
  max_v := by show |(1 : ℚ)| ≤ 256; norm_num
  range_u := by
    show (1 : ℚ) / 256 ≤ fl (4 / 10) - fl (1 / 10)
    rw [fl_one_tenth, fl_four_tenths]; norm_num
  range_v := by show (1 : ℚ) / 256 ≤ 1 - 0; norm_num

/-- C19, as stated, fails: for the 10x10 placement at (0,0) without margin whose UV box is
(0.1,0)-(0.4,1), on a 64x64 atlas, the corner u = 0.4 of the box is sent to pixel
column 10.2, beyond `x + w - m = 10`. -/
theorem C19_counterexample :
    TexturePlacement.compute_tex_matrix strip_heap 0 = some strip_matrix ∧
    (strip_heap.placements 0)._image = some 0 ∧
    (strip_heap.placements 0)._placed._min_uv.u ≤ fl (4 / 10) ∧
    fl (4 / 10) ≤ (strip_heap.placements 0)._placed._max_uv.u ∧
    (strip_heap.placements 0)._placed._min_uv.v ≤ 0 ∧
    0 ≤ (strip_heap.placements 0)._placed._max_uv.v ∧
    (strip_matrix.xform_point (fl (4 / 10)) 0).1 * ((strip_heap.images 0)._x_size : ℚ) =
      91873432398358125 / 9007199254740992 ∧
    ¬ ((strip_matrix.xform_point (fl (4 / 10)) 0).1 * ((strip_heap.images 0)._x_size : ℚ) ≤
      (((strip_heap.placements 0)._placed._x + (strip_heap.placements 0)._placed._x_size
        - (strip_heap.placements 0)._placed._margin : Int) : ℚ)) := by
  have hp : (strip_matrix.xform_point (fl (4 / 10)) 0).1 * ((strip_heap.images 0)._x_size : ℚ)
      = 91873432398358125 / 9007199254740992 := by
    show (strip_matrix.xform_point (fl (4 / 10)) 0).1 * ((64 : Int) : ℚ) = _
    rw [fl_four_tenths]
    norm_num [strip_matrix, LMatrix3d.xform_point]
  refine ⟨strip_tex_matrix, rfl, ?_, ?_, ?_, ?_, hp, ?_⟩
  · show fl (1 / 10) ≤ fl (4 / 10)
    rw [fl_one_tenth, fl_four_tenths]; norm_num
  · show fl (4 / 10) ≤ fl (4 / 10)
    exact le_refl _
  · show (0 : ℚ) ≤ 0; norm_num
  · show (0 : ℚ) ≤ 1; norm_num
  · rw [hp]
    show ¬ ((91873432398358125 / 9007199254740992 : ℚ) ≤ (((0 : Int) + 10 - 0 : Int) : ℚ))
    norm_num

/-- Witness of the amended C19: the corner u = 0.4 of the strip placement lands at column
10.2, within the slack of the inner rectangle [0, 10]. -/
theorem C19_round_trip_witness :
    (((strip_heap.placements 0)._placed._x + (strip_heap.placements 0)._placed._margin : Int) : ℚ)
        - (|fl (4 / 10)| + 1) * (1 / 2 + 1 / 2 ^ 19) ≤
      (strip_matrix.xform_point (fl (4 / 10)) 0).1 * ((strip_heap.images 0)._x_size : ℚ) ∧
    (strip_matrix.xform_point (fl (4 / 10)) 0).1 * ((strip_heap.images 0)._x_size : ℚ) ≤
      (((strip_heap.placements 0)._placed._x + (strip_heap.placements 0)._placed._x_size
        - (strip_heap.placements 0)._placed._margin : Int) : ℚ)
        + (|fl (4 / 10)| + 1) * (1 / 2 + 1 / 2 ^ 19) ∧
    (((strip_heap.images 0)._y_size - ((strip_heap.placements 0)._placed._y
        + (strip_heap.placements 0)._placed._y_size
        - (strip_heap.placements 0)._placed._margin) : Int) : ℚ)
        - (|(0 : ℚ)| + 1) * (1 / 2 + 1 / 2 ^ 19)
      ≤ (strip_matrix.xform_point (fl (4 / 10)) 0).2 * ((strip_heap.images 0)._y_size : ℚ) ∧
    (strip_matrix.xform_point (fl (4 / 10)) 0).2 * ((strip_heap.images 0)._y_size : ℚ) ≤
      (((strip_heap.images 0)._y_size - ((strip_heap.placements 0)._placed._y
        + (strip_heap.placements 0)._placed._margin) : Int) : ℚ)
        + (|(0 : ℚ)| + 1) * (1 / 2 + 1 / 2 ^ 19) :=
  C19_round_trip strip_heap 0 0 strip_matrix (fl (4 / 10)) 0 rfl strip_tex_matrix
    strip_ordinary
    (by show fl (1 / 10) ≤ fl (4 / 10); rw [fl_one_tenth, fl_four_tenths]; norm_num)
    (by show fl (4 / 10) ≤ fl (4 / 10); exact le_refl _)
    (by show (0 : ℚ) ≤ 0; norm_num) (by show (0 : ℚ) ≤ 1; norm_num)

/-! ## Values of the double arithmetic on decimal inputs -/

theorem fl_six_fifths : fl (6 / 5) = 5404319552844595 / 4503599627370496 := by
  rw [fl_eval (6 / 5) (-52) (5404319552844595) (by norm_num) (Or.inr (by norm_num [abs_of_pos])) (by norm_num [abs_of_pos]) (by norm_num [abs_lt])]; norm_num

theorem fl_seven_twentieths : fl (7 / 20) = 3152519739159347 / 9007199254740992 := by
  rw [fl_eval (7 / 20) (-54) (6305039478318694) (by norm_num) (Or.inr (by norm_num [abs_of_pos])) (by norm_num [abs_of_pos]) (by norm_num [abs_lt])]; norm_num

theorem fl_three_tenths : fl (3 / 10) = 5404319552844595 / 18014398509481984 := by
  rw [fl_eval (3 / 10) (-54) (5404319552844595) (by norm_num) (Or.inr (by norm_num [abs_of_pos])) (by norm_num [abs_of_pos]) (by norm_num [abs_lt])]; norm_num

theorem fl_nine_tenths : fl (9 / 10) = 8106479329266893 / 9007199254740992 := by
  rw [fl_eval (9 / 10) (-53) (8106479329266893) (by norm_num) (Or.inr (by norm_num [abs_of_pos])) (by norm_num [abs_of_pos]) (by norm_num [abs_lt])]; norm_num

/-- With unit 0.1 and fuzz 0.01 the coordinate 1.2 is rounded up to
1.2000000000000002: `ceil((1.2 - 0.01) / 0.1) * 0.1` in doubles. -/
theorem rounded_max_six_fifths :
    (TexturePlacement.rounded_max_uv S6_pal ⟨fl (6 / 5), 1⟩).u = 1351079888211149 / 1125899906842624 := by
  have h1 : Double.sub (5404319552844595 / 4503599627370496) (5764607523034235 / 576460752303423488) = 2679641778285445 / 2251799813685248 := by
    show fl ((5404319552844595 / 4503599627370496) - (5764607523034235 / 576460752303423488)) = 2679641778285445 / 2251799813685248
    rw [fl_eval ((5404319552844595 / 4503599627370496) - (5764607523034235 / 576460752303423488)) (-52) (5359283556570890) (by norm_num) (Or.inr (by norm_num [abs_of_pos])) (by norm_num [abs_of_pos]) (by norm_num [abs_lt])]; norm_num
  have h2 : Double.div (2679641778285445 / 2251799813685248) (3602879701896397 / 36028797018963968) = 1674776111428403 / 140737488355328 := by
    show fl ((2679641778285445 / 2251799813685248) / (3602879701896397 / 36028797018963968)) = 1674776111428403 / 140737488355328
    rw [fl_eval ((2679641778285445 / 2251799813685248) / (3602879701896397 / 36028797018963968)) (-49) (6699104445713612) (by norm_num) (Or.inr (by norm_num [abs_of_pos])) (by norm_num [abs_of_pos]) (by norm_num [abs_lt])]; norm_num
  have h3 : ⌈(1674776111428403 / 140737488355328 : ℚ)⌉ = 12 := by
    rw [Int.ceil_eq_iff]; norm_num
  have h4 : Double.mul ((12 : Int) : ℚ) (3602879701896397 / 36028797018963968) = 1351079888211149 / 1125899906842624 := by
    show fl (((12 : Int) : ℚ) * (3602879701896397 / 36028797018963968)) = 1351079888211149 / 1125899906842624
    rw [fl_eval_tie (((12 : Int) : ℚ) * (3602879701896397 / 36028797018963968)) (-52) (5404319552844595) (by norm_num) (Or.inr (by norm_num [abs_of_pos])) (by norm_num [abs_of_pos]) (by norm_num)]; norm_num
  simp only [TexturePlacement.rounded_max_uv, S6_pal, if_true, fl_one_tenth,
    fl_one_hundredth, fl_six_fifths, h1, h2, h3, h4]

/-- With unit 0.1 and fuzz 0.01 the coordinate 0.35 is rounded down to
0.30000000000000004: `floor((0.35 + 0.01) / 0.1) * 0.1` in doubles, above the double
0.3. -/
theorem rounded_min_seven_twentieths :
    (TexturePlacement.rounded_min_uv S6_pal ⟨fl (7 / 20), 0⟩).u = 1351079888211149 / 4503599627370496 ∧
    fl (3 / 10) < (TexturePlacement.rounded_min_uv S6_pal ⟨fl (7 / 20), 0⟩).u := by
  have h1 : Double.add (3152519739159347 / 9007199254740992) (5764607523034235 / 576460752303423488) = 3242591731706757 / 9007199254740992 := by
    show fl ((3152519739159347 / 9007199254740992) + (5764607523034235 / 576460752303423488)) = 3242591731706757 / 9007199254740992
    rw [fl_eval ((3152519739159347 / 9007199254740992) + (5764607523034235 / 576460752303423488)) (-54) (6485183463413514) (by norm_num) (Or.inr (by norm_num [abs_of_pos])) (by norm_num [abs_of_pos]) (by norm_num [abs_lt])]; norm_num
  have h2 : Double.div (3242591731706757 / 9007199254740992) (3602879701896397 / 36028797018963968) = 2026619832316723 / 562949953421312 := by
    show fl ((3242591731706757 / 9007199254740992) / (3602879701896397 / 36028797018963968)) = 2026619832316723 / 562949953421312
    rw [fl_eval ((3242591731706757 / 9007199254740992) / (3602879701896397 / 36028797018963968)) (-51) (8106479329266892) (by norm_num) (Or.inr (by norm_num [abs_of_pos])) (by norm_num [abs_of_pos]) (by norm_num [abs_lt])]; norm_num
  have h3 : ⌊(2026619832316723 / 562949953421312 : ℚ)⌋ = 3 := by
    rw [Int.floor_eq_iff]; norm_num
  have h4 : Double.mul ((3 : Int) : ℚ) (3602879701896397 / 36028797018963968) = 1351079888211149 / 4503599627370496 := by
    show fl (((3 : Int) : ℚ) * (3602879701896397 / 36028797018963968)) = 1351079888211149 / 4503599627370496
    rw [fl_eval_tie (((3 : Int) : ℚ) * (3602879701896397 / 36028797018963968)) (-54) (5404319552844595) (by norm_num) (Or.inr (by norm_num [abs_of_pos])) (by norm_num [abs_of_pos]) (by norm_num)]; norm_num
  have e : (TexturePlacement.rounded_min_uv S6_pal ⟨fl (7 / 20), 0⟩).u = 1351079888211149 / 4503599627370496 := by
    simp only [TexturePlacement.rounded_min_uv, S6_pal, if_true, fl_one_tenth,
      fl_one_hundredth, fl_seven_twentieths, h1, h2, h3, h4]
  refine ⟨e, ?_⟩
  rw [e, fl_three_tenths]
  norm_num

/-- With unit 0.1 and fuzz 0 the coordinate 0.3 is rounded down to 0.2: the quotient
`0.3 / 0.1` is 2.9999999999999996 in doubles. -/
theorem rounded_min_three_tenths :
    (TexturePlacement.rounded_min_uv S6_pal_no_fuzz ⟨fl (3 / 10), 0⟩).u = 3602879701896397 / 18014398509481984 := by
  have h1 : Double.add (5404319552844595 / 18014398509481984) 0 = 5404319552844595 / 18014398509481984 := by
    show fl ((5404319552844595 / 18014398509481984) + 0) = 5404319552844595 / 18014398509481984
    rw [fl_eval ((5404319552844595 / 18014398509481984) + 0) (-54) (5404319552844595) (by norm_num) (Or.inr (by norm_num [abs_of_pos])) (by norm_num [abs_of_pos]) (by norm_num [abs_lt])]; norm_num
  have h2 : Double.div (5404319552844595 / 18014398509481984) (3602879701896397 / 36028797018963968) = 6755399441055743 / 2251799813685248 := by
    show fl ((5404319552844595 / 18014398509481984) / (3602879701896397 / 36028797018963968)) = 6755399441055743 / 2251799813685248
    rw [fl_eval ((5404319552844595 / 18014398509481984) / (3602879701896397 / 36028797018963968)) (-51) (6755399441055743) (by norm_num) (Or.inr (by norm_num [abs_of_pos])) (by norm_num [abs_of_pos]) (by norm_num [abs_lt])]; norm_num
  have h3 : ⌊(6755399441055743 / 2251799813685248 : ℚ)⌋ = 2 := by
    rw [Int.floor_eq_iff]; norm_num
  have h4 : Double.mul ((2 : Int) : ℚ) (3602879701896397 / 36028797018963968) = 3602879701896397 / 18014398509481984 := by
    show fl (((2 : Int) : ℚ) * (3602879701896397 / 36028797018963968)) = 3602879701896397 / 18014398509481984
    rw [fl_eval (((2 : Int) : ℚ) * (3602879701896397 / 36028797018963968)) (-55) (7205759403792794) (by norm_num) (Or.inr (by norm_num [abs_of_pos])) (by norm_num [abs_of_pos]) (by norm_num [abs_lt])]; norm_num
  simp only [TexturePlacement.rounded_min_uv, S6_pal_no_fuzz, S6_pal, if_true, fl_one_tenth,
    fl_three_tenths, h1, h2, h3, h4]

/-- Five pixels on the UV range [0.3, 0.9]: the origin is
`floor(2.9999999999999996) = 2`. -/
theorem resample_5_wide : TexturePlacement.resample 5 0 (fl (3 / 10)) (fl (9 / 10)) = (2, 8) := by
  rw [fl_three_tenths, fl_nine_tenths]
  have h1 : Double.sub (8106479329266893 / 9007199254740992) (5404319552844595 / 18014398509481984) = 1351079888211149 / 2251799813685248 := by
    show fl ((8106479329266893 / 9007199254740992) - (5404319552844595 / 18014398509481984)) = 1351079888211149 / 2251799813685248
    rw [fl_eval_tie ((8106479329266893 / 9007199254740992) - (5404319552844595 / 18014398509481984)) (-53) (5404319552844595) (by norm_num) (Or.inr (by norm_num [abs_of_pos])) (by norm_num [abs_of_pos]) (by norm_num)]; norm_num
  have h2 : Double.mul (5404319552844595 / 18014398509481984) ((5 : Int) : ℚ) = 3 / 2 := by
    show fl ((5404319552844595 / 18014398509481984) * ((5 : Int) : ℚ)) = 3 / 2
    rw [fl_eval ((5404319552844595 / 18014398509481984) * ((5 : Int) : ℚ)) (-52) (6755399441055744) (by norm_num) (Or.inr (by norm_num [abs_of_pos])) (by norm_num [abs_of_pos]) (by norm_num [abs_lt])]; norm_num
  have h3 : Double.div (3 / 2) (1351079888211149 / 2251799813685248) = 5629499534213119 / 2251799813685248 := by
    show fl ((3 / 2) / (1351079888211149 / 2251799813685248)) = 5629499534213119 / 2251799813685248
    rw [fl_eval ((3 / 2) / (1351079888211149 / 2251799813685248)) (-51) (5629499534213119) (by norm_num) (Or.inr (by norm_num [abs_of_pos])) (by norm_num [abs_of_pos]) (by norm_num [abs_lt])]; norm_num
  have h4 : Double.add (5629499534213119 / 2251799813685248) (1 / 2) = 6755399441055743 / 2251799813685248 := by
    show fl ((5629499534213119 / 2251799813685248) + (1 / 2)) = 6755399441055743 / 2251799813685248
    rw [fl_eval ((5629499534213119 / 2251799813685248) + (1 / 2)) (-51) (6755399441055743) (by norm_num) (Or.inr (by norm_num [abs_of_pos])) (by norm_num [abs_of_pos]) (by norm_num [abs_lt])]; norm_num
  have h5 : ⌊(6755399441055743 / 2251799813685248 : ℚ)⌋ = 2 := by
    rw [Int.floor_eq_iff]; norm_num
  have h6 : Double.div ((5 : Int) : ℚ) (1351079888211149 / 2251799813685248) = 2345624805922133 / 281474976710656 := by
    show fl (((5 : Int) : ℚ) / (1351079888211149 / 2251799813685248)) = 2345624805922133 / 281474976710656
    rw [fl_eval (((5 : Int) : ℚ) / (1351079888211149 / 2251799813685248)) (-49) (4691249611844266) (by norm_num) (Or.inr (by norm_num [abs_of_pos])) (by norm_num [abs_of_pos]) (by norm_num [abs_lt])]; norm_num
  have h7 : Double.add (2345624805922133 / 281474976710656) (1 / 2) = 2486362294277461 / 281474976710656 := by
    show fl ((2345624805922133 / 281474976710656) + (1 / 2)) = 2486362294277461 / 281474976710656
    rw [fl_eval ((2345624805922133 / 281474976710656) + (1 / 2)) (-49) (4972724588554922) (by norm_num) (Or.inr (by norm_num [abs_of_pos])) (by norm_num [abs_of_pos]) (by norm_num [abs_lt])]; norm_num
  have h8 : ⌊(2486362294277461 / 281474976710656 : ℚ)⌋ = 8 := by
    rw [Int.floor_eq_iff]; norm_num
  have hw : wrap32 (5 - 0 * 2) = 5 := by decide
  have hi1 : Double.to_int (2) = 2 := by decide
  have hi2 : Double.to_int (8) = 8 := by decide
  have hr : (1351079888211149 / 2251799813685248 : ℚ) ≠ 0 := by norm_num
  unfold TexturePlacement.resample Double.round_quotient
  simp only [hw, h1, h2, h3, h4, h5, h6, h7, h8, hr, if_false, hi1, hi2]

theorem order_against_other (h : Nat → PaletteGroup) (g d x : Nat) (hx : x ≠ g) :
    (PaletteGroup.order_against h g d).1 x = h x := by
  unfold PaletteGroup.order_against
  simp only
  split_ifs <;> simp [Function.update_apply, hx]

theorem order_against_fields (h : Nat → PaletteGroup) (g d x : Nat) :
    ((PaletteGroup.order_against h g d).1 x)._dependent = (h x)._dependent ∧
    ((PaletteGroup.order_against h g d).1 x)._dirname = (h x)._dirname ∧
    ((PaletteGroup.order_against h g d).1 x)._egg_count = (h x)._egg_count ∧
    ((PaletteGroup.order_against h g d).1 x)._dependency_level = (h x)._dependency_level := by
  by_cases hx : x = g
  · subst hx
    unfold PaletteGroup.order_against
    simp only
    split_ifs <;> simp [Function.update_apply]
  · rw [order_against_other h g d x hx]
    exact ⟨rfl, rfl, rfl, rfl⟩

/-- The heap after the loop body, for a dependency other than the group itself. -/
theorem order_against_heap (h : Nat → PaletteGroup) (g d : Nat) (hgd : d ≠ g) :
    (PaletteGroup.order_against h g d).1 =
      Function.update h g
        { h g with
          _dependency_order :=
            if (h g)._dependency_order ≤ (h d)._dependency_order then
              (h d)._dependency_order + 1
            else (h g)._dependency_order
          _dirname_order :=
            if (h g)._dirname = (h d)._dirname then
              (if (h g)._dirname_order < (h d)._dirname_order then (h d)._dirname_order
               else (h g)._dirname_order)
            else
              (if (h g)._dirname_order ≤ (h d)._dirname_order then (h d)._dirname_order + 1
               else (h g)._dirname_order) } := by
  have eta : ∀ t : PaletteGroup,
      ({ t with _dependency_order := t._dependency_order,
                _dirname_order := t._dirname_order } : PaletteGroup) = t := fun _ => rfl
  unfold PaletteGroup.order_against
  by_cases h1 : (h g)._dependency_order ≤ (h d)._dependency_order <;>
    by_cases h2 : (h g)._dirname = (h d)._dirname <;>
    by_cases h3 : (h g)._dirname_order < (h d)._dirname_order <;>
    by_cases h4 : (h g)._dirname_order ≤ (h d)._dirname_order <;>
    simp [h1, h2, h3, h4, Function.update_apply, hgd, eta] <;>
    rw [← h2]

/-- The result flag of the loop body, for a dependency other than the group itself. -/
theorem order_against_flag (h : Nat → PaletteGroup) (g d : Nat) (hgd : d ≠ g) :
    (PaletteGroup.order_against h g d).2 =
      (decide ((h g)._dependency_order ≤ (h d)._dependency_order) ||
         (if (h g)._dirname = (h d)._dirname then
            decide ((h g)._dirname_order < (h d)._dirname_order)
          else decide ((h g)._dirname_order ≤ (h d)._dirname_order))) := by
  unfold PaletteGroup.order_against
  by_cases h1 : (h g)._dependency_order ≤ (h d)._dependency_order <;>
    by_cases h2 : (h g)._dirname = (h d)._dirname <;>
    by_cases h3 : (h g)._dirname_order < (h d)._dirname_order <;>
    by_cases h4 : (h g)._dirname_order ≤ (h d)._dirname_order <;>
    simp [h1, h2, h3, h4, Function.update_apply, hgd]

theorem order_against_mono (h : Nat → PaletteGroup) (g d x : Nat) (hgd : d ≠ g) :
    (h x)._dependency_order ≤ ((PaletteGroup.order_against h g d).1 x)._dependency_order ∧
    (h x)._dirname_order ≤ ((PaletteGroup.order_against h g d).1 x)._dirname_order := by
  rw [order_against_heap h g d hgd]
  by_cases hx : x = g
  · subst hx
    simp only [Function.update_same]
    constructor <;> split_ifs <;> omega
  · simp only [Function.update_apply, if_neg hx]
    exact ⟨le_refl _, le_refl _⟩

theorem order_against_unchanged (h : Nat → PaletteGroup) (g d : Nat) (hgd : d ≠ g)
    (hc : (PaletteGroup.order_against h g d).2 = false) :
    (PaletteGroup.order_against h g d).1 = h := by
  rw [order_against_flag h g d hgd] at hc
  rw [order_against_heap h g d hgd]
  simp only [Bool.or_eq_false_iff, decide_eq_false_iff_not] at hc
  obtain ⟨h1, h2⟩ := hc
  have e1 : (if (h g)._dependency_order ≤ (h d)._dependency_order then
      (h d)._dependency_order + 1 else (h g)._dependency_order) = (h g)._dependency_order :=
    if_neg h1
  have e2 : (if (h g)._dirname = (h d)._dirname then
        (if (h g)._dirname_order < (h d)._dirname_order then (h d)._dirname_order
         else (h g)._dirname_order)
      else
        (if (h g)._dirname_order ≤ (h d)._dirname_order then (h d)._dirname_order + 1
         else (h g)._dirname_order)) = (h g)._dirname_order := by
    by_cases hn : (h g)._dirname = (h d)._dirname
    · rw [if_pos hn] at h2 ⊢
      exact if_neg (by simpa using h2)
    · rw [if_neg hn] at h2 ⊢
      exact if_neg (by simpa using h2)
  rw [e1, e2]
  exact Function.update_eq_self g h

/-- After the loop body the group is above its dependency. -/
theorem order_against_ok (N : Nat → String) (h : Nat → PaletteGroup) (g d : Nat)
    (hgd : d ≠ g) (hN : ∀ x, (h x)._dirname = N x) :
    orders_ok N (PaletteGroup.order_against h g d).1 g d := by
  unfold orders_ok
  rw [order_against_heap h g d hgd]
  simp only [Function.update_same, Function.update_apply, if_neg hgd, hN]
  constructor
  · split_ifs <;> omega
  · split_ifs <;> omega

/-- A group already above its dependency is left alone by the loop body. -/
theorem order_against_of_ok (N : Nat → String) (h : Nat → PaletteGroup) (g d : Nat)
    (hgd : d ≠ g) (hN : ∀ x, (h x)._dirname = N x) (hok : orders_ok N h g d) :
    PaletteGroup.order_against h g d = (h, false) := by
  have hc : (PaletteGroup.order_against h g d).2 = false := by
    rw [order_against_flag h g d hgd]
    unfold orders_ok at hok
    obtain ⟨h1, h2⟩ := hok
    simp only [hN] at h2 ⊢
    by_cases hn : N g = N d
    · simp only [hn, if_true] at h2 ⊢
      simp [not_le.mpr h1, not_lt.mpr h2]
    · simp only [hn, if_false] at h2 ⊢
      simp [not_le.mpr h1, not_le.mpr h2]
  exact Prod.ext (order_against_unchanged h g d hgd hc) hc

theorem reaches_rank (D : Nat → List Nat) (rank : Nat → Nat)
    (hacyc : ∀ a, ∀ b ∈ D a, rank b < rank a) (a b : Nat) (h : reaches D a b) :
    rank b ≤ rank a := by
  induction h with
  | refl => exact le_refl _
  | tail _ hbc ih => exact le_trans (le_of_lt (hacyc _ _ hbc)) ih

theorem orders_good_of_reaches {D : Nat → List Nat} {N : Nat → String}
    {h : Nat → PaletteGroup} {x z : Nat} (hg : orders_good D N h x) (hr : reaches D x z) :
    orders_good D N h z :=
  fun y hy w hw => hg y (Relation.ReflTransGen.trans hr hy) w hw

theorem orders_ok_congr {N : Nat → String} {h h2 : Nat → PaletteGroup} {z w : Nat}
    (hz : h2 z = h z) (hw : h2 w = h w) (hok : orders_ok N h z w) : orders_ok N h2 z w := by
  unfold orders_ok at *
  rw [hz, hw]; exact hok

theorem orders_good_congr {D : Nat → List Nat} {N : Nat → String}
    {h h2 : Nat → PaletteGroup} {x : Nat}
    (heq : ∀ z, reaches D x z → h2 z = h z) (hg : orders_good D N h x) :
    orders_good D N h2 x := by
  intro z hz w hw
  exact orders_ok_congr (heq z hz) (heq w (Relation.ReflTransGen.tail hz hw)) (hg z hz w hw)

/-- A heap that agrees with `h` on every group that is good in `h` keeps them good. -/
theorem orders_good_of_stable {D : Nat → List Nat} {N : Nat → String}
    {h h2 : Nat → PaletteGroup} {x : Nat}
    (hst : ∀ y, orders_good D N h y → h2 y = h y) (hg : orders_good D N h x) :
    orders_good D N h2 x :=
  orders_good_congr (fun z hz => hst z (orders_good_of_reaches hg hz)) hg

theorem orders_ok_of_mono {N : Nat → String} {h h2 : Nat → PaletteGroup} {z w : Nat}
    (hw : h2 w = h w)
    (hm : (h z)._dependency_order ≤ (h2 z)._dependency_order ∧
      (h z)._dirname_order ≤ (h2 z)._dirname_order)
    (hok : orders_ok N h z w) : orders_ok N h2 z w := by
  unfold orders_ok at *
  rw [hw]
  refine ⟨lt_of_lt_of_le hok.1 hm.1, ?_⟩
  have h2' := hok.2
  split_ifs at h2' ⊢
  · exact le_trans h2' hm.2
  · exact lt_of_lt_of_le h2' hm.2

theorem static_graph_order_against {D : Nat → List Nat} {N : Nat → String}
    {h : Nat → PaletteGroup} (hs : static_graph D N h) (g d : Nat) :
    static_graph D N (PaletteGroup.order_against h g d).1 := by
  intro x
  have := order_against_fields h g d x
  exact ⟨this.1.trans (hs x).1, this.2.1.trans (hs x).2⟩

/-- One round of the loop of `set_dependency_order`: the recursive call on dependency `d`
(which meets `OrderPost`), then the loop body, then the remaining rounds (which meet
`OrderLoopPost`). -/
theorem order_loop_step {D : Nat → List Nat} {N : Nat → String} {rank : Nat → Nat}
    (hacyc : ∀ a, ∀ b ∈ D a, rank b < rank a)
    {g d : Nat} {rest : List Nat} (hd : d ∈ D g)
    {h h1 h3 : Nat → PaletteGroup} {c c1 c3 : Bool}
    (hs : static_graph D N h)
    (p1 : OrderPost D N h d h1 c1)
    (p3 : OrderLoopPost D N g rest (PaletteGroup.order_against h1 g d).1
      (c || c1 || (PaletteGroup.order_against h1 g d).2) h3 c3) :
    OrderLoopPost D N g (d :: rest) h c h3 c3 := by
  have _ := hs
  have hdg : d ≠ g := fun e => by
    have := hacyc g d hd
    rw [e] at this
    exact lt_irrefl _ this
  have hng : ∀ z, reaches D d z → z ≠ g := fun z hz e => by
    have h1 := reaches_rank D rank hacyc d z hz
    have h2 := hacyc g d hd
    rw [e] at h1
    omega
  -- groups good in `h` are untouched by the first two steps
  have hA : ∀ y, orders_good D N h y → (PaletteGroup.order_against h1 g d).1 y = h y := by
    intro y hy
    by_cases hyg : y = g
    · subst hyg
      have hok : orders_ok N h y d := hy y Relation.ReflTransGen.refl d hd
      have hgd : orders_good D N h d :=
        orders_good_of_reaches hy (Relation.ReflTransGen.single hd)
      have hok1 : orders_ok N h1 y d :=
        orders_ok_congr (p1.stable y hy) (p1.stable d hgd) hok
      rw [order_against_of_ok N h1 y d hdg (fun x => (p1.static x).2) hok1]
      exact p1.stable y hy
    · rw [order_against_other h1 g d y hyg]
      exact p1.stable y hy
  have hgood2 : orders_good D N (PaletteGroup.order_against h1 g d).1 d :=
    orders_good_congr (fun z hz => order_against_other h1 g d z (hng z hz)) p1.good
  have hok2 : orders_ok N (PaletteGroup.order_against h1 g d).1 g d :=
    order_against_ok N h1 g d hdg (fun x => (p1.static x).2)
  refine ⟨p3.static, ?_, ?_, ?_, ?_, ?_, ?_, ?_⟩
  · intro x
    have a := p3.fields x
    have b := order_against_fields h1 g d x
    have e := p1.fields x
    exact ⟨a.1.trans (b.2.2.1.trans e.1), a.2.trans (b.2.2.2.trans e.2)⟩
  · intro x hxg hx
    rw [p3.frame x hxg (fun e he => hx e (List.mem_cons_of_mem _ he)),
      order_against_other h1 g d x hxg]
    exact p1.frame x (hx d (List.mem_cons_self _ _))
  · intro x hx
    rw [p3.stable x (orders_good_of_stable hA hx)]
    exact hA x hx
  · intro e he
    rcases List.mem_cons.mp he with he | he
    · subst he
      refine ⟨orders_good_of_stable p3.stable hgood2, ?_⟩
      exact orders_ok_of_mono
        (p3.stable e (orders_good_of_reaches hgood2 Relation.ReflTransGen.refl))
        (p3.mono g) hok2
    · exact p3.result e he
  · intro x
    have a := p1.mono x
    have b := order_against_mono h1 g d x hdg
    have e := p3.mono x
    exact ⟨le_trans a.1 (le_trans b.1 e.1), le_trans a.2 (le_trans b.2 e.2)⟩
  · intro hc3
    obtain ⟨e3, hflag⟩ := p3.unchanged hc3
    simp only [Bool.or_eq_false_iff] at hflag
    obtain ⟨⟨hc, hc1⟩, hc2⟩ := hflag
    refine ⟨?_, hc⟩
    rw [e3, order_against_unchanged h1 g d hdg hc2]
    exact p1.unchanged hc1
  · intro hg
    have hgd : orders_good D N h d :=
      orders_good_of_reaches hg (Relation.ReflTransGen.single hd)
    have hc1 : c1 = false := p1.settled hgd
    have e1 : h1 = h := p1.unchanged hc1
    have hok : orders_ok N h1 g d := by
      rw [e1]; exact hg g Relation.ReflTransGen.refl d hd
    have e2 := order_against_of_ok N h1 g d hdg (fun x => (p1.static x).2) hok
    have hg2 : orders_good D N (PaletteGroup.order_against h1 g d).1 g := by
      rw [e2, e1]; exact hg
    rw [p3.settled hg2, e2, hc1]
    simp

/-- The loop of `set_dependency_order` returns and meets `OrderLoopPost`, when each
recursive call on a dependency returns and meets `OrderPost`. -/
theorem order_loop_post {D : Nat → List Nat} {N : Nat → String} {rank : Nat → Nat}
    (hacyc : ∀ a, ∀ b ∈ D a, rank b < rank a)
    (recurse : (Nat → PaletteGroup) → Nat → Option ((Nat → PaletteGroup) × Bool))
    (g : Nat)
    (hrec : ∀ h d, static_graph D N h → d ∈ D g →
      ∃ h1 c1, recurse h d = some (h1, c1) ∧ OrderPost D N h d h1 c1)
    (l : List Nat) (hl : ∀ d ∈ l, d ∈ D g) (h : Nat → PaletteGroup) (c : Bool)
    (hs : static_graph D N h) :
    ∃ h3 c3, PaletteGroup.order_loop recurse g l h c = some (h3, c3) ∧
      OrderLoopPost D N g l h c h3 c3 := by
  induction l generalizing h c with
  | nil =>
    refine ⟨h, c, rfl, hs, fun _ => ⟨rfl, rfl⟩, fun _ _ _ => rfl, fun _ _ => rfl, ?_,
      fun _ => ⟨le_refl _, le_refl _⟩, fun hc => ⟨rfl, hc⟩, fun _ => rfl⟩
    intro d hd; cases hd
  | cons d rest ih =>
    have hd : d ∈ D g := hl d (List.mem_cons_self _ _)
    obtain ⟨h1, c1, e1, p1⟩ := hrec h d hs hd
    obtain ⟨h3, c3, e3, p3⟩ := ih (fun e he => hl e (List.mem_cons_of_mem _ he))
      (PaletteGroup.order_against h1 g d).1
      (c || c1 || (PaletteGroup.order_against h1 g d).2)
      (static_graph_order_against p1.static g d)
    refine ⟨h3, c3, ?_, order_loop_step hacyc hd hs p1 p3⟩
    unfold PaletteGroup.order_loop
    rw [e1]
    exact e3

/-- On an acyclic graph `set_dependency_order` returns, with any recursion bound above
the rank of the group, and meets `OrderPost`. -/
theorem set_dependency_order_post {D : Nat → List Nat} {N : Nat → String}
    {rank : Nat → Nat} (hacyc : ∀ a, ∀ b ∈ D a, rank b < rank a) (n : Nat) :
    ∀ (h : Nat → PaletteGroup) (g : Nat), static_graph D N h → rank g < n →
      ∃ h2 ch, PaletteGroup.set_dependency_order n h g = some (h2, ch) ∧
        OrderPost D N h g h2 ch := by
  induction n with
  | zero => intro h g _ hr; omega
  | succ n ih =>
    intro h g hs hr
    have hrec : ∀ h0 d, static_graph D N h0 → d ∈ D g →
        ∃ h1 c1, PaletteGroup.set_dependency_order n h0 d = some (h1, c1) ∧
          OrderPost D N h0 d h1 c1 := by
      intro h0 d hs0 hd
      exact ih h0 d hs0 (by have := hacyc g d hd; omega)
    obtain ⟨h3, c3, e3, p3⟩ := order_loop_post hacyc (PaletteGroup.set_dependency_order n) g
      hrec (D g) (fun _ hd => hd) h false hs
    refine ⟨h3, c3, ?_, p3.static, p3.fields, ?_, p3.stable, ?_, p3.mono, ?_, ?_⟩
    · unfold PaletteGroup.set_dependency_order
      rw [(hs g).1]
      exact e3
    · intro x hx
      apply p3.frame x
      · intro e; apply hx; rw [e]; exact Relation.ReflTransGen.refl
      · intro d hd hdx
        exact hx (Relation.ReflTransGen.head hd hdx)
    · intro z hz w hw
      rcases Relation.ReflTransGen.cases_head hz with e | ⟨d, hd, hdz⟩
      · subst e
        exact (p3.result w hw).2
      · exact (p3.result d hd).1 z hdz w hw
    · intro hc; exact (p3.unchanged hc).1
    · intro hg; exact p3.settled hg

theorem orders_good_descends {D : Nat → List Nat} {N : Nat → String}
    {h : Nat → PaletteGroup} {a b : Nat} (hg : orders_good D N h a)
    (hab : Relation.TransGen (fun x y => y ∈ D x) a b) :
    (h b)._dependency_order < (h a)._dependency_order ∧
      (h b)._dirname_order ≤ (h a)._dirname_order := by
  have step : ∀ z w, reaches D a z → w ∈ D z →
      (h w)._dependency_order < (h z)._dependency_order ∧
        (h w)._dirname_order ≤ (h z)._dirname_order := by
    intro z w hz hw
    have hok := hg z hz w hw
    unfold orders_ok at hok
    refine ⟨hok.1, ?_⟩
    have h2 := hok.2
    split_ifs at h2
    · exact h2
    · exact le_of_lt h2
  induction hab with
  | single hb => exact step a _ Relation.ReflTransGen.refl hb
  | tail hac hcb ih =>
    have s := step _ _ (Relation.TransGen.to_reflTransGen hac) hcb
    exact ⟨lt_trans s.1 ih.1, le_trans s.2 ih.2⟩

theorem static_graph_self (gs : Nat → PaletteGroup) :
    static_graph (fun x => (gs x)._dependent) (fun x => (gs x)._dirname) gs :=
  fun _ => ⟨rfl, rfl⟩

/-- With the orders of the dependency below `INT_MAX` (and `int` values), the loop body
in `int` arithmetic is the loop body without wrap-around. -/
theorem order_against_int_eq (h : Nat → PaletteGroup) (g d : Nat)
    (hlo : -2147483648 ≤ (h d)._dependency_order ∧ -2147483648 ≤ (h d)._dirname_order)
    (hhi : (h d)._dependency_order < 2147483647 ∧ (h d)._dirname_order < 2147483647)
    (hgd : d ≠ g) :
    PaletteGroup.order_against_int h g d = PaletteGroup.order_against h g d := by
  have e1 : wrap32 ((h d)._dependency_order + 1) = (h d)._dependency_order + 1 :=
    wrap32_of_range (by omega) (by omega)
  have e2 : wrap32 ((h d)._dirname_order + 1) = (h d)._dirname_order + 1 :=
    wrap32_of_range (by omega) (by omega)
  unfold PaletteGroup.order_against_int PaletteGroup.order_against
  by_cases h1 : (h g)._dependency_order ≤ (h d)._dependency_order <;>
    simp only [h1, if_true, if_false, Function.update_apply, if_neg hgd, e1, e2]

theorem order_against_below {rank : Nat → Nat} {M : Int} (h : Nat → PaletteGroup)
    (g d : Nat) (hgd : d ≠ g) (hr : rank d < rank g) (hb : orders_below rank M h) :
    orders_below rank M (PaletteGroup.order_against h g d).1 := by
  intro x
  rw [order_against_heap h g d hgd]
  by_cases hx : x = g
  · subst hx
    simp only [Function.update_same]
    have bx := hb x
    have bd := hb d
    constructor <;> split_ifs <;> omega
  · simp only [Function.update_apply, if_neg hx]
    exact hb x

theorem order_against_orders_int (h : Nat → PaletteGroup) (g d : Nat) (hgd : d ≠ g)
    (hi : orders_int h) : orders_int (PaletteGroup.order_against h g d).1 := by
  intro x
  have m := order_against_mono h g d x hgd
  have b := hi x
  exact ⟨le_trans b.1 m.1, le_trans b.2 m.2⟩

/-- The loop of `set_dependency_order` in `int` arithmetic is the loop without
wrap-around, and keeps the bounds, when the recursive calls do. -/
theorem order_loop_int_eq {D : Nat → List Nat} {N : Nat → String} {rank : Nat → Nat}
    (hacyc : ∀ a, ∀ b ∈ D a, rank b < rank a) {M : Int}
    (recurse recurse_int : (Nat → PaletteGroup) → Nat → Option ((Nat → PaletteGroup) × Bool))
    (g : Nat) (hMg : M + rank g ≤ 2147483647)
    (hrec : ∀ h d, static_graph D N h → d ∈ D g → orders_int h → orders_below rank M h →
      recurse_int h d = recurse h d ∧
      ∀ h1 c1, recurse h d = some (h1, c1) →
        static_graph D N h1 ∧ orders_int h1 ∧ orders_below rank M h1)
    (l : List Nat) (hl : ∀ d ∈ l, d ∈ D g) (h : Nat → PaletteGroup) (c : Bool)
    (hs : static_graph D N h) (hi : orders_int h) (hb : orders_below rank M h) :
    PaletteGroup.order_loop_int recurse_int g l h c = PaletteGroup.order_loop recurse g l h c ∧
    ∀ h3 c3, PaletteGroup.order_loop recurse g l h c = some (h3, c3) →
      static_graph D N h3 ∧ orders_int h3 ∧ orders_below rank M h3 := by
  induction l generalizing h c with
  | nil =>
    refine ⟨rfl, fun h3 c3 e => ?_⟩
    unfold PaletteGroup.order_loop at e
    cases e
    exact ⟨hs, hi, hb⟩
  | cons d rest ih =>
    have hd : d ∈ D g := hl d (List.mem_cons_self _ _)
    have hdg : d ≠ g := fun e => by
      have := hacyc g d hd
      rw [e] at this
      exact lt_irrefl _ this
    have hrk := hacyc g d hd
    obtain ⟨er, hpost⟩ := hrec h d hs hd hi hb
    unfold PaletteGroup.order_loop_int PaletteGroup.order_loop
    rw [er]
    cases hr : recurse h d with
    | none => exact ⟨rfl, fun h3 c3 e => by cases e⟩
    | some r =>
      obtain ⟨s1, i1, b1⟩ := hpost r.1 r.2 (by rw [hr])
      have ea : PaletteGroup.order_against_int r.1 g d = PaletteGroup.order_against r.1 g d :=
        order_against_int_eq r.1 g d (i1 d) (by
          have := b1 d
          constructor <;> omega) hdg
      simp only [ea]
      exact ih (fun e he => hl e (List.mem_cons_of_mem _ he)) _ _
        (static_graph_order_against s1 g d)
        (order_against_orders_int r.1 g d hdg i1)
        (order_against_below r.1 g d hdg hrk b1)

/-- As long as no order can reach `INT_MAX` (every order is an `int` and at most `M`
plus the rank of its group, with `M + rank g` at most `INT_MAX`),
`set_dependency_order` in `int` arithmetic is `set_dependency_order` without wrap-around,
and the groups it leaves meet the same bounds. -/
theorem set_dependency_order_int_eq {D : Nat → List Nat} {N : Nat → String}
    {rank : Nat → Nat} (hacyc : ∀ a, ∀ b ∈ D a, rank b < rank a) {M : Int} (n : Nat) :
    ∀ (h : Nat → PaletteGroup) (g : Nat), static_graph D N h → orders_int h →
      orders_below rank M h → M + rank g ≤ 2147483647 →
      PaletteGroup.set_dependency_order_int n h g = PaletteGroup.set_dependency_order n h g ∧
      ∀ h2 ch, PaletteGroup.set_dependency_order n h g = some (h2, ch) →
        static_graph D N h2 ∧ orders_int h2 ∧ orders_below rank M h2 := by
  induction n with
  | zero =>
    intro h g _ _ _ _
    refine ⟨rfl, fun h2 ch e => ?_⟩
    unfold PaletteGroup.set_dependency_order at e
    cases e
  | succ n ih =>
    intro h g hs hi hb hMg
    unfold PaletteGroup.set_dependency_order_int PaletteGroup.set_dependency_order
    rw [(hs g).1]
    exact order_loop_int_eq hacyc (PaletteGroup.set_dependency_order n)
      (PaletteGroup.set_dependency_order_int n) g hMg
      (fun h0 d hs0 hd hi0 hb0 => ih h0 d hs0 hi0 hb0 (by
        have := hacyc g d hd
        omega))
      (D g) (fun _ hd => hd) h false hs hi hb

/-- Orders that are `int` values of at most `INT_MAX - rank g` meet the bounds of
`set_dependency_order_int_eq` for the call on `g`. -/
theorem orders_below_of_bound (gs : Nat → PaletteGroup) (rank : Nat → Nat) (g : Nat)
    (hbound : ∀ x, (gs x)._dependency_order + rank g ≤ 2147483647 ∧
      (gs x)._dirname_order + rank g ≤ 2147483647) :
    orders_below rank (2147483647 - rank g) gs := by
  intro x
  have := hbound x
  constructor <;> omega

theorem overflow_acyclic : PaletteGroup.acyclic overflow_groups id := by
  intro a b hb
  match a, hb with
  | 0, hb => simp [overflow_groups, PaletteGroup.create] at hb
  | 1, hb =>
    simp [overflow_groups, PaletteGroup.create] at hb
    subst hb; decide
  | n + 2, hb => simp [overflow_groups, PaletteGroup.create] at hb

theorem overflow_depends : PaletteGroup.depends_on overflow_groups 1 0 :=
  Relation.TransGen.single (by simp [overflow_groups, PaletteGroup.create])

theorem overflow_run :
    PaletteGroup.set_dependency_order_int 2 overflow_groups 1 = some (overflow_settled, true) :=
  rfl

/-- C16, as stated, fails in the `int` arithmetic of the program: group 1 depends on
group 0, whose dependency order is `INT_MAX`; `set_dependency_order()` on group 1 returns
and leaves group 1 at `INT_MIN`, below group 0. -/
theorem C16_counterexample :
    PaletteGroup.acyclic overflow_groups id ∧
    PaletteGroup.depends_on overflow_groups 1 0 ∧
    PaletteGroup.set_dependency_order_int 2 overflow_groups 1 = some (overflow_settled, true) ∧
    (overflow_settled 0)._dependency_order = 2147483647 ∧
    (overflow_settled 1)._dependency_order = -2147483648 ∧
    ¬ (overflow_settled 1)._dependency_order > (overflow_settled 0)._dependency_order :=
  ⟨overflow_acyclic, overflow_depends, overflow_run, by decide, by decide, by decide⟩

/-- C16, amended. On an acyclic depends-on graph (`rank` falls along every dependency)
and from any initial order values that are `int` values of at most `INT_MAX - rank a`,
`a.set_dependency_order()` returns, and afterwards every group `b` that `a` depends on
(directly or transitively) satisfies
`a.get_dependency_order() > b.get_dependency_order()`. -/
theorem C16_dependency_order_above (gs : Nat → PaletteGroup) (rank : Nat → Nat)
    (hacyc : PaletteGroup.acyclic gs rank) (a n : Nat) (hn : rank a < n)
    (hint : orders_int gs)
    (hbound : ∀ x, (gs x)._dependency_order + rank a ≤ 2147483647 ∧
      (gs x)._dirname_order + rank a ≤ 2147483647) :
    ∃ gs2 ch, PaletteGroup.set_dependency_order_int n gs a = some (gs2, ch) ∧
      ∀ b, PaletteGroup.depends_on gs a b →
        (gs2 a)._dependency_order > (gs2 b)._dependency_order := by
  obtain ⟨gs2, ch, e, p⟩ := set_dependency_order_post hacyc n gs a (static_graph_self gs) hn
  have ht := (set_dependency_order_int_eq hacyc n gs a (static_graph_self gs) hint
    (orders_below_of_bound gs rank a hbound) (by omega)).1
  exact ⟨gs2, ch, ht.trans e, fun b hb => (orders_good_descends p.good hb).1⟩

/-- C15, as stated, fails in the `int` arithmetic of the program: group 1 depends on
group 0, whose dependency order is `INT_MAX`; after `set_dependency_order()` on group 1,
group 1 is not preferred over group 0, and group 0 is preferred over group 1. -/
theorem C15_counterexample :
    PaletteGroup.acyclic overflow_groups id ∧
    PaletteGroup.depends_on overflow_groups 1 0 ∧
    PaletteGroup.set_dependency_order_int 2 overflow_groups 1 = some (overflow_settled, true) ∧
    (overflow_settled 1).is_preferred_over (overflow_settled 0) = false ∧
    (overflow_settled 0).is_preferred_over (overflow_settled 1) = true :=
  ⟨overflow_acyclic, overflow_depends, overflow_run, by decide, by decide⟩

/-- C15, amended. Specificity: on an acyclic depends-on graph and from order values that
are `int` values of at most `INT_MAX - rank A`, `A.set_dependency_order()` returns, and
afterwards for every group `B` that `A` depends on directly or transitively,
`A.is_preferred_over(B)` is true and `B.is_preferred_over(A)` is false, whatever the egg
counts of `A` and `B`. -/
theorem C15_specificity (gs : Nat → PaletteGroup) (rank : Nat → Nat)
    (hacyc : PaletteGroup.acyclic gs rank) (a n : Nat) (hn : rank a < n)
    (hint : orders_int gs)
    (hbound : ∀ x, (gs x)._dependency_order + rank a ≤ 2147483647 ∧
      (gs x)._dirname_order + rank a ≤ 2147483647) :
    ∃ gs2 ch, PaletteGroup.set_dependency_order_int n gs a = some (gs2, ch) ∧
      ∀ b, PaletteGroup.depends_on gs a b →
        (gs2 a).is_preferred_over (gs2 b) = true ∧
        (gs2 b).is_preferred_over (gs2 a) = false := by
  obtain ⟨gs2, ch, e, p⟩ := set_dependency_order_post hacyc n gs a (static_graph_self gs) hn
  have ht := (set_dependency_order_int_eq hacyc n gs a (static_graph_self gs) hint
    (orders_below_of_bound gs rank a hbound) (by omega)).1
  refine ⟨gs2, ch, ht.trans e, fun b hb => ?_⟩
  obtain ⟨h1, h2⟩ := orders_good_descends p.good hb
  unfold PaletteGroup.is_preferred_over
  constructor
  · split_ifs with c1 c2
    · simp only [decide_eq_true_eq]; omega
    · simp only [decide_eq_true_eq]; omega
    · omega
  · split_ifs with c1 c2
    · simp only [decide_eq_false_iff_not]; omega
    · simp only [decide_eq_false_iff_not]; omega
    · omega

theorem split_dir_acyclic : PaletteGroup.acyclic split_dir_groups id := by
  intro a b hb
  match a, hb with
  | 0, hb => simp [split_dir_groups, PaletteGroup.create] at hb
  | 1, hb => simp [split_dir_groups, PaletteGroup.create] at hb
  | 2, hb =>
    simp [split_dir_groups, PaletteGroup.create] at hb
    rcases hb with rfl | rfl <;> simp
  | n + 3, hb => simp [split_dir_groups, PaletteGroup.create] at hb

theorem S4_acyclic : PaletteGroup.acyclic S4_groups S4_rank := by
  intro a b hb
  match a, hb with
  | 0, hb => simp [S4_groups, PaletteGroup.create] at hb
  | 1, hb =>
    simp [S4_groups, PaletteGroup.create] at hb
    subst hb; decide
  | 2, hb =>
    simp [S4_groups, PaletteGroup.create] at hb
    subst hb; decide
  | n + 3, hb => simp [S4_groups, PaletteGroup.create] at hb

theorem split_dir_orders_int : orders_int split_dir_groups := by
  intro x
  have h : (split_dir_groups x)._dependency_order = 0 ∧ (split_dir_groups x)._dirname_order = 0 := by
    match x with
    | 0 => exact ⟨rfl, rfl⟩
    | 1 => exact ⟨rfl, rfl⟩
    | 2 => exact ⟨rfl, rfl⟩
    | n + 3 => exact ⟨rfl, rfl⟩
  rw [h.1, h.2]
  exact ⟨by norm_num, by norm_num⟩

theorem split_dir_bound (k : Nat) (hk : (k : Int) ≤ 2147483647) :
    ∀ x, (split_dir_groups x)._dependency_order + k ≤ 2147483647 ∧
      (split_dir_groups x)._dirname_order + k ≤ 2147483647 := by
  intro x
  have h : (split_dir_groups x)._dependency_order = 0 ∧
      (split_dir_groups x)._dirname_order = 0 := by
    match x with
    | 0 => exact ⟨rfl, rfl⟩
    | 1 => exact ⟨rfl, rfl⟩
    | 2 => exact ⟨rfl, rfl⟩
    | n + 3 => exact ⟨rfl, rfl⟩
  rw [h.1, h.2]
  omega

theorem S4_orders_int : orders_int S4_groups := by
  intro x
  have h : (S4_groups x)._dependency_order = 0 ∧ (S4_groups x)._dirname_order = 0 := by
    match x with
    | 0 => exact ⟨rfl, rfl⟩
    | 1 => exact ⟨rfl, rfl⟩
    | 2 => exact ⟨rfl, rfl⟩
    | n + 3 => exact ⟨rfl, rfl⟩
  rw [h.1, h.2]
  exact ⟨by norm_num, by norm_num⟩

theorem S4_bound (k : Nat) (hk : (k : Int) ≤ 2147483647) :
    ∀ x, (S4_groups x)._dependency_order + k ≤ 2147483647 ∧
      (S4_groups x)._dirname_order + k ≤ 2147483647 := by
  intro x
  have h : (S4_groups x)._dependency_order = 0 ∧ (S4_groups x)._dirname_order = 0 := by
    match x with
    | 0 => exact ⟨rfl, rfl⟩
    | 1 => exact ⟨rfl, rfl⟩
    | 2 => exact ⟨rfl, rfl⟩
    | n + 3 => exact ⟨rfl, rfl⟩
  rw [h.1, h.2]
  omega

/-- Witness of the amended C16: three groups from reset orders, group 2 depending on
groups 0 and 1. -/
theorem C16_dependency_order_above_witness :
    PaletteGroup.acyclic split_dir_groups id ∧ id 2 < 3 ∧ orders_int split_dir_groups ∧
      ∃ gs2 ch, PaletteGroup.set_dependency_order_int 3 split_dir_groups 2 = some (gs2, ch) ∧
        ∀ b, PaletteGroup.depends_on split_dir_groups 2 b →
          (gs2 2)._dependency_order > (gs2 b)._dependency_order :=
  ⟨split_dir_acyclic, by decide, split_dir_orders_int,
    C16_dependency_order_above split_dir_groups id split_dir_acyclic 2 3 (by decide)
      split_dir_orders_int (split_dir_bound 2 (by decide))⟩

/-- Witness of the amended C15 on scenario S4. -/
theorem C15_specificity_witness :
    PaletteGroup.acyclic S4_groups S4_rank ∧ S4_rank 1 < 2 ∧ orders_int S4_groups ∧
      ∃ gs2 ch, PaletteGroup.set_dependency_order_int 2 S4_groups 1 = some (gs2, ch) ∧
        ∀ b, PaletteGroup.depends_on S4_groups 1 b →
          (gs2 1).is_preferred_over (gs2 b) = true ∧
          (gs2 b).is_preferred_over (gs2 1) = false :=
  ⟨S4_acyclic, by decide, S4_orders_int,
    C15_specificity S4_groups S4_rank S4_acyclic 1 2 (by decide) S4_orders_int
      (S4_bound 1 (by decide))⟩

theorem order_fixed_point_ok {gs : Nat → PaletteGroup} {rank : Nat → Nat}
    (hacyc : PaletteGroup.acyclic gs rank) (hfix : PaletteGroup.order_fixed_point gs rank)
    (a b : Nat) (hb : b ∈ (gs a)._dependent) :
    orders_ok (fun x => (gs x)._dirname) gs a b := by
  obtain ⟨gs2, ch, e, p⟩ :=
    set_dependency_order_post hacyc (rank a + 1) gs a (static_graph_self gs) (Nat.lt_succ_self _)
  have e2 := hfix a
  rw [e] at e2
  injection e2 with e3
  injection e3 with e4 e5
  subst e4
  exact p.good a Relation.ReflTransGen.refl b hb

/-- C17 (amended). On an acyclic depends-on graph, at a fixed point of
`set_dependency_order()` (calling it on any group changes nothing and returns false),
every direct dependency `b` of a group `a` satisfies: if `a` and `b` have the same
dirname, `a`'s dirname order is at least `b`'s (equal or higher); if their dirnames
differ, `a`'s dirname order is strictly greater than `b`'s. -/
theorem C17_dirname_order_fixed_point (gs : Nat → PaletteGroup) (rank : Nat → Nat)
    (hacyc : PaletteGroup.acyclic gs rank) (hfix : PaletteGroup.order_fixed_point gs rank)
    (a b : Nat) (hb : b ∈ (gs a)._dependent) :
    ((gs a)._dirname = (gs b)._dirname → (gs a)._dirname_order ≥ (gs b)._dirname_order) ∧
      ((gs a)._dirname ≠ (gs b)._dirname → (gs a)._dirname_order > (gs b)._dirname_order) := by
  have hok := (order_fixed_point_ok hacyc hfix a b hb).2
  constructor
  · intro hd
    simp only [hd, if_true] at hok
    exact hok
  · intro hd
    simp only [hd, if_false] at hok
    exact hok

theorem order_fixed_point_of_good {gs : Nat → PaletteGroup} {rank : Nat → Nat}
    (hacyc : PaletteGroup.acyclic gs rank)
    (hgood : ∀ g, orders_good (fun x => (gs x)._dependent) (fun x => (gs x)._dirname) gs g) :
    PaletteGroup.order_fixed_point gs rank := by
  intro g
  obtain ⟨gs2, ch, e, p⟩ :=
    set_dependency_order_post hacyc (rank g + 1) gs g (static_graph_self gs) (Nat.lt_succ_self _)
  have hc := p.settled (hgood g)
  have hh := p.unchanged hc
  rw [e, hh, hc]

theorem split_dir_run :
    PaletteGroup.set_dependency_order 3 split_dir_groups 2 = some (split_dir_settled, true) := by
  rfl

theorem split_dir_settled_static (x : Nat) :
    (split_dir_settled x)._dependent = (split_dir_groups x)._dependent ∧
      (split_dir_settled x)._dirname = (split_dir_groups x)._dirname := by
  obtain ⟨gs2, ch, e, p⟩ := set_dependency_order_post split_dir_acyclic 3 split_dir_groups 2
    (static_graph_self split_dir_groups) (by decide)
  rw [split_dir_run] at e
  injection e with e
  injection e with e1 e2
  subst e1
  exact p.static x

theorem split_dir_settled_acyclic : PaletteGroup.acyclic split_dir_settled id := by
  intro a b hb
  rw [(split_dir_settled_static a).1] at hb
  exact split_dir_acyclic a b hb

theorem split_dir_settled_fixed : PaletteGroup.order_fixed_point split_dir_settled id := by
  apply order_fixed_point_of_good split_dir_settled_acyclic
  have hD : (fun x => (split_dir_settled x)._dependent)
      = (fun x => (split_dir_groups x)._dependent) :=
    funext fun x => (split_dir_settled_static x).1
  have hN : (fun x => (split_dir_settled x)._dirname)
      = (fun x => (split_dir_groups x)._dirname) :=
    funext fun x => (split_dir_settled_static x).2
  rw [hD, hN]
  obtain ⟨gs2, ch, e, p⟩ := set_dependency_order_post split_dir_acyclic 3 split_dir_groups 2
    (static_graph_self split_dir_groups) (by decide)
  rw [split_dir_run] at e
  injection e with e
  injection e with e1 e2
  subst e1
  intro g
  by_cases hg : g = 2
  · subst hg; exact p.good
  · have hnil : (split_dir_groups g)._dependent = [] := by
      match g, hg with
      | 0, _ => rfl
      | 1, _ => rfl
      | 2, hg => exact absurd rfl hg
      | n + 3, _ => rfl
    intro z hz w hw
    cases hz using Relation.ReflTransGen.head_induction_on with
    | refl => simp only [hnil] at hw; simp at hw
    | head hgc _ => simp only [hnil] at hgc; simp at hgc

/-- C17 (counterexample). Group 2 (directory "x") depends on group 0 (directory "x") and
on group 1 (directory "y"). From reset orders, `set_dependency_order()` on group 2 yields
a fixed point in which group 2 and its same-directory dependency 0 have different
dirname orders (1 and 0). -/
theorem C17_counterexample :
    PaletteGroup.orders_reset split_dir_groups ∧
    PaletteGroup.set_dependency_order 3 split_dir_groups 2 = some (split_dir_settled, true) ∧
    PaletteGroup.acyclic split_dir_settled id ∧
    PaletteGroup.order_fixed_point split_dir_settled id ∧
    0 ∈ (split_dir_settled 2)._dependent ∧
    (split_dir_settled 2)._dirname = (split_dir_settled 0)._dirname ∧
    (split_dir_settled 2)._dirname_order = 1 ∧
    (split_dir_settled 0)._dirname_order = 0 := by
  refine ⟨?_, split_dir_run, split_dir_settled_acyclic, split_dir_settled_fixed,
    ?_, ?_, ?_, ?_⟩
  · intro g
    match g with
    | 0 => exact ⟨rfl, rfl⟩
    | 1 => exact ⟨rfl, rfl⟩
    | 2 => exact ⟨rfl, rfl⟩
    | n + 3 => exact ⟨rfl, rfl⟩
  · decide
  · decide
  · decide
  · decide

theorem C17_dirname_order_fixed_point_witness :
    PaletteGroup.acyclic split_dir_settled id ∧
    PaletteGroup.order_fixed_point split_dir_settled id ∧
    1 ∈ (split_dir_settled 2)._dependent ∧
    (((split_dir_settled 2)._dirname = (split_dir_settled 1)._dirname →
        (split_dir_settled 2)._dirname_order ≥ (split_dir_settled 1)._dirname_order) ∧
      ((split_dir_settled 2)._dirname ≠ (split_dir_settled 1)._dirname →
        (split_dir_settled 2)._dirname_order > (split_dir_settled 1)._dirname_order)) :=
  ⟨split_dir_settled_acyclic, split_dir_settled_fixed, by decide,
    C17_dirname_order_fixed_point split_dir_settled id split_dir_settled_acyclic
      split_dir_settled_fixed 2 1 (by decide)⟩

/-- A call of `set_dependency_order` on a group `g` whose only dependency is `d`, of the
same directory, with `g` at reset orders: `g` ends one dependency order above `d` and at
the dirname order of `d`. -/
theorem set_dependency_order_single {D : Nat → List Nat} {N : Nat → String}
    {rank : Nat → Nat} (hacyc : ∀ a, ∀ b ∈ D a, rank b < rank a)
    (h : Nat → PaletteGroup) (g d n : Nat) (hst : static_graph D N h)
    (hD : D g = [d]) (hN : N g = N d) (hn : rank g < n)
    (h0 : (h g)._dependency_order = 0 ∧ (h g)._dirname_order = 0)
    (hpos : 0 ≤ (h d)._dependency_order ∧ 0 ≤ (h d)._dirname_order) :
    ∃ h1 c1 ch, OrderPost D N h d h1 c1 ∧
      PaletteGroup.set_dependency_order n h g
        = some ((PaletteGroup.order_against h1 g d).1, ch) ∧
      ((PaletteGroup.order_against h1 g d).1 g)._dependency_order
        = (h1 d)._dependency_order + 1 ∧
      ((PaletteGroup.order_against h1 g d).1 g)._dirname_order = (h1 d)._dirname_order := by
  have hdg : rank d < rank g := hacyc g d (by rw [hD]; exact List.mem_singleton_self d)
  have hne : d ≠ g := by
    intro e; rw [e] at hdg; exact lt_irrefl _ hdg
  cases n with
  | zero => omega
  | succ m =>
    obtain ⟨h1, c1, e1, p1⟩ := set_dependency_order_post hacyc m h d hst (by omega)
    have hnr : ¬ reaches D d g := fun hr => by
      have := reaches_rank D rank hacyc d g hr
      omega
    have hg1 : h1 g = h g := p1.frame g hnr
    have hm := p1.mono d
    have hdir : (h1 g)._dirname = (h1 d)._dirname := by
      rw [(p1.static g).2, (p1.static d).2, hN]
    refine ⟨h1, c1, (false || c1 || (PaletteGroup.order_against h1 g d).2), p1, ?_, ?_, ?_⟩
    · have hdep : (h g)._dependent = [d] := by rw [(hst g).1, hD]
      simp only [PaletteGroup.set_dependency_order, hdep, PaletteGroup.order_loop, e1]
    · rw [order_against_heap h1 g d hne]
      simp only [Function.update_same]
      rw [hg1, h0.1]
      rw [if_pos (by omega)]
    · rw [order_against_heap h1 g d hne]
      simp only [Function.update_same]
      rw [if_pos hdir, hg1, h0.2]
      split_ifs <;> omega

/-- C14. Two distinct groups `A` and `B` each depend only on one common base group `C`,
all three with the same directory name, on an acyclic graph with all orders reset. Then
`set_dependency_order()` on `A` and then on `B` both return, and afterwards `A` and `B`
have the same dependency order and the same dirname order, so `is_preferred_over` between
them is decided by the lower egg count. -/
theorem C14_siblings_tie_break (gs : Nat → PaletteGroup) (rank : Nat → Nat)
    (hacyc : PaletteGroup.acyclic gs rank) (A B C n1 n2 : Nat) (hAB : A ≠ B)
    (hA : (gs A)._dependent = [C]) (hB : (gs B)._dependent = [C])
    (hdA : (gs A)._dirname = (gs C)._dirname) (hdB : (gs B)._dirname = (gs C)._dirname)
    (hreset : PaletteGroup.orders_reset gs) (hn1 : rank A < n1) (hn2 : rank B < n2) :
    ∃ gs1 ch1 gs2 ch2,
      PaletteGroup.set_dependency_order n1 gs A = some (gs1, ch1) ∧
      PaletteGroup.set_dependency_order n2 gs1 B = some (gs2, ch2) ∧
      (gs2 A)._dependency_order = (gs2 B)._dependency_order ∧
      (gs2 A)._dirname_order = (gs2 B)._dirname_order ∧
      (gs2 A)._egg_count = (gs A)._egg_count ∧
      (gs2 B)._egg_count = (gs B)._egg_count ∧
      (gs2 A).is_preferred_over (gs2 B) = decide ((gs A)._egg_count < (gs B)._egg_count) ∧
      (gs2 B).is_preferred_over (gs2 A) = decide ((gs B)._egg_count < (gs A)._egg_count) := by
  have hCA : rank C < rank A := hacyc A C (by rw [hA]; exact List.mem_singleton_self C)
  have hCB : rank C < rank B := hacyc B C (by rw [hB]; exact List.mem_singleton_self C)
  have hnA : ∀ z, reaches (fun x => (gs x)._dependent) C z → z ≠ A := fun z hz e => by
    have := reaches_rank _ rank hacyc C z hz
    rw [e] at this; omega
  have hnB : ∀ z, reaches (fun x => (gs x)._dependent) C z → z ≠ B := fun z hz e => by
    have := reaches_rank _ rank hacyc C z hz
    rw [e] at this; omega
  obtain ⟨h1, c1, ch1, p1, e1, v1, w1⟩ :=
    set_dependency_order_single hacyc gs A C n1 (static_graph_self gs) hA hdA hn1
      (hreset A) ⟨le_of_eq (hreset C).1.symm, le_of_eq (hreset C).2.symm⟩
  have hst1 := static_graph_order_against p1.static A C
  have hB1 : (PaletteGroup.order_against h1 A C).1 B = gs B := by
    rw [order_against_other h1 A C B (Ne.symm hAB)]
    exact p1.frame B (fun hr => hnB B hr rfl)
  have hC1 : (PaletteGroup.order_against h1 A C).1 C = h1 C :=
    order_against_other h1 A C C (hnA C Relation.ReflTransGen.refl)
  have hm1 := p1.mono C
  obtain ⟨h2, c2, ch2, p2, e2, v2, w2⟩ :=
    set_dependency_order_single hacyc (PaletteGroup.order_against h1 A C).1 B C n2 hst1
      hB hdB hn2 (by rw [hB1]; exact hreset B)
      (by rw [hC1]; have := hreset C; constructor <;> omega)
  have hgood : orders_good (fun x => (gs x)._dependent) (fun x => (gs x)._dirname)
      (PaletteGroup.order_against h1 A C).1 C :=
    orders_good_congr (fun z hz => order_against_other h1 A C z (hnA z hz)) p1.good
  have hC2 : h2 C = h1 C := (p2.stable C hgood).trans hC1
  have hA2 : (PaletteGroup.order_against h2 B C).1 A = (PaletteGroup.order_against h1 A C).1 A := by
    rw [order_against_other h2 B C A hAB]
    exact p2.frame A (fun hr => hnA A hr rfl)
  have hord : ((PaletteGroup.order_against h2 B C).1 A)._dependency_order
      = ((PaletteGroup.order_against h2 B C).1 B)._dependency_order := by
    rw [hA2, v1, v2, hC2]
  have hdir : ((PaletteGroup.order_against h2 B C).1 A)._dirname_order
      = ((PaletteGroup.order_against h2 B C).1 B)._dirname_order := by
    rw [hA2, w1, w2, hC2]
  have heA : ((PaletteGroup.order_against h2 B C).1 A)._egg_count = (gs A)._egg_count := by
    rw [hA2, (order_against_fields h1 A C A).2.2.1]
    exact (p1.fields A).1
  have heB : ((PaletteGroup.order_against h2 B C).1 B)._egg_count = (gs B)._egg_count := by
    rw [(order_against_fields h2 B C B).2.2.1, (p2.fields B).1, hB1]
  refine ⟨_, ch1, _, ch2, e1, e2, hord, hdir, heA, heB, ?_, ?_⟩
  · unfold PaletteGroup.is_preferred_over
    rw [if_neg (not_not.mpr hdir), if_neg (not_not.mpr hord), heA, heB]
  · unfold PaletteGroup.is_preferred_over
    rw [if_neg (not_not.mpr hdir.symm), if_neg (not_not.mpr hord.symm), heA, heB]

theorem S4_orders_reset : PaletteGroup.orders_reset S4_groups := by
  intro g
  match g with
  | 0 => exact ⟨rfl, rfl⟩
  | 1 => exact ⟨rfl, rfl⟩
  | 2 => exact ⟨rfl, rfl⟩
  | n + 3 => exact ⟨rfl, rfl⟩

theorem C14_siblings_tie_break_witness :
    PaletteGroup.acyclic S4_groups S4_rank ∧
    PaletteGroup.orders_reset S4_groups ∧
    PaletteGroup.set_dependency_order 2 S4_groups 1 = some (S4_after_world, true) ∧
    PaletteGroup.set_dependency_order 2 S4_after_world 2 = some (S4_settled, true) ∧
    (S4_settled 2).is_preferred_over (S4_settled 1) = true ∧
    (S4_settled 1).is_preferred_over (S4_settled 2) = false ∧
    ∃ gs1 ch1 gs2 ch2,
      PaletteGroup.set_dependency_order 2 S4_groups 1 = some (gs1, ch1) ∧
      PaletteGroup.set_dependency_order 2 gs1 2 = some (gs2, ch2) ∧
      (gs2 1)._dependency_order = (gs2 2)._dependency_order ∧
      (gs2 1)._dirname_order = (gs2 2)._dirname_order ∧
      (gs2 1)._egg_count = (S4_groups 1)._egg_count ∧
      (gs2 2)._egg_count = (S4_groups 2)._egg_count ∧
      (gs2 1).is_preferred_over (gs2 2)
        = decide ((S4_groups 1)._egg_count < (S4_groups 2)._egg_count) ∧
      (gs2 2).is_preferred_over (gs2 1)
        = decide ((S4_groups 2)._egg_count < (S4_groups 1)._egg_count) :=
  ⟨S4_acyclic, S4_orders_reset, rfl, rfl, by decide, by decide,
    C14_siblings_tie_break S4_groups S4_rank S4_acyclic 1 2 0 2 2 (by decide) rfl rfl rfl rfl
      S4_orders_reset (by decide) (by decide)⟩

/-! ## Solitary marks, search termination and resizing -/

theorem not_solitary_each_other (l : List Nat) (w : Heap) (q : Nat) (hq : q ∉ l) :
    (PaletteImage.not_solitary_each w l).placements q = w.placements q := by
  induction l generalizing w with
  | nil => rfl
  | cons p l ih =>
    unfold PaletteImage.not_solitary_each
    have hqp : q ≠ p := fun e => hq (by rw [e]; exact List.mem_cons_self _ _)
    have hql : q ∉ l := fun e => hq (List.mem_cons_of_mem _ e)
    split_ifs
    · rw [ih _ hql]
      simp [Heap.set_placement, Function.update_apply, hqp]
    · rfl

theorem not_solitary_each_images (l : List Nat) (w : Heap) :
    (PaletteImage.not_solitary_each w l).images = w.images := by
  induction l generalizing w with
  | nil => rfl
  | cons p l ih =>
    unfold PaletteImage.not_solitary_each
    split_ifs
    · rw [ih]; rfl
    · rfl

/-- After the loop over `l`, every placement of `l` that is placed and whose omit reason
was `none` or `solitary` has omit reason `none`, provided all of `l` met the assertion. -/
theorem not_solitary_each_none (l : List Nat) (w : Heap)
    (hall : ∀ p ∈ l, (w.placements p)._image ≠ none ∧
      ((w.placements p)._omit_reason = OmitReason.OR_none ∨
        (w.placements p)._omit_reason = OmitReason.OR_solitary)) :
    ∀ p ∈ l, ((PaletteImage.not_solitary_each w l).placements p)._omit_reason
        = OmitReason.OR_none ∧
      ((PaletteImage.not_solitary_each w l).placements p)._image = (w.placements p)._image ∧
      ((PaletteImage.not_solitary_each w l).placements p)._placed = (w.placements p)._placed := by
  induction l generalizing w with
  | nil => intro p hp; cases hp
  | cons q l ih =>
    intro p hp
    have hq := hall q (List.mem_cons_self _ _)
    have hplaced : (w.placements q).is_placed = true := by
      unfold TexturePlacement.is_placed
      cases h : (w.placements q)._image with
      | none => exact absurd h hq.1
      | some _ => rfl
    unfold PaletteImage.not_solitary_each
    rw [if_pos hq.2]
    have hw1 : ∀ r, ((w.set_placement q (w.placements q).not_solitary).placements r)
        = if r = q then { w.placements q with _omit_reason := OmitReason.OR_none }
          else w.placements r := by
      intro r
      simp [Heap.set_placement, Function.update_apply, TexturePlacement.not_solitary, hplaced]
    have hall1 : ∀ r ∈ l,
        ((w.set_placement q (w.placements q).not_solitary).placements r)._image ≠ none ∧
        (((w.set_placement q (w.placements q).not_solitary).placements r)._omit_reason
            = OmitReason.OR_none ∨
          ((w.set_placement q (w.placements q).not_solitary).placements r)._omit_reason
            = OmitReason.OR_solitary) := by
      intro r hr
      rw [hw1]
      have := hall r (List.mem_cons_of_mem _ hr)
      split_ifs with e
      · subst e; exact ⟨hq.1, Or.inl rfl⟩
      · exact this
    by_cases hpl : p ∈ l
    · have := ih _ hall1 p hpl
      rw [hw1] at this
      split_ifs at this with e
      · subst e; exact this
      · exact this
    · have hpq : p = q := by
        rcases List.mem_cons.mp hp with e | e
        · exact e
        · exact absurd e hpl
      subst hpq
      rw [not_solitary_each_other l _ p hpl, hw1, if_pos rfl]
      exact ⟨rfl, rfl, rfl⟩

/-- C21 (counterexample). With omit_solitary disabled, `check_solitary` on the S1 atlas,
whose single placement is flagged solitary on entry, leaves that placement flagged
solitary. -/
theorem C21_counterexample :
    pal_keep_solitary._omit_solitary = false ∧
    (S1_solitary.images 0)._placements = [0] ∧
    (S1_solitary.placements 0)._omit_reason = OmitReason.OR_solitary ∧
    ((PaletteImage.check_solitary pal_keep_solitary S1_solitary 0).placements 0)._omit_reason
      = OmitReason.OR_solitary ∧
    ((PaletteImage.check_solitary pal_keep_solitary S1_solitary 0).placements 0)._omit_reason
      ≠ OmitReason.OR_none := by
  decide

/-- C21 (amended). With omit_solitary disabled, `check_solitary` clears the solitary marks
of an atlas that holds no placement or more than one (each being placed, with omit reason
`none` or `solitary`): every placement on it has omit reason `none` afterwards, in its
place. On an atlas that holds exactly one placement that placement keeps its omit reason,
so a mark from an earlier pass stays. -/
theorem C21_check_solitary_clears (pal : Palettizer) (w : Heap) (a : Nat)
    (hoff : pal._omit_solitary = false) :
    ((w.images a)._placements.length ≠ 1 →
      (∀ p ∈ (w.images a)._placements, (w.placements p)._image ≠ none ∧
        ((w.placements p)._omit_reason = OmitReason.OR_none ∨
          (w.placements p)._omit_reason = OmitReason.OR_solitary)) →
      ∀ p ∈ (w.images a)._placements,
        ((PaletteImage.check_solitary pal w a).placements p)._omit_reason = OmitReason.OR_none ∧
        ((PaletteImage.check_solitary pal w a).placements p)._image = (w.placements p)._image ∧
        ((PaletteImage.check_solitary pal w a).placements p)._placed
          = (w.placements p)._placed) ∧
    ((w.images a)._placements.length = 1 →
      ∀ p, ((PaletteImage.check_solitary pal w a).placements p)._omit_reason
        = (w.placements p)._omit_reason) := by
  constructor
  · intro hlen hall p hp
    unfold PaletteImage.check_solitary
    rw [if_neg hlen]
    exact not_solitary_each_none _ w hall p hp
  · intro hlen p
    unfold PaletteImage.check_solitary
    rw [if_pos hlen]
    cases hl : (w.images a)._placements with
    | nil => rfl
    | cons q rest =>
      simp only
      split_ifs with h1 h2
      · have hsol : (w.placements q)._omit_reason = OmitReason.OR_solitary := by
          rcases h2 with h2 | h2
          · rw [hoff] at h2; cases h2
          · exact h2
        by_cases hpq : p = q
        · subst hpq
          simp only [Heap.set_placement, Function.update_same, TexturePlacement.omit_solitary]
          split_ifs
          · exact hsol.symm
          · rfl
        · simp [Heap.set_placement, Function.update_apply, hpq]
      · rfl
      · rfl

theorem C21_check_solitary_clears_witness :
    pal_keep_solitary._omit_solitary = false ∧
    (S1_solitary_joined.images 0)._placements = [0, 1] ∧
    (S1_solitary_joined.placements 0)._omit_reason = OmitReason.OR_solitary ∧
    ∀ p ∈ (S1_solitary_joined.images 0)._placements,
      ((PaletteImage.check_solitary pal_keep_solitary S1_solitary_joined 0).placements p)._omit_reason
        = OmitReason.OR_none ∧
      ((PaletteImage.check_solitary pal_keep_solitary S1_solitary_joined 0).placements p)._image
        = (S1_solitary_joined.placements p)._image ∧
      ((PaletteImage.check_solitary pal_keep_solitary S1_solitary_joined 0).placements p)._placed
        = (S1_solitary_joined.placements p)._placed :=
  ⟨rfl, by decide, by decide,
    (C21_check_solitary_clears pal_keep_solitary S1_solitary_joined 0 rfl).1
      (by decide) (by decide)⟩

/-- The placement `find_overlap` returns is listed, placed and intersects the rectangle. -/
theorem find_overlap_some (ps : Nat → TexturePlacement) (img : PaletteImage)
    (x y x_size y_size : Int) (o : Nat)
    (h : PaletteImage.find_overlap ps img x y x_size y_size = some o) :
    o ∈ img._placements ∧ (ps o).is_placed = true ∧
      (ps o).intersects x y x_size y_size = true := by
  unfold PaletteImage.find_overlap at h
  have h1 := List.find?_some h
  have h2 := List.mem_of_find?_eq_some h
  simp only [Bool.and_eq_true] at h1
  exact ⟨h2, h1.1, h1.2⟩

/-- An inner step of `find_hole` moves right and its row bound stays below the overlap:
the placement found has its right edge beyond `x` and its bottom edge beyond `y`. -/
theorem find_overlap_next (ps : Nat → TexturePlacement) (img : PaletteImage)
    (x y x_size y_size : Int) (o : Nat)
    (h : PaletteImage.find_overlap ps img x y x_size y_size = some o) :
    (ps o).get_placed_x + (ps o).get_placed_x_size > x ∧
      (ps o).get_placed_y + (ps o).get_placed_y_size > y := by
  obtain ⟨_, hp, hi⟩ := find_overlap_some ps img x y x_size y_size o h
  have hi2 := (intersects_iff _ _ _ _ _).mp hi
  simp only [TexturePlacement.get_placed_x, TexturePlacement.get_placed_x_size,
    TexturePlacement.get_placed_y, TexturePlacement.get_placed_y_size, hp, if_true]
  omega

/-- The assertion `next_x > x` of `find_hole` never fails, and a row that ends hands on a
`next_y` beyond `y` when it was entered with one. -/
theorem find_hole_row_steps (ps : Nat → TexturePlacement) (img : PaletteImage)
    (y x_size y_size : Int) (fuel : Nat) (x next_y : Int) (hny : next_y > y) :
    PaletteImage.find_hole_row ps img y x_size y_size fuel x next_y ≠ RowScan.assert_failed ∧
      ∀ ny, PaletteImage.find_hole_row ps img y x_size y_size fuel x next_y
        = RowScan.row_end ny → ny > y := by
  induction fuel generalizing x next_y with
  | zero =>
    unfold PaletteImage.find_hole_row
    exact ⟨fun hc => (by cases hc), fun ny hc => (by cases hc)⟩
  | succ n ih =>
    unfold PaletteImage.find_hole_row
    split
    · split
      · exact ⟨fun hc => (by cases hc), fun ny hc => (by cases hc)⟩
      · next o ho =>
        have hn := find_overlap_next ps img x y x_size y_size o ho
        simp only
        rw [if_pos hn.1]
        exact ih _ _ (lt_min hny hn.2)
    · refine ⟨fun hc => (by cases hc), fun ny hc => ?_⟩
      injection hc with hc
      rw [← hc]; exact hny

/-- The assertion `next_y > y` of `find_hole` never fails when the requested height is
positive. -/
theorem find_hole_rows_steps (ps : Nat → TexturePlacement) (img : PaletteImage)
    (x_size y_size : Int) (hh : 0 < y_size) (fuel : Nat) (y : Int) :
    PaletteImage.find_hole_rows ps img x_size y_size fuel y ≠ HoleScan.assert_failed := by
  induction fuel generalizing y with
  | zero => unfold PaletteImage.find_hole_rows; intro hc; cases hc
  | succ n ih =>
    unfold PaletteImage.find_hole_rows
    split
    · next hy =>
      have hrow := find_hole_row_steps ps img y x_size y_size
        (PaletteImage.row_fuel img x_size) 0 img._y_size (by omega)
      split
      · intro hc; cases hc
      · next ny hr =>
        rw [if_pos (hrow.2 ny hr)]
        exact ih _
      · next hr => exact absurd hr hrow.1
      · intro hc; cases hc
    · intro hc; cases hc

/-- C26. `PaletteImage::find_hole` terminates for every atlas and every requested size
with `h > 0` (so for every `w > 0`, `h > 0`): the search ends by finding a hole or by
finding none, within the loop bounds `_x_size - w + 2` per row and `_y_size - h + 2` rows,
and neither assertion fails; each inner step strictly increases `x` (`next_x > x`) and
each outer step strictly increases `y` (`next_y > y`). -/
theorem C26_find_hole_terminates (ps : Nat → TexturePlacement) (img : PaletteImage)
    (x_size y_size : Int) (hh : 0 < y_size) :
    ((∃ x y, PaletteImage.find_hole_scan ps img x_size y_size = HoleScan.found x y) ∨
      PaletteImage.find_hole_scan ps img x_size y_size = HoleScan.full) ∧
    (∀ x y o, PaletteImage.find_overlap ps img x y x_size y_size = some o →
      (ps o).get_placed_x + (ps o).get_placed_x_size > x) ∧
    (∀ y fuel x ny, y + y_size ≤ img._y_size →
      PaletteImage.find_hole_row ps img y x_size y_size fuel x img._y_size
        = RowScan.row_end ny → ny > y) := by
  refine ⟨?_, fun x y o h => (find_overlap_next ps img x y x_size y_size o h).1, ?_⟩
  · have h1 := find_hole_scan_fuel ps img x_size y_size
    have h2 : PaletteImage.find_hole_scan ps img x_size y_size ≠ HoleScan.assert_failed :=
      find_hole_rows_steps ps img x_size y_size hh _ 0
    cases hs : PaletteImage.find_hole_scan ps img x_size y_size with
    | found x y => exact Or.inl ⟨x, y, rfl⟩
    | full => exact Or.inr rfl
    | assert_failed => exact absurd hs h2
    | out_of_fuel => exact absurd hs h1
  · intro y fuel x ny hy hr
    exact (find_hole_row_steps ps img y x_size y_size fuel x img._y_size (by omega)).2 ny hr

theorem C26_find_hole_terminates_witness :
    (0 : Int) < 32 ∧
    ((∃ x y, PaletteImage.find_hole_scan S2_two_placed.placements (S2_two_placed.images 0) 32 32
        = HoleScan.found x y) ∨
      PaletteImage.find_hole_scan S2_two_placed.placements (S2_two_placed.images 0) 32 32
        = HoleScan.full) ∧
    (∀ x y o, PaletteImage.find_overlap S2_two_placed.placements (S2_two_placed.images 0)
        x y 32 32 = some o →
      (S2_two_placed.placements o).get_placed_x + (S2_two_placed.placements o).get_placed_x_size
        > x) ∧
    (∀ y fuel x ny, y + 32 ≤ (S2_two_placed.images 0)._y_size →
      PaletteImage.find_hole_row S2_two_placed.placements (S2_two_placed.images 0) y 32 32
        fuel x (S2_two_placed.images 0)._y_size = RowScan.row_end ny → ny > y) :=
  ⟨by decide, C26_find_hole_terminates S2_two_placed.placements (S2_two_placed.images 0)
    32 32 (by decide)⟩

theorem place_size (w : Heap) (a p b : Nat) :
    ((PaletteImage.place w a p).1.images b)._x_size = (w.images b)._x_size ∧
      ((PaletteImage.place w a p).1.images b)._y_size = (w.images b)._y_size := by
  rcases place_cases w a p with h | h | ⟨x, y, _, _, _, h⟩
  · rw [h]; exact ⟨rfl, rfl⟩
  · rw [h]; exact ⟨rfl, rfl⟩
  · rw [h]
    by_cases hb : b = a
    · subst hb; simp [Heap.set_image, Heap.set_placement]
    · simp [Heap.set_image, Heap.set_placement, Function.update_apply, hb]

theorem place_while_packed_size (a : Nat) (l : List Nat) (w : Heap) (b : Nat) :
    ((PaletteImage.place_while_packed a w l).1.images b)._x_size = (w.images b)._x_size ∧
      ((PaletteImage.place_while_packed a w l).1.images b)._y_size = (w.images b)._y_size := by
  induction l generalizing w with
  | nil => exact ⟨rfl, rfl⟩
  | cons p l ih =>
    unfold PaletteImage.place_while_packed
    have hp := place_size w a p b
    split
    · next w1 heq =>
      rw [heq] at hp
      exact ⟨(ih w1).1.trans hp.1, (ih w1).2.trans hp.2⟩
    · next w1 heq =>
      rw [heq] at hp
      exact hp

theorem place_each_size (a : Nat) (l : List Nat) (w : Heap) (b : Nat) :
    ((PaletteImage.place_each a w l).1.images b)._x_size = (w.images b)._x_size ∧
      ((PaletteImage.place_each a w l).1.images b)._y_size = (w.images b)._y_size := by
  induction l generalizing w with
  | nil => exact ⟨rfl, rfl⟩
  | cons p l ih =>
    unfold PaletteImage.place_each
    have hp := place_size w a p b
    exact ⟨(ih _).1.trans hp.1, (ih _).2.trans hp.2⟩

theorem foldl_force_replace_size (l : List Nat) (w : Heap) (b : Nat) :
    ((l.foldl TexturePlacement.force_replace w).images b)._x_size = (w.images b)._x_size ∧
      ((l.foldl TexturePlacement.force_replace w).images b)._y_size = (w.images b)._y_size := by
  induction l generalizing w with
  | nil => exact ⟨rfl, rfl⟩
  | cons p l ih =>
    rw [List.foldl_cons]
    exact ⟨(ih _).1.trans (force_replace_x_size w p b),
      (ih _).2.trans (force_replace_y_size w p b)⟩

/-- The size of image `a` after `resize_image`: the requested size when it returns true,
the size it had when it returns false. -/
theorem resize_image_size (sort : (Nat → TexturePlacement) → List Nat → List Nat)
    (w : Heap) (a : Nat) (x_size y_size : Int) :
    ((PaletteImage.resize_image sort w a x_size y_size).1.images a)._x_size =
      (if (PaletteImage.resize_image sort w a x_size y_size).2 then x_size
        else (w.images a)._x_size) ∧
    ((PaletteImage.resize_image sort w a x_size y_size).1.images a)._y_size =
      (if (PaletteImage.resize_image sort w a x_size y_size).2 then y_size
        else (w.images a)._y_size) := by
  unfold PaletteImage.resize_image
  simp only
  split
  · next h =>
    simp only [if_true]
    rw [(place_while_packed_size _ _ _ _).1, (place_while_packed_size _ _ _ _).2]
    simp [Heap.set_image]
  · next h =>
    simp only [Bool.false_eq_true, if_false]
    rw [(place_each_size _ _ _ _).1, (place_each_size _ _ _ _).2,
      (foldl_force_replace_size _ _ _).1, (foldl_force_replace_size _ _ _).2]
    simp [Heap.set_image, PaletteImage.remove_image]

/-- One round of `optimal_resize`: the height is halved when the first repack succeeds,
then the width is halved when the second one succeeds. -/
theorem optimal_resize_round (sort : (Nat → TexturePlacement) → List Nat → List Nat)
    (w : Heap) (a : Nat) (r1 r2 : Heap × Bool)
    (e1 : r1 = PaletteImage.resize_image sort w a (w.images a)._x_size
      ((w.images a)._y_size / 2))
    (e2 : r2 = PaletteImage.resize_image sort r1.1 a ((r1.1.images a)._x_size / 2)
      (r1.1.images a)._y_size) :
    (r2.1.images a)._x_size =
      (if r2.2 then (w.images a)._x_size / 2 else (w.images a)._x_size) ∧
    (r2.1.images a)._y_size =
      (if r1.2 then (w.images a)._y_size / 2 else (w.images a)._y_size) := by
  have h1 := resize_image_size sort w a (w.images a)._x_size ((w.images a)._y_size / 2)
  rw [← e1] at h1
  have hx1 : (r1.1.images a)._x_size = (w.images a)._x_size := by
    rw [h1.1]; simp only [ite_self]
  have h2 := resize_image_size sort r1.1 a ((r1.1.images a)._x_size / 2)
    (r1.1.images a)._y_size
  rw [← e2] at h2
  constructor
  · rw [h2.1, hx1]
  · rw [h2.2]; simp only [ite_self]; exact h1.2

/-- The loop of `optimal_resize` returns within its bound, and never enlarges the image. -/
theorem optimal_resize_loop_returns (sort : (Nat → TexturePlacement) → List Nat → List Nat)
    (a : Nat) (fuel : Nat) :
    ∀ w : Heap, (w.images a)._x_size.toNat + (w.images a)._y_size.toNat < fuel →
      ∃ w2, PaletteImage.optimal_resize_loop sort a fuel w = some w2 ∧
        (w2.images a)._x_size ≤ (w.images a)._x_size ∧
        (w2.images a)._y_size ≤ (w.images a)._y_size := by
  induction fuel with
  | zero => intro w h; omega
  | succ n ih =>
    intro w hfuel
    unfold PaletteImage.optimal_resize_loop
    by_cases hpos : (w.images a)._x_size > 0 ∧ (w.images a)._y_size > 0
    · rw [if_pos hpos]
      simp only
      have hr := optimal_resize_round sort w a _ _ rfl rfl
      split
      · next hs =>
        simp only [Bool.or_eq_true] at hs
        have hlt := hr
        obtain ⟨w2, e, hx, hy⟩ := ih _ (by
          rw [hr.1, hr.2]
          rcases hs with hs | hs
          · rw [if_pos hs]; split <;> omega
          · rw [if_pos hs]; split <;> omega)
        refine ⟨w2, e, ?_, ?_⟩
        · rw [hr.1] at hx; split at hx <;> omega
        · rw [hr.2] at hy; split at hy <;> omega
      · next hs =>
        refine ⟨_, rfl, ?_, ?_⟩
        · rw [hr.1]; split <;> omega
        · rw [hr.2]; split <;> omega
    · rw [if_neg hpos]
      exact ⟨w, rfl, le_refl _, le_refl _⟩

/-- The method `optimal_resize` always returns, and never enlarges the image. -/
theorem optimal_resize_returns (sort : (Nat → TexturePlacement) → List Nat → List Nat)
    (w : Heap) (a : Nat) :
    ∃ w2, PaletteImage.optimal_resize sort w a = some w2 ∧
      (w2.images a)._x_size ≤ (w.images a)._x_size ∧
      (w2.images a)._y_size ≤ (w.images a)._y_size := by
  unfold PaletteImage.optimal_resize
  split
  · exact ⟨w, rfl, le_refl _, le_refl _⟩
  · exact optimal_resize_loop_returns sort a _ w
      (by unfold PaletteImage.optimal_resize_fuel; omega)

/-- C22 (counterexample). Two 64x64 placements on a 128x128 atlas repack into 64x128 and
into 128x64 but not into 64x64; `optimal_resize` returns with size 128x64, not 64x128. -/
theorem C22_counterexample :
    PaletteImage.is_empty two_squares_heap.placements (two_squares_heap.images 0) = false ∧
    two_squares_heap.image_size 0 = (128, 128) ∧
    (PaletteImage.resize_image keep_order two_squares_heap 0 (128 / 2) 128).2 = true ∧
    (PaletteImage.resize_image keep_order two_squares_heap 0 128 (128 / 2)).2 = true ∧
    (PaletteImage.resize_image keep_order two_squares_heap 0 (128 / 2) (128 / 2)).2 = false ∧
    (PaletteImage.optimal_resize keep_order two_squares_heap 0).map
      (fun w => w.image_size 0) = some (128, 128 / 2) ∧
    (PaletteImage.optimal_resize keep_order two_squares_heap 0).map
      (fun w => w.image_size 0) ≠ some (128 / 2, 128) := by
  refine ⟨by decide, by decide, by decide, by decide, by decide, by decide, by decide⟩

/-- C22 (amended). In each round `optimal_resize` tries halving Y before halving X and
keeps a shrink when the full repack succeeds: for every non-empty atlas of size `(W, H)`
whose placements repack successfully into `(W, H/2)`, `optimal_resize` returns with a
size of at most `(W, H/2)`; and when the attempts that follow (into `(W/2, H/2)`, into
`(W, H/4)` and into `(W/2, H/2)` again) all fail, it returns with size `(W, H/2)`. -/
theorem C22_optimal_resize_halves_y_first
    (sort : (Nat → TexturePlacement) → List Nat → List Nat) (w : Heap) (a : Nat)
    (hne : PaletteImage.is_empty w.placements (w.images a) = false)
    (hpos : (w.images a)._x_size > 0 ∧ (w.images a)._y_size > 0)
    (h1 : (PaletteImage.resize_image sort w a (w.images a)._x_size
      ((w.images a)._y_size / 2)).2 = true) :
    ∃ w2, PaletteImage.optimal_resize sort w a = some w2 ∧
      (w2.images a)._x_size ≤ (w.images a)._x_size ∧
      (w2.images a)._y_size ≤ (w.images a)._y_size / 2 ∧
      ∀ r1 r2 r3 r4 : Heap × Bool,
        r1 = PaletteImage.resize_image sort w a (w.images a)._x_size
          ((w.images a)._y_size / 2) →
        r2 = PaletteImage.resize_image sort r1.1 a ((w.images a)._x_size / 2)
          ((w.images a)._y_size / 2) →
        r3 = PaletteImage.resize_image sort r2.1 a (w.images a)._x_size
          ((w.images a)._y_size / 2 / 2) →
        r4 = PaletteImage.resize_image sort r3.1 a ((w.images a)._x_size / 2)
          ((w.images a)._y_size / 2) →
        r2.2 = false → r3.2 = false → r4.2 = false →
        w2.image_size a = ((w.images a)._x_size, (w.images a)._y_size / 2) := by
  unfold PaletteImage.optimal_resize
  rw [hne]
  simp only [Bool.false_eq_true, if_false]
  obtain ⟨n, hn⟩ : ∃ n, PaletteImage.optimal_resize_fuel (w.images a) = n + 1 :=
    ⟨_, rfl⟩
  rw [hn]
  unfold PaletteImage.optimal_resize_loop
  rw [if_pos hpos]
  simp only
  have hr := optimal_resize_round sort w a _ _ rfl rfl
  rw [h1] at hr
  simp only [if_true] at hr
  rw [h1, Bool.true_or, if_pos rfl]
  have s1 := resize_image_size sort w a (w.images a)._x_size ((w.images a)._y_size / 2)
  rw [h1] at s1
  simp only [if_true] at s1
  rw [s1.1, s1.2] at hr ⊢
  have hfuel : ((PaletteImage.resize_image sort
      (PaletteImage.resize_image sort w a (w.images a)._x_size ((w.images a)._y_size / 2)).1 a
      ((w.images a)._x_size / 2) ((w.images a)._y_size / 2)).1.images a)._x_size.toNat +
      ((PaletteImage.resize_image sort
      (PaletteImage.resize_image sort w a (w.images a)._x_size ((w.images a)._y_size / 2)).1 a
      ((w.images a)._x_size / 2) ((w.images a)._y_size / 2)).1.images a)._y_size.toNat < n := by
    rw [hr.1, hr.2]
    unfold PaletteImage.optimal_resize_fuel at hn
    split <;> omega
  obtain ⟨w2, e, hx, hy⟩ := optimal_resize_loop_returns sort a n _ hfuel
  refine ⟨w2, e, ?_, ?_, ?_⟩
  · rw [hr.1] at hx; split at hx <;> omega
  · rw [hr.2] at hy; exact hy
  · intro r1 r2 r3 r4 e1 e2 e3 e4 f2 f3 f4
    subst e1
    rw [← e2] at hr e hfuel
    rw [f2] at hr
    simp only [Bool.false_eq_true, if_false] at hr
    obtain ⟨m, hm⟩ : ∃ m, n = m + 1 := ⟨n - 1, by omega⟩
    rw [hm] at e
    unfold PaletteImage.optimal_resize_loop at e
    by_cases hpos2 : (r2.1.images a)._x_size > 0 ∧ (r2.1.images a)._y_size > 0
    · rw [if_pos hpos2] at e
      simp only at e
      have hr2 := optimal_resize_round sort r2.1 a _ _ rfl rfl
      rw [hr.1, hr.2] at e hr2
      rw [← e3] at e hr2
      have s3 := resize_image_size sort r2.1 a (w.images a)._x_size
        ((w.images a)._y_size / 2 / 2)
      rw [← e3, f3, hr.1, hr.2] at s3
      simp only [Bool.false_eq_true, if_false] at s3
      rw [s3.1, s3.2] at e hr2
      rw [← e4] at e hr2
      rw [f3, f4] at e
      simp only [Bool.or_self, Bool.false_eq_true, if_false] at e
      injection e with e
      rw [f3, f4] at hr2
      simp only [Bool.false_eq_true, if_false] at hr2
      rw [← e]
      unfold Heap.image_size
      rw [hr2.1, hr2.2]
    · rw [if_neg hpos2] at e
      injection e with e
      rw [← e]
      unfold Heap.image_size
      rw [hr.1, hr.2]

theorem C22_optimal_resize_halves_y_first_witness :
    PaletteImage.is_empty two_squares_heap.placements (two_squares_heap.images 0) = false ∧
    ((two_squares_heap.images 0)._x_size > 0 ∧ (two_squares_heap.images 0)._y_size > 0) ∧
    (PaletteImage.resize_image keep_order two_squares_heap 0 (two_squares_heap.images 0)._x_size
      ((two_squares_heap.images 0)._y_size / 2)).2 = true ∧
    ∃ w2, PaletteImage.optimal_resize keep_order two_squares_heap 0 = some w2 ∧
      (w2.images 0)._x_size ≤ (two_squares_heap.images 0)._x_size ∧
      (w2.images 0)._y_size ≤ (two_squares_heap.images 0)._y_size / 2 ∧
      ∀ r1 r2 r3 r4 : Heap × Bool,
        r1 = PaletteImage.resize_image keep_order two_squares_heap 0
          (two_squares_heap.images 0)._x_size ((two_squares_heap.images 0)._y_size / 2) →
        r2 = PaletteImage.resize_image keep_order r1.1 0
          ((two_squares_heap.images 0)._x_size / 2) ((two_squares_heap.images 0)._y_size / 2) →
        r3 = PaletteImage.resize_image keep_order r2.1 0 (two_squares_heap.images 0)._x_size
          ((two_squares_heap.images 0)._y_size / 2 / 2) →
        r4 = PaletteImage.resize_image keep_order r3.1 0
          ((two_squares_heap.images 0)._x_size / 2) ((two_squares_heap.images 0)._y_size / 2) →
        r2.2 = false → r3.2 = false → r4.2 = false →
        w2.image_size 0
          = ((two_squares_heap.images 0)._x_size, (two_squares_heap.images 0)._y_size / 2) :=
  ⟨by decide, by decide, by decide,
    C22_optimal_resize_halves_y_first keep_order two_squares_heap 0 (by decide) (by decide)
      (by decide)⟩

/-- C24. Scenario S1: with a page size of 128x128, a single placement of desired size
64x64 placed on a new atlas is at (0,0); with omit_solitary on, `check_solitary` sets the
solitary flag; `optimal_resize` (on the atlas as packed) leaves the atlas with final size
64x64 with the placement still at (0,0), and `check_solitary` after it sets the flag on
the 64x64 atlas. (One placement: sorting leaves the list as it is.) -/
theorem C24_scenario_S1 :
    S6_pal._omit_solitary = true ∧
    (S6_pal._pal_x_size, S6_pal._pal_y_size) = (128, 128) ∧
    ((S1_heap.placements 0).get_placed_x_size, (S1_heap.placements 0).get_placed_y_size)
      = (64, 64) ∧
    S1_heap.summary 0 0 = ((128, 128), some 0, (0, 0), OmitReason.OR_none, [0]) ∧
    (PaletteImage.check_solitary S6_pal S1_heap 0).summary 0 0
      = ((128, 128), some 0, (0, 0), OmitReason.OR_solitary, [0]) ∧
    (PaletteImage.optimal_resize keep_order S1_heap 0).map (fun w => w.summary 0 0)
      = some ((64, 64), some 0, (0, 0), OmitReason.OR_none, [0]) ∧
    (PaletteImage.optimal_resize keep_order S1_heap 0).map
        (fun w => (PaletteImage.check_solitary S6_pal w 0).summary 0 0)
      = some ((64, 64), some 0, (0, 0), OmitReason.OR_solitary, [0]) := by
  refine ⟨rfl, by decide, by decide, by decide, by decide, by decide, by decide⟩

/-- Scenario S1 in the other order: once `check_solitary` has flagged the placement,
`is_empty` holds and `optimal_resize` leaves the atlas at the page size. -/
theorem S1_solitary_not_resized :
    (PaletteImage.optimal_resize keep_order S1_solitary 0).map (fun w => w.summary 0 0)
      = some ((128, 128), some 0, (0, 0), OmitReason.OR_solitary, [0]) := by
  decide

theorem shelf_start_empty : shelf_start.empty_atlases := by
  refine ⟨fun _ => rfl, fun p => ?_⟩
  unfold shelf_start
  simp only
  split <;> rfl

/-- C23 (failing input). The 128x32 page `shelf_heap`, reached by placing and unplacing,
holds six placements validly packed (disjoint and within bounds). `resize_image(128, 16)`
returns false, and afterwards the page has its original size but placement 5 is on no
image: the repack at the original size placed only five of the six. -/
theorem C23_failing_input :
    shelf_heap.layout 0 =
      [(0, some 0, 0, 0, 48, 16), (1, some 0, 0, 16, 48, 16), (2, some 0, 48, 0, 40, 16),
       (3, some 0, 88, 0, 40, 16), (4, some 0, 48, 16, 40, 16), (5, some 0, 88, 16, 40, 16)] ∧
    shelf_heap.image_size 0 = (128, 32) ∧
    shelf_heap.no_overlap 0 ∧ shelf_heap.in_bounds 0 ∧
    (PaletteImage.resize_image keep_order shelf_heap 0 128 16).2 = false ∧
    (PaletteImage.resize_image keep_order shelf_heap 0 128 16).1.image_size 0 = (128, 32) ∧
    (PaletteImage.resize_image keep_order shelf_heap 0 128 16).1.layout 0 =
      [(0, some 0, 0, 0, 48, 16), (1, some 0, 48, 0, 48, 16), (2, some 0, 0, 16, 40, 16),
       (3, some 0, 40, 16, 40, 16), (4, some 0, 80, 16, 40, 16)] ∧
    ((PaletteImage.resize_image keep_order shelf_heap 0 128 16).1.placements 5)._image = none ∧
    ((PaletteImage.resize_image keep_order shelf_heap 0 128 16).1.placements 5)._omit_reason
      = OmitReason.OR_working := by
  have h0 : AtlasInv (fun _ => True) (fun _ => False) shelf_start :=
    AtlasInv.of_empty_atlases shelf_start_empty (fun _ => trivial)
  have hinv : AtlasInv (fun _ => True) (fun _ => False) shelf_heap :=
    h0.run_ops true_stable keep_order (fun _ _ => List.Perm.refl _) shelf_ops
  refine ⟨by decide, by decide, hinv.disjoint 0, hinv.bounds 0, by decide, by decide,
    by decide, by decide, by decide⟩

/-! ## Filling a grid of equal rectangles -/

theorem cell_overlap_iff (cw : Int) (hcw : 0 < cw) (a j : Nat) :
    ((j : Int) * cw < (a : Int) * cw + cw ∧ (a : Int) * cw < (j : Int) * cw + cw) ↔ a = j := by
  constructor
  · rintro ⟨h1, h2⟩
    have e1 : (j : Int) < a + 1 := by
      by_contra hc
      push_neg at hc
      nlinarith
    have e2 : (a : Int) < j + 1 := by
      by_contra hc
      push_neg at hc
      nlinarith
    omega
  · rintro rfl
    constructor <;> linarith

/-- A placement on cell `k` intersects the cell-sized rectangle at column `j`, row `q`
exactly when `k` is that cell. -/
theorem on_cell_intersects (t : TexturePlacement) (cw ch : Int) (hcw : 0 < cw) (hch : 0 < ch)
    (c k j q : Nat) (hj : j < c) (ht : t.on_cell cw ch c k) :
    t.intersects ((j : Int) * cw) ((q : Int) * ch) cw ch = true ↔ k = q * c + j := by
  obtain ⟨hp, hx, hy, hxs, hys⟩ := ht
  rw [intersects_iff, hx, hy, hxs, hys]
  constructor
  · rintro ⟨_, h1, h2, h3, h4⟩
    have ea := (cell_overlap_iff cw hcw (k % c) j).mp ⟨h1, h2⟩
    have eb := (cell_overlap_iff ch hch (k / c) q).mp ⟨h3, h4⟩
    have := Nat.div_add_mod k c
    rw [ea, eb] at this
    rw [← this, Nat.mul_comm]
  · intro e
    have hc : 0 < c := by omega
    have ea : k % c = j := by
      rw [e, Nat.mul_comm, Nat.mul_add_mod, Nat.mod_eq_of_lt hj]
    have eb : k / c = q := by
      rw [e, Nat.mul_comm, Nat.mul_add_div hc, Nat.div_eq_of_lt hj, Nat.add_zero]
    refine ⟨hp, ?_, ?_, ?_, ?_⟩
    · exact ((cell_overlap_iff cw hcw (k % c) j).mpr ea).1
    · exact ((cell_overlap_iff cw hcw (k % c) j).mpr ea).2
    · exact ((cell_overlap_iff ch hch (k / c) q).mpr eb).1
    · exact ((cell_overlap_iff ch hch (k / c) q).mpr eb).2

/-- On a filled cell, `find_overlap` returns a placement whose right and bottom edges are
those of the cell. -/
theorem grid_find_overlap_some (ps : Nat → TexturePlacement) (img : PaletteImage)
    (cw ch : Int) (hcw : 0 < cw) (hch : 0 < ch) (c i j q : Nat) (hj : j < c)
    (hg : img.grid_filled ps cw ch c i) (hk : q * c + j < i) :
    ∃ o, PaletteImage.find_overlap ps img ((j : Int) * cw) ((q : Int) * ch) cw ch = some o ∧
      (ps o).get_placed_x + (ps o).get_placed_x_size = ((j + 1 : Nat) : Int) * cw ∧
      (ps o).get_placed_y + (ps o).get_placed_y_size = ((q + 1 : Nat) : Int) * ch := by
  obtain ⟨o1, ho1, hc1⟩ := hg.2 _ hk
  have hi1 := (on_cell_intersects (ps o1) cw ch hcw hch c _ j q hj hc1).mpr rfl
  cases hf : PaletteImage.find_overlap ps img ((j : Int) * cw) ((q : Int) * ch) cw ch with
  | none =>
    exact absurd ⟨hc1.1, hi1⟩ ((find_overlap_none_iff _ _ _ _ _ _).mp hf o1 ho1)
  | some o =>
    obtain ⟨ho, hp, hi⟩ := find_overlap_some _ _ _ _ _ _ o hf
    obtain ⟨k, _, hck⟩ := hg.1 o ho
    have e := (on_cell_intersects (ps o) cw ch hcw hch c k j q hj hck).mp hi
    have hc : 0 < c := by omega
    have ea : k % c = j := by
      rw [e, Nat.mul_comm, Nat.mul_add_mod, Nat.mod_eq_of_lt hj]
    have eb : k / c = q := by
      rw [e, Nat.mul_comm, Nat.mul_add_div hc, Nat.div_eq_of_lt hj, Nat.add_zero]
    obtain ⟨_, hx, hy, hxs, hys⟩ := hck
    refine ⟨o, rfl, ?_, ?_⟩
    · simp only [TexturePlacement.get_placed_x, TexturePlacement.get_placed_x_size, hp, if_true]
      rw [hx, hxs, ea]; push_cast; ring
    · simp only [TexturePlacement.get_placed_y, TexturePlacement.get_placed_y_size, hp, if_true]
      rw [hy, hys, eb]; push_cast; ring

/-- On a cell that is not filled, `find_overlap` finds nothing. -/
theorem grid_find_overlap_none (ps : Nat → TexturePlacement) (img : PaletteImage)
    (cw ch : Int) (hcw : 0 < cw) (hch : 0 < ch) (c i j q : Nat) (hj : j < c)
    (hg : img.grid_filled ps cw ch c i) (hk : i ≤ q * c + j) :
    PaletteImage.find_overlap ps img ((j : Int) * cw) ((q : Int) * ch) cw ch = none := by
  rw [find_overlap_none_iff]
  rintro o ho ⟨_, hi⟩
  obtain ⟨k, hki, hck⟩ := hg.1 o ho
  have e := (on_cell_intersects (ps o) cw ch hcw hch c k j q hj hck).mp hi
  omega

/-- Scanning a full row of the grid from column `j`: the row ends, with `next_y` at most
the bottom of the row. -/
theorem grid_row_full (ps : Nat → TexturePlacement) (img : PaletteImage)
    (cw ch : Int) (hcw : 0 < cw) (hch : 0 < ch) (c i q : Nat)
    (hc1 : (c : Int) * cw ≤ img._x_size) (hc2 : img._x_size < ((c : Int) + 1) * cw)
    (hg : img.grid_filled ps cw ch c i) (hq : (q + 1) * c ≤ i) (fuel : Nat) :
    ∀ (j : Nat) (ny : Int), j ≤ c →
      PaletteImage.find_hole_row ps img ((q : Int) * ch) cw ch fuel ((j : Int) * cw) ny
          = RowScan.out_of_fuel ∨
        PaletteImage.find_hole_row ps img ((q : Int) * ch) cw ch fuel ((j : Int) * cw) ny
          = RowScan.row_end (if j < c then min ny (((q + 1 : Nat) : Int) * ch) else ny) := by
  induction fuel with
  | zero => intro j ny _; left; rfl
  | succ n ih =>
    intro j ny hj
    unfold PaletteImage.find_hole_row
    by_cases hx : (j : Int) * cw + cw ≤ img._x_size
    · rw [if_pos hx]
      have hjc : j < c := by
        by_contra hc
        have e : j = c := by omega
        rw [e] at hx
        nlinarith
      have hk : q * c + j < i := by
        have : (q + 1) * c = q * c + c := by ring
        omega
      obtain ⟨o, ho, hox, hoy⟩ := grid_find_overlap_some ps img cw ch hcw hch c i j q hjc hg hk
      rw [ho]
      simp only
      rw [hox, hoy]
      have hgt : ((j + 1 : Nat) : Int) * cw > (j : Int) * cw := by
        push_cast; linarith
      rw [if_pos hgt]
      rcases ih (j + 1) (min ny (((q + 1 : Nat) : Int) * ch)) (by omega) with h | h
      · left; exact h
      · right
        rw [h, if_pos hjc]
        split
        · rw [min_assoc, min_self]
        · rfl
    · rw [if_neg hx]
      right
      have hjc : ¬ j < c := by
        intro hc
        have : ((j : Int) + 1) * cw ≤ (c : Int) * cw := by
          have h1 : (j : Int) + 1 ≤ c := by exact_mod_cast hc
          exact mul_le_mul_of_nonneg_right h1 hcw.le
        apply hx
        linarith
      rw [if_neg hjc]

/-- Scanning the first row of the grid that is not full, from column `j` up to the first
free cell: the hole is the first free cell. -/
theorem grid_row_open (ps : Nat → TexturePlacement) (img : PaletteImage)
    (cw ch : Int) (hcw : 0 < cw) (hch : 0 < ch) (c i q j0 : Nat)
    (hc1 : (c : Int) * cw ≤ img._x_size)
    (hg : img.grid_filled ps cw ch c i) (hi : i = q * c + j0) (hj0 : j0 < c) (fuel : Nat) :
    ∀ (j : Nat) (ny : Int), j ≤ j0 →
      PaletteImage.find_hole_row ps img ((q : Int) * ch) cw ch fuel ((j : Int) * cw) ny
          = RowScan.out_of_fuel ∨
        PaletteImage.find_hole_row ps img ((q : Int) * ch) cw ch fuel ((j : Int) * cw) ny
          = RowScan.found ((j0 : Int) * cw) := by
  induction fuel with
  | zero => intro j ny _; left; rfl
  | succ n ih =>
    intro j ny hj
    unfold PaletteImage.find_hole_row
    have hx : (j : Int) * cw + cw ≤ img._x_size := by
      have : ((j : Int) + 1) * cw ≤ (c : Int) * cw := by
        have h1 : (j : Int) + 1 ≤ c := by exact_mod_cast (by omega : j + 1 ≤ c)
        exact mul_le_mul_of_nonneg_right h1 hcw.le
      linarith
    rw [if_pos hx]
    by_cases hjj : j < j0
    · obtain ⟨o, ho, hox, hoy⟩ :=
        grid_find_overlap_some ps img cw ch hcw hch c i j q (by omega) hg (by omega)
      rw [ho]
      simp only
      rw [hox, hoy]
      have hgt : ((j + 1 : Nat) : Int) * cw > (j : Int) * cw := by
        push_cast; linarith
      rw [if_pos hgt]
      exact ih (j + 1) _ (by omega)
    · have e : j = j0 := by omega
      subst e
      rw [grid_find_overlap_none ps img cw ch hcw hch c i j q hj0 hg (by omega)]
      right; rfl

/-- The search of `find_hole` on a grid whose first `i` cells are filled, from row `q1`
on: the first free cell when there is one, failure when all `c * r` cells are filled. -/
theorem grid_rows (ps : Nat → TexturePlacement) (img : PaletteImage)
    (cw ch : Int) (hcw : 0 < cw) (hch : 0 < ch) (c r i : Nat) (hc : 0 < c)
    (hc1 : (c : Int) * cw ≤ img._x_size) (hc2 : img._x_size < ((c : Int) + 1) * cw)
    (hr1 : (r : Int) * ch ≤ img._y_size) (hr2 : img._y_size < ((r : Int) + 1) * ch)
    (hg : img.grid_filled ps cw ch c i) (hi : i ≤ c * r) (fuel : Nat) :
    ∀ q1 : Nat, q1 ≤ i / c →
      PaletteImage.find_hole_rows ps img cw ch fuel ((q1 : Int) * ch) = HoleScan.out_of_fuel ∨
      PaletteImage.find_hole_rows ps img cw ch fuel ((q1 : Int) * ch) =
        (if i < c * r then HoleScan.found (((i % c : Nat) : Int) * cw) (((i / c : Nat) : Int) * ch)
          else HoleScan.full) := by
  have hqr : i / c ≤ r := by
    calc i / c ≤ c * r / c := Nat.div_le_div_right hi
      _ = r := Nat.mul_div_cancel_left r hc
  induction fuel with
  | zero => intro q1 _; left; rfl
  | succ n ih =>
    intro q1 hq1
    unfold PaletteImage.find_hole_rows
    by_cases hlt : q1 < i / c
    · -- a full row
      have hy : (q1 : Int) * ch + ch ≤ img._y_size := by
        have : ((q1 : Int) + 1) * ch ≤ (r : Int) * ch := by
          have h1 : (q1 : Int) + 1 ≤ r := by exact_mod_cast (by omega : q1 + 1 ≤ r)
          exact mul_le_mul_of_nonneg_right h1 hch.le
        linarith
      rw [if_pos hy]
      have hfull : (q1 + 1) * c ≤ i := by
        have h1 : (q1 + 1) * c ≤ (i / c) * c := Nat.mul_le_mul_right c hlt
        have h2 : (i / c) * c ≤ i := Nat.div_mul_le_self i c
        omega
      have hrow := grid_row_full ps img cw ch hcw hch c i q1 hc1 hc2 hg hfull
        (PaletteImage.row_fuel img cw) 0 img._y_size (by omega)
      simp only [Nat.cast_zero, zero_mul] at hrow
      have hnf := find_hole_row_fuel ps img ((q1 : Int) * ch) cw ch
        (PaletteImage.row_fuel img cw) 0 img._y_size
        (by unfold PaletteImage.row_fuel; omega)
      rcases hrow with hrow | hrow
      · exact absurd hrow hnf
      · rw [hrow, if_pos hc]
        have hmin : min img._y_size (((q1 + 1 : Nat) : Int) * ch) = ((q1 + 1 : Nat) : Int) * ch := by
          apply min_eq_right
          push_cast; linarith
        simp only
        rw [hmin]
        have hgt : ((q1 + 1 : Nat) : Int) * ch > (q1 : Int) * ch := by
          push_cast; linarith
        rw [if_pos hgt]
        exact ih (q1 + 1) (by omega)
    · have e : q1 = i / c := by omega
      by_cases hir : i < c * r
      · have hqlt : i / c < r := by
          rw [Nat.div_lt_iff_lt_mul hc, Nat.mul_comm]; exact hir
        have hy : (q1 : Int) * ch + ch ≤ img._y_size := by
          have : ((q1 : Int) + 1) * ch ≤ (r : Int) * ch := by
            have h1 : (q1 : Int) + 1 ≤ r := by exact_mod_cast (by omega : q1 + 1 ≤ r)
            exact mul_le_mul_of_nonneg_right h1 hch.le
          linarith
        rw [if_pos hy, if_pos hir]
        have hrow := grid_row_open ps img cw ch hcw hch c i q1 (i % c) hc1 hg
          (by rw [e, Nat.mul_comm]; exact (Nat.div_add_mod i c).symm) (Nat.mod_lt i hc)
          (PaletteImage.row_fuel img cw) 0 img._y_size (Nat.zero_le _)
        simp only [Nat.cast_zero, zero_mul] at hrow
        have hnf := find_hole_row_fuel ps img ((q1 : Int) * ch) cw ch
          (PaletteImage.row_fuel img cw) 0 img._y_size
          (by unfold PaletteImage.row_fuel; omega)
        rcases hrow with hrow | hrow
        · exact absurd hrow hnf
        · rw [hrow]
          right
          rw [e]
      · have hic : i = c * r := by omega
        have hq : q1 = r := by
          rw [e, hic]; exact Nat.mul_div_cancel_left r hc
        have hy : ¬ ((q1 : Int) * ch + ch ≤ img._y_size) := by
          rw [hq]; intro h; nlinarith
        rw [if_neg hy, if_neg hir]
        right; rfl

/-- The method `find_hole` on a grid whose first `i` cells are filled. -/
theorem grid_find_hole (ps : Nat → TexturePlacement) (img : PaletteImage)
    (cw ch : Int) (hcw : 0 < cw) (hch : 0 < ch) (c r i : Nat) (hc : 0 < c)
    (hc1 : (c : Int) * cw ≤ img._x_size) (hc2 : img._x_size < ((c : Int) + 1) * cw)
    (hr1 : (r : Int) * ch ≤ img._y_size) (hr2 : img._y_size < ((r : Int) + 1) * ch)
    (hg : img.grid_filled ps cw ch c i) (hi : i ≤ c * r) :
    PaletteImage.find_hole ps img cw ch =
      (if i < c * r then some (((i % c : Nat) : Int) * cw, ((i / c : Nat) : Int) * ch)
        else none) := by
  have h := grid_rows ps img cw ch hcw hch c r i hc hc1 hc2 hr1 hr2 hg hi
    (PaletteImage.rows_fuel img ch) 0 (Nat.zero_le _)
  simp only [Nat.cast_zero, zero_mul] at h
  have hnf := find_hole_scan_fuel ps img cw ch
  unfold PaletteImage.find_hole
  unfold PaletteImage.find_hole_scan at hnf ⊢
  rcases h with h | h
  · exact absurd h hnf
  · rw [h]
    split_ifs <;> rfl

theorem place_each_append (a : Nat) (l : List Nat) (w : Heap) (p : Nat) :
    (PaletteImage.place_each a w (l ++ [p])).1 =
      (PaletteImage.place (PaletteImage.place_each a w l).1 a p).1 := by
  induction l generalizing w with
  | nil => simp [PaletteImage.place_each]
  | cons q l ih =>
    simp only [List.cons_append, PaletteImage.place_each]
    exact ih _

/-- Placing the next rectangle on a grid whose first `i` cells are filled. -/
theorem grid_place_step (w0 w : Heap) (a : Nat) (l : List Nat) (cw ch : Int)
    (hcw : 0 < cw) (hch : 0 < ch) (c r i : Nat) (hc : 0 < c)
    (hc1 : (c : Int) * cw ≤ (w0.images a)._x_size)
    (hc2 : (w0.images a)._x_size < ((c : Int) + 1) * cw)
    (hr1 : (r : Int) * ch ≤ (w0.images a)._y_size)
    (hr2 : (w0.images a)._y_size < ((r : Int) + 1) * ch)
    (hnodup : l.Nodup)
    (hl : ∀ p ∈ l, (w0.placements p)._size_known = true ∧ (w0.placements p)._image = none ∧
      (w0.placements p)._position._x_size = cw ∧ (w0.placements p)._position._y_size = ch)
    (hrun : GridRun w0 w a l cw ch c i) (hi : i ≤ c * r) (p : Nat) (hp : l[i]? = some p) :
    (i < c * r →
      (PaletteImage.place w a p).2 = true ∧
      GridRun w0 (PaletteImage.place w a p).1 a l cw ch c (i + 1) ∧
      ((PaletteImage.place w a p).1.placements p)._image = some a ∧
      ((PaletteImage.place w a p).1.placements p)._placed._x = ((i % c : Nat) : Int) * cw ∧
      ((PaletteImage.place w a p).1.placements p)._placed._y = ((i / c : Nat) : Int) * ch) ∧
    (i = c * r → PaletteImage.place w a p = (w, false)) := by
  have hilen : i < l.length := by
    rcases Nat.lt_or_ge i l.length with h | h
    · exact h
    · rw [List.getElem?_eq_none h] at hp; cases hp
  have hpi : l[i] = p := by
    rw [List.getElem?_eq_getElem hilen] at hp
    exact Option.some.inj hp
  have hdrop : l.drop i = p :: l.drop (i + 1) := by
    rw [← hpi]; exact List.drop_eq_getElem_cons hilen
  have hpl : p ∈ l := by rw [← hpi]; exact List.getElem_mem _
  have hpw : w.placements p = w0.placements p :=
    hrun.rest p (by rw [hdrop]; exact List.mem_cons_self _ _)
  obtain ⟨hk, him, hxs, hys⟩ := hl p hpl
  have hfh := grid_find_hole w.placements (w.images a) cw ch hcw hch c r i hc
    (by rw [hrun.x_size]; exact hc1) (by rw [hrun.x_size]; exact hc2)
    (by rw [hrun.y_size]; exact hr1) (by rw [hrun.y_size]; exact hr2) hrun.filled hi
  have hgx : (w.placements p).get_x_size = cw := by
    simp [TexturePlacement.get_x_size, hpw, hk, hxs]
  have hgy : (w.placements p).get_y_size = ch := by
    simp [TexturePlacement.get_y_size, hpw, hk, hys]
  have hnp : (w.placements p).is_placed = false := by
    simp [TexturePlacement.is_placed, hpw, him]
  have hkw : (w.placements p)._size_known = true := by rw [hpw]; exact hk
  constructor
  · intro hlt
    rw [if_pos hlt] at hfh
    have hplace : PaletteImage.place w a p =
        ((w.set_placement p ((w.placements p).place_at a (((i % c : Nat) : Int) * cw)
            (((i / c : Nat) : Int) * ch))).set_image a
          { w.images a with _placements := (w.images a)._placements ++ [p] }, true) := by
      unfold PaletteImage.place
      simp only [hkw, hnp, hgx, hgy, hfh, Bool.not_true, Bool.false_eq_true, if_false]
      simp [Heap.set_image, Heap.set_placement]
    have hnew : (w.placements p).place_at a (((i % c : Nat) : Int) * cw)
        (((i / c : Nat) : Int) * ch) =
        { w.placements p with
          _image := some a, _is_filled := false,
          _position := { (w.placements p)._position with
            _x := ((i % c : Nat) : Int) * cw, _y := ((i / c : Nat) : Int) * ch },
          _placed := { (w.placements p)._position with
            _x := ((i % c : Nat) : Int) * cw, _y := ((i / c : Nat) : Int) * ch },
          _omit_reason := OmitReason.OR_none } := by
      simp [TexturePlacement.place_at, hnp, hkw]
    have hcell : ((w.placements p).place_at a (((i % c : Nat) : Int) * cw)
        (((i / c : Nat) : Int) * ch)).on_cell cw ch c i := by
      rw [hnew]
      refine ⟨rfl, rfl, rfl, ?_, ?_⟩
      · show (w.placements p)._position._x_size = cw
        rw [hpw]; exact hxs
      · show (w.placements p)._position._y_size = ch
        rw [hpw]; exact hys
    have hold : ∀ o ∈ (w.images a)._placements, o ≠ p := by
      intro o ho e
      obtain ⟨k, _, hck⟩ := hrun.filled.1 o ho
      rw [← e, hck.1] at hnp
      cases hnp
    rw [hplace]
    refine ⟨rfl, ⟨⟨?_, ?_⟩, ?_, ?_, ?_⟩, ?_, ?_, ?_⟩
    · intro o ho
      simp only [Heap.set_image, Heap.set_placement, Function.update_same] at ho
      rcases List.mem_append.mp ho with ho | ho
      · obtain ⟨k, hk1, hck⟩ := hrun.filled.1 o ho
        refine ⟨k, by omega, ?_⟩
        simp only [Heap.set_image, Heap.set_placement, Function.update_apply, hold o ho,
          if_false]
        exact hck
      · have e : o = p := by simpa using ho
        subst e
        refine ⟨i, by omega, ?_⟩
        simp only [Heap.set_image, Heap.set_placement, Function.update_same]
        exact hcell
    · intro k hk1
      by_cases hki : k < i
      · obtain ⟨o, ho, hck⟩ := hrun.filled.2 k hki
        refine ⟨o, ?_, ?_⟩
        · simp only [Heap.set_image, Function.update_same]
          exact List.mem_append_left _ ho
        · simp only [Heap.set_image, Heap.set_placement, Function.update_apply, hold o ho,
            if_false]
          exact hck
      · have e : k = i := by omega
        subst e
        refine ⟨p, ?_, ?_⟩
        · simp only [Heap.set_image, Function.update_same]
          exact List.mem_append_right _ (List.mem_singleton_self p)
        · simp only [Heap.set_image, Heap.set_placement, Function.update_same]
          exact hcell
    · simp only [Heap.set_image, Function.update_same]
      exact hrun.x_size
    · simp only [Heap.set_image, Function.update_same]
      exact hrun.y_size
    · intro q hq
      have hqp : q ≠ p := by
        intro e
        have hnd : (l.drop i).Nodup := List.Nodup.sublist (List.drop_sublist i l) hnodup
        rw [hdrop] at hnd
        exact (List.nodup_cons.mp hnd).1 (e ▸ hq)
      simp only [Heap.set_image, Heap.set_placement, Function.update_apply, hqp, if_false]
      exact hrun.rest q (by rw [hdrop]; exact List.mem_cons_of_mem _ hq)
    · simp only [Heap.set_image, Heap.set_placement, Function.update_same]
      rw [hnew]
    · simp only [Heap.set_image, Heap.set_placement, Function.update_same]
      rw [hnew]
    · simp only [Heap.set_image, Heap.set_placement, Function.update_same]
      rw [hnew]
  · intro heq
    rw [if_neg (by omega)] at hfh
    unfold PaletteImage.place
    simp only [hkw, hnp, hgx, hgy, hfh, Bool.not_true, Bool.false_eq_true, if_false]

/-- The first `i` placements fill the first `i` cells, as long as there are cells. -/
theorem grid_run (w0 : Heap) (a : Nat) (l : List Nat) (cw ch : Int)
    (hcw : 0 < cw) (hch : 0 < ch) (c r : Nat) (hc : 0 < c)
    (hc1 : (c : Int) * cw ≤ (w0.images a)._x_size)
    (hc2 : (w0.images a)._x_size < ((c : Int) + 1) * cw)
    (hr1 : (r : Int) * ch ≤ (w0.images a)._y_size)
    (hr2 : (w0.images a)._y_size < ((r : Int) + 1) * ch)
    (hempty : (w0.images a)._placements = [])
    (hnodup : l.Nodup)
    (hl : ∀ p ∈ l, (w0.placements p)._size_known = true ∧ (w0.placements p)._image = none ∧
      (w0.placements p)._position._x_size = cw ∧ (w0.placements p)._position._y_size = ch)
    (i : Nat) (hil : i ≤ l.length) (hi : i ≤ c * r) :
    GridRun w0 (PaletteImage.place_each a w0 (l.take i)).1 a l cw ch c i := by
  induction i with
  | zero =>
    simp only [List.take_zero, PaletteImage.place_each]
    refine ⟨⟨?_, ?_⟩, rfl, rfl, fun _ _ => rfl⟩
    · intro o ho; rw [hempty] at ho; cases ho
    · intro k hk; omega
  | succ n ih =>
    have hrun := ih (by omega) (by omega)
    have hp : l[n]? = some l[n] := List.getElem?_eq_getElem (by omega)
    have htake : l.take (n + 1) = l.take n ++ [l[n]] := by
      rw [List.take_succ, hp]; rfl
    rw [htake, place_each_append]
    exact ((grid_place_step w0 _ a l cw ch hcw hch c r n hc hc1 hc2 hr1 hr2 hnodup hl hrun
      (by omega) l[n] hp).1 (by omega)).2.1

/-- C25. On an empty atlas of size `W` by `H`, rectangles all of the same size `w` by `h`
with `0 < w <= W` and `0 < h <= H` are placed one after another by `PaletteImage::place`;
with `c = floor(W/w)` and `r = floor(H/h)`, the placement number `i` (0-based, `i < c*r`)
succeeds and lands at `((i mod c)*w, (i div c)*h)`, and the placement number `c*r`
fails. -/
theorem C25_grid_fill (w0 : Heap) (a : Nat) (l : List Nat) (cw ch : Int)
    (hcw : 0 < cw) (hch : 0 < ch)
    (hW : cw ≤ (w0.images a)._x_size) (hH : ch ≤ (w0.images a)._y_size)
    (hempty : (w0.images a)._placements = [])
    (hnodup : l.Nodup)
    (hl : ∀ p ∈ l, (w0.placements p)._size_known = true ∧ (w0.placements p)._image = none ∧
      (w0.placements p)._position._x_size = cw ∧ (w0.placements p)._position._y_size = ch)
    (i p : Nat) (hp : l[i]? = some p) :
    (i < ((w0.images a)._x_size / cw).toNat * ((w0.images a)._y_size / ch).toNat →
      (PaletteImage.place (PaletteImage.place_each a w0 (l.take i)).1 a p).2 = true ∧
      ((PaletteImage.place (PaletteImage.place_each a w0 (l.take i)).1 a p).1.placements p)._image
        = some a ∧
      ((PaletteImage.place (PaletteImage.place_each a w0 (l.take i)).1 a p).1.placements
          p)._placed._x
        = ((i % ((w0.images a)._x_size / cw).toNat : Nat) : Int) * cw ∧
      ((PaletteImage.place (PaletteImage.place_each a w0 (l.take i)).1 a p).1.placements
          p)._placed._y
        = ((i / ((w0.images a)._x_size / cw).toNat : Nat) : Int) * ch) ∧
    (i = ((w0.images a)._x_size / cw).toNat * ((w0.images a)._y_size / ch).toNat →
      (PaletteImage.place (PaletteImage.place_each a w0 (l.take i)).1 a p).2 = false) := by
  have hcq : 0 ≤ (w0.images a)._x_size / cw := Int.ediv_nonneg (by omega) hcw.le
  have hrq : 0 ≤ (w0.images a)._y_size / ch := Int.ediv_nonneg (by omega) hch.le
  have hcc : (((w0.images a)._x_size / cw).toNat : Int) = (w0.images a)._x_size / cw :=
    Int.toNat_of_nonneg hcq
  have hrr : (((w0.images a)._y_size / ch).toNat : Int) = (w0.images a)._y_size / ch :=
    Int.toNat_of_nonneg hrq
  have hc1 : (((w0.images a)._x_size / cw).toNat : Int) * cw ≤ (w0.images a)._x_size := by
    rw [hcc]; exact Int.ediv_mul_le _ (ne_of_gt hcw)
  have hc2 : (w0.images a)._x_size < ((((w0.images a)._x_size / cw).toNat : Int) + 1) * cw := by
    rw [hcc]; exact Int.lt_ediv_add_one_mul_self _ hcw
  have hr1 : (((w0.images a)._y_size / ch).toNat : Int) * ch ≤ (w0.images a)._y_size := by
    rw [hrr]; exact Int.ediv_mul_le _ (ne_of_gt hch)
  have hr2 : (w0.images a)._y_size < ((((w0.images a)._y_size / ch).toNat : Int) + 1) * ch := by
    rw [hrr]; exact Int.lt_ediv_add_one_mul_self _ hch
  have hc : 0 < ((w0.images a)._x_size / cw).toNat := by
    by_contra h0
    have e : ((w0.images a)._x_size / cw).toNat = 0 := by omega
    rw [e] at hc2
    simp only [Nat.cast_zero, zero_add, one_mul] at hc2
    omega
  have hilen : i < l.length := by
    rcases Nat.lt_or_ge i l.length with h | h
    · exact h
    · rw [List.getElem?_eq_none h] at hp; cases hp
  constructor
  · intro hlt
    have hrun := grid_run w0 a l cw ch hcw hch _ _ hc hc1 hc2 hr1 hr2 hempty hnodup hl i
      (by omega) (by omega)
    have hs := (grid_place_step w0 _ a l cw ch hcw hch _ _ i hc hc1 hc2 hr1 hr2 hnodup hl hrun
      (by omega) p hp).1 hlt
    exact ⟨hs.1, hs.2.2.1, hs.2.2.2.1, hs.2.2.2.2⟩
  · intro heq
    have hrun := grid_run w0 a l cw ch hcw hch _ _ hc hc1 hc2 hr1 hr2 hempty hnodup hl i
      (by omega) (by omega)
    have hs := (grid_place_step w0 _ a l cw ch hcw hch _ _ i hc hc1 hc2 hr1 hr2 hnodup hl hrun
      (by omega) p hp).2 heq
    rw [hs]

/-- Witness of C25 on scenario S2: the tenth 32x32 rectangle on the 128x128 atlas (four
columns, four rows) lands at (32, 64); all ten fit, without overlap; and on the same atlas
the seventeenth rectangle does not fit. -/
theorem C25_grid_fill_witness :
    ((PaletteImage.place (PaletteImage.place_each 0 S2_heap ((List.range 10).take 9)).1
        0 9).2 = true ∧
      ((PaletteImage.place (PaletteImage.place_each 0 S2_heap ((List.range 10).take 9)).1
        0 9).1.placements 9)._image = some 0 ∧
      ((PaletteImage.place (PaletteImage.place_each 0 S2_heap ((List.range 10).take 9)).1
        0 9).1.placements 9)._placed._x = 32 ∧
      ((PaletteImage.place (PaletteImage.place_each 0 S2_heap ((List.range 10).take 9)).1
        0 9).1.placements 9)._placed._y = 64) ∧
    (PaletteImage.place_each 0 S2_heap (List.range 10)).2 = true ∧
    (PaletteImage.place_each 0 S2_heap (List.range 10)).1.layout 0 =
      [(0, some 0, 0, 0, 32, 32), (1, some 0, 32, 0, 32, 32), (2, some 0, 64, 0, 32, 32),
       (3, some 0, 96, 0, 32, 32), (4, some 0, 0, 32, 32, 32), (5, some 0, 32, 32, 32, 32),
       (6, some 0, 64, 32, 32, 32), (7, some 0, 96, 32, 32, 32), (8, some 0, 0, 64, 32, 32),
       (9, some 0, 32, 64, 32, 32)] ∧
    (PaletteImage.place (PaletteImage.place_each 0 S2_heap ((List.range 17).take 16)).1
      0 16).2 = false :=
  ⟨(C25_grid_fill S2_heap 0 (List.range 10) 32 32 (by decide) (by decide) (by decide)
      (by decide) rfl (by decide) (fun _ _ => ⟨rfl, rfl, rfl, rfl⟩) 9 9 rfl).1 (by decide),
    by decide, by decide,
    (C25_grid_fill S2_heap 0 (List.range 17) 32 32 (by decide) (by decide) (by decide)
      (by decide) rfl (by decide) (fun _ _ => ⟨rfl, rfl, rfl, rfl⟩) 16 16 rfl).2 (by decide)⟩

/-! ## The basename of a palette image -/

theorem scan_pattern_tokens (g p : List Char) (index : Int) (ts : List PatternToken)
    (hwf : ∀ t ∈ ts, t.well_formed = true) :
    PaletteImage.scan_pattern g p index (pattern_text ts) = pattern_replaced g p index ts := by
  induction ts with
  | nil => rfl
  | cons t ts ih =>
    have ih2 := ih (fun t2 h2 => hwf t2 (List.mem_cons_of_mem _ h2))
    have ht := hwf t (List.mem_cons_self _ _)
    cases t with
    | literal c =>
      have hc : c ≠ '%' := by
        simpa [PatternToken.well_formed] using ht
      simp only [pattern_text, PatternToken.text, pattern_replaced, PatternToken.replacement,
        List.singleton_append]
      rw [PaletteImage.scan_pattern.eq_def]
      simp only [hc, if_false, ih2]
    | group =>
      simp [pattern_text, PatternToken.text, pattern_replaced, PatternToken.replacement,
        PaletteImage.scan_pattern, PaletteImage.keycode, ih2]
    | page =>
      simp [pattern_text, PatternToken.text, pattern_replaced, PatternToken.replacement,
        PaletteImage.scan_pattern, PaletteImage.keycode, ih2]
    | index =>
      simp [pattern_text, PatternToken.text, pattern_replaced, PatternToken.replacement,
        PaletteImage.scan_pattern, PaletteImage.keycode, ih2]
    | percent =>
      simp [pattern_text, PatternToken.text, pattern_replaced, PatternToken.replacement,
        PaletteImage.scan_pattern, PaletteImage.keycode, ih2]

theorem end_with_dot_last (b : List Char) :
    (PaletteImage.end_with_dot b).getLast? = some '.' := by
  unfold PaletteImage.end_with_dot
  split
  · simp
  · next h =>
    push_neg at h
    exact h.2

/-- C27. For every image pattern in which each `%` is followed by one of `g`, `p`, `i` or
`%` (the pattern spelled by a list of tokens), `PaletteImage::setup_filename` builds the
basename by replacing `%g` with the group name, `%p` with the page name, `%i` with the
decimal of `index + 1` and `%%` with a literal `%`, copying every other character
unchanged, and then appends a `.` exactly when the result is empty or does not already
end in `.`; so the basename always ends in `.`. -/
theorem C27_setup_filename (g p : List Char) (index : Int) (ts : List PatternToken)
    (hwf : ∀ t ∈ ts, t.well_formed = true) :
    PaletteImage.setup_filename (pattern_text ts) g p index =
      (if pattern_replaced g p index ts = [] ∨
          (pattern_replaced g p index ts).getLast? ≠ some '.'
        then pattern_replaced g p index ts ++ ['.']
        else pattern_replaced g p index ts) ∧
    (PaletteImage.setup_filename (pattern_text ts) g p index).getLast? = some '.' := by
  unfold PaletteImage.setup_filename
  rw [scan_pattern_tokens g p index ts hwf]
  exact ⟨rfl, end_with_dot_last _⟩

theorem usual_pattern_well_formed : ∀ t ∈ usual_pattern, t.well_formed = true := by
  decide

theorem C27_setup_filename_witness :
    (∀ t ∈ usual_pattern, t.well_formed = true) ∧
    pattern_text usual_pattern = "%g_palette_%p_%i".toList ∧
    PaletteImage.setup_filename "%g_palette_%p_%i".toList "main".toList "rgb".toList 0
      = "main_palette_rgb_1.".toList ∧
    PaletteImage.setup_filename (pattern_text usual_pattern) "main".toList "rgb".toList 0 =
      (if pattern_replaced "main".toList "rgb".toList 0 usual_pattern = [] ∨
          (pattern_replaced "main".toList "rgb".toList 0 usual_pattern).getLast? ≠ some '.'
        then pattern_replaced "main".toList "rgb".toList 0 usual_pattern ++ ['.']
        else pattern_replaced "main".toList "rgb".toList 0 usual_pattern) ∧
    (PaletteImage.setup_filename (pattern_text usual_pattern) "main".toList "rgb".toList
      0).getLast? = some '.' :=
  ⟨usual_pattern_well_formed, by decide, by decide,
    C27_setup_filename "main".toList "rgb".toList 0 usual_pattern usual_pattern_well_formed⟩

/-! ## Updating the image file -/

theorem check_sources_true (fs : FileSystem) (l : List Nat) (w : Heap) :
    (PaletteImage.check_sources fs w l true).2 = true := by
  induction l generalizing w with
  | nil => rfl
  | cons p l ih =>
    unfold PaletteImage.check_sources
    split_ifs <;> exact ih _

theorem check_sources_images (fs : FileSystem) (l : List Nat) (w : Heap) (nu : Bool) :
    (PaletteImage.check_sources fs w l nu).1.images = w.images := by
  induction l generalizing w nu with
  | nil => rfl
  | cons p l ih =>
    unfold PaletteImage.check_sources
    split_ifs
    · exact ih _ _
    · rw [ih]; rfl
    · exact ih _ _

/-- The loop over the placements raises `needs_update` exactly when a placement is not
filled or is filled with a named texture whose source is newer. -/
theorem check_sources_iff (fs : FileSystem) (l : List Nat) (w : Heap) (nu : Bool) :
    (PaletteImage.check_sources fs w l nu).2 = true ↔
      nu = true ∨ ∃ p ∈ l, (w.placements p)._is_filled = false ∨
        ((w.placements p)._texture.is_texture_named = true ∧ fs.source_newer p = true) := by
  induction l generalizing nu with
  | nil => simp [PaletteImage.check_sources]
  | cons p l ih =>
    unfold PaletteImage.check_sources
    by_cases h1 : (w.placements p)._is_filled = false
    · simp only [h1, Bool.not_false, if_true]
      simp only [check_sources_true, true_iff]
      exact Or.inr ⟨p, List.mem_cons_self _ _, Or.inl h1⟩
    · have h1t : (w.placements p)._is_filled = true := by
        cases h : (w.placements p)._is_filled with
        | false => exact absurd h h1
        | true => rfl
      by_cases h2 : (w.placements p)._texture.is_texture_named = true ∧ fs.source_newer p = true
      · simp only [h1t, Bool.not_true, Bool.false_eq_true, if_false, h2.1, h2.2, Bool.and_self,
          if_true]
        simp only [check_sources_true, true_iff]
        exact Or.inr ⟨p, List.mem_cons_self _ _, Or.inr h2⟩
      · have h2b : ((w.placements p)._texture.is_texture_named && fs.source_newer p) = false := by
          cases h3 : (w.placements p)._texture.is_texture_named <;>
            cases h4 : fs.source_newer p <;> simp_all
        simp only [h1t, Bool.not_true, Bool.false_eq_true, if_false, h2b]
        rw [ih]
        constructor
        · rintro (h | ⟨q, hq, hc⟩)
          · exact Or.inl h
          · exact Or.inr ⟨q, List.mem_cons_of_mem _ hq, hc⟩
        · rintro (h | ⟨q, hq, hc⟩)
          · exact Or.inl h
          · rcases List.mem_cons.mp hq with e | hq2
            · subst e
              rcases hc with hc | hc
              · exact absurd hc h1
              · exact absurd hc h2
            · exact Or.inr ⟨q, hq2, hc⟩

/-- When the loop leaves `needs_update` false it has changed nothing. -/
theorem check_sources_unchanged (fs : FileSystem) (l : List Nat) (w : Heap) (nu : Bool)
    (h : (PaletteImage.check_sources fs w l nu).2 = false) :
    (PaletteImage.check_sources fs w l nu).1 = w := by
  induction l generalizing nu with
  | nil => rfl
  | cons p l ih =>
    unfold PaletteImage.check_sources at h ⊢
    split_ifs at h ⊢
    · rw [check_sources_true] at h; cases h
    · rw [check_sources_true] at h; cases h
    · exact ih nu h

theorem Heap.set_image_self (w : Heap) (a : Nat) : w.set_image a (w.images a) = w := by
  cases w
  simp [Heap.set_image]

/-- C28 (counterexample). On the S6 atlas (file present, nothing new, cleared or
unfilled) the source of the only placement is newer than the atlas file, yet
`update_image` writes nothing: the texture is not named on the command line. -/
theorem C28_counterexample :
    ¬ (PaletteImage.is_empty S6_heap.placements (S6_heap.images 0) = true ∧
        S6_pal._aggressively_clean_mapdir = true) ∧
    (∃ p ∈ (S6_heap.images 0)._placements, stale_sources.source_newer p = true) ∧
    (PaletteImage.update_image S6_pal stale_sources S6_heap 0 false).2 = false := by
  refine ⟨by decide, ⟨0, by decide, rfl⟩, by decide⟩

/-- What decides `update_image`: it writes exactly when `needs_update` holds, and it
changes nothing when it does not write. -/
theorem update_image_decides (pal : Palettizer) (fs : FileSystem) (w : Heap) (a : Nat)
    (redo_all : Bool)
    (hskip : ¬ (PaletteImage.is_empty w.placements (w.images a) = true ∧
      pal._aggressively_clean_mapdir = true)) :
    ((PaletteImage.update_image pal fs w a redo_all).2 = true ↔
      PaletteImage.needs_update fs w a redo_all) ∧
    ((PaletteImage.update_image pal fs w a redo_all).2 = false →
      (PaletteImage.update_image pal fs w a redo_all).1 = w) := by
  have hsk : (PaletteImage.is_empty w.placements (w.images a) &&
      pal._aggressively_clean_mapdir) = false := by
    cases h1 : PaletteImage.is_empty w.placements (w.images a) <;>
      cases h2 : pal._aggressively_clean_mapdir <;> simp_all
  unfold PaletteImage.update_image
  rw [hsk]
  simp only [Bool.false_eq_true, if_false]
  cases redo_all with
  | true =>
    have hr : (PaletteImage.check_sources fs
        ((w.set_image a (PaletteImage.remove_image (w.images a))).set_image a
          (PaletteImage.update_filename fs
            ((w.set_image a (PaletteImage.remove_image (w.images a))).images a)))
        (((w.set_image a (PaletteImage.remove_image (w.images a))).set_image a
          (PaletteImage.update_filename fs
            ((w.set_image a (PaletteImage.remove_image (w.images a))).images a))).images
              a)._placements
        ((((w.set_image a (PaletteImage.remove_image (w.images a))).set_image a
          (PaletteImage.update_filename fs
            ((w.set_image a (PaletteImage.remove_image (w.images a))).images a))).images
              a)._new_image ||
          !(((w.set_image a (PaletteImage.remove_image (w.images a))).set_image a
            (PaletteImage.update_filename fs
              ((w.set_image a (PaletteImage.remove_image (w.images a))).images a))).images
                a).file_exists ||
          !(((w.set_image a (PaletteImage.remove_image (w.images a))).set_image a
            (PaletteImage.update_filename fs
              ((w.set_image a (PaletteImage.remove_image (w.images a))).images a))).images
                a)._cleared_regions.isEmpty)).2 = true := by
      have hn : (((w.set_image a (PaletteImage.remove_image (w.images a))).set_image a
          (PaletteImage.update_filename fs
            ((w.set_image a (PaletteImage.remove_image (w.images a))).images a))).images
              a)._new_image = true := by
        simp only [Heap.set_image, Function.update_same, PaletteImage.update_filename,
          PaletteImage.remove_image]
        split <;> rfl
      rw [hn]
      simp only [Bool.true_or]
      exact check_sources_true _ _ _
    simp only [if_true]
    rw [hr]
    simp only [Bool.not_true, Bool.false_eq_true, if_false]
    exact ⟨⟨fun _ => Or.inr (Or.inl rfl), fun _ => trivial⟩, fun h => (by cases h)⟩
  | false =>
    simp only [Bool.false_eq_true, if_false]
    cases hc : fs.filename_changed with
    | true =>
      have hn : ((w.set_image a (PaletteImage.update_filename fs (w.images a))).images
          a)._new_image = true := by
        simp [Heap.set_image, PaletteImage.update_filename, hc]
      rw [hn]
      simp only [Bool.true_or]
      rw [check_sources_true]
      simp only [Bool.not_true, Bool.false_eq_true, if_false]
      exact ⟨⟨fun _ => Or.inr (Or.inr (Or.inl hc)), fun _ => trivial⟩, fun h => (by cases h)⟩
    | false =>
      have hu : PaletteImage.update_filename fs (w.images a) = w.images a := by
        simp [PaletteImage.update_filename, hc]
      rw [hu, Heap.set_image_self]
      have hiff := check_sources_iff fs (w.images a)._placements w
        ((w.images a)._new_image || !(w.images a).file_exists ||
          !(w.images a)._cleared_regions.isEmpty)
      have hnu : ((w.images a)._new_image || !(w.images a).file_exists ||
          !(w.images a)._cleared_regions.isEmpty) = true ↔
          ((w.images a)._new_image = true ∨ (w.images a).file_exists = false ∨
            (w.images a)._cleared_regions ≠ []) := by
        cases (w.images a)._new_image <;> cases (w.images a).file_exists <;>
          cases (w.images a)._cleared_regions <;> simp
      cases hr : (PaletteImage.check_sources fs w (w.images a)._placements
          ((w.images a)._new_image || !(w.images a).file_exists ||
            !(w.images a)._cleared_regions.isEmpty)).2 with
      | true =>
        simp only [Bool.not_true, Bool.false_eq_true, if_false]
        refine ⟨⟨fun _ => ?_, fun _ => trivial⟩, fun h => (by cases h)⟩
        rcases hiff.mp hr with h | h
        · rcases hnu.mp h with h | h | h
          · exact Or.inl h
          · exact Or.inr (Or.inr (Or.inr (Or.inl h)))
          · exact Or.inr (Or.inr (Or.inr (Or.inr (Or.inl h))))
        · exact Or.inr (Or.inr (Or.inr (Or.inr (Or.inr h))))
      | false =>
        simp only [Bool.not_false, if_true]
        refine ⟨⟨fun h => (by cases h), fun h => ?_⟩, fun _ => check_sources_unchanged _ _ _ _ hr⟩
        exfalso
        have hne : ¬ ((PaletteImage.check_sources fs w (w.images a)._placements
          ((w.images a)._new_image || !(w.images a).file_exists ||
            !(w.images a)._cleared_regions.isEmpty)).2 = true) := by rw [hr]; simp
        apply hne
        apply hiff.mpr
        rcases h with h | h | h | h | h | h
        · exact Or.inl (hnu.mpr (Or.inl h))
        · cases h
        · rw [hc] at h; cases h
        · exact Or.inl (hnu.mpr (Or.inr (Or.inl h)))
        · exact Or.inl (hnu.mpr (Or.inr (Or.inr h)))
        · exact Or.inr h

/-- C28 (amended). For an atlas not skipped by the aggressive-clean rule,
`PaletteImage::update_image` regenerates and writes the atlas if and only if needs_update
holds, where needs_update = new_flag (set on entry, by redo_all or by a change of the file
name) or the file does not exist or cleared_regions is non-empty or some placement on the
atlas is unfilled or some filled placement of a texture named on the command line has a
source image newer than the atlas file; otherwise it writes nothing and changes no
placement (nor the atlas). -/
theorem C28_update_iff (pal : Palettizer) (fs : FileSystem) (w : Heap) (a : Nat)
    (redo_all : Bool)
    (hskip : ¬ (PaletteImage.is_empty w.placements (w.images a) = true ∧
      pal._aggressively_clean_mapdir = true)) :
    ((PaletteImage.update_image pal fs w a redo_all).2 = true ↔
      PaletteImage.needs_update fs w a redo_all) ∧
    ((PaletteImage.update_image pal fs w a redo_all).2 = false →
      (PaletteImage.update_image pal fs w a redo_all).1 = w) :=
  update_image_decides pal fs w a redo_all hskip

theorem C28_update_iff_witness :
    ¬ (PaletteImage.is_empty S6_named.placements (S6_named.images 0) = true ∧
        S6_pal._aggressively_clean_mapdir = true) ∧
    (PaletteImage.update_image S6_pal stale_sources S6_named 0 false).2 = true ∧
    (PaletteImage.update_image S6_pal fresh_sources S6_named 0 false).2 = false ∧
    ((PaletteImage.update_image S6_pal stale_sources S6_named 0 false).2 = true ↔
      PaletteImage.needs_update stale_sources S6_named 0 false) ∧
    ((PaletteImage.update_image S6_pal stale_sources S6_named 0 false).2 = false →
      (PaletteImage.update_image S6_pal stale_sources S6_named 0 false).1 = S6_named) :=
  ⟨by decide, by decide, by decide,
    C28_update_iff S6_pal stale_sources S6_named 0 false (by decide)⟩

theorem same_but_filled_refl (t : TexturePlacement) : t.same_but_filled t := rfl

theorem same_but_filled_trans {t t2 t3 : TexturePlacement}
    (h1 : t.same_but_filled t2) (h2 : t2.same_but_filled t3) : t.same_but_filled t3 := by
  unfold TexturePlacement.same_but_filled at *
  rw [h2, h1]

theorem same_but_filled_fields {t t2 : TexturePlacement} (h : t.same_but_filled t2) :
    t2._image = t._image ∧ t2._omit_reason = t._omit_reason ∧ t2._texture = t._texture := by
  unfold TexturePlacement.same_but_filled at h
  have h1 : ({ t2 with _is_filled := true } : TexturePlacement)._image
      = ({ t with _is_filled := true } : TexturePlacement)._image := by rw [h]
  have h2 : ({ t2 with _is_filled := true } : TexturePlacement)._omit_reason
      = ({ t with _is_filled := true } : TexturePlacement)._omit_reason := by rw [h]
  have h3 : ({ t2 with _is_filled := true } : TexturePlacement)._texture
      = ({ t with _is_filled := true } : TexturePlacement)._texture := by rw [h]
  exact ⟨h1, h2, h3⟩

theorem same_but_filled_filled (t : TexturePlacement) : t.same_but_filled t.filled := by
  unfold TexturePlacement.same_but_filled TexturePlacement.filled
  split <;> rfl

theorem same_but_filled_mark_unfilled (t : TexturePlacement) :
    t.same_but_filled t.mark_unfilled := rfl

theorem OnlyFills.refl (w : Heap) : OnlyFills w w :=
  ⟨rfl, fun _ => rfl, fun _ h => h⟩

theorem OnlyFills.trans {w w2 w3 : Heap} (h1 : OnlyFills w w2) (h2 : OnlyFills w2 w3) :
    OnlyFills w w3 :=
  ⟨h2.images.trans h1.images, fun q => same_but_filled_trans (h1.same q) (h2.same q),
    fun q h => h2.kept q (h1.kept q h)⟩

theorem OnlyFills.set_filled (w : Heap) (p : Nat) :
    OnlyFills w (w.set_placement p (w.placements p).filled) := by
  refine ⟨rfl, fun q => ?_, fun q h => ?_⟩
  · by_cases e : q = p
    · subst e
      simp only [Heap.set_placement, Function.update_same]
      exact same_but_filled_filled _
    · simp only [Heap.set_placement, Function.update_apply, e, if_false]
      rfl
  · by_cases e : q = p
    · subst e
      simp only [Heap.set_placement, Function.update_same, TexturePlacement.filled]
      split
      · exact h
      · rfl
    · simp only [Heap.set_placement, Function.update_apply, e, if_false]
      exact h

theorem fill_each_only_fills (l : List Nat) (w : Heap) :
    OnlyFills w (PaletteImage.fill_each w l) := by
  induction l generalizing w with
  | nil => exact OnlyFills.refl w
  | cons p l ih =>
    unfold PaletteImage.fill_each
    exact (OnlyFills.set_filled w p).trans (ih _)

theorem fill_unfilled_only_fills (l : List Nat) (w : Heap) :
    OnlyFills w (PaletteImage.fill_unfilled w l) := by
  induction l generalizing w with
  | nil => exact OnlyFills.refl w
  | cons p l ih =>
    unfold PaletteImage.fill_unfilled
    split
    · exact (OnlyFills.set_filled w p).trans (ih _)
    · exact ih _

/-- After the loop that fills the unfilled placements, every listed placement that is on
an image is filled. -/
theorem fill_unfilled_done (l : List Nat) (w : Heap) :
    ∀ p ∈ l, (w.placements p)._image ≠ none →
      ((PaletteImage.fill_unfilled w l).placements p)._is_filled = true := by
  induction l generalizing w with
  | nil => intro p hp; cases hp
  | cons q l ih =>
    intro p hp hpl
    unfold PaletteImage.fill_unfilled
    by_cases hq : (w.placements q)._is_filled = true
    · simp only [hq, Bool.not_true, Bool.false_eq_true, if_false]
      rcases List.mem_cons.mp hp with e | hp2
      · subst e
        exact (fill_unfilled_only_fills l w).kept p hq
      · exact ih w p hp2 hpl
    · have hqf : (w.placements q)._is_filled = false := by
        cases h : (w.placements q)._is_filled with
        | false => rfl
        | true => exact absurd h hq
      simp only [hqf, Bool.not_false, if_true]
      have hs := OnlyFills.set_filled w q
      rcases List.mem_cons.mp hp with e | hp2
      · subst e
        apply (fill_unfilled_only_fills l _).kept p
        have hplaced : (w.placements p).is_placed = true := by
          unfold TexturePlacement.is_placed
          cases h : (w.placements p)._image with
          | none => exact absurd h hpl
          | some _ => rfl
        simp [Heap.set_placement, TexturePlacement.filled, hplaced]
      · apply ih _ p hp2
        rw [(same_but_filled_fields (hs.same p)).1]
        exact hpl

theorem check_sources_same (fs : FileSystem) (l : List Nat) (w : Heap) (nu : Bool) (q : Nat) :
    (w.placements q).same_but_filled ((PaletteImage.check_sources fs w l nu).1.placements q) := by
  induction l generalizing w nu with
  | nil => rfl
  | cons p l ih =>
    unfold PaletteImage.check_sources
    split_ifs
    · exact ih _ _
    · refine same_but_filled_trans ?_ (ih _ _)
      by_cases e : q = p
      · subst e
        simp only [Heap.set_placement, Function.update_same]
        exact same_but_filled_mark_unfilled _
      · simp only [Heap.set_placement, Function.update_apply, e, if_false]
        rfl
    · exact ih _ _

/-- After `get_image` on an image not yet got: the image is no longer new, it holds the
same placements, and the placements changed in their filled flag at most. -/
theorem get_image_spec (pal : Palettizer) (fs : FileSystem) (w : Heap) (a : Nat)
    (hgot : (w.images a)._got_image = false) :
    ((PaletteImage.get_image pal fs w a).images a)._new_image = false ∧
    ((PaletteImage.get_image pal fs w a).images a)._placements = (w.images a)._placements ∧
    ∀ q, (w.placements q).same_but_filled ((PaletteImage.get_image pal fs w a).placements q) := by
  have key : ∀ c : Bool,
      ((if (!(w.images a)._new_image && c) = true then
          w.set_image a { w.images a with _got_image := true }
        else PaletteImage.fill_each
          (w.set_image a
            { w.images a with _cleared_regions := [], _new_image := false, _got_image := true })
          (w.images a)._placements).images a)._new_image = false ∧
      ((if (!(w.images a)._new_image && c) = true then
          w.set_image a { w.images a with _got_image := true }
        else PaletteImage.fill_each
          (w.set_image a
            { w.images a with _cleared_regions := [], _new_image := false, _got_image := true })
          (w.images a)._placements).images a)._placements = (w.images a)._placements ∧
      ∀ q, (w.placements q).same_but_filled
        ((if (!(w.images a)._new_image && c) = true then
          w.set_image a { w.images a with _got_image := true }
        else PaletteImage.fill_each
          (w.set_image a
            { w.images a with _cleared_regions := [], _new_image := false, _got_image := true })
          (w.images a)._placements).placements q) := by
    intro c
    have hf := fill_each_only_fills (w.images a)._placements
      (w.set_image a
        { w.images a with _cleared_regions := [], _new_image := false, _got_image := true })
    by_cases h : (!(w.images a)._new_image && c) = true
    · rw [if_pos h]
      simp only [Bool.and_eq_true, Bool.not_eq_true'] at h
      refine ⟨?_, ?_, fun q => rfl⟩
      · simp only [Heap.set_image, Function.update_same]
        exact h.1
      · simp only [Heap.set_image, Function.update_same]
    · rw [if_neg h]
      refine ⟨?_, ?_, fun q => hf.same q⟩
      · rw [hf.images]
        simp only [Heap.set_image, Function.update_same]
      · rw [hf.images]
        simp only [Heap.set_image, Function.update_same]
  unfold PaletteImage.get_image
  simp only [hgot, Bool.false_eq_true, if_false]
  exact key _

theorem regenerate_tail (w4 : Heap) (a : Nat) :
    (((PaletteImage.fill_unfilled w4 (w4.images a)._placements).set_image a
      { (PaletteImage.fill_unfilled w4 (w4.images a)._placements).images a with
        file_exists := true, _got_image := false }).images a)._new_image
        = (w4.images a)._new_image ∧
    (((PaletteImage.fill_unfilled w4 (w4.images a)._placements).set_image a
      { (PaletteImage.fill_unfilled w4 (w4.images a)._placements).images a with
        file_exists := true, _got_image := false }).images a)._cleared_regions
        = (w4.images a)._cleared_regions ∧
    (((PaletteImage.fill_unfilled w4 (w4.images a)._placements).set_image a
      { (PaletteImage.fill_unfilled w4 (w4.images a)._placements).images a with
        file_exists := true, _got_image := false }).images a).file_exists = true ∧
    (((PaletteImage.fill_unfilled w4 (w4.images a)._placements).set_image a
      { (PaletteImage.fill_unfilled w4 (w4.images a)._placements).images a with
        file_exists := true, _got_image := false }).images a)._got_image = false ∧
    (((PaletteImage.fill_unfilled w4 (w4.images a)._placements).set_image a
      { (PaletteImage.fill_unfilled w4 (w4.images a)._placements).images a with
        file_exists := true, _got_image := false }).images a)._placements
        = (w4.images a)._placements ∧
    (∀ q, (w4.placements q).same_but_filled
      (((PaletteImage.fill_unfilled w4 (w4.images a)._placements).set_image a
        { (PaletteImage.fill_unfilled w4 (w4.images a)._placements).images a with
          file_exists := true, _got_image := false }).placements q)) ∧
    (∀ p ∈ (w4.images a)._placements, (w4.placements p)._image ≠ none →
      (((PaletteImage.fill_unfilled w4 (w4.images a)._placements).set_image a
        { (PaletteImage.fill_unfilled w4 (w4.images a)._placements).images a with
          file_exists := true, _got_image := false }).placements p)._is_filled = true) := by
  have hf := fill_unfilled_only_fills (w4.images a)._placements w4
  have hd := fill_unfilled_done (w4.images a)._placements w4
  generalize PaletteImage.fill_unfilled w4 (w4.images a)._placements = w5 at hf hd ⊢
  have himg : (w5.set_image a { w5.images a with file_exists := true, _got_image := false }).images a
      = { w5.images a with file_exists := true, _got_image := false } := by
    simp [Heap.set_image]
  rw [himg, hf.images]
  exact ⟨rfl, rfl, rfl, rfl, rfl, fun q => hf.same q, fun p hp hpl => hd p hp hpl⟩

/-- After the regenerating part of `update_image` on an image not yet got: the image is not
new, has no cleared region, its file exists, it holds the same placements, each changed in
its filled flag at most, and those on an image are filled. -/
theorem regenerate_spec (pal : Palettizer) (fs : FileSystem) (w : Heap) (a : Nat)
    (hgot : (w.images a)._got_image = false) :
    ((PaletteImage.regenerate pal fs w a).images a)._new_image = false ∧
    ((PaletteImage.regenerate pal fs w a).images a)._cleared_regions = [] ∧
    ((PaletteImage.regenerate pal fs w a).images a).file_exists = true ∧
    ((PaletteImage.regenerate pal fs w a).images a)._got_image = false ∧
    ((PaletteImage.regenerate pal fs w a).images a)._placements = (w.images a)._placements ∧
    (∀ q, (w.placements q).same_but_filled
      ((PaletteImage.regenerate pal fs w a).placements q)) ∧
    (∀ p ∈ (w.images a)._placements, (w.placements p)._image ≠ none →
      ((PaletteImage.regenerate pal fs w a).placements p)._is_filled = true) := by
  obtain ⟨g1, g2, g3⟩ := get_image_spec pal fs w a hgot
  have ht := regenerate_tail
    ((PaletteImage.get_image pal fs w a).set_image a
      { (PaletteImage.get_image pal fs w a).images a with _cleared_regions := [] }) a
  have himg : ((PaletteImage.get_image pal fs w a).set_image a
      { (PaletteImage.get_image pal fs w a).images a with _cleared_regions := [] }).images a
      = { (PaletteImage.get_image pal fs w a).images a with _cleared_regions := [] } := by
    simp [Heap.set_image]
  obtain ⟨t1, t2, t3, t4, t5, t6, t7⟩ := ht
  unfold PaletteImage.regenerate
  simp only
  refine ⟨?_, ?_, t3, t4, ?_, ?_, ?_⟩
  · rw [t1, himg]; exact g1
  · rw [t2, himg]
  · rw [t5, himg]; exact g2
  · intro q
    exact same_but_filled_trans (g3 q) (t6 q)
  · intro p hp hpl
    apply t7 p
    · rw [himg]; rw [← g2] at hp; exact hp
    · show ((PaletteImage.get_image pal fs w a).placements p)._image ≠ none
      rw [(same_but_filled_fields (g3 p)).1]
      exact hpl

/-- The start of `update_image` (the removal under `redo_all` and `update_filename`) leaves
the placements, the placement list and the got flag as they are. -/
theorem update_image_start (fs : FileSystem) (w : Heap) (a : Nat) (redo_all : Bool) :
    ((if redo_all = true then w.set_image a (PaletteImage.remove_image (w.images a))
        else w).set_image a
      (PaletteImage.update_filename fs
        ((if redo_all = true then w.set_image a (PaletteImage.remove_image (w.images a))
          else w).images a))).placements = w.placements ∧
    (((if redo_all = true then w.set_image a (PaletteImage.remove_image (w.images a))
        else w).set_image a
      (PaletteImage.update_filename fs
        ((if redo_all = true then w.set_image a (PaletteImage.remove_image (w.images a))
          else w).images a))).images a)._got_image = (w.images a)._got_image ∧
    (((if redo_all = true then w.set_image a (PaletteImage.remove_image (w.images a))
        else w).set_image a
      (PaletteImage.update_filename fs
        ((if redo_all = true then w.set_image a (PaletteImage.remove_image (w.images a))
          else w).images a))).images a)._placements = (w.images a)._placements := by
  cases redo_all <;> cases hc : fs.filename_changed <;>
    simp [Heap.set_image, PaletteImage.update_filename, PaletteImage.remove_image, hc]

theorem update_image_tail (pal : Palettizer) (fs : FileSystem) (w2 : Heap) (a : Nat)
    (l : List Nat) (nu : Bool)
    (h : (if (!(PaletteImage.check_sources fs w2 l nu).2) = true then
        ((PaletteImage.check_sources fs w2 l nu).1, false)
      else (PaletteImage.regenerate pal fs (PaletteImage.check_sources fs w2 l nu).1 a,
        true)).2 = true) :
    (if (!(PaletteImage.check_sources fs w2 l nu).2) = true then
        ((PaletteImage.check_sources fs w2 l nu).1, false)
      else (PaletteImage.regenerate pal fs (PaletteImage.check_sources fs w2 l nu).1 a, true))
      = (PaletteImage.regenerate pal fs (PaletteImage.check_sources fs w2 l nu).1 a, true) := by
  cases hr : (PaletteImage.check_sources fs w2 l nu).2 with
  | true => simp
  | false => rw [hr] at h; simp at h

/-- When `update_image` writes, it was not skipped and the heap it returns is the one
`regenerate` makes of a heap that differs from the initial one in filled flags and in the
new flag and file of the image. -/
theorem update_image_wrote (pal : Palettizer) (fs : FileSystem) (w : Heap) (a : Nat)
    (redo_all : Bool) (hwrote : (PaletteImage.update_image pal fs w a redo_all).2 = true) :
    (PaletteImage.is_empty w.placements (w.images a) && pal._aggressively_clean_mapdir) = false ∧
    ∃ v, PaletteImage.update_image pal fs w a redo_all = (PaletteImage.regenerate pal fs v a, true) ∧
      (v.images a)._got_image = (w.images a)._got_image ∧
      (v.images a)._placements = (w.images a)._placements ∧
      ∀ q, (w.placements q).same_but_filled (v.placements q) := by
  obtain ⟨s1, s2, s3⟩ := update_image_start fs w a redo_all
  unfold PaletteImage.update_image at hwrote ⊢
  cases hsk : (PaletteImage.is_empty w.placements (w.images a) &&
      pal._aggressively_clean_mapdir) with
  | true =>
    rw [hsk] at hwrote
    simp at hwrote
  | false =>
    rw [hsk, if_neg Bool.false_ne_true] at hwrote
    rw [if_neg Bool.false_ne_true]
    dsimp only at hwrote ⊢
    have key := update_image_tail pal fs _ a _ _ hwrote
    refine ⟨rfl, _, key, ?_, ?_, ?_⟩
    · rw [check_sources_images]; exact s2
    · rw [check_sources_images]; exact s3
    · intro q
      have h := check_sources_same fs
        (((if redo_all = true then w.set_image a (PaletteImage.remove_image (w.images a))
            else w).set_image a
          (PaletteImage.update_filename fs
            ((if redo_all = true then w.set_image a (PaletteImage.remove_image (w.images a))
              else w).images a))).images a)._placements
        ((if redo_all = true then w.set_image a (PaletteImage.remove_image (w.images a))
            else w).set_image a
          (PaletteImage.update_filename fs
            ((if redo_all = true then w.set_image a (PaletteImage.remove_image (w.images a))
              else w).images a)))
        ((((if redo_all = true then w.set_image a (PaletteImage.remove_image (w.images a))
            else w).set_image a
          (PaletteImage.update_filename fs
            ((if redo_all = true then w.set_image a (PaletteImage.remove_image (w.images a))
              else w).images a))).images a)._new_image ||
          !(((if redo_all = true then w.set_image a (PaletteImage.remove_image (w.images a))
            else w).set_image a
          (PaletteImage.update_filename fs
            ((if redo_all = true then w.set_image a (PaletteImage.remove_image (w.images a))
              else w).images a))).images a).file_exists ||
          !(((if redo_all = true then w.set_image a (PaletteImage.remove_image (w.images a))
            else w).set_image a
          (PaletteImage.update_filename fs
            ((if redo_all = true then w.set_image a (PaletteImage.remove_image (w.images a))
              else w).images a))).images a)._cleared_regions.isEmpty) q
      rw [s1] at h
      exact h

theorem is_empty_congr (ps ps2 : Nat → TexturePlacement) (img img2 : PaletteImage)
    (hl : img2._placements = img._placements)
    (ho : ∀ q, (ps2 q)._omit_reason = (ps q)._omit_reason) :
    PaletteImage.is_empty ps2 img2 = PaletteImage.is_empty ps img := by
  unfold PaletteImage.is_empty
  rw [hl]
  split
  · rfl
  · rw [ho]
  · rfl

/-- C29. Idempotence of re-run at atlas level: after `PaletteImage::update_image` has
regenerated and written an atlas (whose listed placements are on an image, and whose
pixels were not held in memory on entry), new_flag is false, cleared_regions is empty,
the written file is present and every placement on the atlas is filled, so an immediately
following `update_image(false)` with an unchanged file name and no source newer than the
atlas computes needs_update = false, writes nothing and changes nothing. -/
theorem C29_update_idempotent (pal : Palettizer) (fs fs2 : FileSystem) (w : Heap) (a : Nat)
    (redo_all : Bool)
    (hlisted : ∀ p ∈ (w.images a)._placements, (w.placements p)._image ≠ none)
    (hgot : (w.images a)._got_image = false)
    (hwrote : (PaletteImage.update_image pal fs w a redo_all).2 = true)
    (hsame : fs2.filename_changed = false)
    (hnewer : ∀ p ∈ (w.images a)._placements, fs2.source_newer p = false) :
    ((PaletteImage.update_image pal fs w a redo_all).1.images a)._new_image = false ∧
    ((PaletteImage.update_image pal fs w a redo_all).1.images a)._cleared_regions = [] ∧
    ((PaletteImage.update_image pal fs w a redo_all).1.images a).file_exists = true ∧
    (∀ p ∈ ((PaletteImage.update_image pal fs w a redo_all).1.images a)._placements,
      ((PaletteImage.update_image pal fs w a redo_all).1.placements p)._is_filled = true) ∧
    ¬ PaletteImage.needs_update fs2 (PaletteImage.update_image pal fs w a redo_all).1 a false ∧
    PaletteImage.update_image pal fs2 (PaletteImage.update_image pal fs w a redo_all).1 a false
      = ((PaletteImage.update_image pal fs w a redo_all).1, false) := by
  obtain ⟨hsk, v, e, hg, hl, hs⟩ := update_image_wrote pal fs w a redo_all hwrote
  rw [e]
  simp only
  obtain ⟨r1, r2, r3, _, r5, r6, r7⟩ := regenerate_spec pal fs v a (by rw [hg]; exact hgot)
  have hfilled : ∀ p ∈ ((PaletteImage.regenerate pal fs v a).images a)._placements,
      ((PaletteImage.regenerate pal fs v a).placements p)._is_filled = true := by
    intro p hp
    rw [r5] at hp
    apply r7 p hp
    rw [(same_but_filled_fields (hs p)).1]
    exact hlisted p (by rw [← hl]; exact hp)
  have hnot : ¬ PaletteImage.needs_update fs2 (PaletteImage.regenerate pal fs v a) a false := by
    unfold PaletteImage.needs_update
    rintro (h | h | h | h | h | ⟨p, hp, h | h⟩)
    · rw [r1] at h; cases h
    · cases h
    · rw [hsame] at h; cases h
    · rw [r3] at h; cases h
    · exact h r2
    · rw [hfilled p hp] at h; cases h
    · rw [hnewer p (by rw [← hl, ← r5]; exact hp)] at h
      cases h.2
  have hemp : PaletteImage.is_empty (PaletteImage.regenerate pal fs v a).placements
      ((PaletteImage.regenerate pal fs v a).images a)
      = PaletteImage.is_empty w.placements (w.images a) :=
    is_empty_congr _ _ _ _ (r5.trans hl) (fun q =>
      ((same_but_filled_fields (r6 q)).2.1).trans (same_but_filled_fields (hs q)).2.1)
  have hskip2 : ¬ (PaletteImage.is_empty (PaletteImage.regenerate pal fs v a).placements
      ((PaletteImage.regenerate pal fs v a).images a) = true ∧
      pal._aggressively_clean_mapdir = true) := by
    rw [hemp]
    rintro ⟨h1, h2⟩
    rw [h1, h2] at hsk
    cases hsk
  have hd := update_image_decides pal fs2 (PaletteImage.regenerate pal fs v a) a false hskip2
  have h2f : (PaletteImage.update_image pal fs2 (PaletteImage.regenerate pal fs v a) a false).2
      = false := by
    cases h : (PaletteImage.update_image pal fs2 (PaletteImage.regenerate pal fs v a) a false).2 with
    | false => rfl
    | true => exact absurd (hd.1.mp h) hnot
  refine ⟨r1, r2, r3, hfilled, hnot, ?_⟩
  exact Prod.ext (hd.2 h2f) h2f

/-- Witness of C29: on the S6 atlas with a named texture whose source is newer, the first
`update_image` writes; the second one, with no source newer, writes nothing. -/
theorem C29_update_idempotent_witness :
    (PaletteImage.update_image S6_pal stale_sources S6_named 0 false).2 = true ∧
    ((PaletteImage.update_image S6_pal stale_sources S6_named 0 false).1.images 0)._new_image
      = false ∧
    ((PaletteImage.update_image S6_pal stale_sources S6_named 0 false).1.images
      0)._cleared_regions = [] ∧
    ((PaletteImage.update_image S6_pal stale_sources S6_named 0 false).1.images 0).file_exists
      = true ∧
    (∀ p ∈ ((PaletteImage.update_image S6_pal stale_sources S6_named 0 false).1.images
        0)._placements,
      ((PaletteImage.update_image S6_pal stale_sources S6_named 0 false).1.placements
        p)._is_filled = true) ∧
    ¬ PaletteImage.needs_update fresh_sources
      (PaletteImage.update_image S6_pal stale_sources S6_named 0 false).1 0 false ∧
    PaletteImage.update_image S6_pal fresh_sources
        (PaletteImage.update_image S6_pal stale_sources S6_named 0 false).1 0 false
      = ((PaletteImage.update_image S6_pal stale_sources S6_named 0 false).1, false) :=
  ⟨by decide,
    C29_update_idempotent S6_pal stale_sources fresh_sources S6_named 0 false (by decide) rfl
      (by decide) rfl (fun _ _ => rfl)⟩

/-! ## The error colour -/

theorem for_row_set_xel_val (r g b y : Int) (n : Nat) :
    ∀ (x : Int) (image : PNMImage),
      (PNMImage.for_row (fun x y img => img.set_xel_val x y r g b) y n x image).get_maxval
        = image.get_maxval ∧
      (PNMImage.for_row (fun x y img => img.set_xel_val x y r g b) y n x image).has_alpha
        = image.has_alpha ∧
      (PNMImage.for_row (fun x y img => img.set_xel_val x y r g b) y n x image).get_alpha
        = image.get_alpha ∧
      ∀ X Y, (PNMImage.for_row (fun x y img => img.set_xel_val x y r g b) y n x image).get_xel X Y
        = if Y = y ∧ x ≤ X ∧ X < x + n then
            ⟨(r : ℚ) / image.get_maxval, (g : ℚ) / image.get_maxval,
              (b : ℚ) / image.get_maxval⟩
          else image.get_xel X Y := by
  induction n with
  | zero =>
    intro x image
    refine ⟨rfl, rfl, rfl, fun X Y => ?_⟩
    rw [if_neg (by simp only [Nat.cast_zero]; omega)]
    rfl
  | succ n ih =>
    intro x image
    unfold PNMImage.for_row
    obtain ⟨h1, h2, h3, h4⟩ := ih (x + 1) (image.set_xel_val x y r g b)
    refine ⟨h1, h2, h3, fun X Y => ?_⟩
    rw [h4]
    simp only [PNMImage.set_xel_val, PNMImage.set_xel]
    push_cast
    split_ifs <;> first | rfl | (exfalso; omega)

theorem for_rect_set_xel_val (r g b x0 y0 x_size y_size : Int) (image : PNMImage) :
    (PNMImage.for_rect (fun x y img => img.set_xel_val x y r g b) x0 y0 x_size y_size
        image).get_maxval = image.get_maxval ∧
    (PNMImage.for_rect (fun x y img => img.set_xel_val x y r g b) x0 y0 x_size y_size
        image).has_alpha = image.has_alpha ∧
    (PNMImage.for_rect (fun x y img => img.set_xel_val x y r g b) x0 y0 x_size y_size
        image).get_alpha = image.get_alpha ∧
    ∀ X Y, (PNMImage.for_rect (fun x y img => img.set_xel_val x y r g b) x0 y0 x_size y_size
        image).get_xel X Y
      = if x0 ≤ X ∧ X < x0 + x_size ∧ y0 ≤ Y ∧ Y < y0 + y_size then
          ⟨(r : ℚ) / image.get_maxval, (g : ℚ) / image.get_maxval, (b : ℚ) / image.get_maxval⟩
        else image.get_xel X Y := by
  unfold PNMImage.for_rect
  have key : ∀ (n : Nat) (y : Int) (img : PNMImage),
      (PNMImage.for_rows (fun x y img => img.set_xel_val x y r g b) x0 x_size.toNat n y
          img).get_maxval = img.get_maxval ∧
      (PNMImage.for_rows (fun x y img => img.set_xel_val x y r g b) x0 x_size.toNat n y
          img).has_alpha = img.has_alpha ∧
      (PNMImage.for_rows (fun x y img => img.set_xel_val x y r g b) x0 x_size.toNat n y
          img).get_alpha = img.get_alpha ∧
      ∀ X Y, (PNMImage.for_rows (fun x y img => img.set_xel_val x y r g b) x0 x_size.toNat n y
          img).get_xel X Y
        = if x0 ≤ X ∧ X < x0 + x_size ∧ y ≤ Y ∧ Y < y + n then
            ⟨(r : ℚ) / img.get_maxval, (g : ℚ) / img.get_maxval, (b : ℚ) / img.get_maxval⟩
          else img.get_xel X Y := by
    intro n
    induction n with
    | zero =>
      intro y img
      refine ⟨rfl, rfl, rfl, fun X Y => ?_⟩
      rw [if_neg (by simp only [Nat.cast_zero]; omega)]
      rfl
    | succ n ih =>
      intro y img
      unfold PNMImage.for_rows
      obtain ⟨a1, a2, a3, a4⟩ := for_row_set_xel_val r g b y x_size.toNat x0 img
      obtain ⟨h1, h2, h3, h4⟩ := ih (y + 1)
        (PNMImage.for_row (fun x y img => img.set_xel_val x y r g b) y x_size.toNat x0 img)
      refine ⟨h1.trans a1, h2.trans a2, h3.trans a3, fun X Y => ?_⟩
      rw [h4, a4, a1]
      push_cast
      split_ifs <;> first | rfl | (exfalso; omega)
  obtain ⟨h1, h2, h3, h4⟩ := key y_size.toNat y0 image
  refine ⟨h1, h2, h3, fun X Y => ?_⟩
  rw [h4]
  split_ifs <;> first | rfl | (exfalso; omega)

theorem for_row_set_alpha_val (v y : Int) (n : Nat) :
    ∀ (x : Int) (image : PNMImage),
      (PNMImage.for_row (fun x y img => img.set_alpha_val x y v) y n x image).get_maxval
        = image.get_maxval ∧
      (PNMImage.for_row (fun x y img => img.set_alpha_val x y v) y n x image).has_alpha
        = image.has_alpha ∧
      (PNMImage.for_row (fun x y img => img.set_alpha_val x y v) y n x image).get_xel
        = image.get_xel ∧
      ∀ X Y, (PNMImage.for_row (fun x y img => img.set_alpha_val x y v) y n x image).get_alpha X Y
        = if Y = y ∧ x ≤ X ∧ X < x + n then (v : ℚ) / image.get_maxval
          else image.get_alpha X Y := by
  induction n with
  | zero =>
    intro x image
    refine ⟨rfl, rfl, rfl, fun X Y => ?_⟩
    rw [if_neg (by simp only [Nat.cast_zero]; omega)]
    rfl
  | succ n ih =>
    intro x image
    unfold PNMImage.for_row
    obtain ⟨h1, h2, h3, h4⟩ := ih (x + 1) (image.set_alpha_val x y v)
    refine ⟨h1, h2, h3, fun X Y => ?_⟩
    rw [h4]
    simp only [PNMImage.set_alpha_val, PNMImage.set_alpha]
    push_cast
    split_ifs <;> first | rfl | (exfalso; omega)

theorem for_rect_set_alpha_val (v x0 y0 x_size y_size : Int) (image : PNMImage) :
    (PNMImage.for_rect (fun x y img => img.set_alpha_val x y v) x0 y0 x_size y_size
        image).get_maxval = image.get_maxval ∧
    (PNMImage.for_rect (fun x y img => img.set_alpha_val x y v) x0 y0 x_size y_size
        image).has_alpha = image.has_alpha ∧
    (PNMImage.for_rect (fun x y img => img.set_alpha_val x y v) x0 y0 x_size y_size
        image).get_xel = image.get_xel ∧
    ∀ X Y, (PNMImage.for_rect (fun x y img => img.set_alpha_val x y v) x0 y0 x_size y_size
        image).get_alpha X Y
      = if x0 ≤ X ∧ X < x0 + x_size ∧ y0 ≤ Y ∧ Y < y0 + y_size then
          (v : ℚ) / image.get_maxval
        else image.get_alpha X Y := by
  unfold PNMImage.for_rect
  have key : ∀ (n : Nat) (y : Int) (img : PNMImage),
      (PNMImage.for_rows (fun x y img => img.set_alpha_val x y v) x0 x_size.toNat n y
          img).get_maxval = img.get_maxval ∧
      (PNMImage.for_rows (fun x y img => img.set_alpha_val x y v) x0 x_size.toNat n y
          img).has_alpha = img.has_alpha ∧
      (PNMImage.for_rows (fun x y img => img.set_alpha_val x y v) x0 x_size.toNat n y
          img).get_xel = img.get_xel ∧
      ∀ X Y, (PNMImage.for_rows (fun x y img => img.set_alpha_val x y v) x0 x_size.toNat n y
          img).get_alpha X Y
        = if x0 ≤ X ∧ X < x0 + x_size ∧ y ≤ Y ∧ Y < y + n then (v : ℚ) / img.get_maxval
          else img.get_alpha X Y := by
    intro n
    induction n with
    | zero =>
      intro y img
      refine ⟨rfl, rfl, rfl, fun X Y => ?_⟩
      rw [if_neg (by simp only [Nat.cast_zero]; omega)]
      rfl
    | succ n ih =>
      intro y img
      unfold PNMImage.for_rows
      obtain ⟨a1, a2, a3, a4⟩ := for_row_set_alpha_val v y x_size.toNat x0 img
      obtain ⟨h1, h2, h3, h4⟩ := ih (y + 1)
        (PNMImage.for_row (fun x y img => img.set_alpha_val x y v) y x_size.toNat x0 img)
      refine ⟨h1.trans a1, h2.trans a2, h3.trans a3, fun X Y => ?_⟩
      rw [h4, a4, a1]
      push_cast
      split_ifs <;> first | rfl | (exfalso; omega)
  obtain ⟨h1, h2, h3, h4⟩ := key y_size.toNat y0 image
  refine ⟨h1, h2, h3, fun X Y => ?_⟩
  rw [h4]
  split_ifs <;> first | rfl | (exfalso; omega)

/-- What `flag_error_image` writes: inside the placed rectangle the raw colour (1, 0, 0)
and, with an alpha channel, the raw alpha 1, each as a fraction of `maxval`; outside the
rectangle nothing. -/
theorem flag_error_image_pixels (t : TexturePlacement) (image : PNMImage)
    (hp : t.is_placed = true) (X Y : Int) :
    (t.flag_error_image image).get_xel X Y =
      (if t._placed._x ≤ X ∧ X < t._placed._x + t._placed._x_size ∧
          t._placed._y ≤ Y ∧ Y < t._placed._y + t._placed._y_size then
        ⟨((1 : Int) : ℚ) / image.get_maxval, ((0 : Int) : ℚ) / image.get_maxval,
          ((0 : Int) : ℚ) / image.get_maxval⟩
      else image.get_xel X Y) ∧
    (t.flag_error_image image).get_alpha X Y =
      (if image.has_alpha = true ∧ t._placed._x ≤ X ∧ X < t._placed._x + t._placed._x_size ∧
          t._placed._y ≤ Y ∧ Y < t._placed._y + t._placed._y_size then
        ((1 : Int) : ℚ) / image.get_maxval
      else image.get_alpha X Y) := by
  obtain ⟨x1, x2, x3, x4⟩ := for_rect_set_xel_val 1 0 0 t._placed._x t._placed._y
    t._placed._x_size t._placed._y_size image
  obtain ⟨a1, a2, a3, a4⟩ := for_rect_set_alpha_val 1 t._placed._x t._placed._y
    t._placed._x_size t._placed._y_size
    (PNMImage.for_rect (fun x y img => img.set_xel_val x y 1 0 0)
      t._placed._x t._placed._y t._placed._x_size t._placed._y_size image)
  unfold TexturePlacement.flag_error_image
  simp only [hp, Bool.not_true, Bool.false_eq_true, if_false]
  cases ha : image.has_alpha with
  | true =>
    simp only [if_true, true_and]
    rw [a3, a4, x1, x3]
    exact ⟨x4 X Y, rfl⟩
  | false =>
    simp only [Bool.false_eq_true, if_false, false_and]
    rw [x3]
    exact ⟨x4 X Y, rfl⟩

theorem fill_image_no_source (t : TexturePlacement) (image : PNMImage)
    (hp : t.is_placed = true) :
    t.fill_image none image = ({ t with _is_filled := true }, t.flag_error_image image) := by
  unfold TexturePlacement.fill_image
  simp only [hp, Bool.not_true, Bool.false_eq_true, if_false]
  rfl

theorem fill_image_placement (t : TexturePlacement) (source : Option PNMImage)
    (image : PNMImage) : (t.fill_image source image).1 = t.filled := by
  unfold TexturePlacement.fill_image TexturePlacement.filled
  split
  · rfl
  · cases source <;> rfl

/-- What `fill_image` does when the source failed to load, for a placement on an image:
the placement is marked filled, every pixel outside the placed rectangle is unchanged, and
every pixel inside it gets the raw colour (1, 0, 0) and, with an alpha channel, the raw
alpha 1: red and alpha are `1 / maxval` of full intensity. -/
theorem fill_image_error_rectangle (t : TexturePlacement) (image : PNMImage)
    (hp : t.is_placed = true) :
    (t.fill_image none image).1._is_filled = true ∧
    (∀ X Y, ¬ t.covers X Y →
      (t.fill_image none image).2.get_xel X Y = image.get_xel X Y ∧
      (t.fill_image none image).2.get_alpha X Y = image.get_alpha X Y) ∧
    (∀ X Y, t.covers X Y →
      (t.fill_image none image).2.get_xel X Y = ⟨1 / image.get_maxval, 0, 0⟩ ∧
      (image.has_alpha = true →
        (t.fill_image none image).2.get_alpha X Y = 1 / image.get_maxval)) := by
  rw [fill_image_no_source t image hp]
  refine ⟨rfl, fun X Y hc => ?_, fun X Y hc => ?_⟩
  · obtain ⟨h1, h2⟩ := flag_error_image_pixels t image hp X Y
    unfold TexturePlacement.covers at hc
    simp only
    rw [h1, h2, if_neg hc, if_neg (fun h => hc h.2)]
    exact ⟨rfl, rfl⟩
  · obtain ⟨h1, h2⟩ := flag_error_image_pixels t image hp X Y
    unfold TexturePlacement.covers at hc
    simp only
    rw [h1, h2, if_pos hc]
    refine ⟨?_, fun ha => ?_⟩
    · simp
    · rw [if_pos ⟨ha, hc⟩]
      simp

/-- C30 (failing input). The S1 placement (64x64 at (0,0)) is filled with no valid source
on a black, transparent palette image whose raw values range to 255: the pixel (0,0) gets
red 1/255 and alpha 1/255, not full-intensity red and not fully opaque alpha; the pixel
(64,0) outside the rectangle is unchanged, and the placement is marked filled. -/
theorem C30_error_colour :
    (S1_heap.placements 0).covers 0 0 ∧ ¬ (S1_heap.placements 0).covers 64 0 ∧
    ((S1_heap.placements 0).fill_image none blank_canvas).1._is_filled = true ∧
    ((S1_heap.placements 0).fill_image none blank_canvas).2.get_xel 0 0 = ⟨1 / 255, 0, 0⟩ ∧
    ((S1_heap.placements 0).fill_image none blank_canvas).2.get_xel 0 0 ≠ ⟨1, 0, 0⟩ ∧
    ((S1_heap.placements 0).fill_image none blank_canvas).2.get_alpha 0 0 = 1 / 255 ∧
    ((S1_heap.placements 0).fill_image none blank_canvas).2.get_alpha 0 0 ≠ 1 ∧
    ((S1_heap.placements 0).fill_image none blank_canvas).2.get_xel 64 0
      = blank_canvas.get_xel 64 0 := by
  have hp : (S1_heap.placements 0).is_placed = true := by decide
  have hin : (S1_heap.placements 0).covers 0 0 := by
    unfold TexturePlacement.covers; decide
  have hout : ¬ (S1_heap.placements 0).covers 64 0 := by
    unfold TexturePlacement.covers; decide
  obtain ⟨h1, h2, h3⟩ := fill_image_error_rectangle (S1_heap.placements 0) blank_canvas hp
  have hx := (h3 0 0 hin).1
  have ha := (h3 0 0 hin).2 rfl
  have hm : ((blank_canvas.get_maxval : Int) : ℚ) = 255 := by
    show ((255 : Int) : ℚ) = 255
    norm_num
  rw [hm] at hx ha
  refine ⟨hin, hout, h1, hx, ?_, ha, ?_, (h2 64 0 hout).1⟩
  · rw [hx]
    intro h
    have := congrArg RGBColord.r h
    norm_num at this
  · rw [ha]
    norm_num

/-! ## An atlas that counts as empty is not resized -/

theorem is_empty_iff (ps : Nat → TexturePlacement) (img : PaletteImage) :
    PaletteImage.is_empty ps img = true ↔
      img._placements = [] ∨
        ∃ p, img._placements = [p] ∧ (ps p)._omit_reason = OmitReason.OR_solitary := by
  unfold PaletteImage.is_empty
  split
  · next h => simp [h]
  · next p h => simp [h]
  · next h1 h2 =>
    constructor
    · intro h; cases h
    · rintro (h | ⟨p, h, _⟩)
      · exact absurd h h1
      · exact absurd h (h2 p)

/-- C40. `PaletteImage::is_empty` holds exactly when the atlas has no placement or exactly
one placement, flagged solitary; and when it holds, `optimal_resize` returns with the whole
object graph as it was: the atlas dimensions, its placement list, its cleared regions, its
new-image flag and every placement are unchanged. -/
theorem C40_optimal_resize_empty (sort : (Nat → TexturePlacement) → List Nat → List Nat)
    (w : Heap) (a : Nat) :
    (PaletteImage.is_empty w.placements (w.images a) = true ↔
      (w.images a)._placements = [] ∨
        ∃ p, (w.images a)._placements = [p] ∧
          (w.placements p)._omit_reason = OmitReason.OR_solitary) ∧
    (PaletteImage.is_empty w.placements (w.images a) = true →
      PaletteImage.optimal_resize sort w a = some w) := by
  refine ⟨is_empty_iff _ _, fun h => ?_⟩
  unfold PaletteImage.optimal_resize
  rw [if_pos h]

/-- C40 on scenario S1 after `check_solitary`: the only placement is flagged solitary, so
`optimal_resize` returns the same heap and the atlas keeps the page size 128x128. -/
theorem C40_optimal_resize_empty_witness :
    PaletteImage.is_empty S1_solitary.placements (S1_solitary.images 0) = true ∧
    PaletteImage.optimal_resize keep_order S1_solitary 0 = some S1_solitary ∧
    S1_solitary.summary 0 0 = ((128, 128), some 0, (0, 0), OmitReason.OR_solitary, [0]) :=
  ⟨by decide, (C40_optimal_resize_empty keep_order S1_solitary 0).2 (by decide), by decide⟩

/-! ## Taking one placement off an atlas -/

/-- C31. `TexturePlacement::force_replace` on a placement `p` that is on atlas `a`: every
occurrence of `p`, and nothing else, leaves the list of `a` (one entry when the list has no
duplicates); exactly one cleared region is appended, the placed rectangle of `p`; `p` gets a
null image and the omit reason `working`; every other placement, every other atlas, the size
of `a` and every placed rectangle are as before. -/
theorem C31_force_replace_frame (w : Heap) (p a : Nat)
    (h : (w.placements p)._image = some a) :
    ((TexturePlacement.force_replace w p).images a)._placements =
        (w.images a)._placements.filter (fun q => decide (q ≠ p)) ∧
    ((w.images a)._placements.Nodup →
      ((TexturePlacement.force_replace w p).images a)._placements =
        (w.images a)._placements.erase p) ∧
    ((TexturePlacement.force_replace w p).images a)._cleared_regions =
        (w.images a)._cleared_regions ++
          [{ _x := (w.placements p)._placed._x, _y := (w.placements p)._placed._y,
             _x_size := (w.placements p)._placed._x_size,
             _y_size := (w.placements p)._placed._y_size }] ∧
    ((TexturePlacement.force_replace w p).placements p)._image = none ∧
    ((TexturePlacement.force_replace w p).placements p)._omit_reason
        = OmitReason.OR_working ∧
    (∀ q, q ≠ p →
      (TexturePlacement.force_replace w p).placements q = w.placements q) ∧
    (∀ q, ((TexturePlacement.force_replace w p).placements q)._placed
        = (w.placements q)._placed) ∧
    (∀ b, b ≠ a → (TexturePlacement.force_replace w p).images b = w.images b) ∧
    ((TexturePlacement.force_replace w p).images a)._x_size = (w.images a)._x_size ∧
    ((TexturePlacement.force_replace w p).images a)._y_size = (w.images a)._y_size := by
  have hl : ((TexturePlacement.force_replace w p).images a)._placements =
      (w.images a)._placements.filter (fun q => decide (q ≠ p)) := by
    rw [force_replace_list, if_pos h]
  refine ⟨hl, fun hnd => ?_, ?_, ?_, ?_, ?_, fun q => force_replace_placed w p q, ?_,
    force_replace_x_size w p a, force_replace_y_size w p a⟩
  · rw [hl, List.Nodup.erase_eq_filter hnd]
    congr 1
    funext q
    by_cases hq : q = p <;> simp [hq]
  · rw [force_replace_images, if_pos h]
    simp [ClearedRegion.of_placement, TexturePlacement.get_placed_x,
      TexturePlacement.get_placed_y, TexturePlacement.get_placed_x_size,
      TexturePlacement.get_placed_y_size, TexturePlacement.is_placed, h]
  · rw [force_replace_image, if_pos rfl]
  · rw [force_replace_placements, if_pos ⟨rfl, by simp [h]⟩]
  · intro q hq
    rw [force_replace_placements, if_neg (fun hc => hq hc.1)]
  · intro b hb
    rw [force_replace_images, if_neg]
    rw [h]
    intro hc
    exact hb (Option.some.inj hc).symm

/-- C31 on scenario S5: the ten placements of S2 fill cells 0 to 9 of the 128x128 atlas;
taking placement 4 off leaves the other nine in the list, each with its old corner, and
the one cleared region is the cell (0, 32, 32, 32) that placement 4 had. -/
theorem C31_force_replace_frame_witness :
    (S5_heap.placements 4)._image = some 0 ∧
    S5_heap.layout 0 =
      [(0, some 0, 0, 0, 32, 32), (1, some 0, 32, 0, 32, 32), (2, some 0, 64, 0, 32, 32),
       (3, some 0, 96, 0, 32, 32), (4, some 0, 0, 32, 32, 32), (5, some 0, 32, 32, 32, 32),
       (6, some 0, 64, 32, 32, 32), (7, some 0, 96, 32, 32, 32), (8, some 0, 0, 64, 32, 32),
       (9, some 0, 32, 64, 32, 32)] ∧
    ((TexturePlacement.force_replace S5_heap 4).images 0)._placements =
      (S5_heap.images 0)._placements.filter (fun q => decide (q ≠ 4)) ∧
    (TexturePlacement.force_replace S5_heap 4).layout 0 =
      [(0, some 0, 0, 0, 32, 32), (1, some 0, 32, 0, 32, 32), (2, some 0, 64, 0, 32, 32),
       (3, some 0, 96, 0, 32, 32), (5, some 0, 32, 32, 32, 32),
       (6, some 0, 64, 32, 32, 32), (7, some 0, 96, 32, 32, 32), (8, some 0, 0, 64, 32, 32),
       (9, some 0, 32, 64, 32, 32)] ∧
    ((TexturePlacement.force_replace S5_heap 4).images 0)._cleared_regions =
      [{ _x := 0, _y := 32, _x_size := 32, _y_size := 32 }] ∧
    ((TexturePlacement.force_replace S5_heap 4).placements 4)._image = none ∧
    ((TexturePlacement.force_replace S5_heap 4).placements 4)._omit_reason
      = OmitReason.OR_working :=
  ⟨by decide, by decide, (C31_force_replace_frame S5_heap 4 0 (by decide)).1, by decide,
    by decide, by decide, by decide⟩

/-! ## The source pixel that fill_image reads -/

theorem source_index_wrap_neg (s n : Int) (hn : 0 < n) (hs : s < 0) :
    n - 1 - (-s - 1).tmod n = s % n := by
  have h0 : 0 ≤ -s - 1 := by omega
  rw [Int.tmod_eq_emod h0 hn.le]
  have hr0 : 0 ≤ (-s - 1) % n := Int.emod_nonneg _ (by omega)
  have hr1 : (-s - 1) % n < n := Int.emod_lt_of_pos _ hn
  have hd := Int.emod_add_ediv (-s - 1) n
  have hs2 : s = (n - 1 - (-s - 1) % n) + n * (-((-s - 1) / n) - 1) := by
    linear_combination hd
  have h3 : s % n = (n - 1 - (-s - 1) % n) % n := by
    conv_lhs => rw [hs2]
    exact Int.add_mul_emod_self_left _ _ _
  have h4 : (n - 1 - (-s - 1) % n) % n = n - 1 - (-s - 1) % n :=
    Int.emod_eq_of_lt (by omega) (by omega)
  rw [h3, h4]

/-- C34. The source coordinate `fill_image` reads along one axis, for a resampled size
`n > 0` and any integer coordinate `s`: it lies in `[0, n)`; under every wrap mode other
than clamp (repeat in particular) it is the non-negative remainder `s mod n`, so it is
congruent to `s` modulo `n` also for negative `s`; under clamp it is
`min(max(s, 0), n - 1)`. -/
theorem C34_source_index (wrap : WrapMode) (s n : Int) (hn : 0 < n) :
    0 ≤ TexturePlacement.source_index wrap s n ∧
    TexturePlacement.source_index wrap s n < n ∧
    (wrap ≠ WrapMode.WM_clamp →
      TexturePlacement.source_index wrap s n = s % n ∧
      (n ∣ s - TexturePlacement.source_index wrap s n)) ∧
    (wrap = WrapMode.WM_clamp →
      TexturePlacement.source_index wrap s n = min (max s 0) (n - 1)) := by
  have hw : wrap ≠ WrapMode.WM_clamp → TexturePlacement.source_index wrap s n = s % n := by
    intro h
    unfold TexturePlacement.source_index
    rw [if_neg h]
    split
    · next hs => exact source_index_wrap_neg s n hn hs
    · next hs => exact Int.tmod_eq_emod (by omega) hn.le
  have hc : wrap = WrapMode.WM_clamp →
      TexturePlacement.source_index wrap s n = min (max s 0) (n - 1) := by
    intro h
    unfold TexturePlacement.source_index
    rw [if_pos h]
    omega
  by_cases h : wrap = WrapMode.WM_clamp
  · refine ⟨?_, ?_, fun h2 => absurd h h2, hc⟩
    · rw [hc h]; omega
    · rw [hc h]; omega
  · refine ⟨?_, ?_, fun _ => ⟨hw h, ?_⟩, fun h2 => absurd h2 h⟩
    · rw [hw h]; exact Int.emod_nonneg _ (by omega)
    · rw [hw h]; exact Int.emod_lt_of_pos _ hn
    · rw [hw h]; exact Int.dvd_sub_of_emod_eq rfl

/-- C34 at a resampled size of 5 with the negative coordinate -7: repeat reads index 3
and clamp reads index 0. -/
theorem C34_source_index_witness :
    (0 : Int) < 5 ∧
    TexturePlacement.source_index WrapMode.WM_repeat (-7) 5 = 3 ∧
    TexturePlacement.source_index WrapMode.WM_clamp (-7) 5 = 0 ∧
    0 ≤ TexturePlacement.source_index WrapMode.WM_repeat (-7) 5 ∧
    TexturePlacement.source_index WrapMode.WM_repeat (-7) 5 < 5 :=
  ⟨by decide, by decide, by decide,
    (C34_source_index WrapMode.WM_repeat (-7) 5 (by decide)).1,
    (C34_source_index WrapMode.WM_repeat (-7) 5 (by decide)).2.1⟩

/-! ## The order fixed point is reached in one pass -/

/-- C35, as stated, fails in the `int` arithmetic of the program: group 1 depends on
group 0, whose dependency order is `INT_MAX`; the first `set_dependency_order()` on group
1 wraps its order around to `INT_MIN`, and the call that follows immediately finds it
below group 0 again and returns true. -/
theorem C35_counterexample :
    PaletteGroup.acyclic overflow_groups id ∧
    PaletteGroup.set_dependency_order_int 2 overflow_groups 1 = some (overflow_settled, true) ∧
    (PaletteGroup.set_dependency_order_int 2 overflow_settled 1).map Prod.snd = some true ∧
    PaletteGroup.set_dependency_order_int 2 overflow_settled 1 ≠
      some (overflow_settled, false) := by
  have h : (PaletteGroup.set_dependency_order_int 2 overflow_settled 1).map Prod.snd
      = some true := rfl
  refine ⟨overflow_acyclic, rfl, h, fun e => ?_⟩
  rw [e] at h
  cases h

/-- C35, amended. On an acyclic depends-on graph and from any initial order values that
are `int` values of at most `INT_MAX - rank g`, `g.set_dependency_order()` returns; and
on the groups it leaves, an immediately following `g.set_dependency_order()` returns
false and leaves every group as it is, so no `dependency_order` and no `dirname_order`
changes. -/
theorem C35_order_fixed_point_one_pass (gs : Nat → PaletteGroup) (rank : Nat → Nat)
    (hacyc : PaletteGroup.acyclic gs rank) (g n m : Nat) (hn : rank g < n) (hm : rank g < m)
    (hint : orders_int gs)
    (hbound : ∀ x, (gs x)._dependency_order + rank g ≤ 2147483647 ∧
      (gs x)._dirname_order + rank g ≤ 2147483647) :
    ∃ gs2 ch, PaletteGroup.set_dependency_order_int n gs g = some (gs2, ch) ∧
      PaletteGroup.set_dependency_order_int m gs2 g = some (gs2, false) := by
  obtain ⟨gs2, ch, e, p⟩ := set_dependency_order_post hacyc n gs g (static_graph_self gs) hn
  obtain ⟨gs3, ch3, e3, p3⟩ := set_dependency_order_post hacyc m gs2 g p.static hm
  have hc := p3.settled p.good
  have hh := p3.unchanged hc
  obtain ⟨t1, t2⟩ := set_dependency_order_int_eq hacyc n gs g (static_graph_self gs) hint
    (orders_below_of_bound gs rank g hbound) (by omega)
  obtain ⟨s2, i2, b2⟩ := t2 gs2 ch e
  have t3 := (set_dependency_order_int_eq hacyc m gs2 g s2 i2 b2 (by omega)).1
  refine ⟨gs2, ch, t1.trans e, ?_⟩
  rw [t3, e3, hh, hc]

/-- The amended C35 on three groups from reset orders, group 2 depending on groups 0 and
1: the first call returns true with new orders, the second returns false on the same
groups. -/
theorem C35_order_fixed_point_one_pass_witness :
    PaletteGroup.acyclic split_dir_groups id ∧ id 2 < 3 ∧ orders_int split_dir_groups ∧
    (PaletteGroup.set_dependency_order_int 3 split_dir_groups 2).map Prod.snd = some true ∧
    ∃ gs2 ch, PaletteGroup.set_dependency_order_int 3 split_dir_groups 2 = some (gs2, ch) ∧
      PaletteGroup.set_dependency_order_int 3 gs2 2 = some (gs2, false) :=
  ⟨split_dir_acyclic, by decide, split_dir_orders_int, rfl,
    C35_order_fixed_point_one_pass split_dir_groups id split_dir_acyclic 2 3 3
      (by decide) (by decide) split_dir_orders_int (split_dir_bound 2 (by decide))⟩

/-! ## The wrap modes of a placement that stays where it is -/

theorem keep_or_replace_blocks (pal : Palettizer) (w : Heap) (p : Nat) (mn mx : TexCoordd) :
    TexturePlacement.keep_or_replace pal w p mn mx =
      (TexturePlacement.replace_if_needed pal w p mn mx).set_placement p
        (TexturePlacement.copy_wrap_modes
          ((TexturePlacement.replace_if_needed pal w p mn mx).placements p)) := by
  have key : ∀ w1 : Heap,
      (if ((w1.placements p)._position._wrap_u ≠ (w1.placements p)._placed._wrap_u ∨
          (w1.placements p)._position._wrap_v ≠ (w1.placements p)._placed._wrap_v) then
        w1.set_placement p
          { w1.placements p with
            _is_filled := false
            _placed := { (w1.placements p)._placed with
              _wrap_u := (w1.placements p)._position._wrap_u,
              _wrap_v := (w1.placements p)._position._wrap_v } }
      else w1) = w1.set_placement p (TexturePlacement.copy_wrap_modes (w1.placements p)) := by
    intro w1
    unfold TexturePlacement.copy_wrap_modes
    split
    · rfl
    · simp [Heap.set_placement]
  exact key _

theorem force_replace_keeps (w : Heap) (p q : Nat) :
    ((TexturePlacement.force_replace w p).placements q)._position = (w.placements q)._position ∧
    ((TexturePlacement.force_replace w p).placements q)._placed = (w.placements q)._placed ∧
    ((TexturePlacement.force_replace w p).placements q)._is_filled
      = (w.placements q)._is_filled := by
  rw [force_replace_placements]
  split
  · next h => rw [h.1]; exact ⟨rfl, rfl, rfl⟩
  · exact ⟨rfl, rfl, rfl⟩

/-- The re-place block of `determine_size` changes neither wrap mode nor the filled
flag. -/
theorem replace_if_needed_wraps (pal : Palettizer) (w : Heap) (p : Nat) (mn mx : TexCoordd) :
    ((TexturePlacement.replace_if_needed pal w p mn mx).placements p)._position._wrap_u
      = (w.placements p)._position._wrap_u ∧
    ((TexturePlacement.replace_if_needed pal w p mn mx).placements p)._position._wrap_v
      = (w.placements p)._position._wrap_v ∧
    ((TexturePlacement.replace_if_needed pal w p mn mx).placements p)._placed
      = (w.placements p)._placed ∧
    ((TexturePlacement.replace_if_needed pal w p mn mx).placements p)._is_filled
      = (w.placements p)._is_filled := by
  unfold TexturePlacement.replace_if_needed
  simp only
  split_ifs
  · simp [Heap.set_placement, TexturePlacement.compute_size_from_uvs]
  · obtain ⟨h1, h2, h3⟩ := force_replace_keeps
      (w.set_placement p
        (TexturePlacement.compute_size_from_uvs
          (TexturePlacement.compute_size_from_uvs (w.placements p) mn mx)
          (TexturePlacement.rounded_min_uv pal mn) (TexturePlacement.rounded_max_uv pal mx)))
      p p
    rw [h1, h2, h3]
    simp [Heap.set_placement, TexturePlacement.compute_size_from_uvs]
  · obtain ⟨h1, h2, h3⟩ := force_replace_keeps w p p
    rw [h1, h2, h3]
    exact ⟨rfl, rfl, rfl, rfl⟩
  · exact ⟨rfl, rfl, rfl, rfl⟩

/-- C39. The last branch of `determine_size` (`else if (is_placed())`), entered with the
newly folded wrap modes in `_position`, ends with the wrap-mode block, run on the
placement `t1` that the re-place block before it leaves. When the folded wrap mode differs
from the placed wrap mode on either axis, the placement ends unfilled with the folded wrap
modes copied into the placed rectangle: the result is `t1` with just these changes, so the
block by itself changes neither the image nor the placed position, size, margin and UV
box. When both wrap modes agree the block changes nothing and the filled flag is as it was
on entry. No other placement and no palette image is touched by the block. -/
theorem C39_wrap_change (pal : Palettizer) (w : Heap) (p : Nat) (mn mx : TexCoordd) :
    (TexturePlacement.keep_or_replace pal w p mn mx).images =
      (TexturePlacement.replace_if_needed pal w p mn mx).images ∧
    (∀ q, q ≠ p → (TexturePlacement.keep_or_replace pal w p mn mx).placements q =
      (TexturePlacement.replace_if_needed pal w p mn mx).placements q) ∧
    (((w.placements p)._position._wrap_u ≠ (w.placements p)._placed._wrap_u ∨
      (w.placements p)._position._wrap_v ≠ (w.placements p)._placed._wrap_v) →
      (TexturePlacement.keep_or_replace pal w p mn mx).placements p =
        { (TexturePlacement.replace_if_needed pal w p mn mx).placements p with
          _is_filled := false
          _placed :=
            { ((TexturePlacement.replace_if_needed pal w p mn mx).placements p)._placed with
              _wrap_u := (w.placements p)._position._wrap_u
              _wrap_v := (w.placements p)._position._wrap_v } }) ∧
    (¬ ((w.placements p)._position._wrap_u ≠ (w.placements p)._placed._wrap_u ∨
      (w.placements p)._position._wrap_v ≠ (w.placements p)._placed._wrap_v) →
      TexturePlacement.keep_or_replace pal w p mn mx =
        TexturePlacement.replace_if_needed pal w p mn mx ∧
      ((TexturePlacement.keep_or_replace pal w p mn mx).placements p)._is_filled =
        (w.placements p)._is_filled) := by
  obtain ⟨k1, k2, k3, k4⟩ := replace_if_needed_wraps pal w p mn mx
  rw [keep_or_replace_blocks]
  rw [← k1, ← k2, ← k4]
  have k5 : (w.placements p)._placed._wrap_u =
      ((TexturePlacement.replace_if_needed pal w p mn mx).placements p)._placed._wrap_u := by
    rw [k3]
  have k6 : (w.placements p)._placed._wrap_v =
      ((TexturePlacement.replace_if_needed pal w p mn mx).placements p)._placed._wrap_v := by
    rw [k3]
  rw [k5, k6]
  generalize TexturePlacement.replace_if_needed pal w p mn mx = w1
  refine ⟨rfl, fun q hq => ?_, fun h => ?_, fun h => ?_⟩
  · simp [Heap.set_placement, Function.update_apply, hq]
  · simp only [Heap.set_placement, Function.update_same]
    unfold TexturePlacement.copy_wrap_modes
    rw [if_pos h]
  · unfold TexturePlacement.copy_wrap_modes
    rw [if_neg h]
    simp [Heap.set_placement]

theorem wrap_changed_no_replace (mn mx : TexCoordd) :
    TexturePlacement.replace_if_needed S6_pal_no_round wrap_changed_desired 0 mn mx =
      wrap_changed_desired := by
  have hn : (wrap_changed_desired.placements 0).needs_replace = false := by
    simp [TexturePlacement.needs_replace, wrap_changed_desired, wrap_changed_heap,
      S6_placement, Heap.set_placement]
  unfold TexturePlacement.replace_if_needed
  simp only [hn, Bool.false_eq_true, if_false]

/-- C39 on the placement of scenario S6 whose reference now repeats along u: the desired
rectangle equals the placed one, so nothing is re-placed; the wrap modes differ, and the
placement ends unfilled with placed wrap mode repeat along u, still on image 0 at (0, 0)
with size 64x64. -/
theorem C39_wrap_change_witness :
    ((wrap_changed_desired.placements 0)._position._wrap_u ≠
        (wrap_changed_desired.placements 0)._placed._wrap_u ∨
      (wrap_changed_desired.placements 0)._position._wrap_v ≠
        (wrap_changed_desired.placements 0)._placed._wrap_v) ∧
    (wrap_changed_desired.placements 0)._is_filled = true ∧
    (TexturePlacement.keep_or_replace S6_pal_no_round wrap_changed_desired 0 ⟨0, 0⟩
        ⟨1, 1⟩).placements 0 =
      { wrap_changed_desired.placements 0 with
        _is_filled := false
        _placed :=
          { _margin := 2, _x := 0, _y := 0, _x_size := 64, _y_size := 64,
            _min_uv := ⟨0, 0⟩, _max_uv := ⟨1, 1⟩,
            _wrap_u := WrapMode.WM_repeat, _wrap_v := WrapMode.WM_clamp } } := by
  have h := (C39_wrap_change S6_pal_no_round wrap_changed_desired 0 ⟨0, 0⟩ ⟨1, 1⟩).2.2.1
  rw [wrap_changed_no_replace] at h
  exact ⟨Or.inl (by decide), rfl, h (Or.inl (by decide))⟩

theorem wrap_changed_scan :
    TexturePlacement.scan_references (wrap_changed_heap.placements 0) =
      { has_uvs := true, min_uv := ⟨0, 0⟩, max_uv := ⟨1, 1⟩,
        wrap_u := WrapMode.WM_repeat, wrap_v := WrapMode.WM_clamp } := by
  decide

theorem wrap_changed_desired_eq :
    (wrap_changed_heap.placements 0).desired S6_pal_no_round =
      wrap_changed_desired.placements 0 := by
  have hmin : TexturePlacement.rounded_min_uv S6_pal_no_round ⟨0, 0⟩ = ⟨0, 0⟩ := rfl
  have hmax : TexturePlacement.rounded_max_uv S6_pal_no_round ⟨1, 1⟩ = ⟨1, 1⟩ := rfl
  unfold TexturePlacement.desired
  rw [wrap_changed_scan]
  simp only [hmin, hmax]
  simp only [TexturePlacement.compute_size_from_uvs, scanned_texture, wrap_changed_heap,
    S6_placement, axis_size_64_full]
  norm_num [TexturePlacement.scanned, wrap_changed_desired, wrap_changed_heap, S6_placement,
    Heap.set_placement, TexturePlacement.scan_references, TexturePlacement.scan_reference]
  exact ⟨rfl, rfl, rfl⟩

/-- On `wrap_changed_heap`, `determine_size` reaches its last branch with the desired
rectangle of `wrap_changed_desired` stored. -/
theorem wrap_changed_reaches :
    (TexturePlacement.determine_size S6_pal_no_round wrap_changed_heap 0).1 =
      TexturePlacement.keep_or_replace S6_pal_no_round wrap_changed_desired 0 ⟨0, 0⟩ ⟨1, 1⟩ := by
  have hw : wrap_changed_heap.set_placement 0 (wrap_changed_desired.placements 0) =
      wrap_changed_desired := by
    simp [wrap_changed_desired, Heap.set_placement]
  have ha : (wrap_changed_desired.placements 0).get_uv_area = 1 := area_one
  unfold TexturePlacement.determine_size
  simp only [wrap_changed_scan, wrap_changed_desired_eq, ha, hw]
  have h1 : (wrap_changed_heap.placements 0)._texture.is_size_known = true := rfl
  have h2 : (wrap_changed_desired.placements 0)._texture.get_omit = false := rfl
  have h3 : (wrap_changed_desired.placements 0)._texture.get_repeat_threshold = 100 := rfl
  have h4 : (wrap_changed_desired.placements 0)._position._x_size = 64 := rfl
  have h5 : (wrap_changed_desired.placements 0)._position._y_size = 64 := rfl
  have h6 : (wrap_changed_desired.placements 0)._omit_reason = OmitReason.OR_none := rfl
  have h7 : (wrap_changed_desired.placements 0).is_placed = true := rfl
  have h8 : S6_pal_no_round._pal_x_size = 128 := rfl
  have h9 : S6_pal_no_round._pal_y_size = 128 := rfl
  rw [h1, h2, h3, h4, h5, h6, h7, h8, h9, hundred_percent]
  norm_num
  rw [if_neg (by decide)]

/-! ## The fold over the references in determine_size -/

theorem foldl_min_least (l : List ℚ) (a : ℚ) : least_of (a :: l) (l.foldl min a) := by
  induction l generalizing a with
  | nil => exact ⟨List.mem_singleton_self a, fun x hx => by simp at hx; rw [hx]; exact le_refl a⟩
  | cons b l ih =>
    obtain ⟨h1, h2⟩ := ih (min a b)
    rw [List.foldl_cons]
    refine ⟨?_, fun x hx => ?_⟩
    · rcases List.mem_cons.mp h1 with h | h
      · rw [h]
        rcases min_choice a b with e | e <;> rw [e] <;> simp
      · exact List.mem_cons_of_mem _ (List.mem_cons_of_mem _ h)
    · have hm := h2 (min a b) (List.mem_cons_self _ _)
      rcases List.mem_cons.mp hx with h | h
      · rw [h]; exact le_trans hm (min_le_left _ _)
      · rcases List.mem_cons.mp h with h | h
        · rw [h]; exact le_trans hm (min_le_right _ _)
        · exact h2 x (List.mem_cons_of_mem _ h)

theorem foldl_max_greatest (l : List ℚ) (a : ℚ) : greatest_of (a :: l) (l.foldl max a) := by
  induction l generalizing a with
  | nil => exact ⟨List.mem_singleton_self a, fun x hx => by simp at hx; rw [hx]; exact le_refl a⟩
  | cons b l ih =>
    obtain ⟨h1, h2⟩ := ih (max a b)
    rw [List.foldl_cons]
    refine ⟨?_, fun x hx => ?_⟩
    · rcases List.mem_cons.mp h1 with h | h
      · rw [h]
        rcases max_choice a b with e | e <;> rw [e] <;> simp
      · exact List.mem_cons_of_mem _ (List.mem_cons_of_mem _ h)
    · have hm := h2 (max a b) (List.mem_cons_self _ _)
      rcases List.mem_cons.mp hx with h | h
      · rw [h]; exact le_trans (le_max_left _ _) hm
      · rcases List.mem_cons.mp h with h | h
        · rw [h]; exact le_trans (le_max_right _ _) hm
        · exact h2 x (List.mem_cons_of_mem _ h)

theorem scan_reference_uvs (s : UVScan) (r : TextureReference) :
    (TexturePlacement.scan_reference s r).has_uvs = (s.has_uvs || r.has_uvs) ∧
    (TexturePlacement.scan_reference s r).min_uv =
      (if r.has_uvs then
        if s.has_uvs then
          ⟨min s.min_uv.u r.get_min_uv.u, min s.min_uv.v r.get_min_uv.v⟩
        else r.get_min_uv
      else s.min_uv) ∧
    (TexturePlacement.scan_reference s r).max_uv =
      (if r.has_uvs then
        if s.has_uvs then
          ⟨max s.max_uv.u r.get_max_uv.u, max s.max_uv.v r.get_max_uv.v⟩
        else r.get_max_uv
      else s.max_uv) ∧
    (TexturePlacement.scan_reference s r).wrap_u =
      (if r.get_wrap_u = WrapMode.WM_repeat then WrapMode.WM_repeat else s.wrap_u) ∧
    (TexturePlacement.scan_reference s r).wrap_v =
      (if r.get_wrap_v = WrapMode.WM_repeat then WrapMode.WM_repeat else s.wrap_v) := by
  unfold TexturePlacement.scan_reference
  by_cases h1 : r.has_uvs = true <;> by_cases h2 : s.has_uvs = true <;>
    by_cases h3 : r.get_wrap_u = WrapMode.WM_repeat <;>
    by_cases h4 : r.get_wrap_v = WrapMode.WM_repeat <;>
    simp [h1, h2, h3, h4]

theorem foldl_scan_wrap (l : List TextureReference) (s : UVScan) :
    (l.foldl TexturePlacement.scan_reference s).wrap_u =
      (if ∃ r ∈ l, r.get_wrap_u = WrapMode.WM_repeat then WrapMode.WM_repeat
        else s.wrap_u) ∧
    (l.foldl TexturePlacement.scan_reference s).wrap_v =
      (if ∃ r ∈ l, r.get_wrap_v = WrapMode.WM_repeat then WrapMode.WM_repeat
        else s.wrap_v) := by
  induction l generalizing s with
  | nil => simp
  | cons r l ih =>
    rw [List.foldl_cons, (ih _).1, (ih _).2, (scan_reference_uvs s r).2.2.2.1,
      (scan_reference_uvs s r).2.2.2.2]
    simp only [List.mem_cons, exists_eq_or_imp]
    constructor
    · by_cases h1 : r.get_wrap_u = WrapMode.WM_repeat <;>
        by_cases h2 : ∃ a ∈ l, a.get_wrap_u = WrapMode.WM_repeat <;> simp [h1, h2]
    · by_cases h1 : r.get_wrap_v = WrapMode.WM_repeat <;>
        by_cases h2 : ∃ a ∈ l, a.get_wrap_v = WrapMode.WM_repeat <;> simp [h1, h2]

/-- From a state that has UVs already, the loop folds `min` and `max` over the references
with UVs and skips the others. -/
theorem foldl_scan_box (l : List TextureReference) (s : UVScan) (hs : s.has_uvs = true) :
    (l.foldl TexturePlacement.scan_reference s).min_uv.u =
      ((l.filter fun r => r.has_uvs).map fun r => r.get_min_uv.u).foldl min s.min_uv.u ∧
    (l.foldl TexturePlacement.scan_reference s).min_uv.v =
      ((l.filter fun r => r.has_uvs).map fun r => r.get_min_uv.v).foldl min s.min_uv.v ∧
    (l.foldl TexturePlacement.scan_reference s).max_uv.u =
      ((l.filter fun r => r.has_uvs).map fun r => r.get_max_uv.u).foldl max s.max_uv.u ∧
    (l.foldl TexturePlacement.scan_reference s).max_uv.v =
      ((l.filter fun r => r.has_uvs).map fun r => r.get_max_uv.v).foldl max s.max_uv.v := by
  induction l generalizing s with
  | nil => simp
  | cons r l ih =>
    have hu := scan_reference_uvs s r
    have hs2 : (TexturePlacement.scan_reference s r).has_uvs = true := by
      rw [hu.1, hs]; rfl
    have h := ih _ hs2
    rw [List.foldl_cons, h.1, h.2.1, h.2.2.1, h.2.2.2, hu.2.1, hu.2.2.1]
    by_cases hr : r.has_uvs = true
    · simp [hr, hs, List.filter_cons]
    · simp [hr, List.filter_cons]

/-- From a state without UVs, the first reference with UVs initialises the box and the
later ones are folded in. -/
theorem foldl_scan_box_init (l : List TextureReference) (s : UVScan) (hs : s.has_uvs = false)
    (r0 : TextureReference) (rest : List TextureReference)
    (hl : (l.filter fun r => r.has_uvs) = r0 :: rest) :
    (l.foldl TexturePlacement.scan_reference s).min_uv.u =
      (rest.map fun r => r.get_min_uv.u).foldl min r0.get_min_uv.u ∧
    (l.foldl TexturePlacement.scan_reference s).min_uv.v =
      (rest.map fun r => r.get_min_uv.v).foldl min r0.get_min_uv.v ∧
    (l.foldl TexturePlacement.scan_reference s).max_uv.u =
      (rest.map fun r => r.get_max_uv.u).foldl max r0.get_max_uv.u ∧
    (l.foldl TexturePlacement.scan_reference s).max_uv.v =
      (rest.map fun r => r.get_max_uv.v).foldl max r0.get_max_uv.v := by
  induction l generalizing s with
  | nil => simp at hl
  | cons r l ih =>
    have hu := scan_reference_uvs s r
    rw [List.foldl_cons]
    by_cases hr : r.has_uvs = true
    · rw [List.filter_cons, if_pos hr] at hl
      have h0 : r = r0 := (List.cons.inj hl).1
      have h1 : (l.filter fun r => r.has_uvs) = rest := (List.cons.inj hl).2
      have hs2 : (TexturePlacement.scan_reference s r).has_uvs = true := by
        rw [hu.1, hr]; simp
      have h := foldl_scan_box l _ hs2
      rw [h.1, h.2.1, h.2.2.1, h.2.2.2, hu.2.1, hu.2.2.1, h1, ← h0]
      simp [hr, hs]
    · rw [List.filter_cons, if_neg hr] at hl
      have hs2 : (TexturePlacement.scan_reference s r).has_uvs = false := by
        rw [hu.1, hs]; simpa using hr
      exact ih _ hs2 hl

theorem force_replace_position (w : Heap) (p q : Nat) :
    ((TexturePlacement.force_replace w p).placements q)._position =
      (w.placements q)._position := by
  rw [force_replace_placements]
  split
  · next h => rw [h.1]
  · rfl

theorem replace_if_needed_position (pal : Palettizer) (w : Heap) (p : Nat)
    (mn mx : TexCoordd) (hr : pal._round_uvs = false) :
    ((TexturePlacement.replace_if_needed pal w p mn mx).placements p)._position =
      (w.placements p)._position := by
  unfold TexturePlacement.replace_if_needed
  simp only [hr, Bool.false_eq_true, if_false]
  split
  · exact force_replace_position w p p
  · rfl

theorem copy_wrap_modes_position (t : TexturePlacement) :
    t.copy_wrap_modes._position = t._position := by
  unfold TexturePlacement.copy_wrap_modes
  split <;> rfl

theorem replace_with_reason_position (w : Heap) (p : Nat) (r : OmitReason) :
    ((TexturePlacement.set_omit_reason (TexturePlacement.force_replace w p) p r).placements
      p)._position = (w.placements p)._position := by
  simp only [TexturePlacement.set_omit_reason, Heap.set_placement, Function.update_same]
  exact force_replace_position w p p

/-- Without UV rounding, `determine_size` leaves in `_position` the UV box and wrap modes
it computed before asking whether the texture can be placed. -/
theorem determine_size_position (pal : Palettizer) (w : Heap) (p : Nat)
    (hr : pal._round_uvs = false)
    (hk : (w.placements p)._texture.is_size_known = true) :
    ((TexturePlacement.determine_size pal w p).1.placements p)._position =
      if (TexturePlacement.scan_references (w.placements p)).has_uvs then
        ((w.placements p).desired pal)._position
      else ((w.placements p).scanned)._position := by
  unfold TexturePlacement.determine_size
  simp only [hk, Bool.not_true, Bool.false_eq_true, if_false]
  by_cases hu : (TexturePlacement.scan_references (w.placements p)).has_uvs = true
  · simp only [hu, Bool.not_true, Bool.false_eq_true, if_false, if_true]
    have hs : ((w.set_placement p ((w.placements p).desired pal)).placements p) =
        (w.placements p).desired pal := by
      simp [Heap.set_placement]
    split_ifs
    · rw [replace_with_reason_position, hs]
    · rw [replace_with_reason_position, hs]
    · rw [replace_with_reason_position, hs]
    · rw [replace_with_reason_position, hs]
    · simp only [keep_or_replace_blocks, Heap.set_placement, Function.update_same]
      rw [copy_wrap_modes_position]
      have h := replace_if_needed_position pal
        (w.set_placement p ((w.placements p).desired pal)) p
        (TexturePlacement.scan_references (w.placements p)).min_uv
        (TexturePlacement.scan_references (w.placements p)).max_uv hr
      rw [hs] at h
      exact h
    · exact congrArg TexturePlacement._position hs
  · simp [hu, Heap.set_placement]

theorem desired_box (pal : Palettizer) (t : TexturePlacement) (hr : pal._round_uvs = false) :
    (t.desired pal)._position._min_uv = (TexturePlacement.scan_references t).min_uv ∧
    (t.desired pal)._position._max_uv = (TexturePlacement.scan_references t).max_uv ∧
    (t.desired pal)._position._wrap_u = (TexturePlacement.scan_references t).wrap_u ∧
    (t.desired pal)._position._wrap_v = (TexturePlacement.scan_references t).wrap_v := by
  simp [TexturePlacement.desired, TexturePlacement.compute_size_from_uvs,
    TexturePlacement.rounded_min_uv, TexturePlacement.rounded_max_uv, hr,
    TexturePlacement.scanned]

theorem scan_references_wrap (t : TexturePlacement) :
    (TexturePlacement.scan_references t).wrap_u =
      (if ∃ r ∈ t._references, r.get_wrap_u = WrapMode.WM_repeat then WrapMode.WM_repeat
        else WrapMode.WM_clamp) ∧
    (TexturePlacement.scan_references t).wrap_v =
      (if ∃ r ∈ t._references, r.get_wrap_v = WrapMode.WM_repeat then WrapMode.WM_repeat
        else WrapMode.WM_clamp) := by
  unfold TexturePlacement.scan_references
  exact foldl_scan_wrap _ _

theorem scan_references_box (t : TexturePlacement) (h : t.uv_references ≠ []) :
    least_of (t.uv_references.map fun r => r.get_min_uv.u)
      (TexturePlacement.scan_references t).min_uv.u ∧
    least_of (t.uv_references.map fun r => r.get_min_uv.v)
      (TexturePlacement.scan_references t).min_uv.v ∧
    greatest_of (t.uv_references.map fun r => r.get_max_uv.u)
      (TexturePlacement.scan_references t).max_uv.u ∧
    greatest_of (t.uv_references.map fun r => r.get_max_uv.v)
      (TexturePlacement.scan_references t).max_uv.v := by
  cases hl : t.uv_references with
  | nil => exact absurd hl h
  | cons r0 rest =>
    have hb := foldl_scan_box_init t._references
      { has_uvs := false, min_uv := ⟨0, 0⟩, max_uv := ⟨0, 0⟩,
        wrap_u := WrapMode.WM_clamp, wrap_v := WrapMode.WM_clamp } rfl r0 rest hl
    unfold TexturePlacement.scan_references
    rw [hb.1, hb.2.1, hb.2.2.1, hb.2.2.2]
    simp only [List.map_cons]
    exact ⟨foldl_min_least _ _, foldl_min_least _ _, foldl_max_greatest _ _,
      foldl_max_greatest _ _⟩

theorem uv_references_ne_nil (t : TexturePlacement) (h : t.uv_references ≠ []) :
    (TexturePlacement.scan_references t).has_uvs = true := by
  rw [scan_references_has_uvs]
  obtain ⟨r, hr⟩ := List.exists_mem_of_ne_nil _ h
  have hm := List.mem_filter.mp hr
  exact ⟨r, hm.1, hm.2⟩

/-- C33. With UV rounding disabled and a known source size, after `determine_size` the
desired wrap mode on each axis is repeat if at least one reference, with or without UVs,
has wrap mode repeat on that axis, and clamp otherwise; and when some reference has UVs,
each corner component of the desired UV box is the least `min_uv` component, respectively
the greatest `max_uv` component, over exactly the references that have UVs. -/
theorem C33_determine_size_fold (pal : Palettizer) (w : Heap) (p : Nat)
    (hr : pal._round_uvs = false)
    (hk : (w.placements p)._texture.is_size_known = true) :
    ((w.placements p).uv_references ≠ [] →
      least_of ((w.placements p).uv_references.map fun r => r.get_min_uv.u)
        ((TexturePlacement.determine_size pal w p).1.placements p)._position._min_uv.u ∧
      least_of ((w.placements p).uv_references.map fun r => r.get_min_uv.v)
        ((TexturePlacement.determine_size pal w p).1.placements p)._position._min_uv.v ∧
      greatest_of ((w.placements p).uv_references.map fun r => r.get_max_uv.u)
        ((TexturePlacement.determine_size pal w p).1.placements p)._position._max_uv.u ∧
      greatest_of ((w.placements p).uv_references.map fun r => r.get_max_uv.v)
        ((TexturePlacement.determine_size pal w p).1.placements p)._position._max_uv.v) ∧
    ((TexturePlacement.determine_size pal w p).1.placements p)._position._wrap_u =
      (if ∃ r ∈ (w.placements p)._references, r.get_wrap_u = WrapMode.WM_repeat then
        WrapMode.WM_repeat
      else WrapMode.WM_clamp) ∧
    ((TexturePlacement.determine_size pal w p).1.placements p)._position._wrap_v =
      (if ∃ r ∈ (w.placements p)._references, r.get_wrap_v = WrapMode.WM_repeat then
        WrapMode.WM_repeat
      else WrapMode.WM_clamp) := by
  have hp := determine_size_position pal w p hr hk
  have hd := desired_box pal (w.placements p) hr
  have hw := scan_references_wrap (w.placements p)
  refine ⟨fun hne => ?_, ?_, ?_⟩
  · rw [hp, if_pos (uv_references_ne_nil _ hne), hd.1, hd.2.1]
    exact scan_references_box _ hne
  · rw [hp, ← hw.1]
    split
    · exact hd.2.2.1
    · rfl
  · rw [hp, ← hw.2]
    split
    · exact hd.2.2.2
    · rfl

theorem least_of_unique {l : List ℚ} {m m2 : ℚ} (h : least_of l m) (h2 : least_of l m2) :
    m = m2 :=
  le_antisymm (h.2 _ h2.1) (h2.2 _ h.1)

theorem greatest_of_unique {l : List ℚ} {m m2 : ℚ} (h : greatest_of l m)
    (h2 : greatest_of l m2) : m = m2 :=
  le_antisymm (h2.2 _ h.1) (h.2 _ h2.1)

/-- C33 on a placement with three references, the second one without UVs but repeating
along u: the desired UV box is (0,0)-(3/4,1), the hull of the first and third reference,
and the desired wrap modes are repeat along u and clamp along v. -/
theorem C33_determine_size_fold_witness :
    S6_pal_no_round._round_uvs = false ∧
    (three_references_heap.placements 0)._texture.is_size_known = true ∧
    ((TexturePlacement.determine_size S6_pal_no_round three_references_heap 0).1.placements
      0)._position._min_uv.u = 0 ∧
    ((TexturePlacement.determine_size S6_pal_no_round three_references_heap 0).1.placements
      0)._position._min_uv.v = 0 ∧
    ((TexturePlacement.determine_size S6_pal_no_round three_references_heap 0).1.placements
      0)._position._max_uv.u = 3 / 4 ∧
    ((TexturePlacement.determine_size S6_pal_no_round three_references_heap 0).1.placements
      0)._position._max_uv.v = 1 ∧
    ((TexturePlacement.determine_size S6_pal_no_round three_references_heap 0).1.placements
      0)._position._wrap_u = WrapMode.WM_repeat ∧
    ((TexturePlacement.determine_size S6_pal_no_round three_references_heap 0).1.placements
      0)._position._wrap_v = WrapMode.WM_clamp := by
  have h := C33_determine_size_fold S6_pal_no_round three_references_heap 0 rfl rfl
  have hne : (three_references_heap.placements 0).uv_references ≠ [] := by decide
  obtain ⟨h1, h2, h3, h4⟩ := h.1 hne
  have e1 : least_of
      ((three_references_heap.placements 0).uv_references.map fun r => r.get_min_uv.u) 0 := by
    norm_num [least_of, three_references_heap, TexturePlacement.uv_references,
      unplaced_placement]
  have e2 : least_of
      ((three_references_heap.placements 0).uv_references.map fun r => r.get_min_uv.v) 0 := by
    norm_num [least_of, three_references_heap, TexturePlacement.uv_references,
      unplaced_placement]
  have e3 : greatest_of
      ((three_references_heap.placements 0).uv_references.map fun r => r.get_max_uv.u)
      (3 / 4) := by
    norm_num [greatest_of, three_references_heap, TexturePlacement.uv_references,
      unplaced_placement]
  have e4 : greatest_of
      ((three_references_heap.placements 0).uv_references.map fun r => r.get_max_uv.v) 1 := by
    norm_num [greatest_of, three_references_heap, TexturePlacement.uv_references,
      unplaced_placement]
  refine ⟨rfl, rfl, least_of_unique h1 e1, least_of_unique h2 e2, greatest_of_unique h3 e3,
    greatest_of_unique h4 e4, ?_, ?_⟩
  · rw [h.2.1]; decide
  · rw [h.2.2]; decide

/-! ## The image format of egg-mkfont -/

theorem run_format_of_needs_alpha (m : EggMakeFont) :
    ∃ f, m.run._format = some f ∧ f.has_alpha = m.needs_alpha := by
  unfold EggMakeFont.run
  cases h : m.needs_alpha <;> simp only [Bool.false_eq_true, if_false, if_true]
  · split
    · exact ⟨_, rfl, rfl⟩
    · exact ⟨_, rfl, rfl⟩
  · split
    · exact ⟨_, rfl, rfl⟩
    · split
      · exact ⟨_, rfl, rfl⟩
      · exact ⟨_, rfl, rfl⟩

/-- The first half of the documented rule holds: when the alpha component of the
foreground or of the background is not 1, `run` chooses a format with alpha. -/
theorem run_alpha_when_not_opaque (m : EggMakeFont) (h : m._fg.a ≠ 1 ∨ m._bg.a ≠ 1) :
    ∃ f, m.run._format = some f ∧ f.has_alpha = true := by
  obtain ⟨f, hf, ha⟩ := run_format_of_needs_alpha m
  refine ⟨f, hf, ?_⟩
  rw [ha]
  unfold EggMakeFont.needs_alpha
  rcases h with h | h <;> simp [h]

/-- C32 (failing input). The command line `-fg 1,1,1,1 -bg 0,0,0,1` without `-interior`:
both colours have alpha 1, yet `run` chooses two channels and the format luminance-alpha,
because the default interior colour 1,1,1,0 takes part in `needs_alpha`. The same holds
for every `-fg` and `-bg` without `-interior`: the chosen format always has an alpha
component. -/
theorem C32_failing_input :
    (EggMakeFont.main (some ⟨1, 1, 1, 1⟩) (some ⟨0, 0, 0, 1⟩) none)._num_channels = some 2 ∧
    (EggMakeFont.main (some ⟨1, 1, 1, 1⟩) (some ⟨0, 0, 0, 1⟩) none)._format =
      some EggTextureFormat.F_luminance_alpha ∧
    EggTextureFormat.F_luminance_alpha.has_alpha = true ∧
    ∀ fg bg : Option Colord, ∃ f,
      (EggMakeFont.main fg bg none)._format = some f ∧ f.has_alpha = true := by
  refine ⟨?_, ?_, rfl, fun fg bg => ?_⟩
  · norm_num [EggMakeFont.main, EggMakeFont.run, EggMakeFont.parse_colors, EggMakeFont.create,
      EggMakeFont.needs_alpha, EggMakeFont.needs_color]
  · norm_num [EggMakeFont.main, EggMakeFont.run, EggMakeFont.parse_colors, EggMakeFont.create,
      EggMakeFont.needs_alpha, EggMakeFont.needs_color]
  · obtain ⟨f, hf, ha⟩ :=
      run_format_of_needs_alpha (EggMakeFont.parse_colors EggMakeFont.create fg bg none)
    refine ⟨f, hf, ?_⟩
    rw [ha]
    have hi : (EggMakeFont.parse_colors EggMakeFont.create fg bg none)._interior.a = 0 := by
      cases fg <;> cases bg <;> rfl
    unfold EggMakeFont.needs_alpha
    rw [hi]
    simp

/-! ## Dependency levels -/

theorem read_pointers_written (l : List Nat) (rest : List DatagramField) :
    read_pointers l.length (write_pointers l ++ rest) = some (l, rest) := by
  induction l with
  | nil => rfl
  | cons p l ih =>
    simp only [write_pointers, List.map_cons, List.length_cons, List.cons_append,
      read_pointers]
    simp only [write_pointers] at ih
    rw [List.append_eq, ih]

theorem groups_fillin_written (l : List Nat) (rest : List DatagramField)
    (hl : l.length < 4294967296) :
    PaletteGroups.fillin (PaletteGroups.write_datagram l ++ rest) = some (l, rest) := by
  simp only [PaletteGroups.fillin, PaletteGroups.write_datagram, add_uint32,
    List.cons_append, get_uint32, Nat.mod_eq_of_lt hl]
  exact read_pointers_written l rest

theorem counted_pointers_read (l : List Nat) (rest : List DatagramField)
    (hl : l.length < 4294967296) :
    get_uint32 ([add_uint32 l.length] ++ write_pointers l ++ rest) =
      some (l.length, write_pointers l ++ rest) := by
  simp [get_uint32, add_uint32, Nat.mod_eq_of_lt hl]

theorem fillin_numbers_stored (version : Int) (me g : StoredGroup)
    (tail : List DatagramField) :
    StoredGroup.fillin_numbers version me
        ((if version ≥ 3 then
          DatagramField.int32 g._dependency_level :: DatagramField.int32 g._dependency_order ::
            (if version ≥ 4 then [DatagramField.int32 g._dirname_order] else [])
        else []) ++ tail) =
      some
        ({ me with
            _dependency_level := if version ≥ 3 then g._dependency_level
              else me._dependency_level
            _dependency_order := if version ≥ 3 then g._dependency_order
              else me._dependency_order
            _dirname_order := if version ≥ 4 then g._dirname_order else me._dirname_order },
          tail) := by
  unfold StoredGroup.fillin_numbers
  by_cases h3 : version ≥ 3
  · by_cases h4 : version ≥ 4
    · simp [h3, h4, get_int32]
    · simp [h3, h4, get_int32]
  · have h4 : ¬ version ≥ 4 := by omega
    simp [h3, h4]

theorem fillin_stored (version : Int) (g : StoredGroup) (rest : List DatagramField)
    (hd : g._dependent.length < 4294967296) (hp : g._placements.length < 4294967296)
    (hg : g._pages.length < 4294967296) :
    StoredGroup.fillin version StoredGroup.create (StoredGroup.stored_datagram version g ++ rest)
      = some
        ({ StoredGroup.create with
            name := g.name
            _dirname := g._dirname
            _dependency_level := if version ≥ 3 then g._dependency_level else 0
            _dependency_order := if version ≥ 3 then g._dependency_order else 0
            _dirname_order := if version ≥ 4 then g._dirname_order else 0
            _num_placements := g._placements.length
            _num_pages := g._pages.length },
          g._dependent ++ g._placements ++ g._pages, rest) := by
  unfold StoredGroup.fillin StoredGroup.stored_datagram
  simp only [List.append_assoc, List.cons_append, List.nil_append, get_string]
  rw [groups_fillin_written _ _ hd]
  simp only
  rw [fillin_numbers_stored]
  simp only
  have h1 := counted_pointers_read g._placements
    (add_uint32 g._pages.length :: (write_pointers g._pages ++ rest)) hp
  simp only [List.append_assoc, List.cons_append, List.nil_append] at h1
  rw [h1]
  simp only
  rw [read_pointers_written]
  simp only
  have h2 := counted_pointers_read g._pages rest hg
  simp only [List.append_assoc, List.cons_append, List.nil_append] at h2
  rw [h2]
  simp only
  rw [read_pointers_written]
  rfl

/-- C37. `PaletteGroup::fillin` on a freshly constructed group reads the datagram of a group
`g` stored at snapshot version `version` to its end: name, directory name and the numbers of
placements and pages are those of `g`, and the pointers handed on are its dependencies,
placements and pages. At version 4 or later the datagram is the one `write_datagram`
writes and `dependency_level`, `dependency_order` and `dirname_order` are restored; at
version 3 `dirname_order` keeps the default 0; below version 3 all three keep the
default 0. -/
theorem C37_fillin_versions (version : Int) (g : StoredGroup) (rest : List DatagramField)
    (hd : g._dependent.length < 4294967296) (hp : g._placements.length < 4294967296)
    (hg : g._pages.length < 4294967296) :
    (4 ≤ version → StoredGroup.stored_datagram version g = g.write_datagram) ∧
    ∃ me, StoredGroup.fillin version StoredGroup.create
        (StoredGroup.stored_datagram version g ++ rest)
        = some (me, g._dependent ++ g._placements ++ g._pages, rest) ∧
      me.name = g.name ∧ me._dirname = g._dirname ∧
      me._num_placements = g._placements.length ∧ me._num_pages = g._pages.length ∧
      (3 ≤ version → me._dependency_level = g._dependency_level ∧
        me._dependency_order = g._dependency_order) ∧
      (4 ≤ version → me._dirname_order = g._dirname_order) ∧
      (version < 4 → me._dirname_order = 0) ∧
      (version < 3 → me._dependency_level = 0 ∧ me._dependency_order = 0 ∧
        me._dirname_order = 0) := by
  refine ⟨fun h4 => ?_, _, fillin_stored version g rest hd hp hg, rfl, rfl, rfl, rfl,
    fun h3 => ?_, fun h4 => ?_, fun h4 => ?_, fun h3 => ?_⟩
  · have h3 : version ≥ 3 := by omega
    simp [StoredGroup.stored_datagram, StoredGroup.write_datagram, h3, h4]
  · have h : version ≥ 3 := h3
    simp only [h, if_true, and_self]
  · have h : version ≥ 4 := h4
    simp only [h, if_true]
  · have h : ¬ version ≥ 4 := by omega
    simp only [h, if_false]
  · have h : ¬ version ≥ 3 := by omega
    have h4 : ¬ version ≥ 4 := by omega
    simp only [h, h4, if_false, and_self]

/-- C37 on the group `stored_world` stored at version 3: level 1 and order 1 come back,
`dirname_order` (2 in the group stored) is not in the datagram and reads as 0; the counts 2
and 1 and the four pointers are read. -/
theorem C37_fillin_versions_witness :
    stored_world._dependent.length < 4294967296 ∧
    stored_world._placements.length < 4294967296 ∧
    stored_world._pages.length < 4294967296 ∧
    ∃ me, StoredGroup.fillin 3 StoredGroup.create
        (StoredGroup.stored_datagram 3 stored_world ++ []) = some (me, [0, 10, 11, 20], []) ∧
      me.name = "world" ∧ me._dirname = "maps" ∧
      me._num_placements = 2 ∧ me._num_pages = 1 ∧
      me._dependency_level = 1 ∧ me._dependency_order = 1 ∧ me._dirname_order = 0 := by
  obtain ⟨me, e, h1, h2, h3, h4, h5, _, h7, _⟩ :=
    (C37_fillin_versions 3 stored_world [] (by decide) (by decide) (by decide)).2
  exact ⟨by decide, by decide, by decide, me, e, h1, h2, h3, h4, (h5 (by decide)).1,
    (h5 (by decide)).2, h7 (by decide)⟩

/-! ## The resample size is never zero -/

/-- The size `compute_size_from_uvs` gives an axis whose product fits an `int`, for a
source of at least one pixel, a margin of at least 0 and a positive range: the size
without its two margins is at least 4/5 of the clamped size, which is at least 4 and more
than the range less 1. -/
theorem axis_size_inner (X m : Int) (lo hi : ℚ) (hX : 1 ≤ X) (hm : 0 ≤ m)
    (hr : 0 < Double.sub hi lo) (hfit : TexturePlacement.axis_fits X lo hi) :
    0 ≤ wrap32 (TexturePlacement.axis_size X m lo hi - m * 2) ∧
    Double.sub hi lo ≤ 2 * ((wrap32 (TexturePlacement.axis_size X m lo hi - m * 2) : Int) : ℚ) := by
  unfold TexturePlacement.axis_fits at hfit
  have hXq : (1 : ℚ) ≤ (X : ℚ) := by exact_mod_cast hX
  have hrr : fl (Double.sub hi lo) = Double.sub hi lo := by
    unfold Double.sub; exact fl_fl _
  -- the rounded product and its floor
  have hp : Double.sub hi lo ≤ Double.mul (X : ℚ) (Double.sub hi lo) := by
    unfold Double.mul
    rw [← hrr]
    conv_rhs => rw [hrr]
    exact fl_mono (by nlinarith)
  have hs : Double.sub hi lo ≤
      Double.add (Double.mul (X : ℚ) (Double.sub hi lo)) (1 / 2) := by
    unfold Double.add
    rw [← hrr]
    conv_rhs => rw [hrr]
    exact fl_mono (by linarith)
  have hk0 : 0 ≤ ⌊Double.add (Double.mul (X : ℚ) (Double.sub hi lo)) (1 / 2)⌋ :=
    Int.floor_nonneg.mpr (by linarith)
  have hk1 : ⌊Double.add (Double.mul (X : ℚ) (Double.sub hi lo)) (1 / 2)⌋ < 2147483648 := by
    apply Int.floor_lt.mpr
    push_cast
    exact hfit
  have hto : Double.to_int ⌊Double.add (Double.mul (X : ℚ) (Double.sub hi lo)) (1 / 2)⌋ =
      ⌊Double.add (Double.mul (X : ℚ) (Double.sub hi lo)) (1 / 2)⌋ :=
    Double.to_int_of_range (by omega) (by omega)
  have hkr : Double.sub hi lo - 1 <
      ((⌊Double.add (Double.mul (X : ℚ) (Double.sub hi lo)) (1 / 2)⌋ : Int) : ℚ) := by
    have := Int.lt_floor_add_one (Double.add (Double.mul (X : ℚ) (Double.sub hi lo)) (1 / 2))
    linarith
  -- the clamped size
  generalize hpix : max ⌊Double.add (Double.mul (X : ℚ) (Double.sub hi lo)) (1 / 2)⌋ 4 = pix
  have h4 : (4 : Int) ≤ pix := by rw [← hpix]; exact le_max_right _ _
  have hle : ⌊Double.add (Double.mul (X : ℚ) (Double.sub hi lo)) (1 / 2)⌋ ≤ pix := by
    rw [← hpix]; exact le_max_left _ _
  have hpm : pix ≤ 2147483647 := by rw [← hpix]; exact max_le (by omega) (by norm_num)
  have h4q : (4 : ℚ) ≤ (pix : ℚ) := by exact_mod_cast h4
  have hleq : ((⌊Double.add (Double.mul (X : ℚ) (Double.sub hi lo)) (1 / 2)⌋ : Int) : ℚ)
      ≤ (pix : ℚ) := by exact_mod_cast hle
  have hval : TexturePlacement.axis_size X m lo hi =
      (if Double.div (m : ℚ) (pix : ℚ) > fl (1 / 10) then wrap32 (pix + m * 2) else pix) := by
    unfold TexturePlacement.axis_size
    simp only [hto, hpix]
  -- the size without the margins
  have hinner : 0 ≤ wrap32 (TexturePlacement.axis_size X m lo hi - m * 2) ∧
      4 * (pix : ℚ) ≤ 5 * ((wrap32 (TexturePlacement.axis_size X m lo hi - m * 2) : Int) : ℚ) := by
    rw [hval]
    split_ifs with hc
    · rw [wrap32_add_sub pix (m * 2) (by omega) hpm]
      exact ⟨by omega, by linarith⟩
    · have hq : ¬ (m : ℚ) / (pix : ℚ) > 1 / 10 := fun h =>
        hc ((margin_test_exact m pix h4 (by omega)).mpr h)
      have hpos : (0 : ℚ) < (pix : ℚ) := by linarith
      have h10 : (m : ℚ) ≤ 1 / 10 * (pix : ℚ) := by
        have := not_lt.mp hq
        rwa [div_le_iff₀ hpos] at this
      have h10z : 10 * m ≤ pix := by
        have : ((10 * m : Int) : ℚ) ≤ (pix : ℚ) := by push_cast; linarith
        exact_mod_cast this
      rw [wrap32_of_range (by omega) (by omega)]
      refine ⟨by omega, ?_⟩
      push_cast
      linarith
  refine ⟨hinner.1, ?_⟩
  by_cases hsmall : Double.sub hi lo ≤ 32 / 5
  · linarith [hinner.2]
  · push_neg at hsmall
    linarith [hinner.2]

/-- The resample size of `fill_image` and `compute_tex_matrix` is at least 1 on an axis
whose size comes from `compute_size_from_uvs`, when the conversions to `int` stay in
range. -/
theorem resample_size_pos (X m : Int) (lo hi : ℚ) (hX : 1 ≤ X) (hm : 0 ≤ m)
    (hr : 0 < Double.sub hi lo) (hfit : TexturePlacement.axis_fits X lo hi)
    (hfit2 : TexturePlacement.resample_fits (TexturePlacement.axis_size X m lo hi) m lo hi) :
    1 ≤ (TexturePlacement.resample (TexturePlacement.axis_size X m lo hi) m lo hi).2 := by
  obtain ⟨_, h2⟩ := axis_size_inner X m lo hi hX hm hr hfit
  unfold TexturePlacement.resample_fits at hfit2
  unfold TexturePlacement.resample Double.round_quotient
  simp only [if_neg (ne_of_gt hr)]
  have hq : (1 : ℚ) / 2 ≤ Double.div
      ((wrap32 (TexturePlacement.axis_size X m lo hi - m * 2) : Int) : ℚ) (Double.sub hi lo) := by
    unfold Double.div
    calc (1 : ℚ) / 2 = fl (1 / 2) := fl_half.symm
      _ ≤ _ := fl_mono (by rw [le_div_iff₀ hr]; linarith)
  have hs : (1 : ℚ) ≤ Double.add (Double.div
      ((wrap32 (TexturePlacement.axis_size X m lo hi - m * 2) : Int) : ℚ) (Double.sub hi lo))
      (1 / 2) := by
    unfold Double.add
    calc (1 : ℚ) = fl 1 := fl_one.symm
      _ ≤ _ := fl_mono (by linarith)
  have hk1 : 1 ≤ ⌊Double.add (Double.div
      ((wrap32 (TexturePlacement.axis_size X m lo hi - m * 2) : Int) : ℚ) (Double.sub hi lo))
      (1 / 2)⌋ := Int.le_floor.mpr (by push_cast; exact hs)
  have hk2 : ⌊Double.add (Double.div
      ((wrap32 (TexturePlacement.axis_size X m lo hi - m * 2) : Int) : ℚ) (Double.sub hi lo))
      (1 / 2)⌋ < 2147483648 := by
    apply Int.floor_lt.mpr
    push_cast
    exact hfit2
  rw [Double.to_int_of_range (by omega) (by omega)]
  exact hk1

theorem compute_tex_matrix_sizes (w : Heap) (q a : Nat)
    (h : (w.placements q)._image = some a) :
    ∃ M, TexturePlacement.compute_tex_matrix w q = some M ∧
      M.m00 = Double.div (((TexturePlacement.resample (w.placements q)._placed._x_size
        (w.placements q)._placed._margin (w.placements q)._placed._min_uv.u
        (w.placements q)._placed._max_uv.u).2 : Int) : ℚ) ((w.images a)._x_size : ℚ) ∧
      M.m11 = Double.div (((TexturePlacement.resample (w.placements q)._placed._y_size
        (w.placements q)._placed._margin (w.placements q)._placed._min_uv.v
        (w.placements q)._placed._max_uv.v).2 : Int) : ℚ) ((w.images a)._y_size : ℚ) := by
  unfold TexturePlacement.compute_tex_matrix
  rw [h]
  exact ⟨_, rfl, rfl, rfl⟩

/-- A source of one pixel on the UV range [0, 2^31]: the product 2^31 does not fit an
`int` and the size is the clamp 4. -/
theorem axis_size_wide_range : TexturePlacement.axis_size 1 0 0 2147483648 = 4 := by
  have h1 : Double.sub 2147483648 0 = 2147483648 := by
    show fl (2147483648 - 0) = 2147483648
    rw [fl_eval (2147483648 - 0) (-21) (4503599627370496) (by norm_num) (Or.inr (by norm_num [abs_of_pos])) (by norm_num [abs_of_pos]) (by norm_num [abs_lt])]; norm_num
  have h2 : Double.mul ((1 : Int) : ℚ) 2147483648 = 2147483648 := by
    show fl (((1 : Int) : ℚ) * 2147483648) = 2147483648
    rw [fl_eval (((1 : Int) : ℚ) * 2147483648) (-21) (4503599627370496) (by norm_num) (Or.inr (by norm_num [abs_of_pos])) (by norm_num [abs_of_pos]) (by norm_num [abs_lt])]; norm_num
  have h3 : Double.add 2147483648 (1 / 2) = 4294967297 / 2 := by
    show fl (2147483648 + (1 / 2)) = 4294967297 / 2
    rw [fl_eval (2147483648 + (1 / 2)) (-21) (4503599628419072) (by norm_num) (Or.inr (by norm_num [abs_of_pos])) (by norm_num [abs_of_pos]) (by norm_num [abs_lt])]; norm_num
  have h4 : ⌊(4294967297 / 2 : ℚ)⌋ = 2147483648 := by
    rw [Int.floor_eq_iff]; norm_num
  have h5 : Double.div ((0 : Int) : ℚ) ((4 : Int) : ℚ) = 0 := by
    show fl (((0 : Int) : ℚ) / ((4 : Int) : ℚ)) = 0
    rw [show (((0 : Int) : ℚ) / ((4 : Int) : ℚ) : ℚ) = 0 by norm_num]; exact fl_zero
  have hi1 : Double.to_int (2147483648) = (-2147483648) := by decide
  have hi2 : max ((-2147483648) : Int) 4 = 4 := by decide
  unfold TexturePlacement.axis_size
  simp only [h1, h2, h3, h4, h5, hi1, hi2, fl_one_tenth]
  norm_num [wrap32]

/-- A source of one pixel on the UV range [0, 2^-31]: the size is the clamp 4. -/
theorem axis_size_narrow_range : TexturePlacement.axis_size 1 0 0 (1 / 2147483648) = 4 := by
  have h1 : Double.sub (1 / 2147483648) 0 = 1 / 2147483648 := by
    show fl ((1 / 2147483648) - 0) = 1 / 2147483648
    rw [fl_eval ((1 / 2147483648) - 0) (-83) (4503599627370496) (by norm_num) (Or.inr (by norm_num [abs_of_pos])) (by norm_num [abs_of_pos]) (by norm_num [abs_lt])]; norm_num
  have h2 : Double.mul ((1 : Int) : ℚ) (1 / 2147483648) = 1 / 2147483648 := by
    show fl (((1 : Int) : ℚ) * (1 / 2147483648)) = 1 / 2147483648
    rw [fl_eval (((1 : Int) : ℚ) * (1 / 2147483648)) (-83) (4503599627370496) (by norm_num) (Or.inr (by norm_num [abs_of_pos])) (by norm_num [abs_of_pos]) (by norm_num [abs_lt])]; norm_num
  have h3 : Double.add (1 / 2147483648) (1 / 2) = 1073741825 / 2147483648 := by
    show fl ((1 / 2147483648) + (1 / 2)) = 1073741825 / 2147483648
    rw [fl_eval ((1 / 2147483648) + (1 / 2)) (-53) (4503599631564800) (by norm_num) (Or.inr (by norm_num [abs_of_pos])) (by norm_num [abs_of_pos]) (by norm_num [abs_lt])]; norm_num
  have h4 : ⌊(1073741825 / 2147483648 : ℚ)⌋ = 0 := by
    rw [Int.floor_eq_iff]; norm_num
  have h5 : Double.div ((0 : Int) : ℚ) ((4 : Int) : ℚ) = 0 := by
    show fl (((0 : Int) : ℚ) / ((4 : Int) : ℚ)) = 0
    rw [show (((0 : Int) : ℚ) / ((4 : Int) : ℚ) : ℚ) = 0 by norm_num]; exact fl_zero
  have hi1 : Double.to_int (0) = 0 := by decide
  have hi2 : max (0 : Int) 4 = 4 := by decide
  unfold TexturePlacement.axis_size
  simp only [h1, h2, h3, h4, h5, hi1, hi2, fl_one_tenth]
  norm_num [wrap32]

/-- Four pixels on the UV range [0, 2^31] are resampled to a size of 0. -/
theorem resample_wide_range : TexturePlacement.resample 4 0 0 2147483648 = (0, 0) := by
  have h1 : Double.sub 2147483648 0 = 2147483648 := by
    show fl (2147483648 - 0) = 2147483648
    rw [fl_eval (2147483648 - 0) (-21) (4503599627370496) (by norm_num) (Or.inr (by norm_num [abs_of_pos])) (by norm_num [abs_of_pos]) (by norm_num [abs_lt])]; norm_num
  have h2 : Double.mul 0 ((4 : Int) : ℚ) = 0 := by
    show fl (0 * ((4 : Int) : ℚ)) = 0
    rw [show (0 * ((4 : Int) : ℚ) : ℚ) = 0 by norm_num]; exact fl_zero
  have h3 : Double.div 0 2147483648 = 0 := by
    show fl (0 / 2147483648) = 0
    rw [show (0 / 2147483648 : ℚ) = 0 by norm_num]; exact fl_zero
  have h4 : Double.add 0 (1 / 2) = 1 / 2 := by
    show fl (0 + (1 / 2)) = 1 / 2
    rw [fl_eval (0 + (1 / 2)) (-53) (4503599627370496) (by norm_num) (Or.inr (by norm_num [abs_of_pos])) (by norm_num [abs_of_pos]) (by norm_num [abs_lt])]; norm_num
  have h5 : ⌊(1 / 2 : ℚ)⌋ = 0 := by
    rw [Int.floor_eq_iff]; norm_num
  have h6 : Double.div ((4 : Int) : ℚ) 2147483648 = 1 / 536870912 := by
    show fl (((4 : Int) : ℚ) / 2147483648) = 1 / 536870912
    rw [fl_eval (((4 : Int) : ℚ) / 2147483648) (-81) (4503599627370496) (by norm_num) (Or.inr (by norm_num [abs_of_pos])) (by norm_num [abs_of_pos]) (by norm_num [abs_lt])]; norm_num
  have h7 : Double.add (1 / 536870912) (1 / 2) = 268435457 / 536870912 := by
    show fl ((1 / 536870912) + (1 / 2)) = 268435457 / 536870912
    rw [fl_eval ((1 / 536870912) + (1 / 2)) (-53) (4503599644147712) (by norm_num) (Or.inr (by norm_num [abs_of_pos])) (by norm_num [abs_of_pos]) (by norm_num [abs_lt])]; norm_num
  have h8 : ⌊(268435457 / 536870912 : ℚ)⌋ = 0 := by
    rw [Int.floor_eq_iff]; norm_num
  have hw : wrap32 (4 - 0 * 2) = 4 := by decide
  have hi1 : Double.to_int (0) = 0 := by decide
  have hi2 : Double.to_int (0) = 0 := by decide
  have hr : (2147483648 : ℚ) ≠ 0 := by norm_num
  unfold TexturePlacement.resample Double.round_quotient
  simp only [hw, h1, h2, h3, h4, h5, h6, h7, h8, hr, if_false, hi1, hi2]

/-- The 33 pixel source of `strip_request` on the UV range [0.1, 0.4] asks for 10
pixels. -/
theorem axis_size_strip : TexturePlacement.axis_size 33 0 (fl (1 / 10)) (fl (4 / 10)) = 10 := by
  rw [fl_one_tenth, fl_four_tenths]
  have h1 : Double.sub (3602879701896397 / 9007199254740992) (3602879701896397 / 36028797018963968) = 1351079888211149 / 4503599627370496 := by
    show fl ((3602879701896397 / 9007199254740992) - (3602879701896397 / 36028797018963968)) = 1351079888211149 / 4503599627370496
    rw [fl_eval_tie ((3602879701896397 / 9007199254740992) - (3602879701896397 / 36028797018963968)) (-54) (5404319552844595) (by norm_num) (Or.inr (by norm_num [abs_of_pos])) (by norm_num [abs_of_pos]) (by norm_num)]; norm_num
  have h2 : Double.mul ((33 : Int) : ℚ) (1351079888211149 / 4503599627370496) = 2786602269435495 / 281474976710656 := by
    show fl (((33 : Int) : ℚ) * (1351079888211149 / 4503599627370496)) = 2786602269435495 / 281474976710656
    rw [fl_eval (((33 : Int) : ℚ) * (1351079888211149 / 4503599627370496)) (-49) (5573204538870990) (by norm_num) (Or.inr (by norm_num [abs_of_pos])) (by norm_num [abs_of_pos]) (by norm_num [abs_lt])]; norm_num
  have h3 : Double.add (2786602269435495 / 281474976710656) (1 / 2) = 2927339757790823 / 281474976710656 := by
    show fl ((2786602269435495 / 281474976710656) + (1 / 2)) = 2927339757790823 / 281474976710656
    rw [fl_eval ((2786602269435495 / 281474976710656) + (1 / 2)) (-49) (5854679515581646) (by norm_num) (Or.inr (by norm_num [abs_of_pos])) (by norm_num [abs_of_pos]) (by norm_num [abs_lt])]; norm_num
  have h4 : ⌊(2927339757790823 / 281474976710656 : ℚ)⌋ = 10 := by
    rw [Int.floor_eq_iff]; norm_num
  have h5 : Double.div ((0 : Int) : ℚ) ((10 : Int) : ℚ) = 0 := by
    show fl (((0 : Int) : ℚ) / ((10 : Int) : ℚ)) = 0
    rw [show (((0 : Int) : ℚ) / ((10 : Int) : ℚ) : ℚ) = 0 by norm_num]; exact fl_zero
  have hi1 : Double.to_int (10) = 10 := by decide
  have hi2 : max (10 : Int) 4 = 10 := by decide
  unfold TexturePlacement.axis_size
  simp only [h1, h2, h3, h4, h5, hi1, hi2, fl_one_tenth]
  norm_num [wrap32]

theorem axis_size_10_full : TexturePlacement.axis_size 10 0 0 1 = 10 := by
  have h1 : Double.sub 1 0 = 1 := by
    show fl (1 - 0) = 1
    rw [fl_eval (1 - 0) (-52) (4503599627370496) (by norm_num) (Or.inr (by norm_num [abs_of_pos])) (by norm_num [abs_of_pos]) (by norm_num [abs_lt])]; norm_num
  have h2 : Double.mul ((10 : Int) : ℚ) 1 = 10 := by
    show fl (((10 : Int) : ℚ) * 1) = 10
    rw [fl_eval (((10 : Int) : ℚ) * 1) (-49) (5629499534213120) (by norm_num) (Or.inr (by norm_num [abs_of_pos])) (by norm_num [abs_of_pos]) (by norm_num [abs_lt])]; norm_num
  have h3 : Double.add 10 (1 / 2) = 21 / 2 := by
    show fl (10 + (1 / 2)) = 21 / 2
    rw [fl_eval (10 + (1 / 2)) (-49) (5910974510923776) (by norm_num) (Or.inr (by norm_num [abs_of_pos])) (by norm_num [abs_of_pos]) (by norm_num [abs_lt])]; norm_num
  have h4 : ⌊(21 / 2 : ℚ)⌋ = 10 := by
    rw [Int.floor_eq_iff]; norm_num
  have h5 : Double.div ((0 : Int) : ℚ) ((10 : Int) : ℚ) = 0 := by
    show fl (((0 : Int) : ℚ) / ((10 : Int) : ℚ)) = 0
    rw [show (((0 : Int) : ℚ) / ((10 : Int) : ℚ) : ℚ) = 0 by norm_num]; exact fl_zero
  have hi1 : Double.to_int (10) = 10 := by decide
  have hi2 : max (10 : Int) 4 = 10 := by decide
  unfold TexturePlacement.axis_size
  simp only [h1, h2, h3, h4, h5, hi1, hi2, fl_one_tenth]
  norm_num [wrap32]

theorem strip_range_u : Double.sub (fl (4 / 10)) (fl (1 / 10)) = 1351079888211149 / 4503599627370496 := by
  rw [fl_one_tenth, fl_four_tenths]
  have h1 : Double.sub (3602879701896397 / 9007199254740992) (3602879701896397 / 36028797018963968) = 1351079888211149 / 4503599627370496 := by
    show fl ((3602879701896397 / 9007199254740992) - (3602879701896397 / 36028797018963968)) = 1351079888211149 / 4503599627370496
    rw [fl_eval_tie ((3602879701896397 / 9007199254740992) - (3602879701896397 / 36028797018963968)) (-54) (5404319552844595) (by norm_num) (Or.inr (by norm_num [abs_of_pos])) (by norm_num [abs_of_pos]) (by norm_num)]; norm_num
  exact h1

theorem strip_fits_u : TexturePlacement.axis_fits 33 (fl (1 / 10)) (fl (4 / 10)) := by
  have h1 : Double.sub (3602879701896397 / 9007199254740992) (3602879701896397 / 36028797018963968) = 1351079888211149 / 4503599627370496 := by
    show fl ((3602879701896397 / 9007199254740992) - (3602879701896397 / 36028797018963968)) = 1351079888211149 / 4503599627370496
    rw [fl_eval_tie ((3602879701896397 / 9007199254740992) - (3602879701896397 / 36028797018963968)) (-54) (5404319552844595) (by norm_num) (Or.inr (by norm_num [abs_of_pos])) (by norm_num [abs_of_pos]) (by norm_num)]; norm_num
  have h2 : Double.mul ((33 : Int) : ℚ) (1351079888211149 / 4503599627370496) = 2786602269435495 / 281474976710656 := by
    show fl (((33 : Int) : ℚ) * (1351079888211149 / 4503599627370496)) = 2786602269435495 / 281474976710656
    rw [fl_eval (((33 : Int) : ℚ) * (1351079888211149 / 4503599627370496)) (-49) (5573204538870990) (by norm_num) (Or.inr (by norm_num [abs_of_pos])) (by norm_num [abs_of_pos]) (by norm_num [abs_lt])]; norm_num
  have h3 : Double.add (2786602269435495 / 281474976710656) (1 / 2) = 2927339757790823 / 281474976710656 := by
    show fl ((2786602269435495 / 281474976710656) + (1 / 2)) = 2927339757790823 / 281474976710656
    rw [fl_eval ((2786602269435495 / 281474976710656) + (1 / 2)) (-49) (5854679515581646) (by norm_num) (Or.inr (by norm_num [abs_of_pos])) (by norm_num [abs_of_pos]) (by norm_num [abs_lt])]; norm_num
  have h4 : Double.div ((10 : Int) : ℚ) (1351079888211149 / 4503599627370496) = 2345624805922133 / 70368744177664 := by
    show fl (((10 : Int) : ℚ) / (1351079888211149 / 4503599627370496)) = 2345624805922133 / 70368744177664
    rw [fl_eval (((10 : Int) : ℚ) / (1351079888211149 / 4503599627370496)) (-47) (4691249611844266) (by norm_num) (Or.inr (by norm_num [abs_of_pos])) (by norm_num [abs_of_pos]) (by norm_num [abs_lt])]; norm_num
  have h5 : Double.add (2345624805922133 / 70368744177664) (1 / 2) = 2380809178010965 / 70368744177664 := by
    show fl ((2345624805922133 / 70368744177664) + (1 / 2)) = 2380809178010965 / 70368744177664
    rw [fl_eval ((2345624805922133 / 70368744177664) + (1 / 2)) (-47) (4761618356021930) (by norm_num) (Or.inr (by norm_num [abs_of_pos])) (by norm_num [abs_of_pos]) (by norm_num [abs_lt])]; norm_num
  unfold TexturePlacement.axis_fits
  rw [strip_range_u]
  simp only [h2, h3]
  norm_num

theorem strip_resample_fits_u :
    TexturePlacement.resample_fits 10 0 (fl (1 / 10)) (fl (4 / 10)) := by
  have h1 : Double.sub (3602879701896397 / 9007199254740992) (3602879701896397 / 36028797018963968) = 1351079888211149 / 4503599627370496 := by
    show fl ((3602879701896397 / 9007199254740992) - (3602879701896397 / 36028797018963968)) = 1351079888211149 / 4503599627370496
    rw [fl_eval_tie ((3602879701896397 / 9007199254740992) - (3602879701896397 / 36028797018963968)) (-54) (5404319552844595) (by norm_num) (Or.inr (by norm_num [abs_of_pos])) (by norm_num [abs_of_pos]) (by norm_num)]; norm_num
  have h2 : Double.mul ((33 : Int) : ℚ) (1351079888211149 / 4503599627370496) = 2786602269435495 / 281474976710656 := by
    show fl (((33 : Int) : ℚ) * (1351079888211149 / 4503599627370496)) = 2786602269435495 / 281474976710656
    rw [fl_eval (((33 : Int) : ℚ) * (1351079888211149 / 4503599627370496)) (-49) (5573204538870990) (by norm_num) (Or.inr (by norm_num [abs_of_pos])) (by norm_num [abs_of_pos]) (by norm_num [abs_lt])]; norm_num
  have h3 : Double.add (2786602269435495 / 281474976710656) (1 / 2) = 2927339757790823 / 281474976710656 := by
    show fl ((2786602269435495 / 281474976710656) + (1 / 2)) = 2927339757790823 / 281474976710656
    rw [fl_eval ((2786602269435495 / 281474976710656) + (1 / 2)) (-49) (5854679515581646) (by norm_num) (Or.inr (by norm_num [abs_of_pos])) (by norm_num [abs_of_pos]) (by norm_num [abs_lt])]; norm_num
  have h4 : Double.div ((10 : Int) : ℚ) (1351079888211149 / 4503599627370496) = 2345624805922133 / 70368744177664 := by
    show fl (((10 : Int) : ℚ) / (1351079888211149 / 4503599627370496)) = 2345624805922133 / 70368744177664
    rw [fl_eval (((10 : Int) : ℚ) / (1351079888211149 / 4503599627370496)) (-47) (4691249611844266) (by norm_num) (Or.inr (by norm_num [abs_of_pos])) (by norm_num [abs_of_pos]) (by norm_num [abs_lt])]; norm_num
  have h5 : Double.add (2345624805922133 / 70368744177664) (1 / 2) = 2380809178010965 / 70368744177664 := by
    show fl ((2345624805922133 / 70368744177664) + (1 / 2)) = 2380809178010965 / 70368744177664
    rw [fl_eval ((2345624805922133 / 70368744177664) + (1 / 2)) (-47) (4761618356021930) (by norm_num) (Or.inr (by norm_num [abs_of_pos])) (by norm_num [abs_of_pos]) (by norm_num [abs_lt])]; norm_num
  have hw : wrap32 (10 - 0 * 2) = 10 := by decide
  unfold TexturePlacement.resample_fits
  rw [strip_range_u]
  simp only [hw, h4, h5]
  norm_num

theorem strip_fits_v : TexturePlacement.axis_fits 10 0 1 := by
  have h1 : Double.sub 1 0 = 1 := by
    show fl (1 - 0) = 1
    rw [fl_eval (1 - 0) (-52) (4503599627370496) (by norm_num) (Or.inr (by norm_num [abs_of_pos])) (by norm_num [abs_of_pos]) (by norm_num [abs_lt])]; norm_num
  have h2 : Double.mul ((10 : Int) : ℚ) 1 = 10 := by
    show fl (((10 : Int) : ℚ) * 1) = 10
    rw [fl_eval (((10 : Int) : ℚ) * 1) (-49) (5629499534213120) (by norm_num) (Or.inr (by norm_num [abs_of_pos])) (by norm_num [abs_of_pos]) (by norm_num [abs_lt])]; norm_num
  have h3 : Double.add 10 (1 / 2) = 21 / 2 := by
    show fl (10 + (1 / 2)) = 21 / 2
    rw [fl_eval (10 + (1 / 2)) (-49) (5910974510923776) (by norm_num) (Or.inr (by norm_num [abs_of_pos])) (by norm_num [abs_of_pos]) (by norm_num [abs_lt])]; norm_num
  have h4 : Double.div ((10 : Int) : ℚ) 1 = 10 := by
    show fl (((10 : Int) : ℚ) / 1) = 10
    rw [fl_eval (((10 : Int) : ℚ) / 1) (-49) (5629499534213120) (by norm_num) (Or.inr (by norm_num [abs_of_pos])) (by norm_num [abs_of_pos]) (by norm_num [abs_lt])]; norm_num
  have h5 : Double.add 10 (1 / 2) = 21 / 2 := by
    show fl (10 + (1 / 2)) = 21 / 2
    rw [fl_eval (10 + (1 / 2)) (-49) (5910974510923776) (by norm_num) (Or.inr (by norm_num [abs_of_pos])) (by norm_num [abs_of_pos]) (by norm_num [abs_lt])]; norm_num
  unfold TexturePlacement.axis_fits
  simp only [h1, h2, h3]
  norm_num

theorem strip_resample_fits_v : TexturePlacement.resample_fits 10 0 0 1 := by
  have h1 : Double.sub 1 0 = 1 := by
    show fl (1 - 0) = 1
    rw [fl_eval (1 - 0) (-52) (4503599627370496) (by norm_num) (Or.inr (by norm_num [abs_of_pos])) (by norm_num [abs_of_pos]) (by norm_num [abs_lt])]; norm_num
  have h2 : Double.mul ((10 : Int) : ℚ) 1 = 10 := by
    show fl (((10 : Int) : ℚ) * 1) = 10
    rw [fl_eval (((10 : Int) : ℚ) * 1) (-49) (5629499534213120) (by norm_num) (Or.inr (by norm_num [abs_of_pos])) (by norm_num [abs_of_pos]) (by norm_num [abs_lt])]; norm_num
  have h3 : Double.add 10 (1 / 2) = 21 / 2 := by
    show fl (10 + (1 / 2)) = 21 / 2
    rw [fl_eval (10 + (1 / 2)) (-49) (5910974510923776) (by norm_num) (Or.inr (by norm_num [abs_of_pos])) (by norm_num [abs_of_pos]) (by norm_num [abs_lt])]; norm_num
  have h4 : Double.div ((10 : Int) : ℚ) 1 = 10 := by
    show fl (((10 : Int) : ℚ) / 1) = 10
    rw [fl_eval (((10 : Int) : ℚ) / 1) (-49) (5629499534213120) (by norm_num) (Or.inr (by norm_num [abs_of_pos])) (by norm_num [abs_of_pos]) (by norm_num [abs_lt])]; norm_num
  have h5 : Double.add 10 (1 / 2) = 21 / 2 := by
    show fl (10 + (1 / 2)) = 21 / 2
    rw [fl_eval (10 + (1 / 2)) (-49) (5910974510923776) (by norm_num) (Or.inr (by norm_num [abs_of_pos])) (by norm_num [abs_of_pos]) (by norm_num [abs_lt])]; norm_num
  have hw : wrap32 (10 - 0 * 2) = 10 := by decide
  unfold TexturePlacement.resample_fits
  simp only [hw, h1, h4, h5]
  norm_num

/-- C38, as stated, fails. A 1x1 source without margin and with the UV box
(0,0)-(2^31, 2^-31) has positive range on both axes; `compute_size_from_uvs` gives the
rectangle 4x4 (the product 2^31 does not fit an `int`), `place_at` copies it, and the
resample sizes are 0 along u, a zero divisor of the repeat-mode modulo, and `INT_MIN`
along v (the quotient 2^33 does not fit an `int`). -/
theorem C38_counterexample :
    1 ≤ (unplaced_placement 1 1)._texture.get_x_size ∧
    1 ≤ (unplaced_placement 1 1)._texture.get_y_size ∧
    0 ≤ (unplaced_placement 1 1)._texture.get_margin ∧
    (0 : ℚ) < 2147483648 - 0 ∧ (0 : ℚ) < 1 / 2147483648 - 0 ∧
    (((unplaced_placement 1 1).compute_size_from_uvs ⟨0, 0⟩
      ⟨2147483648, 1 / 2147483648⟩).place_at 0 0 0)._image = some 0 ∧
    (((unplaced_placement 1 1).compute_size_from_uvs ⟨0, 0⟩
      ⟨2147483648, 1 / 2147483648⟩).place_at 0 0 0)._placed._x_size = 4 ∧
    (((unplaced_placement 1 1).compute_size_from_uvs ⟨0, 0⟩
      ⟨2147483648, 1 / 2147483648⟩).place_at 0 0 0)._placed._y_size = 4 ∧
    (TexturePlacement.resample 4 0 0 2147483648).2 = 0 ∧
    (TexturePlacement.resample 4 0 0 (1 / 2147483648)).2 = -2147483648 := by
  have hx : TexturePlacement.axis_size 1 0 0 2147483648 = 4 := axis_size_wide_range
  have hy : TexturePlacement.axis_size 1 0 0 (1 / 2147483648) = 4 := axis_size_narrow_range
  have hp : ((unplaced_placement 1 1).compute_size_from_uvs ⟨0, 0⟩
      ⟨2147483648, 1 / 2147483648⟩).place_at 0 0 0 =
      { (unplaced_placement 1 1).compute_size_from_uvs ⟨0, 0⟩ ⟨2147483648, 1 / 2147483648⟩ with
        _image := some 0
        _is_filled := false
        _position := { ((unplaced_placement 1 1).compute_size_from_uvs ⟨0, 0⟩
          ⟨2147483648, 1 / 2147483648⟩)._position with _x := 0, _y := 0 }
        _placed := { ((unplaced_placement 1 1).compute_size_from_uvs ⟨0, 0⟩
          ⟨2147483648, 1 / 2147483648⟩)._position with _x := 0, _y := 0 }
        _omit_reason := OmitReason.OR_none } := by
    unfold TexturePlacement.place_at
    simp [TexturePlacement.is_placed, TexturePlacement.compute_size_from_uvs,
      unplaced_placement]
  refine ⟨by decide, by decide, by decide, by norm_num, by norm_num, ?_, ?_, ?_, ?_, ?_⟩
  · rw [hp]
  · rw [hp]; exact hx
  · rw [hp]; exact hy
  · rw [resample_wide_range]
  · rw [resample_narrow_range]

/-- C38, amended. A placement whose desired rectangle comes from `compute_size_from_uvs`,
for a source at least 1x1, a margin of at least 0 and a UV box whose range (as the
program computes it, `max_uv - min_uv` in doubles) is positive on both axes, and is then
copied by `place_at`; and the conversions to `int` stay in range, that is
`source_size * range + 1/2` and `(size - 2*margin)/range + 1/2` are below `2^31` on both
axes (`axis_fits`, `resample_fits`). Then the resample sizes that `fill_image` computes,
`(int)floor((x_size - 2*margin)/range_u + 0.5)` and the like for y, are both at least 1,
so the modulo of the repeat mode has a non-zero divisor; `compute_tex_matrix` scales by
the same two sizes. -/
theorem C38_resample_size_positive (t : TexturePlacement) (min_uv max_uv : TexCoordd)
    (a : Nat) (x y : Int)
    (hx : 1 ≤ t._texture.get_x_size) (hy : 1 ≤ t._texture.get_y_size)
    (hm : 0 ≤ t._texture.get_margin)
    (hu : 0 < Double.sub max_uv.u min_uv.u) (hv : 0 < Double.sub max_uv.v min_uv.v)
    (hfu : TexturePlacement.axis_fits t._texture.get_x_size min_uv.u max_uv.u)
    (hfv : TexturePlacement.axis_fits t._texture.get_y_size min_uv.v max_uv.v)
    (hru : TexturePlacement.resample_fits
      (t.compute_size_from_uvs min_uv max_uv)._position._x_size t._texture.get_margin
      min_uv.u max_uv.u)
    (hrv : TexturePlacement.resample_fits
      (t.compute_size_from_uvs min_uv max_uv)._position._y_size t._texture.get_margin
      min_uv.v max_uv.v)
    (hfree : t._image = none) :
    ((t.compute_size_from_uvs min_uv max_uv).place_at a x y)._image = some a ∧
    ((t.compute_size_from_uvs min_uv max_uv).place_at a x y)._placed =
      { (t.compute_size_from_uvs min_uv max_uv)._position with _x := x, _y := y } ∧
    1 ≤ (TexturePlacement.resample
      ((t.compute_size_from_uvs min_uv max_uv).place_at a x y)._placed._x_size
      ((t.compute_size_from_uvs min_uv max_uv).place_at a x y)._placed._margin
      ((t.compute_size_from_uvs min_uv max_uv).place_at a x y)._placed._min_uv.u
      ((t.compute_size_from_uvs min_uv max_uv).place_at a x y)._placed._max_uv.u).2 ∧
    1 ≤ (TexturePlacement.resample
      ((t.compute_size_from_uvs min_uv max_uv).place_at a x y)._placed._y_size
      ((t.compute_size_from_uvs min_uv max_uv).place_at a x y)._placed._margin
      ((t.compute_size_from_uvs min_uv max_uv).place_at a x y)._placed._min_uv.v
      ((t.compute_size_from_uvs min_uv max_uv).place_at a x y)._placed._max_uv.v).2 ∧
    ∀ (w : Heap) (q : Nat),
      w.placements q = (t.compute_size_from_uvs min_uv max_uv).place_at a x y →
      ∃ M, TexturePlacement.compute_tex_matrix w q = some M ∧
        M.m00 = Double.div (((TexturePlacement.resample
          ((t.compute_size_from_uvs min_uv max_uv).place_at a x y)._placed._x_size
          ((t.compute_size_from_uvs min_uv max_uv).place_at a x y)._placed._margin
          ((t.compute_size_from_uvs min_uv max_uv).place_at a x y)._placed._min_uv.u
          ((t.compute_size_from_uvs min_uv max_uv).place_at a x y)._placed._max_uv.u).2 : Int)
            : ℚ) ((w.images a)._x_size : ℚ) ∧
        M.m11 = Double.div (((TexturePlacement.resample
          ((t.compute_size_from_uvs min_uv max_uv).place_at a x y)._placed._y_size
          ((t.compute_size_from_uvs min_uv max_uv).place_at a x y)._placed._margin
          ((t.compute_size_from_uvs min_uv max_uv).place_at a x y)._placed._min_uv.v
          ((t.compute_size_from_uvs min_uv max_uv).place_at a x y)._placed._max_uv.v).2 : Int)
            : ℚ) ((w.images a)._y_size : ℚ) := by
  have hp : (t.compute_size_from_uvs min_uv max_uv).place_at a x y =
      { t.compute_size_from_uvs min_uv max_uv with
        _image := some a
        _is_filled := false
        _position := { (t.compute_size_from_uvs min_uv max_uv)._position with _x := x, _y := y }
        _placed := { (t.compute_size_from_uvs min_uv max_uv)._position with _x := x, _y := y }
        _omit_reason := OmitReason.OR_none } := by
    unfold TexturePlacement.place_at
    simp [TexturePlacement.is_placed, TexturePlacement.compute_size_from_uvs, hfree]
  have hi : ((t.compute_size_from_uvs min_uv max_uv).place_at a x y)._image = some a := by
    rw [hp]
  refine ⟨hi, by rw [hp], ?_, ?_, fun w q hq => ?_⟩
  · rw [hp]
    exact resample_size_pos t._texture.get_x_size t._texture.get_margin min_uv.u max_uv.u
      hx hm hu hfu hru
  · rw [hp]
    exact resample_size_pos t._texture.get_y_size t._texture.get_margin min_uv.v max_uv.v
      hy hm hv hfv hrv
  · rw [← hq]
    exact compute_tex_matrix_sizes w q a (by rw [hq]; exact hi)

/-- The amended C38 on the request `strip_request`: a 33x10 texture with UV box
(0.1,0)-(0.4,1) and no margin, placed at (0, 0) on image 0, has resample sizes of at
least 1 on both axes. -/
theorem C38_resample_size_positive_witness :
    1 ≤ strip_request._texture.get_x_size ∧ 1 ≤ strip_request._texture.get_y_size ∧
    0 ≤ strip_request._texture.get_margin ∧
    1 ≤ (TexturePlacement.resample
      ((strip_request.compute_size_from_uvs ⟨fl (1 / 10), 0⟩ ⟨fl (4 / 10), 1⟩).place_at
        0 0 0)._placed._x_size
      ((strip_request.compute_size_from_uvs ⟨fl (1 / 10), 0⟩ ⟨fl (4 / 10), 1⟩).place_at
        0 0 0)._placed._margin
      ((strip_request.compute_size_from_uvs ⟨fl (1 / 10), 0⟩ ⟨fl (4 / 10), 1⟩).place_at
        0 0 0)._placed._min_uv.u
      ((strip_request.compute_size_from_uvs ⟨fl (1 / 10), 0⟩ ⟨fl (4 / 10), 1⟩).place_at
        0 0 0)._placed._max_uv.u).2 ∧
    1 ≤ (TexturePlacement.resample
      ((strip_request.compute_size_from_uvs ⟨fl (1 / 10), 0⟩ ⟨fl (4 / 10), 1⟩).place_at
        0 0 0)._placed._y_size
      ((strip_request.compute_size_from_uvs ⟨fl (1 / 10), 0⟩ ⟨fl (4 / 10), 1⟩).place_at
        0 0 0)._placed._margin
      ((strip_request.compute_size_from_uvs ⟨fl (1 / 10), 0⟩ ⟨fl (4 / 10), 1⟩).place_at
        0 0 0)._placed._min_uv.v
      ((strip_request.compute_size_from_uvs ⟨fl (1 / 10), 0⟩ ⟨fl (4 / 10), 1⟩).place_at
        0 0 0)._placed._max_uv.v).2 :=
  have hu : (0 : ℚ) < Double.sub (fl (4 / 10)) (fl (1 / 10)) := by
    rw [strip_range_u]; norm_num
  have hv : (0 : ℚ) < Double.sub 1 0 := by
    have h : Double.sub 1 0 = 1 := by
      show fl (1 - 0) = 1
      rw [show ((1 : ℚ) - 0) = 1 by norm_num]; exact fl_one
    rw [h]; norm_num
  have hru : TexturePlacement.resample_fits
      (strip_request.compute_size_from_uvs ⟨fl (1 / 10), 0⟩ ⟨fl (4 / 10), 1⟩)._position._x_size
      strip_request._texture.get_margin (fl (1 / 10)) (fl (4 / 10)) := by
    show TexturePlacement.resample_fits
      (TexturePlacement.axis_size 33 0 (fl (1 / 10)) (fl (4 / 10))) 0 (fl (1 / 10)) (fl (4 / 10))
    rw [axis_size_strip]; exact strip_resample_fits_u
  have hrv : TexturePlacement.resample_fits
      (strip_request.compute_size_from_uvs ⟨fl (1 / 10), 0⟩ ⟨fl (4 / 10), 1⟩)._position._y_size
      strip_request._texture.get_margin 0 1 := by
    show TexturePlacement.resample_fits (TexturePlacement.axis_size 10 0 0 1) 0 0 1
    rw [axis_size_10_full]; exact strip_resample_fits_v
  ⟨by decide, by decide, by decide,
    (C38_resample_size_positive strip_request ⟨fl (1 / 10), 0⟩ ⟨fl (4 / 10), 1⟩ 0 0 0
      (by decide) (by decide) (by decide) hu hv strip_fits_u strip_fits_v hru hrv rfl).2.2.1,
    (C38_resample_size_positive strip_request ⟨fl (1 / 10), 0⟩ ⟨fl (4 / 10), 1⟩ 0 0 0
      (by decide) (by decide) (by decide) hu hv strip_fits_u strip_fits_v hru hrv rfl).2.2.2.1⟩
